import Mathlib

/-!
# Lute: thematic breaks and the Vditor split-view renderer

A shallow embedding of `thematic_break.go` and `render/vditor_sv_renderer.go`, and a
model of the part of the parser and of the HTML renderer that `test/wikilink_test.go`
exercises.

Conventions of the embedding:
* a Go `byte` is a natural number (its value, below 256) and a `[]byte` or
  `string` is a list of them;
* slices are values. The one place where the code lets two slices share
  storage, the assignment `r.LastOut = NewlineSV` of `Newline`, is followed in
  the section on the storage that `LastOut` shares with `NewlineSV` (namespace
  `Shared`): there the state also holds the bytes of `NewlineSV` and whether
  `LastOut` is a slice of them. The definitions before that section take
  `NewlineSV` as a constant and `LastOut` as a value of its own; the handlers
  of the two levels agree from every state in which `NewlineSV` holds its
  initial bytes and `LastOut` does not share its storage
  (`handlers_simulate`);
* a Go `int` is an integer;
* a Go panic (index out of range, nil dereference, negative repeat count) is
  the result `none`.
-/

namespace Lute

/-- A byte string: Go `[]byte` and `string` alike. -/
abbrev Bytes := List Nat

/-- The bytes of an ASCII string literal. -/
def bytesOf (s : String) : Bytes := s.toList.map Char.toNat

/-! ## Lexer items used by the block parser -/

/-- Modelled from the spec: the lexer constant `itemEnd` is declared outside the
sources; it is the zero byte, the value of an unset `marker`. -/
def itemEnd : Nat := 0

/-- Modelled from the spec: the lexer constant `itemSpace`, the space character. -/
def itemSpace : Nat := 32

/-- Modelled from the spec: the lexer constant `itemTab`, the tab character. -/
def itemTab : Nat := 9

/-- Modelled from the spec: the lexer constant `itemHyphen`, the character `-`. -/
def itemHyphen : Nat := 45

/-- Modelled from the spec: the lexer constant `itemUnderscore`, the character `_`. -/
def itemUnderscore : Nat := 95

/-- Modelled from the spec: the lexer constant `itemAsterisk`, the character `*`. -/
def itemAsterisk : Nat := 42

/-- Go slice indexing `s[i]` with an `int` index: `none` is the index-out-of-range panic. -/
def index (s : List Nat) (i : Int) : Option Nat :=
  if i < 0 then none else s[i.toNat]?

/-- The body of the `for` loop of `parseThematicBreak`. The first argument is the
number of iterations left before the guard `i < currentLineLen-1` fails; `i`,
`marker` and `markers` are the loop variables. -/
def parseThematicBreakLoop (currentLine : List Nat) : Nat → Int → Nat → Nat → Option Bool
  | 0, _, _, markers => some (decide (3 ≤ markers))
  | n + 1, i, marker, markers =>
    match index currentLine i with
    | none => none
    | some token =>
      if itemSpace = token ∨ itemTab = token then
        parseThematicBreakLoop currentLine n (i + 1) marker markers
      else if itemHyphen ≠ token ∧ itemUnderscore ≠ token ∧ itemAsterisk ≠ token then
        some false
      else if itemEnd ≠ marker then
        if marker ≠ token then some false
        else parseThematicBreakLoop currentLine n (i + 1) marker (markers + 1)
      else
        parseThematicBreakLoop currentLine n (i + 1) token (markers + 1)

/-- The function `parseThematicBreak` of `thematic_break.go`, on the fields of the
parse context it reads: the terms of `currentLine`, `nextNonspace` and
`currentLineLen`. -/
def parseThematicBreak (currentLine : List Nat) (nextNonspace currentLineLen : Int) : Option Bool :=
  parseThematicBreakLoop currentLine (currentLineLen - 1 - nextNonspace).toNat nextNonspace 0 0

/-- A token that is one of the three thematic-break markers. -/
def isBreakMarker (t : Nat) : Prop := t = itemHyphen ∨ t = itemUnderscore ∨ t = itemAsterisk

/-- Position `j` of the line holds a token that is neither a space nor a tab. -/
def nonblankAt (cl : List Nat) (j : Nat) : Bool :=
  match cl[j]? with
  | some t => decide (t ≠ itemSpace ∧ t ≠ itemTab)
  | none => false


/-! ## Byte-string helpers (Go `bytes`, `strings`, `strconv`) -/

/-- Go `bytes.HasSuffix`. -/
def HasSuffix (s suffix : Bytes) : Bool := suffix.isSuffixOf s

/-- Go `bytes.HasPrefix`. -/
def HasPrefix (s pre : Bytes) : Bool := pre.isPrefixOf s

/-- Go `bytes.TrimSuffix`. -/
def TrimSuffix (s suffix : Bytes) : Bytes :=
  if HasSuffix s suffix then s.take (s.length - suffix.length) else s

/-- Go `bytes.TrimPrefix`. -/
def TrimPrefix (s pre : Bytes) : Bytes :=
  if HasPrefix s pre then s.drop pre.length else s

/-- Go `bytes.TrimRight(s, cutset)`: drop the trailing bytes that occur in `cutset`. -/
def TrimRight (s cutset : Bytes) : Bytes :=
  (s.reverse.dropWhile (fun c => cutset.contains c)).reverse

/-- Go `bytes.Trim(s, cutset)`: drop the leading and trailing bytes that occur in `cutset`. -/
def Trim (s cutset : Bytes) : Bytes :=
  TrimRight (s.dropWhile (fun c => cutset.contains c)) cutset

/-- Go `strings.Repeat` with an `int` count: a negative count panics. -/
def Repeat (s : Bytes) (count : Int) : Option Bytes :=
  if count < 0 then none else some (List.replicate count.toNat s).flatten

/-- Go `strconv.Itoa`: the decimal digits of an `int`, with a leading `-` when negative. -/
def Itoa (i : Int) : Bytes :=
  if i < 0 then 45 :: (Nat.toDigits 10 (-i).toNat).map Char.toNat
  else (Nat.toDigits 10 i.toNat).map Char.toNat

/-- Go `string(b)` for a byte `b`: the UTF-8 encoding of the code point `b`. -/
def stringOfByte (b : Nat) : Bytes :=
  if b < 128 then [b] else [192 + b / 64, 128 + b % 64]

/-- The scan of Go `bytes.ReplaceAll` for a non-empty `old`: at each position, leftmost
first, an occurrence of `old` is replaced by `new` and the scan resumes after it. The
first argument bounds the number of steps; the length of the input suffices, since
every step consumes at least one byte. -/
def replaceScan (old new : Bytes) : Nat → Bytes → Bytes
  | 0, s => s
  | _ + 1, [] => []
  | n + 1, c :: cs =>
    if old.isPrefixOf (c :: cs) then new ++ replaceScan old new n ((c :: cs).drop old.length)
    else c :: replaceScan old new n cs

/-- Go `bytes.ReplaceAll(s, old, new)`. The renderer only calls it with the non-empty
`NewlineSV` as `old`; for an empty `old` (never used) the input is returned. -/
def ReplaceAll (s old new : Bytes) : Bytes :=
  if old = [] then s else replaceScan old new s.length s

/-! ## The renderer -/

/-- The rendering options the renderer reads (`r.Option`). -/
structure Options where
  AutoSpace : Bool
  FixTermTypo : Bool
  ChinesePunct : Bool

/-- The state of a `VditorSVRenderer`. Every `bytes.Buffer` the renderer allocates
lives in `buffers`; a `*bytes.Buffer` is its position there. `Writer`, `DisableTags`
and `Option` are the fields of the embedded `BaseRenderer` that this file uses. -/
structure VditorSVRenderer where
  buffers : List Bytes
  Writer : Nat
  DisableTags : Int
  nodeWriterStack : List Nat
  needRenderFootnotesDef : Bool
  LastOut : Bytes
  ListPadding : Int
  Option : Options

/-- The sentinel `NewlineSV`. -/
def NewlineSV : Bytes :=
  bytesOf "<span data-type=\"newline\"><br /><span style=\"display: none\">\n</span></span>"

/-- The closing tag `</span>`. -/
def closeSpan : Bytes := bytesOf "</span>"

/-- The method `Bytes` of the buffer at `p`. -/
def bufBytes (r : VditorSVRenderer) (p : Nat) : Bytes := r.buffers.getD p []

/-- The methods `Write` and `WriteString` of the buffer at `p`. -/
def bufWrite (r : VditorSVRenderer) (p : Nat) (content : Bytes) : VditorSVRenderer :=
  { r with buffers := r.buffers.set p (bufBytes r p ++ content) }

/-- The method `Reset` of the buffer at `p`. -/
def bufReset (r : VditorSVRenderer) (p : Nat) : VditorSVRenderer :=
  { r with buffers := r.buffers.set p [] }

/-- The expression `&bytes.Buffer{}`: a fresh empty buffer and its address. -/
def newBuffer (r : VditorSVRenderer) : VditorSVRenderer × Nat :=
  ({ r with buffers := r.buffers ++ [[]] }, r.buffers.length)

/-- The update of `LastOut` shared by `WriteByte`, `Write` and `WriteString`: append,
then drop the first 512 bytes when more than 1024 are held. -/
def appendLastOut (lastOut content : Bytes) : Bytes :=
  let lastOut := lastOut ++ content
  if 1024 < lastOut.length then lastOut.drop 512 else lastOut

/-- The method `WriteByte`. -/
def WriteByte (r : VditorSVRenderer) (c : Nat) : VditorSVRenderer :=
  let r := bufWrite r r.Writer [c]
  { r with LastOut := appendLastOut r.LastOut [c] }

/-- The method `Write`. -/
def Write (r : VditorSVRenderer) (content : Bytes) : VditorSVRenderer :=
  if 0 < content.length then
    let r := bufWrite r r.Writer content
    { r with LastOut := appendLastOut r.LastOut content }
  else r

/-- The method `WriteString`. -/
def WriteString (r : VditorSVRenderer) (content : Bytes) : VditorSVRenderer :=
  if 0 < content.length then
    let r := bufWrite r r.Writer content
    { r with LastOut := appendLastOut r.LastOut content }
  else r

/-- The first loop of `Newline`: while `LastOut` ends with `</span>`, cut it off. The
first argument bounds the number of iterations; the length of `LastOut` suffices. -/
def trimCloseSpans : Nat → Bytes → Bytes
  | 0, lastOut => lastOut
  | n + 1, lastOut =>
    if HasSuffix lastOut closeSpan then
      trimCloseSpans n (lastOut.take (lastOut.length - closeSpan.length))
    else lastOut

/-- The method `Newline`, at the level of values: `NewlineSV` is read as a constant and
`r.LastOut = NewlineSV` assigns its bytes. `Shared.Newline` follows the storage that the
assignment shares. -/
def Newline (r : VditorSVRenderer) : VditorSVRenderer :=
  let r := { r with LastOut := trimCloseSpans r.LastOut.length r.LastOut }
  let newline := NewlineSV.take (NewlineSV.length - closeSpan.length * 2)
  if !HasSuffix r.LastOut newline then
    let r := bufWrite r r.Writer NewlineSV
    { r with LastOut := NewlineSV }
  else r

/-- The method `tag`. -/
def tag (r : VditorSVRenderer) (name : Bytes) (attrs : List (Bytes × Bytes))
    (selfclosing : Bool) : VditorSVRenderer :=
  if r.DisableTags > 0 then r
  else
    let r := WriteString r (bytesOf "<")
    let r := WriteString r name
    let r :=
      if 0 < attrs.length then
        attrs.foldl
          (fun r attr =>
            WriteString r (bytesOf " " ++ attr.1 ++ bytesOf "=\"" ++ attr.2 ++ bytesOf "\"")) r
      else r
    let r := if selfclosing then WriteString r (bytesOf " /") else r
    WriteString r (bytesOf ">")

/-- One call of `Write`, `WriteByte`, `WriteString` or `Newline`. -/
inductive WriteCall where
  | Write (content : Bytes)
  | WriteByte (c : Nat)
  | WriteString (content : Bytes)
  | Newline

/-- The effect of one call. -/
def WriteCall.run (r : VditorSVRenderer) : WriteCall → VditorSVRenderer
  | .Write content => Lute.Write r content
  | .WriteByte c => Lute.WriteByte r c
  | .WriteString content => Lute.WriteString r content
  | .Newline => Lute.Newline r

/-- A sequence of calls, performed in order. -/
def runCalls (r : VditorSVRenderer) (calls : List WriteCall) : VditorSVRenderer :=
  calls.foldl WriteCall.run r

/-- The closing tag `</span>` written `k` times with `WriteString`. -/
def writeClosers : Nat → VditorSVRenderer → VditorSVRenderer
  | 0, r => r
  | k + 1, r => writeClosers k (WriteString r closeSpan)

/-- A renderer right after `renderDocument` was entered on a fresh renderer: one empty
buffer, which is the writer and the only entry of the stack. -/
def initialRenderer : VditorSVRenderer :=
  { buffers := [[]], Writer := 0, DisableTags := 0, nodeWriterStack := [0],
    needRenderFootnotesDef := false, LastOut := [], ListPadding := 0,
    Option := { AutoSpace := false, FixTermTypo := false, ChinesePunct := false } }

/-! ## The node tree -/

/-- The node types `ast.NodeXxx` that the renderer names; `NodeOther` stands for any
node type of the `ast` package that the renderer does not name. -/
inductive NodeType where
  | NodeDocument | NodeParagraph | NodeHeading | NodeHeadingC8hMarker | NodeHeadingID
  | NodeThematicBreak | NodeBlockquote | NodeBlockquoteMarker | NodeList | NodeListItem
  | NodeHTMLBlock | NodeInlineHTML | NodeCodeBlock | NodeCodeBlockFenceOpenMarker
  | NodeCodeBlockFenceCloseMarker | NodeCodeBlockFenceInfoMarker | NodeCodeBlockCode
  | NodeText | NodeEmphasis | NodeEmA6kOpenMarker | NodeEmA6kCloseMarker
  | NodeEmU8eOpenMarker | NodeEmU8eCloseMarker | NodeStrong | NodeStrongA6kOpenMarker
  | NodeStrongA6kCloseMarker | NodeStrongU8eOpenMarker | NodeStrongU8eCloseMarker
  | NodeCodeSpan | NodeCodeSpanOpenMarker | NodeCodeSpanContent | NodeCodeSpanCloseMarker
  | NodeHardBreak | NodeSoftBreak | NodeLink | NodeImage | NodeBang | NodeOpenBracket
  | NodeCloseBracket | NodeOpenParen | NodeCloseParen | NodeLinkText | NodeLinkDest
  | NodeLinkTitle | NodeLinkSpace | NodeHTMLEntity | NodeTaskListItemMarker
  | NodeStrikethrough | NodeStrikethrough1OpenMarker | NodeStrikethrough1CloseMarker
  | NodeStrikethrough2OpenMarker | NodeStrikethrough2CloseMarker | NodeTable
  | NodeTableHead | NodeTableRow | NodeTableCell | NodeEmoji | NodeEmojiUnicode
  | NodeEmojiImg | NodeEmojiAlias | NodeMathBlock | NodeMathBlockOpenMarker
  | NodeMathBlockContent | NodeMathBlockCloseMarker | NodeInlineMath
  | NodeInlineMathOpenMarker | NodeInlineMathContent | NodeInlineMathCloseMarker
  | NodeBackslash | NodeBackslashContent | NodeFootnotesDef | NodeFootnotesRef | NodeToC
  | NodeOther
  deriving DecidableEq

/-- The fields of `ast.ListData` that the renderer reads. -/
structure ListData where
  Typ : Int
  Tight : Bool
  BulletChar : Nat
  Start : Int
  Delimiter : Nat
  Padding : Int
  Marker : Bytes
  Num : Int
  deriving DecidableEq

/-- The fields of an `ast.Node` that the renderer reads, apart from its links to other
nodes. `Typ` is the field `Type`; `ListData` is `none` for a nil pointer. -/
structure NodeData where
  Typ : NodeType
  Tokens : Bytes
  HeadingLevel : Int
  ListData : Option ListData
  TaskListItemChecked : Bool
  IsFencedCodeBlock : Bool
  CodeBlockInfo : Bytes
  CodeMarkerLen : Int
  LinkType : Int
  LinkRefLabel : Bytes
  FootnotesRefLabel : Bytes
  deriving DecidableEq

/-- A node with the subtree it owns: its children, first to last. -/
inductive Node where
  | mk (data : NodeData) (children : List Node)

/-- The fields of a node. -/
def Node.data : Node → NodeData
  | .mk d _ => d

/-- The children of a node, following `FirstChild` and then `Next`. -/
def Node.children : Node → List Node
  | .mk _ cs => cs

/-- The field `Tokens` of a node. -/
def Node.Tokens (n : Node) : Bytes := n.data.Tokens

/-- The assignment `n.Tokens = tokens`. -/
def Node.setTokens (n : Node) (tokens : Bytes) : Node :=
  .mk { n.data with Tokens := tokens } n.children

/-- One step from a node up to its parent: the parent's fields and the siblings on
either side of the node, nearest first. -/
structure Crumb where
  parent : NodeData
  left : List Node
  right : List Node

/-- A node in its tree: the node with its subtree, and the way up to the root, the
parent first. The links `Parent`, `Previous`, `Next` and `FirstChild` are read off it. -/
structure Site where
  node : Node
  path : List Crumb

/-- The link `node.Parent`; `none` is nil. -/
def Site.Parent (s : Site) : Option NodeData := s.path.head?.map (fun c => c.parent)

/-- The link `node.Parent.Parent`, given that `node.Parent` is not nil; `none` is nil. -/
def Site.Grandparent (s : Site) : Option NodeData := s.path[1]?.map (fun c => c.parent)

/-- The link `node.Next`; `none` is nil. -/
def Site.Next (s : Site) : Option Node := s.path.head?.bind (fun c => c.right.head?)

/-- The link `node.Previous`; `none` is nil. -/
def Site.Previous (s : Site) : Option Node := s.path.head?.bind (fun c => c.left.head?)

/-- The children of `node.Parent`, first to last. -/
def Site.siblings (s : Site) : List Node :=
  match s.path.head? with
  | some c => c.left.reverse ++ [s.node] ++ c.right
  | none => []

/-- The test `node.Parent.FirstChild == node`. -/
def Site.isFirstChild (s : Site) : Bool :=
  match s.path.head? with
  | some c => c.left.isEmpty
  | none => false

/-- Modelled from the spec: `ast.Node.ParentIs` is declared outside the sources; it
reports whether a node on the way up to the root has the given type. -/
def Site.ParentIs (s : Site) (nodeType : NodeType) : Bool :=
  s.path.any (fun c => decide (c.parent.Typ = nodeType))

/-- Modelled from the spec: `ast.Node.ChildByType` is declared outside the sources; it
is the first child of the given type, `none` for nil. -/
def ChildByType (children : List Node) (childType : NodeType) : Option Node :=
  children.find? (fun c => decide (c.data.Typ = childType))

/-- Modelled from the spec: `ast.Node.Unlink` is declared outside the sources; it
removes a node from the children of its parent. Here it is applied to the result of
`ChildByType` on the children of a node, and a nil result is a nil dereference. -/
def unlinkChildByType (children : List Node) (childType : NodeType) : Option (List Node) :=
  match ChildByType children childType with
  | none => none
  | some _ => some (children.eraseP (fun c => decide (c.data.Typ = childType)))

/-- The assignment `node.Tokens = tokens` at a site. -/
def Site.setTokens (s : Site) (tokens : Bytes) : Site :=
  { s with node := s.node.setTokens tokens }

/-- The assignment `node.Next.Tokens = tokens` at a site whose `Next` is not nil. -/
def Site.setNextTokens (s : Site) (tokens : Bytes) : Site :=
  match s.path with
  | c :: rest =>
    match c.right with
    | n :: ns => { s with path := { c with right := n.setTokens tokens :: ns } :: rest }
    | [] => s
  | [] => s

/-- The status a handler returns. -/
inductive WalkStatus where
  | WalkStop
  | WalkContinue
  deriving DecidableEq

/-- What the renderer uses from outside the sources: functions of the packages `html`
and `util`, methods of `BaseRenderer` and of the parse context, the constant
`headingLevel`, and the Unicode-aware `bytes.TrimSpace` and `bytes.EqualFold`.
`headings` lists, for each heading `r.headings()` returns, its `HeadingLevel` and its
`Text()`; `FindFootnotesDef` gives the `Text()` of the definition found, `none` when the
definition is nil. -/
structure Env where
  EscapeHTML : Bytes → Bytes
  TrimSpace : Bytes → Bytes
  Space : Site → Site
  FixTermTypo : Site → Site
  ChinesePunct : Site → Site
  headings : List (Int × Bytes)
  FindFootnotesDef : Bytes → Option Bytes
  EqualFold : Bytes → Bytes → Bool
  Caret : Bytes
  CaretTokens : Bytes
  headingLevel : Bytes

/-- Go slicing `s[lo:hi]` of a string with `int` bounds; `none` is the out-of-range panic. -/
def sliceBytes (s : Bytes) (lo hi : Int) : Option Bytes :=
  if lo < 0 ∨ hi < lo ∨ (s.length : Int) < hi then none
  else some ((s.drop lo.toNat).take (hi.toNat - lo.toNat))

/-- What a handler gives back: the renderer, the tree around the node, and the status. -/
abbrev Result := VditorSVRenderer × Site × WalkStatus

/-- A pair of attribute name and value, as in `[]string{name, value}`. -/
def attr (name value : String) : Bytes × Bytes := (bytesOf name, bytesOf value)

/-- Modelled from the spec: the lexer constant `lex.ItemSpace`, the space character. -/
def ItemSpace : Nat := 32
/-- Modelled from the spec: the lexer constant `lex.ItemBang`, the character `!`. -/
def ItemBang : Nat := 33
/-- Modelled from the spec: the lexer constant `lex.ItemDoublequote`, the character `"`. -/
def ItemDoublequote : Nat := 34
/-- Modelled from the spec: the lexer constant `lex.ItemDollar`, the character `$`. -/
def ItemDollar : Nat := 36
/-- Modelled from the spec: the lexer constant `lex.ItemOpenParen`, the character `(`. -/
def ItemOpenParen : Nat := 40
/-- Modelled from the spec: the lexer constant `lex.ItemCloseParen`, the character `)`. -/
def ItemCloseParen : Nat := 41
/-- Modelled from the spec: the lexer constant `lex.ItemAsterisk`, the character `*`. -/
def ItemAsterisk : Nat := 42
/-- Modelled from the spec: the lexer constant `lex.ItemOpenBracket`, the character `[`. -/
def ItemOpenBracket : Nat := 91
/-- Modelled from the spec: the lexer constant `lex.ItemBackslash`, the backslash. -/
def ItemBackslash : Nat := 92
/-- Modelled from the spec: the lexer constant `lex.ItemCloseBracket`, the character `]`. -/
def ItemCloseBracket : Nat := 93
/-- Modelled from the spec: the lexer constant `lex.ItemUnderscore`, the character `_`. -/
def ItemUnderscore : Nat := 95

/-! ## Handlers -/

/-- The closing call `r.tag("/span", nil, false)`. -/
def tagCloseSpan (r : VditorSVRenderer) : VditorSVRenderer := tag r (bytesOf "/span") [] false

/-- The method `renderSpanNode`. -/
def renderSpanNode (r : VditorSVRenderer) (node : Site) : VditorSVRenderer :=
  let attrs : List (Bytes × Bytes) :=
    match node.node.data.Typ with
    | .NodeEmphasis => [attr "data-type" "em", attr "class" "em"]
    | .NodeStrong => [attr "data-type" "strong", attr "class" "strong"]
    | .NodeStrikethrough => [attr "data-type" "s", attr "class" "s"]
    | .NodeLink =>
      if 3 ≠ node.node.data.LinkType then [attr "data-type" "a"]
      else [attr "data-type" "link-ref"]
    | .NodeImage => [attr "data-type" "img"]
    | .NodeCodeSpan => [attr "data-type" "code"]
    | _ => [attr "data-type" "inline-node"]
  tag r (bytesOf "span") attrs false

/-- The method `renderListItemBlockPadding`. The padding goes to `r.Writer` directly,
not through `r.Write`. -/
def renderListItemBlockPadding (r : VditorSVRenderer) (node : Site) : Option VditorSVRenderer :=
  let inList := node.ParentIs .NodeListItem
  if !inList then some r
  else
    let inFirstListItem := node.isFirstChild
    if inFirstListItem then some r
    else
      match Repeat (bytesOf " ") r.ListPadding with
      | none => none
      | some spaces =>
        some (bufWrite r r.Writer
          (bytesOf "<span data-type=\"padding\">" ++ spaces ++ bytesOf "</span>"))

/-- The handler `renderHtmlEntity`. -/
def renderHtmlEntity (env : Env) (r : VditorSVRenderer) (node : Site) (entering : Bool) :
    Option Result :=
  if entering then
    let r := renderSpanNode r node
    let r := tag r (bytesOf "span")
      [attr "class" "vditor-sv__marker--pre", attr "data-type" "html-entity"] false
    let r := Write r (env.EscapeHTML (env.EscapeHTML node.node.Tokens))
    let r := tagCloseSpan r
    some (r, node, .WalkStop)
  else
    let r := tagCloseSpan r
    some (r, node, .WalkStop)

/-- The handler `renderBackslashContent`. -/
def renderBackslashContent (env : Env) (r : VditorSVRenderer) (node : Site) (_entering : Bool) :
    Option Result :=
  let r := Write r (env.EscapeHTML node.node.Tokens)
  some (r, node, .WalkStop)

/-- The handler `renderBackslash`. -/
def renderBackslash (_env : Env) (r : VditorSVRenderer) (node : Site) (entering : Bool) :
    Option Result :=
  if entering then
    let r := WriteString r (bytesOf "<span data-type=\"backslash\">")
    let r := WriteString r (bytesOf "<span class=\"vditor-sv__marker\">")
    let r := WriteByte r ItemBackslash
    let r := WriteString r (bytesOf "</span>")
    some (r, node, .WalkContinue)
  else
    let r := WriteString r (bytesOf "</span>")
    some (r, node, .WalkContinue)

/-- The handler `renderToC`. -/
def renderToC (env : Env) (r : VditorSVRenderer) (node : Site) (_entering : Bool) :
    Option Result := do
  let headings := env.headings
  let length := headings.length
  let r := WriteString r (bytesOf
    "<span class=\"vditor-toc\" data-block=\"0\" data-type=\"toc-block\" contenteditable=\"false\">")
  let r ←
    if 0 < length then
      headings.foldlM
        (fun r heading => do
          let spaces := (heading.1 - 1) * 2
          let r := WriteString r (← Repeat (bytesOf "&emsp;") spaces)
          let r := WriteString r (bytesOf "<span data-type=\"toc-h\">")
          pure (WriteString r (heading.2 ++ bytesOf "</span><br>"))) r
    else some (WriteString r (bytesOf "[toc]"))
  let r := Newline r
  let r := WriteString r (bytesOf "</span>")
  let caretInDest := decide (env.CaretTokens <:+: node.node.Tokens)
  let r := WriteString r (bytesOf "<span data-type=\"p\" data-block=\"0\">")
  let r := if caretInDest then WriteString r env.Caret else r
  let r := WriteString r (bytesOf "</span>")
  pure (r, node, .WalkStop)

/-- The handler `renderFootnotesDef`. -/
def renderFootnotesDef (_env : Env) (r : VditorSVRenderer) (node : Site) (_entering : Bool) :
    Option Result :=
  if !r.needRenderFootnotesDef then some (r, node, .WalkStop)
  else some (r, node, .WalkContinue)

/-- The handler `renderFootnotesRef`. The text of the previous node and the attributes
it computes are not written; `def.Text()` on a nil definition is a nil dereference. -/
def renderFootnotesRef (env : Env) (r : VditorSVRenderer) (node : Site) (_entering : Bool) :
    Option Result :=
  match env.FindFootnotesDef node.node.Tokens with
  | none => none
  | some _ =>
    let r := tag r (bytesOf "span") [attr "class" "sup"] false
    let r := tag r (bytesOf "span") [attr "class" "vditor-sv__marker--bracket"] false
    let r := WriteByte r ItemOpenBracket
    let r := tagCloseSpan r
    let r := tag r (bytesOf "span") [attr "class" "vditor-sv__marker--link"] false
    let r := Write r node.node.Tokens
    let r := tagCloseSpan r
    let r := tag r (bytesOf "span") [attr "class" "vditor-sv__marker--bracket"] false
    let r := WriteByte r ItemCloseBracket
    let r := tagCloseSpan r
    let r := tagCloseSpan r
    some (r, node, .WalkStop)

/-- The handler `renderCodeBlockCloseMarker`. -/
def renderCodeBlockCloseMarker (_env : Env) (r : VditorSVRenderer) (node : Site)
    (_entering : Bool) : Option Result :=
  let r := Newline r
  let r := tag r (bytesOf "span")
    [attr "data-type" "code-block-close-marker", attr "class" "vditor-sv__marker"] false
  let r := Write r node.node.Tokens
  let r := tagCloseSpan r
  let r := Newline r
  let r := Write r NewlineSV
  some (r, node, .WalkStop)

/-- The handler `renderCodeBlockInfoMarker`. -/
def renderCodeBlockInfoMarker (_env : Env) (r : VditorSVRenderer) (node : Site)
    (_entering : Bool) : Option Result :=
  let r := tag r (bytesOf "span")
    [attr "class" "vditor-sv__marker--info", attr "data-type" "code-block-info"] false
  let r := Write r node.node.data.CodeBlockInfo
  let r := tagCloseSpan r
  let r := Newline r
  some (r, node, .WalkStop)

/-- The handler `renderCodeBlockOpenMarker`. -/
def renderCodeBlockOpenMarker (_env : Env) (r : VditorSVRenderer) (node : Site)
    (_entering : Bool) : Option Result :=
  let r := tag r (bytesOf "span")
    [attr "data-type" "code-block-open-marker", attr "class" "vditor-sv__marker"] false
  let r := Write r node.node.Tokens
  let r := tagCloseSpan r
  some (r, node, .WalkStop)

/-- The handler `renderCodeBlock`. -/
def renderCodeBlock (_env : Env) (r : VditorSVRenderer) (node : Site) (entering : Bool) :
    Option Result := do
  if entering then
    let r ← renderListItemBlockPadding r node
    let r := tag r (bytesOf "span") [attr "data-block" "0", attr "data-type" "code-block"] false
    if !node.node.data.IsFencedCodeBlock then
      let r := tag r (bytesOf "span")
        [attr "data-type" "code-block-open-marker", attr "class" "vditor-sv__marker"] false
      let r := WriteString r (bytesOf "```")
      let r := tagCloseSpan r
      let r := Newline r
      pure (r, node, .WalkContinue)
    else pure (r, node, .WalkContinue)
  else
    if !node.node.data.IsFencedCodeBlock then
      let r := Newline r
      let r := tag r (bytesOf "span")
        [attr "class" "vditor-sv__marker--info", attr "data-type" "code-block-info"] false
      let r := WriteString r (bytesOf "```")
      let r := tagCloseSpan r
      let r := Newline r
      let r := WriteString r (bytesOf "</span>")
      pure (r, node, .WalkContinue)
    else
      let r := WriteString r (bytesOf "</span>")
      pure (r, node, .WalkContinue)

/-- The handler `renderCodeBlockCode`. -/
def renderCodeBlockCode (env : Env) (r : VditorSVRenderer) (node : Site) (_entering : Bool) :
    Option Result :=
  let r := WriteString r (bytesOf "<span>")
  let r := Write r (env.EscapeHTML (env.TrimSpace node.node.Tokens))
  let r := WriteString r (bytesOf "</span>")
  some (r, node, .WalkStop)

/-- The handler `renderEmojiAlias`. -/
def renderEmojiAlias (_env : Env) (r : VditorSVRenderer) (node : Site) (_entering : Bool) :
    Option Result :=
  let r := Write r node.node.Tokens
  some (r, node, .WalkStop)

/-- A handler that only returns `WalkContinue`. -/
def renderContinue (r : VditorSVRenderer) (node : Site) : Option Result :=
  some (r, node, .WalkContinue)

/-- The handler `renderEmojiImg`. -/
def renderEmojiImg (_env : Env) (r : VditorSVRenderer) (node : Site) (_entering : Bool) :
    Option Result := renderContinue r node

/-- The handler `renderEmojiUnicode`. -/
def renderEmojiUnicode (_env : Env) (r : VditorSVRenderer) (node : Site) (_entering : Bool) :
    Option Result := renderContinue r node

/-- The handler `renderEmoji`. -/
def renderEmoji (_env : Env) (r : VditorSVRenderer) (node : Site) (_entering : Bool) :
    Option Result := renderContinue r node

/-- The handlers that write one marker span and stop: `tag` with the given class, the
marker text through `WriteString` or `WriteByte`, the closing tag. -/
def renderMarker (cls : String) (write : VditorSVRenderer → VditorSVRenderer)
    (r : VditorSVRenderer) (node : Site) : Option Result :=
  let r := tag r (bytesOf "span") [attr "class" cls] false
  let r := write r
  let r := tagCloseSpan r
  some (r, node, .WalkStop)

/-- The handler `renderInlineMathCloseMarker`. -/
def renderInlineMathCloseMarker (_env : Env) (r : VditorSVRenderer) (node : Site)
    (_entering : Bool) : Option Result :=
  renderMarker "vditor-sv__marker" (fun r => WriteByte r ItemDollar) r node

/-- The handler `renderInlineMathContent`. -/
def renderInlineMathContent (env : Env) (r : VditorSVRenderer) (node : Site)
    (_entering : Bool) : Option Result :=
  let tokens := env.EscapeHTML node.node.Tokens
  let r := Write r tokens
  let r := tag r (bytesOf "/code") [] false
  some (r, node, .WalkStop)

/-- The handler `renderInlineMathOpenMarker`. -/
def renderInlineMathOpenMarker (_env : Env) (r : VditorSVRenderer) (node : Site)
    (_entering : Bool) : Option Result :=
  renderMarker "vditor-sv__marker" (fun r => WriteByte r ItemDollar) r node

/-- A handler that calls `renderSpanNode` on entering and writes the closing tag on
exit, returning `WalkContinue`. -/
def renderSpan (r : VditorSVRenderer) (node : Site) (entering : Bool) : Option Result :=
  if entering then some (renderSpanNode r node, node, .WalkContinue)
  else some (tagCloseSpan r, node, .WalkContinue)

/-- The handler `renderInlineMath`. -/
def renderInlineMath (_env : Env) (r : VditorSVRenderer) (node : Site) (entering : Bool) :
    Option Result := renderSpan r node entering

/-- The handler `renderMathBlockCloseMarker`. -/
def renderMathBlockCloseMarker (_env : Env) (r : VditorSVRenderer) (node : Site)
    (_entering : Bool) : Option Result :=
  let r := Newline r
  let r := tag r (bytesOf "span")
    [attr "data-type" "math-block-close-marker", attr "class" "vditor-sv__marker"] false
  let r := WriteString r (bytesOf "$$")
  let r := tagCloseSpan r
  let r := Newline r
  let r := Write r NewlineSV
  some (r, node, .WalkStop)

/-- The handler `renderMathBlockContent`. -/
def renderMathBlockContent (env : Env) (r : VditorSVRenderer) (node : Site)
    (_entering : Bool) : Option Result :=
  let r := WriteString r (bytesOf "<span>")
  let r := Write r (env.EscapeHTML (env.TrimSpace node.node.Tokens))
  let r := WriteString r (bytesOf "</span>")
  some (r, node, .WalkStop)

/-- The handler `renderMathBlockOpenMarker`. -/
def renderMathBlockOpenMarker (_env : Env) (r : VditorSVRenderer) (node : Site)
    (_entering : Bool) : Option Result :=
  let r := tag r (bytesOf "span")
    [attr "data-type" "math-block-open-marker", attr "class" "vditor-sv__marker"] false
  let r := WriteString r (bytesOf "$$")
  let r := tagCloseSpan r
  let r := Newline r
  some (r, node, .WalkStop)

/-- The handler `renderMathBlock`. -/
def renderMathBlock (_env : Env) (r : VditorSVRenderer) (node : Site) (entering : Bool) :
    Option Result := do
  if entering then
    let r ← renderListItemBlockPadding r node
    let r := tag r (bytesOf "span") [attr "data-block" "0", attr "data-type" "math-block"] false
    pure (r, node, .WalkContinue)
  else
    let r := WriteString r (bytesOf "</span>")
    pure (r, node, .WalkContinue)

/-- The handler `renderTableCell`. -/
def renderTableCell (_env : Env) (r : VditorSVRenderer) (node : Site) (_entering : Bool) :
    Option Result := renderContinue r node

/-- The handler `renderTableRow`. -/
def renderTableRow (_env : Env) (r : VditorSVRenderer) (node : Site) (_entering : Bool) :
    Option Result := renderContinue r node

/-- The handler `renderTableHead`. -/
def renderTableHead (_env : Env) (r : VditorSVRenderer) (node : Site) (_entering : Bool) :
    Option Result := renderContinue r node

/-- The handler `renderTable`. -/
def renderTable (_env : Env) (r : VditorSVRenderer) (node : Site) (_entering : Bool) :
    Option Result := do
  let r ← renderListItemBlockPadding r node
  let r := tag r (bytesOf "span") [attr "data-block" "0", attr "data-type" "table"] false
  let r := Write r node.node.Tokens
  let r := Newline r
  let r := Write r NewlineSV
  let r := tagCloseSpan r
  pure (r, node, .WalkStop)

/-- The handler `renderStrikethrough`. -/
def renderStrikethrough (_env : Env) (r : VditorSVRenderer) (node : Site) (entering : Bool) :
    Option Result := renderSpan r node entering

/-- The handler `renderStrikethrough1OpenMarker`. -/
def renderStrikethrough1OpenMarker (_env : Env) (r : VditorSVRenderer) (node : Site)
    (_entering : Bool) : Option Result :=
  renderMarker "vditor-sv__marker" (fun r => WriteString r (bytesOf "~")) r node

/-- The handler `renderStrikethrough1CloseMarker`. -/
def renderStrikethrough1CloseMarker (_env : Env) (r : VditorSVRenderer) (node : Site)
    (_entering : Bool) : Option Result :=
  renderMarker "vditor-sv__marker" (fun r => WriteString r (bytesOf "~")) r node

/-- The handler `renderStrikethrough2OpenMarker`. -/
def renderStrikethrough2OpenMarker (_env : Env) (r : VditorSVRenderer) (node : Site)
    (_entering : Bool) : Option Result :=
  renderMarker "vditor-sv__marker" (fun r => WriteString r (bytesOf "~~")) r node

/-- The handler `renderStrikethrough2CloseMarker`. -/
def renderStrikethrough2CloseMarker (_env : Env) (r : VditorSVRenderer) (node : Site)
    (_entering : Bool) : Option Result :=
  renderMarker "vditor-sv__marker" (fun r => WriteString r (bytesOf "~~")) r node

/-- The handler `renderLinkTitle`. -/
def renderLinkTitle (_env : Env) (r : VditorSVRenderer) (node : Site) (_entering : Bool) :
    Option Result :=
  let r := tag r (bytesOf "span") [attr "class" "vditor-sv__marker--title"] false
  let r := WriteByte r ItemDoublequote
  let r := Write r node.node.Tokens
  let r := WriteByte r ItemDoublequote
  let r := tagCloseSpan r
  some (r, node, .WalkStop)

/-- The handler `renderLinkDest`. -/
def renderLinkDest (_env : Env) (r : VditorSVRenderer) (node : Site) (_entering : Bool) :
    Option Result :=
  renderMarker "vditor-sv__marker--link" (fun r => Write r node.node.Tokens) r node

/-- The handler `renderLinkSpace`. -/
def renderLinkSpace (_env : Env) (r : VditorSVRenderer) (node : Site) (_entering : Bool) :
    Option Result :=
  let r := WriteByte r ItemSpace
  some (r, node, .WalkStop)

/-- The handler `renderLinkText`. Reading `node.Parent.Type` on a nil parent is a nil
dereference. -/
def renderLinkText (_env : Env) (r : VditorSVRenderer) (node : Site) (_entering : Bool) :
    Option Result :=
  match node.Parent with
  | none => none
  | some parent =>
    let r :=
      if NodeType.NodeImage = parent.Typ then
        tag r (bytesOf "span") [attr "class" "vditor-sv__marker--bracket"] false
      else if 3 = parent.LinkType then
        tag r (bytesOf "span") [] false
      else
        tag r (bytesOf "span")
          [attr "class" "vditor-sv__marker--bracket", attr "data-type" "link-text"] false
    let r := Write r node.node.Tokens
    let r := tagCloseSpan r
    some (r, node, .WalkStop)

/-- The handler `renderCloseParen`. -/
def renderCloseParen (_env : Env) (r : VditorSVRenderer) (node : Site) (_entering : Bool) :
    Option Result :=
  renderMarker "vditor-sv__marker--paren" (fun r => WriteByte r ItemCloseParen) r node

/-- The handler `renderOpenParen`. -/
def renderOpenParen (_env : Env) (r : VditorSVRenderer) (node : Site) (_entering : Bool) :
    Option Result :=
  renderMarker "vditor-sv__marker--paren" (fun r => WriteByte r ItemOpenParen) r node

/-- The handler `renderCloseBracket`. Reading a field of a nil `node.Parent`, or the
`Tokens` of a nil link text, is a nil dereference. -/
def renderCloseBracket (env : Env) (r : VditorSVRenderer) (node : Site) (_entering : Bool) :
    Option Result :=
  let r := tag r (bytesOf "span") [attr "class" "vditor-sv__marker--bracket"] false
  let r := WriteByte r ItemCloseBracket
  let r := tagCloseSpan r
  match node.Parent with
  | none => none
  | some parent =>
    if 3 = parent.LinkType then
      match ChildByType node.siblings .NodeLinkText with
      | none => none
      | some linkText =>
        if !env.EqualFold parent.LinkRefLabel linkText.Tokens then
          let r := tag r (bytesOf "span") [attr "class" "vditor-sv__marker--link"] false
          let r := WriteByte r ItemOpenBracket
          let r := Write r parent.LinkRefLabel
          let r := WriteByte r ItemCloseBracket
          let r := tagCloseSpan r
          some (r, node, .WalkStop)
        else some (r, node, .WalkStop)
    else some (r, node, .WalkStop)

/-- The handler `renderOpenBracket`. -/
def renderOpenBracket (_env : Env) (r : VditorSVRenderer) (node : Site) (_entering : Bool) :
    Option Result :=
  renderMarker "vditor-sv__marker--bracket" (fun r => WriteByte r ItemOpenBracket) r node

/-- The handler `renderBang`. -/
def renderBang (_env : Env) (r : VditorSVRenderer) (node : Site) (_entering : Bool) :
    Option Result :=
  renderMarker "vditor-sv__marker" (fun r => WriteByte r ItemBang) r node

/-- The handler `renderImage`. -/
def renderImage (_env : Env) (r : VditorSVRenderer) (node : Site) (entering : Bool) :
    Option Result :=
  if entering then
    some (tag r (bytesOf "span") [attr "data-type" "image"] false, node, .WalkContinue)
  else some (tagCloseSpan r, node, .WalkContinue)

/-- The unlinking that `renderLink` performs on entering a link of type 3, on the
children of the link: open paren, destination, then space and title when a space is
there, close paren. `none` is a nil dereference. -/
def unlinkLinkDest (children : List Node) : Option (List Node) := do
  let children ← unlinkChildByType children .NodeOpenParen
  let children ← unlinkChildByType children .NodeLinkDest
  let children ←
    match ChildByType children .NodeLinkSpace with
    | some _ => do
      let children ← unlinkChildByType children .NodeLinkSpace
      unlinkChildByType children .NodeLinkTitle
    | none => some children
  unlinkChildByType children .NodeCloseParen

/-- The handler `renderLink`. -/
def renderLink (_env : Env) (r : VditorSVRenderer) (node : Site) (entering : Bool) :
    Option Result := do
  if entering then
    let node ←
      if 3 = node.node.data.LinkType then do
        let children ← unlinkLinkDest node.node.children
        pure { node with node := Node.mk node.node.data children }
      else pure node
    let r := renderSpanNode r node
    pure (r, node, .WalkContinue)
  else
    pure (tagCloseSpan r, node, .WalkContinue)

/-- The handler `renderHTML`. -/
def renderHTML (env : Env) (r : VditorSVRenderer) (node : Site) (_entering : Bool) :
    Option Result := do
  let r ← renderListItemBlockPadding r node
  let r := tag r (bytesOf "span")
    [attr "data-type" "html-block", attr "class" "vditor-sv__marker"] false
  let r := tag r (bytesOf "span") [attr "class" "vditor-sv__marker"] false
  let tokens := env.TrimSpace node.node.Tokens
  let r := Write r (env.EscapeHTML tokens)
  let r := WriteString r (bytesOf "</span>")
  let r := Newline r
  let r := Write r NewlineSV
  let r := WriteString r (bytesOf "</span>")
  pure (r, node, .WalkStop)

/-- The handler `renderInlineHTML`. -/
def renderInlineHTML (env : Env) (r : VditorSVRenderer) (node : Site) (_entering : Bool) :
    Option Result :=
  let r := renderSpanNode r node
  let r := tag r (bytesOf "span") [attr "class" "vditor-sv__marker"] false
  let r := Write r (env.EscapeHTML node.node.Tokens)
  let r := tagCloseSpan r
  let r := tagCloseSpan r
  some (r, node, .WalkStop)

/-- The top of the buffer stack, `r.nodeWriterStack[len(r.nodeWriterStack)-1]`; `none`
is the index-out-of-range panic on an empty stack. -/
def stackTop (r : VditorSVRenderer) : Option Nat := r.nodeWriterStack.getLast?

/-- The pop `r.nodeWriterStack = r.nodeWriterStack[:len(r.nodeWriterStack)-1]`; `none`
is the slice-bounds panic on an empty stack. -/
def stackPop (r : VditorSVRenderer) : Option VditorSVRenderer :=
  if r.nodeWriterStack.isEmpty then none
  else some { r with nodeWriterStack := r.nodeWriterStack.dropLast }

/-- The two statements that enter a container: `r.Writer = &bytes.Buffer{}` and
`r.nodeWriterStack = append(r.nodeWriterStack, r.Writer)`. -/
def pushWriter (r : VditorSVRenderer) : VditorSVRenderer :=
  let (r, w) := newBuffer r
  let r := { r with Writer := w }
  { r with nodeWriterStack := r.nodeWriterStack ++ [r.Writer] }

/-- The three statements `buf = r.Writer.Bytes()`, `r.Writer.Reset()`, `r.Write(buf)`. -/
def rewriteWriter (r : VditorSVRenderer) : VditorSVRenderer :=
  let buf := bufBytes r r.Writer
  let r := bufReset r r.Writer
  Write r buf

/-- The handler `renderDocument`, at the level of values: on exit `LastOut` receives the
trimmed bytes. `Shared.renderDocument` follows the storage that `buf` shares with the
buffer. -/
def renderDocument (_env : Env) (r : VditorSVRenderer) (node : Site) (entering : Bool) :
    Option Result := do
  if entering then
    pure (pushWriter r, node, .WalkContinue)
  else
    let r ← stackPop r
    let buf := Trim (bufBytes r r.Writer) (bytesOf " \t\n")
    let r := bufReset r r.Writer
    let r := Write r buf
    pure (r, node, .WalkContinue)

/-- The handler `renderParagraph`. On exit `node.Parent.Parent` is read, a nil
dereference when `node.Parent` is nil; so is `grandparent.Tight` on a list without
list data. -/
def renderParagraph (_env : Env) (r : VditorSVRenderer) (node : Site) (entering : Bool) :
    Option Result := do
  if entering then
    let r ← renderListItemBlockPadding r node
    let r := tag r (bytesOf "span") [attr "data-type" "p", attr "data-block" "0"] false
    pure (r, node, .WalkContinue)
  else
    let r := Newline r
    let _ ← node.Parent
    let grandparent := node.Grandparent
    let inTightList ←
      match grandparent with
      | none => some false
      | some g =>
        if NodeType.NodeList = g.Typ then g.ListData.map (fun d => d.Tight) else some false
    let r := if !inTightList then Write r NewlineSV else r
    let r := tagCloseSpan r
    pure (r, node, .WalkContinue)

/-- The method `inListItem`. -/
def inListItem (node : Site) : Option Bool :=
  match node.Parent with
  | none => none
  | some _ =>
    match node.Grandparent with
    | none => some false
    | some g => some (decide (NodeType.NodeList = g.Typ))

/-- The handler `renderText`. -/
def renderText (env : Env) (r : VditorSVRenderer) (node : Site) (_entering : Bool) :
    Option Result :=
  let node := if r.Option.AutoSpace then env.Space node else node
  let node := if r.Option.FixTermTypo then env.FixTermTypo node else node
  let node := if r.Option.ChinesePunct then env.ChinesePunct node else node
  let r := tag r (bytesOf "span") [attr "data-type" "text"] false
  let node := node.setTokens (TrimRight node.node.Tokens (bytesOf "\n"))
  let r := Write r (env.EscapeHTML node.node.Tokens)
  let r := tagCloseSpan r
  some (r, node, .WalkStop)

/-- The handler `renderCodeSpan`. -/
def renderCodeSpan (_env : Env) (r : VditorSVRenderer) (node : Site) (entering : Bool) :
    Option Result := renderSpan r node entering

/-- The handler `renderCodeSpanOpenMarker`. A nil `node.Parent` or `node.Next` is a nil
dereference. -/
def renderCodeSpanOpenMarker (_env : Env) (r : VditorSVRenderer) (node : Site)
    (_entering : Bool) : Option Result := do
  let r := tag r (bytesOf "span") [attr "class" "vditor-sv__marker"] false
  let parent ← node.Parent
  let r := WriteString r (← Repeat (bytesOf "`") parent.CodeMarkerLen)
  let next ← node.Next
  let r := if HasPrefix next.Tokens (bytesOf "`") then WriteByte r ItemSpace else r
  let r := tagCloseSpan r
  let r := tag r (bytesOf "span") [] false
  pure (r, node, .WalkStop)

/-- The handler `renderCodeSpanContent`. -/
def renderCodeSpanContent (env : Env) (r : VditorSVRenderer) (node : Site)
    (_entering : Bool) : Option Result :=
  let r := Write r (env.EscapeHTML node.node.Tokens)
  some (r, node, .WalkStop)

/-- The handler `renderCodeSpanCloseMarker`. A nil `node.Previous` or `node.Parent` is a
nil dereference. -/
def renderCodeSpanCloseMarker (_env : Env) (r : VditorSVRenderer) (node : Site)
    (_entering : Bool) : Option Result := do
  let r := tagCloseSpan r
  let r := tag r (bytesOf "span") [attr "class" "vditor-sv__marker"] false
  let previous ← node.Previous
  let r := if HasSuffix previous.Tokens (bytesOf "`") then WriteByte r ItemSpace else r
  let parent ← node.Parent
  let r := WriteString r (← Repeat (bytesOf "`") parent.CodeMarkerLen)
  let r := tagCloseSpan r
  pure (r, node, .WalkStop)

/-- The handler `renderEmphasis`. -/
def renderEmphasis (_env : Env) (r : VditorSVRenderer) (node : Site) (entering : Bool) :
    Option Result := renderSpan r node entering

/-- The handler `renderEmAsteriskOpenMarker`. -/
def renderEmAsteriskOpenMarker (_env : Env) (r : VditorSVRenderer) (node : Site)
    (_entering : Bool) : Option Result :=
  renderMarker "vditor-sv__marker--bi" (fun r => WriteByte r ItemAsterisk) r node

/-- The handler `renderEmAsteriskCloseMarker`. -/
def renderEmAsteriskCloseMarker (_env : Env) (r : VditorSVRenderer) (node : Site)
    (_entering : Bool) : Option Result :=
  renderMarker "vditor-sv__marker--bi" (fun r => WriteByte r ItemAsterisk) r node

/-- The handler `renderEmUnderscoreOpenMarker`. -/
def renderEmUnderscoreOpenMarker (_env : Env) (r : VditorSVRenderer) (node : Site)
    (_entering : Bool) : Option Result :=
  renderMarker "vditor-sv__marker--bi" (fun r => WriteByte r ItemUnderscore) r node

/-- The handler `renderEmUnderscoreCloseMarker`. -/
def renderEmUnderscoreCloseMarker (_env : Env) (r : VditorSVRenderer) (node : Site)
    (_entering : Bool) : Option Result :=
  renderMarker "vditor-sv__marker--bi" (fun r => WriteByte r ItemUnderscore) r node

/-- The handler `renderStrong`. -/
def renderStrong (_env : Env) (r : VditorSVRenderer) (node : Site) (entering : Bool) :
    Option Result := renderSpan r node entering

/-- The handler `renderStrongA6kOpenMarker`. -/
def renderStrongA6kOpenMarker (_env : Env) (r : VditorSVRenderer) (node : Site)
    (_entering : Bool) : Option Result :=
  renderMarker "vditor-sv__marker--bi" (fun r => WriteString r (bytesOf "**")) r node

/-- The handler `renderStrongA6kCloseMarker`. -/
def renderStrongA6kCloseMarker (_env : Env) (r : VditorSVRenderer) (node : Site)
    (_entering : Bool) : Option Result :=
  renderMarker "vditor-sv__marker--bi" (fun r => WriteString r (bytesOf "**")) r node

/-- The handler `renderStrongU8eOpenMarker`. -/
def renderStrongU8eOpenMarker (_env : Env) (r : VditorSVRenderer) (node : Site)
    (_entering : Bool) : Option Result :=
  renderMarker "vditor-sv__marker--bi" (fun r => WriteString r (bytesOf "__")) r node

/-- The handler `renderStrongU8eCloseMarker`. -/
def renderStrongU8eCloseMarker (_env : Env) (r : VditorSVRenderer) (node : Site)
    (_entering : Bool) : Option Result :=
  renderMarker "vditor-sv__marker--bi" (fun r => WriteString r (bytesOf "__")) r node

/-- The loop that `renderBlockquote` and `renderListItem` run on exit: while the buffer
ends with `NewlineSV` followed by `</span>`, that suffix is replaced by `</span>`. The
first argument bounds the number of iterations; the length of the buffer suffices. -/
def trimNewlines : Nat → Bytes → Bytes
  | 0, buf => buf
  | n + 1, buf =>
    if HasSuffix buf (NewlineSV ++ closeSpan) then
      trimNewlines n (TrimSuffix buf (NewlineSV ++ closeSpan) ++ closeSpan)
    else buf

/-- The quote marker span that `renderBlockquote` inserts. -/
def blockquoteMarker : Bytes :=
  bytesOf "<span data-type=\"blockquote-marker\" class=\"vditor-sv__marker\">&gt; </span>"

/-- The opening span that `renderBlockquote` writes. -/
def blockquoteOpen : Bytes := bytesOf "<span data-block=\"0\" data-type=\"blockquote\">"

/-- The handler `renderBlockquote`. -/
def renderBlockquote (_env : Env) (r : VditorSVRenderer) (node : Site) (entering : Bool) :
    Option Result := do
  if entering then
    pure (pushWriter r, node, .WalkContinue)
  else
    let r ← renderListItemBlockPadding r node
    let writer ← stackTop r
    let r ← stackPop r
    let buf := bufBytes r writer
    let buf := trimNewlines buf.length buf
    let marker := blockquoteMarker
    let buf := marker ++ buf
    let buf := ReplaceAll buf NewlineSV (NewlineSV ++ blockquoteMarker)
    let r := bufReset r writer
    let r := bufWrite r writer blockquoteOpen
    let r := bufWrite r writer buf
    let parent ← stackTop r
    let r := bufWrite r parent (bufBytes r writer)
    let r := { r with Writer := parent }
    let r := rewriteWriter r
    let r := Newline r
    let r := Write r NewlineSV
    let r := WriteString r (bytesOf "</span>")
    pure (r, node, .WalkContinue)

/-- The handler `renderBlockquoteMarker`. -/
def renderBlockquoteMarker (_env : Env) (r : VditorSVRenderer) (node : Site)
    (_entering : Bool) : Option Result :=
  some (r, node, .WalkStop)

/-- The handler `renderHeading`. Reading `node.Parent.Type` on a nil parent is a nil
dereference. -/
def renderHeading (env : Env) (r : VditorSVRenderer) (node : Site) (entering : Bool) :
    Option Result := do
  let parent ← node.Parent
  let rootParent := decide (NodeType.NodeDocument = parent.Typ)
  let level := node.node.data.HeadingLevel
  if entering then
    let r ← renderListItemBlockPadding r node
    let r ←
      if rootParent then do
        let r := tag r (bytesOf "span") [attr "data-block" "0", attr "data-type" "heading"] false
        let h ← sliceBytes env.headingLevel level (level + 1)
        pure (tag r (bytesOf "span") [(bytesOf "class", bytesOf "h" ++ h)] false)
      else pure r
    let r := tag r (bytesOf "span")
      [attr "class" "vditor-sv__marker--heading", attr "data-type" "heading-marker"] false
    let r := WriteString r ((← Repeat (bytesOf "#") level) ++ bytesOf " ")
    let r := tagCloseSpan r
    pure (r, node, .WalkContinue)
  else
    let r := if rootParent then tagCloseSpan r else r
    let r := Write r NewlineSV
    let r := Write r NewlineSV
    let r := if rootParent then WriteString r (bytesOf "</span>") else r
    pure (r, node, .WalkContinue)

/-- The handler `renderHeadingC8hMarker`. -/
def renderHeadingC8hMarker (_env : Env) (r : VditorSVRenderer) (node : Site)
    (_entering : Bool) : Option Result :=
  some (r, node, .WalkStop)

/-- The handler `renderHeadingID`. -/
def renderHeadingID (_env : Env) (r : VditorSVRenderer) (node : Site) (_entering : Bool) :
    Option Result :=
  renderMarker "vditor-sv__marker"
    (fun r => WriteString r (bytesOf " \x7b" ++ node.node.Tokens ++ bytesOf "\x7d")) r node

/-- The marker text of a list or list item: the decimal `Num` and the `Delimiter` for an
ordered one, the `Marker` bytes otherwise. -/
def listMarker (d : ListData) : Bytes :=
  if 1 = d.Typ ∨ (3 = d.Typ ∧ 0 = d.BulletChar) then Itoa d.Num ++ stringOfByte d.Delimiter
  else d.Marker

/-- The handler `renderList`. The fields of the list data are read through the node, a
nil dereference when the node has none. -/
def renderList (_env : Env) (r : VditorSVRenderer) (node : Site) (entering : Bool) :
    Option Result := do
  let d ← node.node.data.ListData
  if entering then
    let r := { r with ListPadding := r.ListPadding + d.Padding }
    let attrs : List (Bytes × Bytes) := []
    let attrs := if d.Tight then attrs ++ [attr "data-tight" "true"] else attrs
    let attrs :=
      if 0 = d.BulletChar then
        if 1 ≠ d.Start then attrs ++ [(bytesOf "start", Itoa d.Start)] else attrs
      else attrs
    let attrs :=
      if d.Typ = 0 then
        attrs ++ [attr "data-type" "ul"] ++ [(bytesOf "data-marker", d.Marker)]
      else if d.Typ = 1 then
        attrs ++ [attr "data-type" "ol"] ++
          [(bytesOf "data-marker", Itoa d.Num ++ stringOfByte d.Delimiter)]
      else if d.Typ = 3 then
        let attrs := attrs ++ [attr "data-type" "task"]
        if 0 = d.BulletChar then
          attrs ++ [(bytesOf "data-marker", Itoa d.Num ++ stringOfByte d.Delimiter)]
        else attrs ++ [(bytesOf "data-marker", d.Marker)]
      else attrs
    let attrs := attrs ++ [attr "data-block" "0"]
    let r := tag r (bytesOf "span") attrs false
    pure (r, node, .WalkContinue)
  else
    let r := Write r NewlineSV
    let r := tagCloseSpan r
    let r := { r with ListPadding := r.ListPadding - d.Padding }
    pure (r, node, .WalkContinue)

/-- The bytes that `renderListItem` puts in front of the buffered content of an item:
the opening span, the margin span and the marker span. `none` is the panic of
`strings.Repeat` on a negative margin. -/
def listItemOpen (listPadding : Int) (d : ListData) : Option Bytes := do
  let li := bytesOf "<span data-type=\"li\">"
  let marginCount := listPadding - d.Padding
  let margin :=
    bytesOf "<span data-type=\"padding\">" ++ (← Repeat (bytesOf " ") marginCount) ++
      bytesOf "</span>"
  let li := li ++ margin
  let markerStr := listMarker d
  pure (li ++ (bytesOf "<span data-type=\"li-marker\" class=\"vditor-sv__marker\">" ++
    markerStr ++ bytesOf " </span>"))

/-- The handler `renderListItem`. -/
def renderListItem (_env : Env) (r : VditorSVRenderer) (node : Site) (entering : Bool) :
    Option Result := do
  if entering then
    pure (pushWriter r, node, .WalkContinue)
  else
    let writer ← stackTop r
    let r ← stackPop r
    let buf := bufBytes r writer
    let buf := trimNewlines buf.length buf
    let d ← node.node.data.ListData
    let li ← listItemOpen r.ListPadding d
    let buf := li ++ buf
    let r := bufReset r writer
    let r := bufWrite r writer buf
    let parent ← stackTop r
    let r := bufWrite r parent buf
    let r := { r with Writer := parent }
    let r := rewriteWriter r
    let r := Newline r
    let r := tagCloseSpan r
    pure (r, node, .WalkContinue)

/-- The marker span of `renderTaskListItemMarker`. -/
def taskMarker (cls : String) (write : VditorSVRenderer → VditorSVRenderer)
    (r : VditorSVRenderer) : VditorSVRenderer :=
  let r := tag r (bytesOf "span") [attr "data-type" "task-marker", attr "class" cls] false
  let r := write r
  tagCloseSpan r

/-- The handler `renderTaskListItemMarker`. A nil `node.Next` is a nil dereference. -/
def renderTaskListItemMarker (_env : Env) (r : VditorSVRenderer) (node : Site)
    (_entering : Bool) : Option Result := do
  let r := taskMarker "vditor-sv__marker--bi" (fun r => WriteByte r ItemOpenBracket) r
  let r :=
    if node.node.data.TaskListItemChecked then
      taskMarker "vditor-sv__marker--strong" (fun r => WriteByte r 120) r
    else taskMarker "vditor-sv__marker--bi" (fun r => WriteByte r ItemSpace) r
  let r := taskMarker "vditor-sv__marker--bi" (fun r => WriteString r (bytesOf "] ")) r
  let next ← node.Next
  let node := node.setNextTokens (TrimPrefix next.Tokens (bytesOf " "))
  pure (r, node, .WalkStop)

/-- The handler `renderThematicBreak`. -/
def renderThematicBreak (_env : Env) (r : VditorSVRenderer) (node : Site) (_entering : Bool) :
    Option Result := do
  let r ← renderListItemBlockPadding r node
  let r := tag r (bytesOf "span")
    [attr "data-type" "thematic-break", attr "class" "vditor-sv__marker"] false
  let r := tag r (bytesOf "span") [attr "class" "vditor-sv__marker"] false
  let r := WriteString r (bytesOf "---")
  let r := tagCloseSpan r
  let r := Newline r
  let r := Write r NewlineSV
  let r := tagCloseSpan r
  pure (r, node, .WalkStop)

/-- The handler `renderHardBreak`. -/
def renderHardBreak (_env : Env) (r : VditorSVRenderer) (node : Site) (_entering : Bool) :
    Option Result := do
  let r := Newline r
  let r ← renderListItemBlockPadding r node
  pure (r, node, .WalkStop)

/-- The handler `renderSoftBreak`. -/
def renderSoftBreak (_env : Env) (r : VditorSVRenderer) (node : Site) (_entering : Bool) :
    Option Result := do
  let r := Newline r
  let r ← renderListItemBlockPadding r node
  pure (r, node, .WalkStop)

/-- The handler table that `NewVditorSVRenderer` fills in: `RendererFuncs[nodeType]`,
`none` for a type it does not register. -/
def RendererFuncs :
    NodeType → Option (Env → VditorSVRenderer → Site → Bool → Option Result)
  | .NodeDocument => some renderDocument
  | .NodeParagraph => some renderParagraph
  | .NodeText => some renderText
  | .NodeCodeSpan => some renderCodeSpan
  | .NodeCodeSpanOpenMarker => some renderCodeSpanOpenMarker
  | .NodeCodeSpanContent => some renderCodeSpanContent
  | .NodeCodeSpanCloseMarker => some renderCodeSpanCloseMarker
  | .NodeCodeBlock => some renderCodeBlock
  | .NodeCodeBlockFenceOpenMarker => some renderCodeBlockOpenMarker
  | .NodeCodeBlockFenceInfoMarker => some renderCodeBlockInfoMarker
  | .NodeCodeBlockCode => some renderCodeBlockCode
  | .NodeCodeBlockFenceCloseMarker => some renderCodeBlockCloseMarker
  | .NodeMathBlock => some renderMathBlock
  | .NodeMathBlockOpenMarker => some renderMathBlockOpenMarker
  | .NodeMathBlockContent => some renderMathBlockContent
  | .NodeMathBlockCloseMarker => some renderMathBlockCloseMarker
  | .NodeInlineMath => some renderInlineMath
  | .NodeInlineMathOpenMarker => some renderInlineMathOpenMarker
  | .NodeInlineMathContent => some renderInlineMathContent
  | .NodeInlineMathCloseMarker => some renderInlineMathCloseMarker
  | .NodeEmphasis => some renderEmphasis
  | .NodeEmA6kOpenMarker => some renderEmAsteriskOpenMarker
  | .NodeEmA6kCloseMarker => some renderEmAsteriskCloseMarker
  | .NodeEmU8eOpenMarker => some renderEmUnderscoreOpenMarker
  | .NodeEmU8eCloseMarker => some renderEmUnderscoreCloseMarker
  | .NodeStrong => some renderStrong
  | .NodeStrongA6kOpenMarker => some renderStrongA6kOpenMarker
  | .NodeStrongA6kCloseMarker => some renderStrongA6kCloseMarker
  | .NodeStrongU8eOpenMarker => some renderStrongU8eOpenMarker
  | .NodeStrongU8eCloseMarker => some renderStrongU8eCloseMarker
  | .NodeBlockquote => some renderBlockquote
  | .NodeBlockquoteMarker => some renderBlockquoteMarker
  | .NodeHeading => some renderHeading
  | .NodeHeadingC8hMarker => some renderHeadingC8hMarker
  | .NodeHeadingID => some renderHeadingID
  | .NodeList => some renderList
  | .NodeListItem => some renderListItem
  | .NodeThematicBreak => some renderThematicBreak
  | .NodeHardBreak => some renderHardBreak
  | .NodeSoftBreak => some renderSoftBreak
  | .NodeHTMLBlock => some renderHTML
  | .NodeInlineHTML => some renderInlineHTML
  | .NodeLink => some renderLink
  | .NodeImage => some renderImage
  | .NodeBang => some renderBang
  | .NodeOpenBracket => some renderOpenBracket
  | .NodeCloseBracket => some renderCloseBracket
  | .NodeOpenParen => some renderOpenParen
  | .NodeCloseParen => some renderCloseParen
  | .NodeLinkText => some renderLinkText
  | .NodeLinkSpace => some renderLinkSpace
  | .NodeLinkDest => some renderLinkDest
  | .NodeLinkTitle => some renderLinkTitle
  | .NodeStrikethrough => some renderStrikethrough
  | .NodeStrikethrough1OpenMarker => some renderStrikethrough1OpenMarker
  | .NodeStrikethrough1CloseMarker => some renderStrikethrough1CloseMarker
  | .NodeStrikethrough2OpenMarker => some renderStrikethrough2OpenMarker
  | .NodeStrikethrough2CloseMarker => some renderStrikethrough2CloseMarker
  | .NodeTaskListItemMarker => some renderTaskListItemMarker
  | .NodeTable => some renderTable
  | .NodeTableHead => some renderTableHead
  | .NodeTableRow => some renderTableRow
  | .NodeTableCell => some renderTableCell
  | .NodeEmoji => some renderEmoji
  | .NodeEmojiUnicode => some renderEmojiUnicode
  | .NodeEmojiImg => some renderEmojiImg
  | .NodeEmojiAlias => some renderEmojiAlias
  | .NodeFootnotesDef => some renderFootnotesDef
  | .NodeFootnotesRef => some renderFootnotesRef
  | .NodeToC => some renderToC
  | .NodeBackslash => some renderBackslash
  | .NodeBackslashContent => some renderBackslashContent
  | .NodeHTMLEntity => some renderHtmlEntity
  | .NodeOther => none

/-! ## The plain-text projection -/

mutual
/-- Modelled from the spec: `ast.Walk` is declared outside the sources. The walker is
called on entering a node; when it asks to descend, the children are walked in order
and the walker is called once more on exit; when it asks to stop, neither happens. The
walker here reads the tree and threads a value of its own. -/
def Walk {σ : Type} (walker : Node → Bool → σ → σ × WalkStatus) : Node → σ → σ
  | .mk d cs, s =>
    match walker (.mk d cs) true s with
    | (s, .WalkStop) => s
    | (s, .WalkContinue) => (walker (.mk d cs) false (WalkChildren walker cs s)).1
/-- The walk of a list of children, first to last. -/
def WalkChildren {σ : Type} (walker : Node → Bool → σ → σ × WalkStatus) : List Node → σ → σ
  | [], s => s
  | c :: cs, s => WalkChildren walker cs (Walk walker c s)
end

/-- The walker that `Text` passes to `ast.Walk`; its state is the string `ret`. -/
def textWalker (n : Node) (entering : Bool) (ret : Bytes) : Bytes × WalkStatus :=
  let ret :=
    if entering then
      match n.data.Typ with
      | .NodeText | .NodeLinkText | .NodeLinkDest | .NodeLinkTitle | .NodeCodeBlockCode
      | .NodeCodeSpanContent | .NodeInlineMathContent | .NodeMathBlockContent
      | .NodeHTMLBlock | .NodeInlineHTML => ret ++ n.Tokens
      | .NodeCodeBlockFenceInfoMarker => ret ++ n.data.CodeBlockInfo
      | .NodeLink => if 3 = n.data.LinkType then ret ++ n.data.LinkRefLabel else ret
      | _ => ret
    else ret
  (ret, .WalkContinue)

/-- The method `Text`. -/
def Text (node : Node) : Bytes := Walk textWalker node []

/-! ## Relations between renderer states used in the theorems -/

/-- The renderer `r'` differs from `r` in its buffers only by bytes appended to the buffer
of the current writer; writer, stack and tag switch are those of `r`. -/
structure Appends (r r' : VditorSVRenderer) : Prop where
  writer : r'.Writer = r.Writer
  stack : r'.nodeWriterStack = r.nodeWriterStack
  length : r'.buffers.length = r.buffers.length
  tags : r'.DisableTags = r.DisableTags
  others : ∀ p, p ≠ r.Writer → bufBytes r' p = bufBytes r p
  grows : bufBytes r r.Writer <+: bufBytes r' r.Writer

/-! ## Sample inputs used in the witnesses -/

/-- An environment whose escaping, trimming and text fixes do nothing. -/
def plainEnv : Env :=
  { EscapeHTML := id, TrimSpace := id, Space := id, FixTermTypo := id, ChinesePunct := id,
    headings := [], FindFootnotesDef := fun _ => none,
    EqualFold := fun a b => decide (a = b), Caret := [226, 128, 184],
    CaretTokens := [226, 128, 184], headingLevel := bytesOf " 123456" }

/-- The fields of a node of the given type and tokens, all other fields zero. -/
def plainData (t : NodeType) (tokens : Bytes) : NodeData :=
  { Typ := t, Tokens := tokens, HeadingLevel := 0, ListData := none,
    TaskListItemChecked := false, IsFencedCodeBlock := false, CodeBlockInfo := [],
    CodeMarkerLen := 0, LinkType := 0, LinkRefLabel := [], FootnotesRefLabel := [] }

/-- A node without children. -/
def leaf (t : NodeType) (tokens : Bytes) : Node := .mk (plainData t tokens) []

/-- A node placed directly under the document, with no siblings. -/
def topLevel (n : Node) : Site :=
  { node := n, path := [{ parent := plainData .NodeDocument [], left := [], right := [] }] }

/-- No occurrence of `old` can start inside `m`, whatever follows `m`: every non-empty
suffix of `m` differs from `old` on the bytes they share. -/
def noMatchInside (old m : Bytes) : Bool :=
  m.tails.all (fun t => t.isEmpty || !(t.take old.length).isPrefixOf old)

/-- The padding span of `renderListItemBlockPadding` for a node that is inside a list
item and not the first child of its parent; nothing for any other node. -/
def listItemBlockPadding (r : VditorSVRenderer) (node : Site) : Bytes :=
  if node.ParentIs .NodeListItem && !node.isFirstChild then
    bytesOf "<span data-type=\"padding\">" ++ List.replicate r.ListPadding.toNat 32 ++
      bytesOf "</span>"
  else []

/-- A renderer inside a block quote entered at the top level: the quote's buffer, on top
of the stack, holds two lines. -/
def quoteExitState : VditorSVRenderer :=
  { initialRenderer with
    buffers := [[], bytesOf "a" ++ NewlineSV ++ bytesOf "b"], Writer := 1,
    nodeWriterStack := [0, 1] }

/-- The list data of an item of a bullet list with marker `-` and padding 2. -/
def bulletData : ListData :=
  { Typ := 0, Tight := true, BulletChar := 45, Start := 0, Delimiter := 0, Padding := 2,
    Marker := bytesOf "-", Num := 0 }

/-- A list item of a tight bullet list at the top level, at its place in the tree. -/
def itemSite : Site :=
  { node := .mk { plainData .NodeListItem [] with ListData := some bulletData } [],
    path := [{ parent := { plainData .NodeList [] with ListData := some bulletData },
               left := [], right := [] },
             { parent := plainData .NodeDocument [], left := [], right := [] }] }

/-- A renderer inside that list item: the list added its padding, and the item's buffer,
on top of the stack, holds a paragraph of a tight list, which ends with `NewlineSV`
directly before its closing tag. -/
def itemExitState : VditorSVRenderer :=
  { initialRenderer with
    buffers := [[], bytesOf "<span data-type=\"p\" data-block=\"0\">a" ++ NewlineSV ++ closeSpan],
    Writer := 1, nodeWriterStack := [0, 1], ListPadding := 2 }

/-- The handler `h` gives back the tree around the node as it received it. -/
def KeepsSite (h : Env → VditorSVRenderer → Site → Bool → Option Result) : Prop :=
  ∀ (env : Env) (r : VditorSVRenderer) (site : Site) (entering : Bool)
    (r' : VditorSVRenderer) (site' : Site) (st : WalkStatus),
    h env r site entering = some (r', site', st) → site' = site

/-- `Rendered env r r'`: the renderer went from `r` to `r'` by a sequence of handler
calls, made with any nodes, in which every block quote and every list item that was
entered was also left, and no document node was handled. -/
inductive Rendered (env : Env) : VditorSVRenderer → VditorSVRenderer → Prop
  | done (r : VditorSVRenderer) : Rendered env r r
  | call (t : NodeType) (h : Env → VditorSVRenderer → Site → Bool → Option Result)
      (r r1 r2 : VditorSVRenderer) (site site' : Site) (entering : Bool) (st : WalkStatus) :
      Rendered env r r1 → RendererFuncs t = some h → t ≠ .NodeDocument →
      t ≠ .NodeBlockquote → t ≠ .NodeListItem →
      h env r1 site entering = some (r2, site', st) → Rendered env r r2
  | quote (r r1 r2 r3 r4 : VditorSVRenderer) (site1 site1' site2 site2' : Site)
      (st1 st2 : WalkStatus) :
      Rendered env r r1 → renderBlockquote env r1 site1 true = some (r2, site1', st1) →
      Rendered env r2 r3 → renderBlockquote env r3 site2 false = some (r4, site2', st2) →
      Rendered env r r4
  | item (r r1 r2 r3 r4 : VditorSVRenderer) (site1 site1' site2 site2' : Site)
      (st1 st2 : WalkStatus) :
      Rendered env r r1 → renderListItem env r1 site1 true = some (r2, site1', st1) →
      Rendered env r2 r3 → renderListItem env r3 site2 false = some (r4, site2', st2) →
      Rendered env r r4

/-- The stack of `r'` is the stack of `r`, the writer is the same buffer, no buffer that
`r` holds other than the writer's has changed, and the writer's buffer has only grown. -/
structure Extends (r r' : VditorSVRenderer) : Prop where
  stack : r'.nodeWriterStack = r.nodeWriterStack
  writer : r'.Writer = r.Writer
  length : r.buffers.length ≤ r'.buffers.length
  others : ∀ q, q < r.buffers.length → q ≠ r.Writer → bufBytes r' q = bufBytes r q
  grows : bufBytes r r.Writer <+: bufBytes r' r.Writer

/-- The contribution of a node itself to its plain text, as the specification words it:
the `Tokens` of a text, link text, link destination, link title, code block code, code
span content, inline math content, math block content, HTML block or inline HTML node,
the `CodeBlockInfo` of a fence info node, the `LinkRefLabel` of a link of type 3, and
nothing for any other node. -/
def ownText (d : NodeData) : Bytes :=
  if d.Typ ∈ [NodeType.NodeText, .NodeLinkText, .NodeLinkDest, .NodeLinkTitle,
      .NodeCodeBlockCode, .NodeCodeSpanContent, .NodeInlineMathContent,
      .NodeMathBlockContent, .NodeHTMLBlock, .NodeInlineHTML] then d.Tokens
  else if d.Typ = .NodeCodeBlockFenceInfoMarker then d.CodeBlockInfo
  else if d.Typ = .NodeLink ∧ d.LinkType = 3 then d.LinkRefLabel
  else []

/-- A list item of the bullet list whose second child is a block quote: the place of that
block quote in the tree, after a first paragraph. -/
def quoteInItemSite : Site :=
  { node := .mk (plainData .NodeBlockquote []) [leaf .NodeParagraph []],
    path := [{ parent := { plainData .NodeListItem [] with ListData := some bulletData },
               left := [leaf .NodeParagraph []], right := [] },
             { parent := { plainData .NodeList [] with ListData := some bulletData },
               left := [], right := [] },
             { parent := plainData .NodeDocument [], left := [], right := [] }] }

/-- A renderer inside that list item when the block quote is reached: the item's buffer,
on top of the stack, holds the output of the first paragraph. -/
def quoteInItemState : VditorSVRenderer :=
  { initialRenderer with
    buffers := [[], bytesOf "<span data-type=\"p\" data-block=\"0\">a" ++ NewlineSV ++
      NewlineSV ++ closeSpan],
    Writer := 1, nodeWriterStack := [0, 1], ListPadding := 2 }

/-! ## Further definitions: write calls, unlinking, `Render` -/

/-- The bytes that a call of `Write`, `WriteByte` or `WriteString` hands to the writer. -/
def WriteCall.content : WriteCall → Bytes
  | .Write content => content
  | .WriteByte c => [c]
  | .WriteString content => content
  | .Newline => []

/-- The children that remain when the first child of each of the given types is taken
out; the others keep their order. -/
def dropFirsts : List NodeType → List Node → List Node
  | _, [] => []
  | types, c :: cs =>
    if c.data.Typ ∈ types then dropFirsts (types.erase c.data.Typ) cs
    else c :: dropFirsts types cs

/-- The node has a child of the given type. -/
def hasChild (children : List Node) (t : NodeType) : Bool :=
  children.any (fun c => decide (c.data.Typ = t))

/-- The types of the children that entering `renderLink` takes out of a link of type 3:
open paren, destination and close paren, and also space and title when the link has a
space child. -/
def unlinkedTypes (children : List Node) : List NodeType :=
  if hasChild children .NodeLinkSpace then
    [.NodeCloseParen, .NodeLinkTitle, .NodeLinkSpace, .NodeLinkDest, .NodeOpenParen]
  else [.NodeCloseParen, .NodeLinkDest, .NodeOpenParen]

/-- The link at `node` without the children that entering `renderLink` takes out. -/
def unlinkedSite (node : Site) : Site :=
  { node with
    node := Node.mk node.node.data
      (dropFirsts (unlinkedTypes node.node.children) node.node.children) }

/-- A link of type 3 with the children a reference link with a title has: brackets and
text, then open paren, destination, title and close paren, and no space. -/
def titledRefLink : Node :=
  .mk { plainData .NodeLink [] with LinkType := 3, LinkRefLabel := bytesOf "foo" }
    [leaf .NodeOpenBracket [], leaf .NodeLinkText (bytesOf "foo"), leaf .NodeCloseBracket [],
     leaf .NodeOpenParen [], leaf .NodeLinkDest (bytesOf "/url"),
     leaf .NodeLinkTitle (bytesOf "title"), leaf .NodeCloseParen []]

/-- A link of type 3 without title: brackets and text, then open paren, destination and
close paren. -/
def refLink : Node :=
  .mk { plainData .NodeLink [] with LinkType := 3, LinkRefLabel := bytesOf "foo" }
    [leaf .NodeOpenBracket [], leaf .NodeLinkText (bytesOf "foo"), leaf .NodeCloseBracket [],
     leaf .NodeOpenParen [], leaf .NodeLinkDest (bytesOf "/url"), leaf .NodeCloseParen []]

/-- The body of the loop of `Render`, for one link reference definition `node`: the
label in brackets and a colon, a space unless the destination is the caret, then the
destination and a line feed. `none` is the nil dereference on a definition without
destination child. -/
def writeLinkRefDef (env : Env) (r : VditorSVRenderer) (node : Node) :
    Option VditorSVRenderer := do
  let label := node.data.LinkRefLabel
  let dest ← (ChildByType node.children .NodeLinkDest).map Node.Tokens
  let destStr := dest
  let r := WriteString r (bytesOf "[" ++ label ++ bytesOf "]:")
  let r := if env.Caret ≠ destStr then WriteString r (bytesOf " ") else r
  pure (WriteString r (destStr ++ bytesOf "\n"))

/-- The method `Render`. `base` stands for the embedded `BaseRenderer.Render`, which is
declared outside the sources: from the renderer it gives the renderer after the walk
and the output it returns, `none` when it panics. `linkRefDefs` is
`r.Tree.Context.LinkRefDefs`, in the order in which the loop visits it; it is a map, and
the `range` over it does not fix that order. The result is the renderer afterwards and
the output. -/
def Render (env : Env) (base : VditorSVRenderer → Option (VditorSVRenderer × Bytes))
    (linkRefDefs : List Node) (r : VditorSVRenderer) : Option (VditorSVRenderer × Bytes) := do
  let (r, output) ← base r
  if 1 > linkRefDefs.length ∨ r.needRenderFootnotesDef then pure (r, output)
  else
    let r := WriteString r (bytesOf "<span data-block=\"0\" data-type=\"link-ref-defs-block\">")
    let r ← linkRefDefs.foldlM (writeLinkRefDef env) r
    let r := Newline r
    let r := WriteString r (bytesOf "</span>")
    pure (r, bufBytes r r.Writer)

/-- Modelled from the spec: `BaseRenderer.Render` is declared outside the sources; it
walks the tree (section 4.3, `render(tree) -> output`) and returns the bytes of the
writer. `ReturnsWriter base` says that of `base`: the output it returns is the content
of the buffer of the writer it leaves, which is an allocated buffer. -/
def ReturnsWriter (base : VditorSVRenderer → Option (VditorSVRenderer × Bytes)) : Prop :=
  ∀ r r1 output, base r = some (r1, output) →
    output = bufBytes r1 r1.Writer ∧ r1.Writer < r1.buffers.length

/-- The `Tokens` of the first destination child of a node; empty when there is none. -/
def linkDestOf (node : Node) : Bytes :=
  ((ChildByType node.children .NodeLinkDest).map Node.Tokens).getD []

/-- The line of the link-ref-defs block for a definition, as the specification words it:
`[label]:`, one space, the destination and a line feed, the space being left out exactly
when the destination is the caret. -/
def linkRefDefLine (caret : Bytes) (node : Node) : Bytes :=
  bytesOf "[" ++ node.data.LinkRefLabel ++ bytesOf "]:" ++
    (if linkDestOf node = caret then [] else bytesOf " ") ++ linkDestOf node ++ bytesOf "\n"

/-- A link reference definition with its label and a destination child. -/
def linkRefDef (label dest : Bytes) : Node :=
  .mk { plainData .NodeLink [] with LinkRefLabel := label } [leaf .NodeLinkDest dest]

/-- The first paragraph of an item of the tight bullet list, at its place in the tree. -/
def paragraphInItemSite : Site :=
  { node := leaf .NodeParagraph [],
    path := [{ parent := { plainData .NodeListItem [] with ListData := some bulletData },
               left := [], right := [] },
             { parent := { plainData .NodeList [] with ListData := some bulletData },
               left := [], right := [] },
             { parent := plainData .NodeDocument [], left := [], right := [] }] }

/-- A stand-in for `BaseRenderer.Render` that walks nothing: it returns the content of
the writer as it is, and panics when the writer is not an allocated buffer. -/
def idleBase (r : VditorSVRenderer) : Option (VditorSVRenderer × Bytes) :=
  if r.Writer < r.buffers.length then some (r, bufBytes r r.Writer) else none

/-! ## Markdown to HTML: links and wiki links in one paragraph

The parser and the HTML renderer behind `MarkdownStr` are outside the sources; only the
test `TestWikilink` is there. This section models, from sections 4.2 and 8 of the
specification, the part of them that the test exercises: one paragraph of one line that
holds text, inline links `[text](dest)` and wiki links `[[name]]`. Emphasis, code spans,
link titles, reference links (the definition tables are empty here) and the escaping of
the HTML renderer are left out. -/

/-- Modelled from the spec: the inline nodes of the fragment, a text run, a link with
its text nodes and its destination, and the extension link `[[name]]` with its target. -/
inductive Inline where
  | text (tokens : Bytes)
  | link (text : List Inline) (dest : Bytes)
  | wikilink (target : Bytes)

/-- Modelled from the spec: what the left-to-right scan has emitted, a node or a `[`
delimiter that is not matched yet (section 4.2, the delimiter stack). -/
inductive Item where
  | node (n : Inline)
  | openBracket

/-- Modelled from the spec: the search backward from a `]` for the matching `[`. The
items are held latest first; the result is the nodes emitted since the nearest `[`,
latest first, and the items before that `[`; `none` when there is no `[`. -/
def splitAtOpenBracket : List Item → Option (List Inline × List Item)
  | [] => none
  | .openBracket :: below => some ([], below)
  | .node n :: items =>
    match splitAtOpenBracket items with
    | some (inner, below) => some (n :: inner, below)
    | none => none

/-- Modelled from the spec: destination parsing after a `]`, inline form `(dest)`: an
open paren, the destination up to the close paren, without space, line feed or paren
inside. The result is the destination and the input after the close paren. -/
def parseInlineDest : Bytes → Option (Bytes × Bytes)
  | 40 :: rest =>
    let dest := rest.takeWhile (fun c => c ≠ 41 ∧ c ≠ 40 ∧ c ≠ 32 ∧ c ≠ 10)
    match rest.drop dest.length with
    | 41 :: rest' => some (dest, rest')
    | _ => none
  | _ => none

/-- Modelled from the spec: the extension link `[[name]]` at the head of the input: two
open brackets, the name up to two close brackets, without bracket or line feed inside.
The result is the name and the input after the close brackets. -/
def parseWikiName : Bytes → Option (Bytes × Bytes)
  | 91 :: 91 :: rest =>
    let name := rest.takeWhile (fun c => c ≠ 93 ∧ c ≠ 91 ∧ c ≠ 10)
    match rest.drop name.length with
    | 93 :: 93 :: rest' => some (name, rest')
    | _ => none
  | _ => none

/-- Modelled from the spec: the scan of section 4.2 on the fragment. A wiki link becomes
its node; any other `[` is pushed as a delimiter; on `]` the matching `[` is searched
backward and destination parsing is attempted, success collapsing the span into a link
node and failure demoting both brackets to literal text; a `]` without `[` and every
other byte are text. The first argument bounds the number of steps; the length of the
input suffices, since every step consumes at least one byte. -/
def parseInlinesLoop : Nat → Bytes → List Item → List Item
  | 0, _, items => items
  | _ + 1, [], items => items
  | fuel + 1, c :: rest, items =>
    if c = 91 then
      match parseWikiName (c :: rest) with
      | some (name, rest') => parseInlinesLoop fuel rest' (.node (.wikilink name) :: items)
      | none => parseInlinesLoop fuel rest (.openBracket :: items)
    else if c = 93 then
      match splitAtOpenBracket items with
      | none => parseInlinesLoop fuel rest (.node (.text [93]) :: items)
      | some (inner, below) =>
        match parseInlineDest rest with
        | some (dest, rest') =>
          parseInlinesLoop fuel rest' (.node (.link inner.reverse dest) :: below)
        | none =>
          parseInlinesLoop fuel rest
            (.node (.text [93]) :: (inner.map Item.node ++ .node (.text [91]) :: below))
    else parseInlinesLoop fuel rest (.node (.text [c]) :: items)

/-- Modelled from the spec: `parseInlines` of section 4.2 on the fragment; a `[` that
stays unmatched is literal text. -/
def parseInlines (textRun : Bytes) : List Inline :=
  (parseInlinesLoop textRun.length textRun []).reverse.map
    (fun item =>
      match item with
      | .node n => n
      | .openBracket => .text [91])

mutual
/-- Modelled from the spec: the HTML of an inline node, as section 8 gives it: a link is
`<a href="dest">text</a>` and a wiki link is `<a href="name" class="wikilink">name</a>`. -/
def inlineHTML : Inline → Bytes
  | .text tokens => tokens
  | .link text dest =>
    bytesOf "<a href=\"" ++ dest ++ bytesOf "\">" ++ inlinesHTML text ++ bytesOf "</a>"
  | .wikilink target =>
    bytesOf "<a href=\"" ++ target ++ bytesOf "\" class=\"wikilink\">" ++ target ++ bytesOf "</a>"
/-- Modelled from the spec: the HTML of a sequence of inline nodes. -/
def inlinesHTML : List Inline → Bytes
  | [] => []
  | n :: ns => inlineHTML n ++ inlinesHTML ns
end

/-- Modelled from the spec: `MarkdownStr(name, markdown)` on a text that is one
paragraph of one line: the inline nodes of the line, rendered to HTML inside `<p>` and
`</p>` and followed by a line feed, as the test `TestWikilink` expects it. -/
def MarkdownStr (_name : Bytes) (markdown : Bytes) : Bytes :=
  bytesOf "<p>" ++ inlinesHTML (parseInlines markdown) ++ bytesOf "</p>\n"

/-- A plain letter, `A` to `Z` or `a` to `z`. -/
def isLetter (c : Nat) : Bool := (65 ≤ c && c ≤ 90) || (97 ≤ c && c ≤ 122)

/-! ## Further definitions: what a handler writes -/

/-- The bytes that `tag` writes when tags are not switched off: `<`, the name, the
attributes as ` name="value"`, ` /` for a self-closing tag, and `>`. -/
def tagText (name : Bytes) (attrs : List (Bytes × Bytes)) (selfclosing : Bool) : Bytes :=
  bytesOf "<" ++ name ++
    (attrs.map (fun a => bytesOf " " ++ a.1 ++ bytesOf "=\"" ++ a.2 ++ bytesOf "\"")).flatten ++
    (if selfclosing then bytesOf " /" else []) ++ bytesOf ">"

/-- The bytes that `tag` writes for the given value of `DisableTags`. -/
def tagOut (disableTags : Int) (name : Bytes) (attrs : List (Bytes × Bytes))
    (selfclosing : Bool) : Bytes :=
  if disableTags > 0 then [] else tagText name attrs selfclosing

/-- The bytes that `Newline` writes for the given window: the separator, or nothing when
the window without its trailing closing tags ends with the opening part of it. -/
def newlineOut (lastOut : Bytes) : Bytes :=
  if HasSuffix (trimCloseSpans lastOut.length lastOut)
      (NewlineSV.take (NewlineSV.length - closeSpan.length * 2)) then []
  else NewlineSV

/-- From `r` to `r'` the bytes `out` were appended to the buffer of the writer, which is
an allocated buffer, and nothing else changed in the buffers, the writer, the stack and
the tag switch. -/
structure Emits (r r' : VditorSVRenderer) (out : Bytes) : Prop where
  alloc : r.Writer < r.buffers.length
  appends : Appends r r'
  bytes : bufBytes r' r.Writer = bufBytes r r.Writer ++ out

/-- The renderer `r'` has the `ListPadding` of `r`. -/
def SamePadding (r r' : VditorSVRenderer) : Prop := r'.ListPadding = r.ListPadding

/-- `ListsEntered env r0 ds r`: from `r0` a sequence of handler calls, made with any
nodes, led to `r`; the lists that were entered and not yet left have the list data
`ds`, the innermost first, and each list that was left was left by a call of
`renderList` on a node with the list data it was entered with. -/
inductive ListsEntered (env : Env) (r0 : VditorSVRenderer) :
    List ListData → VditorSVRenderer → Prop
  | start : ListsEntered env r0 [] r0
  | call (t : NodeType) (h : Env → VditorSVRenderer → Site → Bool → Option Result)
      (ds : List ListData) (r r' : VditorSVRenderer) (site site' : Site) (entering : Bool)
      (st : WalkStatus) :
      ListsEntered env r0 ds r → RendererFuncs t = some h → t ≠ .NodeList →
      h env r site entering = some (r', site', st) → ListsEntered env r0 ds r'
  | enter (d : ListData) (ds : List ListData) (r r' : VditorSVRenderer) (site site' : Site)
      (st : WalkStatus) :
      ListsEntered env r0 ds r → site.node.data.ListData = some d →
      renderList env r site true = some (r', site', st) → ListsEntered env r0 (d :: ds) r'
  | leave (d : ListData) (ds : List ListData) (r r' : VditorSVRenderer) (site site' : Site)
      (st : WalkStatus) :
      ListsEntered env r0 (d :: ds) r → site.node.data.ListData = some d →
      renderList env r site false = some (r', site', st) → ListsEntered env r0 ds r'

/-! ## Further sample inputs -/

/-- The tight bullet list at the top level, at its place in the tree. -/
def listSite : Site :=
  topLevel (.mk { plainData .NodeList [] with ListData := some bulletData } [])

/-- The renderer after `renderList` was entered on that list from a fresh renderer. -/
def listEnteredState : VditorSVRenderer :=
  tag { initialRenderer with ListPadding := initialRenderer.ListPadding + bulletData.Padding }
    (bytesOf "span")
    [attr "data-tight" "true", attr "data-type" "ul", (bytesOf "data-marker", bulletData.Marker),
      attr "data-block" "0"] false

/-- The closing bracket of the reference link `refLink`, at its place in the tree: after
the opening bracket and the link text, before the parenthesised destination. -/
def closeBracketSite : Site :=
  { node := leaf .NodeCloseBracket [],
    path := [{ parent := refLink.data,
               left := [leaf .NodeLinkText (bytesOf "foo"), leaf .NodeOpenBracket []],
               right := [leaf .NodeOpenParen [], leaf .NodeLinkDest (bytesOf "/url"),
                 leaf .NodeCloseParen []] },
             { parent := plainData .NodeDocument [], left := [], right := [] }] }

/-! ## Further definitions: the balance of the tags written -/

/-- Whether the bytes hold neither `<` nor `>`. -/
def plain (b : Bytes) : Bool := b.all (fun c => c != 60 && c != 62)

/-- Whether the names and the values of the attributes hold neither `<` nor `>`. -/
def plainAttrs (attrs : List (Bytes × Bytes)) : Bool :=
  attrs.all (fun a => plain a.1 && plain a.2)

/-- One tag of the output, given as the bytes between `<` and `>`, read with the names of
the tags that are open, the innermost first. A closing tag must name the innermost open
tag, which it closes; `none` says it does not. A tag that ends with `/` and the void
`br` open nothing. Any other tag opens its name, the bytes before the first space. -/
def scanTag (opened : List Bytes) (body : Bytes) : Option (List Bytes) :=
  if body.head? = some 47 then
    match opened with
    | top :: rest => if top = body.tail then some rest else none
    | [] => none
  else if body.getLast? = some 47 ∨ body.takeWhile (fun c => c != 32) = bytesOf "br" then
    some opened
  else some (body.takeWhile (fun c => c != 32) :: opened)

/-- One byte of the output, read with the open tags and, inside a tag, the bytes of the
tag read so far. Outside a tag `<` starts one and any other byte is text. Inside a tag
`>` ends it, `<` is an error, and any other byte belongs to the tag. -/
def scanByte (s : List Bytes × Option Bytes) (c : Nat) : Option (List Bytes × Option Bytes) :=
  match s.2 with
  | none => if c = 60 then some (s.1, some []) else some (s.1, none)
  | some body =>
    if c = 60 then none
    else if c = 62 then (scanTag s.1 body).map (fun opened => (opened, none))
    else some (s.1, some (body ++ [c]))

/-- The bytes of the output read from a state on; `none` when a closing tag does not
match or a tag holds `<`. -/
def scanTags (out : Bytes) (s : List Bytes × Option Bytes) :
    Option (List Bytes × Option Bytes) :=
  out.foldlM scanByte s

/-- The tags of `out` are balanced: read with no tag open, every closing tag matches the
innermost open tag, and at the end no tag is open or unfinished. -/
def Balanced (out : Bytes) : Prop := scanTags out ([], none) = some ([], none)

/-- The output `out` leaves one `span` open and is balanced otherwise. -/
def OpensSpan (out : Bytes) : Prop := scanTags out ([], none) = some ([bytesOf "span"], none)

/-- The output `out` closes one `span` that was open before it and is balanced
otherwise. -/
def ClosesSpan (out : Bytes) : Prop := scanTags out ([bytesOf "span"], none) = some ([], none)

/-- From `r` to `r'` bytes were appended to the buffer of the writer that, read with the
tags `opened` open, leave the tags `opened'` open. -/
def Scans (r r' : VditorSVRenderer) (opened opened' : List Bytes) : Prop :=
  ∃ out, Emits r r' out ∧ scanTags out (opened, none) = some (opened', none)

/-- What the handlers copy into the output from outside the node holds neither `<` nor
`>`: every result of `EscapeHTML`, the texts of the headings, the caret and the constant
`headingLevel`. -/
structure PlainContent (env : Env) : Prop where
  escaped : ∀ x : Bytes, plain (env.EscapeHTML x) = true
  headings : ∀ h ∈ env.headings, plain h.2 = true
  caret : plain env.Caret = true
  level : plain env.headingLevel = true

/-- The node types whose handler writes the node's own `Tokens` into the output as they
are, without `EscapeHTML`: the footnotes reference, the closing and the opening marker of
a code block, the emoji alias, the table, the title, the destination and the text of a
link, and the heading ID. -/
def copiesTokens : NodeType → Bool
  | .NodeFootnotesRef => true
  | .NodeCodeBlockFenceCloseMarker => true
  | .NodeCodeBlockFenceOpenMarker => true
  | .NodeEmojiAlias => true
  | .NodeTable => true
  | .NodeLinkTitle => true
  | .NodeLinkDest => true
  | .NodeLinkText => true
  | .NodeHeadingID => true
  | _ => false

/-- What the handler of a node of type `t` copies into the output from the node without
escaping holds neither `<` nor `>`: the tokens of the node when the handler writes them as
they are (`copiesTokens`), the code block info for the info marker, the reference label of
the parent for the closing bracket, and the marker and the delimiter of the list data for
a list and a list item. Of a handler that escapes what it copies nothing is asked. -/
structure PlainCopied (t : NodeType) (node : Site) : Prop where
  tokens : copiesTokens t = true → plain node.node.Tokens = true
  info : t = .NodeCodeBlockFenceInfoMarker → plain node.node.data.CodeBlockInfo = true
  label : t = .NodeCloseBracket →
    ∀ p : NodeData, node.Parent = some p → plain p.LinkRefLabel = true
  marker : t = .NodeList ∨ t = .NodeListItem →
    ∀ d : ListData, node.node.data.ListData = some d →
      plain d.Marker = true ∧ plain (stringOfByte d.Delimiter) = true

/-- From `r` to `r'` the children of a node ran and wrote `mid`: stack and writer are those
of `r`, the buffers that `r` holds other than the writer's are as they were, the tag
switch of `r'` is 0, and the writer's buffer gained `mid`. -/
structure ChildrenWrote (r r' : VditorSVRenderer) (mid : Bytes) : Prop where
  frame : Extends r r'
  tags : r'.DisableTags = 0
  bytes : bufBytes r' r.Writer = bufBytes r r.Writer ++ mid

/-- A sample escaping of one byte: `&`, `<`, `>` and `"` become entities. -/
def escapeByte (c : Nat) : Bytes :=
  if c = 38 then bytesOf "&amp;"
  else if c = 60 then bytesOf "&lt;"
  else if c = 62 then bytesOf "&gt;"
  else if c = 34 then bytesOf "&quot;"
  else [c]

/-- An environment like `plainEnv` whose escaping replaces `&`, `<`, `>` and `"` by
entities. -/
def escapingEnv : Env :=
  { plainEnv with EscapeHTML := fun x => x.flatMap escapeByte }

/-- The opening marker of a code span with one backtick, at its place in the tree: before
the content and the closing marker. -/
def codeSpanOpenSite : Site :=
  { node := leaf .NodeCodeSpanOpenMarker [],
    path := [{ parent := { plainData .NodeCodeSpan [] with CodeMarkerLen := 1 },
               left := [],
               right := [leaf .NodeCodeSpanContent (bytesOf "a"),
                 leaf .NodeCodeSpanCloseMarker []] },
             { parent := plainData .NodeParagraph [], left := [], right := [] },
             { parent := plainData .NodeDocument [], left := [], right := [] }] }

/-! ## The storage that `LastOut` shares with `NewlineSV`

`Newline` assigns the package-level slice `NewlineSV` itself to `LastOut` and cuts
`LastOut` by reslicing; an `append` to the shorter slice that fits into the storage of
`NewlineSV` writes into it. The definitions of this section follow that: the state holds
the bytes of `NewlineSV` and whether `LastOut` is a slice of its storage. The handlers
are the same statements as above over that state, and they read `NewlineSV` from it.

The capacity of the storage is taken to be its length, 75 bytes: an `append` that does
not fit into them allocates. A runtime may round the capacity up, to at most 80 bytes.
The spare bytes hold no complete `</span>`, so that a `LastOut` extending into them is
never cut back into the 75 bytes; in the states `Clean` and `Sound` below, and on the
call sequences `afterNewlinesAndX`, `enterBreaks` and `enterBreaksQuote`, which write at
most 5 bytes in place, the bytes written and the bytes of `NewlineSV` are the same with
either capacity. -/

namespace Shared

/-- The state of a `VditorSVRenderer` together with the package-level variable
`NewlineSV`: the bytes it holds now, and whether `LastOut` is a slice of its storage
that starts at its first byte. -/
structure Renderer extends VditorSVRenderer where
  NewlineSV : Bytes
  aliased : Bool

/-- What a handler returns: the renderer, the tree around the node and the status. -/
abbrev Result := Renderer × Site × WalkStatus

/-- The method `Bytes` of the buffer at `p`. -/
def bufBytes (r : Renderer) (p : Nat) : Bytes := r.buffers.getD p []

/-- The methods `Write` and `WriteString` of the buffer at `p`. -/
def bufWrite (r : Renderer) (p : Nat) (content : Bytes) : Renderer :=
  { r with buffers := r.buffers.set p (bufBytes r p ++ content) }

/-- The method `Reset` of the buffer at `p`. -/
def bufReset (r : Renderer) (p : Nat) : Renderer :=
  { r with buffers := r.buffers.set p [] }

/-- The expression `&bytes.Buffer{}`: a fresh empty buffer and its address. -/
def newBuffer (r : Renderer) : Renderer × Nat :=
  ({ r with buffers := r.buffers ++ [[]] }, r.buffers.length)

/-- The statement `r.LastOut = append(r.LastOut, content...)` and the cut that follows
it. When `LastOut` is a slice of the storage of `NewlineSV` and the content fits behind
it, the content is written into `NewlineSV` in place; otherwise `append` allocates and
`LastOut` shares nothing afterwards. -/
def appendLastOut (r : Renderer) (content : Bytes) : Renderer :=
  if r.aliased ∧ r.LastOut.length + content.length ≤ r.NewlineSV.length then
    { r with
      LastOut := Lute.appendLastOut r.LastOut content,
      NewlineSV := r.NewlineSV.take r.LastOut.length ++ content ++
        r.NewlineSV.drop (r.LastOut.length + content.length) }
  else
    { r with LastOut := Lute.appendLastOut r.LastOut content, aliased := false }

/-- The method `WriteByte`. -/
def WriteByte (r : Renderer) (c : Nat) : Renderer :=
  let r := bufWrite r r.Writer [c]
  appendLastOut r [c]

/-- The method `Write`. -/
def Write (r : Renderer) (content : Bytes) : Renderer :=
  if 0 < content.length then
    let r := bufWrite r r.Writer content
    appendLastOut r content
  else r

/-- The method `WriteString`. -/
def WriteString (r : Renderer) (content : Bytes) : Renderer :=
  if 0 < content.length then
    let r := bufWrite r r.Writer content
    appendLastOut r content
  else r

/-- The method `Newline`. The loop cuts `LastOut` by reslicing, so a `LastOut` that
shares the storage of `NewlineSV` goes on sharing it; the opening part and the bytes
written are those that `NewlineSV` holds now; `r.LastOut = NewlineSV` makes `LastOut`
the slice `NewlineSV` itself. -/
def Newline (r : Renderer) : Renderer :=
  let r := { r with LastOut := trimCloseSpans r.LastOut.length r.LastOut }
  let newline := r.NewlineSV.take (r.NewlineSV.length - closeSpan.length * 2)
  if !HasSuffix r.LastOut newline then
    let r := bufWrite r r.Writer r.NewlineSV
    { r with LastOut := r.NewlineSV, aliased := true }
  else r

/-- The method `tag`. -/
def tag (r : Renderer) (name : Bytes) (attrs : List (Bytes × Bytes))
    (selfclosing : Bool) : Renderer :=
  if r.DisableTags > 0 then r
  else
    let r := WriteString r (bytesOf "<")
    let r := WriteString r name
    let r :=
      if 0 < attrs.length then
        attrs.foldl
          (fun r attr =>
            WriteString r (bytesOf " " ++ attr.1 ++ bytesOf "=\"" ++ attr.2 ++ bytesOf "\"")) r
      else r
    let r := if selfclosing then WriteString r (bytesOf " /") else r
    WriteString r (bytesOf ">")

/-- The closing call `r.tag("/span", nil, false)`. -/
def tagCloseSpan (r : Renderer) : Renderer := tag r (bytesOf "/span") [] false

/-- The method `renderSpanNode`. -/
def renderSpanNode (r : Renderer) (node : Site) : Renderer :=
  let attrs : List (Bytes × Bytes) :=
    match node.node.data.Typ with
    | .NodeEmphasis => [attr "data-type" "em", attr "class" "em"]
    | .NodeStrong => [attr "data-type" "strong", attr "class" "strong"]
    | .NodeStrikethrough => [attr "data-type" "s", attr "class" "s"]
    | .NodeLink =>
      if 3 ≠ node.node.data.LinkType then [attr "data-type" "a"]
      else [attr "data-type" "link-ref"]
    | .NodeImage => [attr "data-type" "img"]
    | .NodeCodeSpan => [attr "data-type" "code"]
    | _ => [attr "data-type" "inline-node"]
  tag r (bytesOf "span") attrs false

/-- The method `renderListItemBlockPadding`. The padding goes to `r.Writer` directly,
not through `r.Write`. -/
def renderListItemBlockPadding (r : Renderer) (node : Site) : Option Renderer :=
  let inList := node.ParentIs .NodeListItem
  if !inList then some r
  else
    let inFirstListItem := node.isFirstChild
    if inFirstListItem then some r
    else
      match Repeat (bytesOf " ") r.ListPadding with
      | none => none
      | some spaces =>
        some (bufWrite r r.Writer
          (bytesOf "<span data-type=\"padding\">" ++ spaces ++ bytesOf "</span>"))

/-- The handler `renderHtmlEntity`. -/
def renderHtmlEntity (env : Env) (r : Renderer) (node : Site) (entering : Bool) :
    Option Result :=
  if entering then
    let r := renderSpanNode r node
    let r := tag r (bytesOf "span")
      [attr "class" "vditor-sv__marker--pre", attr "data-type" "html-entity"] false
    let r := Write r (env.EscapeHTML (env.EscapeHTML node.node.Tokens))
    let r := tagCloseSpan r
    some (r, node, .WalkStop)
  else
    let r := tagCloseSpan r
    some (r, node, .WalkStop)

/-- The handler `renderBackslashContent`. -/
def renderBackslashContent (env : Env) (r : Renderer) (node : Site) (_entering : Bool) :
    Option Result :=
  let r := Write r (env.EscapeHTML node.node.Tokens)
  some (r, node, .WalkStop)

/-- The handler `renderBackslash`. -/
def renderBackslash (_env : Env) (r : Renderer) (node : Site) (entering : Bool) :
    Option Result :=
  if entering then
    let r := WriteString r (bytesOf "<span data-type=\"backslash\">")
    let r := WriteString r (bytesOf "<span class=\"vditor-sv__marker\">")
    let r := WriteByte r ItemBackslash
    let r := WriteString r (bytesOf "</span>")
    some (r, node, .WalkContinue)
  else
    let r := WriteString r (bytesOf "</span>")
    some (r, node, .WalkContinue)

/-- The handler `renderToC`. -/
def renderToC (env : Env) (r : Renderer) (node : Site) (_entering : Bool) :
    Option Result := do
  let headings := env.headings
  let length := headings.length
  let r := WriteString r (bytesOf
    "<span class=\"vditor-toc\" data-block=\"0\" data-type=\"toc-block\" contenteditable=\"false\">")
  let r ←
    if 0 < length then
      headings.foldlM
        (fun r heading => do
          let spaces := (heading.1 - 1) * 2
          let r := WriteString r (← Repeat (bytesOf "&emsp;") spaces)
          let r := WriteString r (bytesOf "<span data-type=\"toc-h\">")
          pure (WriteString r (heading.2 ++ bytesOf "</span><br>"))) r
    else some (WriteString r (bytesOf "[toc]"))
  let r := Newline r
  let r := WriteString r (bytesOf "</span>")
  let caretInDest := decide (env.CaretTokens <:+: node.node.Tokens)
  let r := WriteString r (bytesOf "<span data-type=\"p\" data-block=\"0\">")
  let r := if caretInDest then WriteString r env.Caret else r
  let r := WriteString r (bytesOf "</span>")
  pure (r, node, .WalkStop)

/-- The handler `renderFootnotesDef`. -/
def renderFootnotesDef (_env : Env) (r : Renderer) (node : Site) (_entering : Bool) :
    Option Result :=
  if !r.needRenderFootnotesDef then some (r, node, .WalkStop)
  else some (r, node, .WalkContinue)

/-- The handler `renderFootnotesRef`. The text of the previous node and the attributes
it computes are not written; `def.Text()` on a nil definition is a nil dereference. -/
def renderFootnotesRef (env : Env) (r : Renderer) (node : Site) (_entering : Bool) :
    Option Result :=
  match env.FindFootnotesDef node.node.Tokens with
  | none => none
  | some _ =>
    let r := tag r (bytesOf "span") [attr "class" "sup"] false
    let r := tag r (bytesOf "span") [attr "class" "vditor-sv__marker--bracket"] false
    let r := WriteByte r ItemOpenBracket
    let r := tagCloseSpan r
    let r := tag r (bytesOf "span") [attr "class" "vditor-sv__marker--link"] false
    let r := Write r node.node.Tokens
    let r := tagCloseSpan r
    let r := tag r (bytesOf "span") [attr "class" "vditor-sv__marker--bracket"] false
    let r := WriteByte r ItemCloseBracket
    let r := tagCloseSpan r
    let r := tagCloseSpan r
    some (r, node, .WalkStop)

/-- The handler `renderCodeBlockCloseMarker`. -/
def renderCodeBlockCloseMarker (_env : Env) (r : Renderer) (node : Site)
    (_entering : Bool) : Option Result :=
  let r := Newline r
  let r := tag r (bytesOf "span")
    [attr "data-type" "code-block-close-marker", attr "class" "vditor-sv__marker"] false
  let r := Write r node.node.Tokens
  let r := tagCloseSpan r
  let r := Newline r
  let r := Write r r.NewlineSV
  some (r, node, .WalkStop)

/-- The handler `renderCodeBlockInfoMarker`. -/
def renderCodeBlockInfoMarker (_env : Env) (r : Renderer) (node : Site)
    (_entering : Bool) : Option Result :=
  let r := tag r (bytesOf "span")
    [attr "class" "vditor-sv__marker--info", attr "data-type" "code-block-info"] false
  let r := Write r node.node.data.CodeBlockInfo
  let r := tagCloseSpan r
  let r := Newline r
  some (r, node, .WalkStop)

/-- The handler `renderCodeBlockOpenMarker`. -/
def renderCodeBlockOpenMarker (_env : Env) (r : Renderer) (node : Site)
    (_entering : Bool) : Option Result :=
  let r := tag r (bytesOf "span")
    [attr "data-type" "code-block-open-marker", attr "class" "vditor-sv__marker"] false
  let r := Write r node.node.Tokens
  let r := tagCloseSpan r
  some (r, node, .WalkStop)

/-- The handler `renderCodeBlock`. -/
def renderCodeBlock (_env : Env) (r : Renderer) (node : Site) (entering : Bool) :
    Option Result := do
  if entering then
    let r ← renderListItemBlockPadding r node
    let r := tag r (bytesOf "span") [attr "data-block" "0", attr "data-type" "code-block"] false
    if !node.node.data.IsFencedCodeBlock then
      let r := tag r (bytesOf "span")
        [attr "data-type" "code-block-open-marker", attr "class" "vditor-sv__marker"] false
      let r := WriteString r (bytesOf "```")
      let r := tagCloseSpan r
      let r := Newline r
      pure (r, node, .WalkContinue)
    else pure (r, node, .WalkContinue)
  else
    if !node.node.data.IsFencedCodeBlock then
      let r := Newline r
      let r := tag r (bytesOf "span")
        [attr "class" "vditor-sv__marker--info", attr "data-type" "code-block-info"] false
      let r := WriteString r (bytesOf "```")
      let r := tagCloseSpan r
      let r := Newline r
      let r := WriteString r (bytesOf "</span>")
      pure (r, node, .WalkContinue)
    else
      let r := WriteString r (bytesOf "</span>")
      pure (r, node, .WalkContinue)

/-- The handler `renderCodeBlockCode`. -/
def renderCodeBlockCode (env : Env) (r : Renderer) (node : Site) (_entering : Bool) :
    Option Result :=
  let r := WriteString r (bytesOf "<span>")
  let r := Write r (env.EscapeHTML (env.TrimSpace node.node.Tokens))
  let r := WriteString r (bytesOf "</span>")
  some (r, node, .WalkStop)

/-- The handler `renderEmojiAlias`. -/
def renderEmojiAlias (_env : Env) (r : Renderer) (node : Site) (_entering : Bool) :
    Option Result :=
  let r := Write r node.node.Tokens
  some (r, node, .WalkStop)

/-- A handler that only returns `WalkContinue`. -/
def renderContinue (r : Renderer) (node : Site) : Option Result :=
  some (r, node, .WalkContinue)

/-- The handler `renderEmojiImg`. -/
def renderEmojiImg (_env : Env) (r : Renderer) (node : Site) (_entering : Bool) :
    Option Result := renderContinue r node

/-- The handler `renderEmojiUnicode`. -/
def renderEmojiUnicode (_env : Env) (r : Renderer) (node : Site) (_entering : Bool) :
    Option Result := renderContinue r node

/-- The handler `renderEmoji`. -/
def renderEmoji (_env : Env) (r : Renderer) (node : Site) (_entering : Bool) :
    Option Result := renderContinue r node

/-- The handlers that write one marker span and stop: `tag` with the given class, the
marker text through `WriteString` or `WriteByte`, the closing tag. -/
def renderMarker (cls : String) (write : Renderer → Renderer)
    (r : Renderer) (node : Site) : Option Result :=
  let r := tag r (bytesOf "span") [attr "class" cls] false
  let r := write r
  let r := tagCloseSpan r
  some (r, node, .WalkStop)

/-- The handler `renderInlineMathCloseMarker`. -/
def renderInlineMathCloseMarker (_env : Env) (r : Renderer) (node : Site)
    (_entering : Bool) : Option Result :=
  renderMarker "vditor-sv__marker" (fun r => WriteByte r ItemDollar) r node

/-- The handler `renderInlineMathContent`. -/
def renderInlineMathContent (env : Env) (r : Renderer) (node : Site)
    (_entering : Bool) : Option Result :=
  let tokens := env.EscapeHTML node.node.Tokens
  let r := Write r tokens
  let r := tag r (bytesOf "/code") [] false
  some (r, node, .WalkStop)

/-- The handler `renderInlineMathOpenMarker`. -/
def renderInlineMathOpenMarker (_env : Env) (r : Renderer) (node : Site)
    (_entering : Bool) : Option Result :=
  renderMarker "vditor-sv__marker" (fun r => WriteByte r ItemDollar) r node

/-- A handler that calls `renderSpanNode` on entering and writes the closing tag on
exit, returning `WalkContinue`. -/
def renderSpan (r : Renderer) (node : Site) (entering : Bool) : Option Result :=
  if entering then some (renderSpanNode r node, node, .WalkContinue)
  else some (tagCloseSpan r, node, .WalkContinue)

/-- The handler `renderInlineMath`. -/
def renderInlineMath (_env : Env) (r : Renderer) (node : Site) (entering : Bool) :
    Option Result := renderSpan r node entering

/-- The handler `renderMathBlockCloseMarker`. -/
def renderMathBlockCloseMarker (_env : Env) (r : Renderer) (node : Site)
    (_entering : Bool) : Option Result :=
  let r := Newline r
  let r := tag r (bytesOf "span")
    [attr "data-type" "math-block-close-marker", attr "class" "vditor-sv__marker"] false
  let r := WriteString r (bytesOf "$$")
  let r := tagCloseSpan r
  let r := Newline r
  let r := Write r r.NewlineSV
  some (r, node, .WalkStop)

/-- The handler `renderMathBlockContent`. -/
def renderMathBlockContent (env : Env) (r : Renderer) (node : Site)
    (_entering : Bool) : Option Result :=
  let r := WriteString r (bytesOf "<span>")
  let r := Write r (env.EscapeHTML (env.TrimSpace node.node.Tokens))
  let r := WriteString r (bytesOf "</span>")
  some (r, node, .WalkStop)

/-- The handler `renderMathBlockOpenMarker`. -/
def renderMathBlockOpenMarker (_env : Env) (r : Renderer) (node : Site)
    (_entering : Bool) : Option Result :=
  let r := tag r (bytesOf "span")
    [attr "data-type" "math-block-open-marker", attr "class" "vditor-sv__marker"] false
  let r := WriteString r (bytesOf "$$")
  let r := tagCloseSpan r
  let r := Newline r
  some (r, node, .WalkStop)

/-- The handler `renderMathBlock`. -/
def renderMathBlock (_env : Env) (r : Renderer) (node : Site) (entering : Bool) :
    Option Result := do
  if entering then
    let r ← renderListItemBlockPadding r node
    let r := tag r (bytesOf "span") [attr "data-block" "0", attr "data-type" "math-block"] false
    pure (r, node, .WalkContinue)
  else
    let r := WriteString r (bytesOf "</span>")
    pure (r, node, .WalkContinue)

/-- The handler `renderTableCell`. -/
def renderTableCell (_env : Env) (r : Renderer) (node : Site) (_entering : Bool) :
    Option Result := renderContinue r node

/-- The handler `renderTableRow`. -/
def renderTableRow (_env : Env) (r : Renderer) (node : Site) (_entering : Bool) :
    Option Result := renderContinue r node

/-- The handler `renderTableHead`. -/
def renderTableHead (_env : Env) (r : Renderer) (node : Site) (_entering : Bool) :
    Option Result := renderContinue r node

/-- The handler `renderTable`. -/
def renderTable (_env : Env) (r : Renderer) (node : Site) (_entering : Bool) :
    Option Result := do
  let r ← renderListItemBlockPadding r node
  let r := tag r (bytesOf "span") [attr "data-block" "0", attr "data-type" "table"] false
  let r := Write r node.node.Tokens
  let r := Newline r
  let r := Write r r.NewlineSV
  let r := tagCloseSpan r
  pure (r, node, .WalkStop)

/-- The handler `renderStrikethrough`. -/
def renderStrikethrough (_env : Env) (r : Renderer) (node : Site) (entering : Bool) :
    Option Result := renderSpan r node entering

/-- The handler `renderStrikethrough1OpenMarker`. -/
def renderStrikethrough1OpenMarker (_env : Env) (r : Renderer) (node : Site)
    (_entering : Bool) : Option Result :=
  renderMarker "vditor-sv__marker" (fun r => WriteString r (bytesOf "~")) r node

/-- The handler `renderStrikethrough1CloseMarker`. -/
def renderStrikethrough1CloseMarker (_env : Env) (r : Renderer) (node : Site)
    (_entering : Bool) : Option Result :=
  renderMarker "vditor-sv__marker" (fun r => WriteString r (bytesOf "~")) r node

/-- The handler `renderStrikethrough2OpenMarker`. -/
def renderStrikethrough2OpenMarker (_env : Env) (r : Renderer) (node : Site)
    (_entering : Bool) : Option Result :=
  renderMarker "vditor-sv__marker" (fun r => WriteString r (bytesOf "~~")) r node

/-- The handler `renderStrikethrough2CloseMarker`. -/
def renderStrikethrough2CloseMarker (_env : Env) (r : Renderer) (node : Site)
    (_entering : Bool) : Option Result :=
  renderMarker "vditor-sv__marker" (fun r => WriteString r (bytesOf "~~")) r node

/-- The handler `renderLinkTitle`. -/
def renderLinkTitle (_env : Env) (r : Renderer) (node : Site) (_entering : Bool) :
    Option Result :=
  let r := tag r (bytesOf "span") [attr "class" "vditor-sv__marker--title"] false
  let r := WriteByte r ItemDoublequote
  let r := Write r node.node.Tokens
  let r := WriteByte r ItemDoublequote
  let r := tagCloseSpan r
  some (r, node, .WalkStop)

/-- The handler `renderLinkDest`. -/
def renderLinkDest (_env : Env) (r : Renderer) (node : Site) (_entering : Bool) :
    Option Result :=
  renderMarker "vditor-sv__marker--link" (fun r => Write r node.node.Tokens) r node

/-- The handler `renderLinkSpace`. -/
def renderLinkSpace (_env : Env) (r : Renderer) (node : Site) (_entering : Bool) :
    Option Result :=
  let r := WriteByte r ItemSpace
  some (r, node, .WalkStop)

/-- The handler `renderLinkText`. Reading `node.Parent.Type` on a nil parent is a nil
dereference. -/
def renderLinkText (_env : Env) (r : Renderer) (node : Site) (_entering : Bool) :
    Option Result :=
  match node.Parent with
  | none => none
  | some parent =>
    let r :=
      if NodeType.NodeImage = parent.Typ then
        tag r (bytesOf "span") [attr "class" "vditor-sv__marker--bracket"] false
      else if 3 = parent.LinkType then
        tag r (bytesOf "span") [] false
      else
        tag r (bytesOf "span")
          [attr "class" "vditor-sv__marker--bracket", attr "data-type" "link-text"] false
    let r := Write r node.node.Tokens
    let r := tagCloseSpan r
    some (r, node, .WalkStop)

/-- The handler `renderCloseParen`. -/
def renderCloseParen (_env : Env) (r : Renderer) (node : Site) (_entering : Bool) :
    Option Result :=
  renderMarker "vditor-sv__marker--paren" (fun r => WriteByte r ItemCloseParen) r node

/-- The handler `renderOpenParen`. -/
def renderOpenParen (_env : Env) (r : Renderer) (node : Site) (_entering : Bool) :
    Option Result :=
  renderMarker "vditor-sv__marker--paren" (fun r => WriteByte r ItemOpenParen) r node

/-- The handler `renderCloseBracket`. Reading a field of a nil `node.Parent`, or the
`Tokens` of a nil link text, is a nil dereference. -/
def renderCloseBracket (env : Env) (r : Renderer) (node : Site) (_entering : Bool) :
    Option Result :=
  let r := tag r (bytesOf "span") [attr "class" "vditor-sv__marker--bracket"] false
  let r := WriteByte r ItemCloseBracket
  let r := tagCloseSpan r
  match node.Parent with
  | none => none
  | some parent =>
    if 3 = parent.LinkType then
      match ChildByType node.siblings .NodeLinkText with
      | none => none
      | some linkText =>
        if !env.EqualFold parent.LinkRefLabel linkText.Tokens then
          let r := tag r (bytesOf "span") [attr "class" "vditor-sv__marker--link"] false
          let r := WriteByte r ItemOpenBracket
          let r := Write r parent.LinkRefLabel
          let r := WriteByte r ItemCloseBracket
          let r := tagCloseSpan r
          some (r, node, .WalkStop)
        else some (r, node, .WalkStop)
    else some (r, node, .WalkStop)

/-- The handler `renderOpenBracket`. -/
def renderOpenBracket (_env : Env) (r : Renderer) (node : Site) (_entering : Bool) :
    Option Result :=
  renderMarker "vditor-sv__marker--bracket" (fun r => WriteByte r ItemOpenBracket) r node

/-- The handler `renderBang`. -/
def renderBang (_env : Env) (r : Renderer) (node : Site) (_entering : Bool) :
    Option Result :=
  renderMarker "vditor-sv__marker" (fun r => WriteByte r ItemBang) r node

/-- The handler `renderImage`. -/
def renderImage (_env : Env) (r : Renderer) (node : Site) (entering : Bool) :
    Option Result :=
  if entering then
    some (tag r (bytesOf "span") [attr "data-type" "image"] false, node, .WalkContinue)
  else some (tagCloseSpan r, node, .WalkContinue)

/-- The handler `renderLink`. -/
def renderLink (_env : Env) (r : Renderer) (node : Site) (entering : Bool) :
    Option Result := do
  if entering then
    let node ←
      if 3 = node.node.data.LinkType then do
        let children ← unlinkLinkDest node.node.children
        pure { node with node := Node.mk node.node.data children }
      else pure node
    let r := renderSpanNode r node
    pure (r, node, .WalkContinue)
  else
    pure (tagCloseSpan r, node, .WalkContinue)

/-- The handler `renderHTML`. -/
def renderHTML (env : Env) (r : Renderer) (node : Site) (_entering : Bool) :
    Option Result := do
  let r ← renderListItemBlockPadding r node
  let r := tag r (bytesOf "span")
    [attr "data-type" "html-block", attr "class" "vditor-sv__marker"] false
  let r := tag r (bytesOf "span") [attr "class" "vditor-sv__marker"] false
  let tokens := env.TrimSpace node.node.Tokens
  let r := Write r (env.EscapeHTML tokens)
  let r := WriteString r (bytesOf "</span>")
  let r := Newline r
  let r := Write r r.NewlineSV
  let r := WriteString r (bytesOf "</span>")
  pure (r, node, .WalkStop)

/-- The handler `renderInlineHTML`. -/
def renderInlineHTML (env : Env) (r : Renderer) (node : Site) (_entering : Bool) :
    Option Result :=
  let r := renderSpanNode r node
  let r := tag r (bytesOf "span") [attr "class" "vditor-sv__marker"] false
  let r := Write r (env.EscapeHTML node.node.Tokens)
  let r := tagCloseSpan r
  let r := tagCloseSpan r
  some (r, node, .WalkStop)

/-- The top of the buffer stack, `r.nodeWriterStack[len(r.nodeWriterStack)-1]`; `none`
is the index-out-of-range panic on an empty stack. -/
def stackTop (r : Renderer) : Option Nat := r.nodeWriterStack.getLast?

/-- The pop `r.nodeWriterStack = r.nodeWriterStack[:len(r.nodeWriterStack)-1]`; `none`
is the slice-bounds panic on an empty stack. -/
def stackPop (r : Renderer) : Option Renderer :=
  if r.nodeWriterStack.isEmpty then none
  else some { r with nodeWriterStack := r.nodeWriterStack.dropLast }

/-- The two statements that enter a container: `r.Writer = &bytes.Buffer{}` and
`r.nodeWriterStack = append(r.nodeWriterStack, r.Writer)`. -/
def pushWriter (r : Renderer) : Renderer :=
  let (r, w) := newBuffer r
  let r := { r with Writer := w }
  { r with nodeWriterStack := r.nodeWriterStack ++ [r.Writer] }

/-- The three statements `buf = r.Writer.Bytes()`, `r.Writer.Reset()`, `r.Write(buf)`. -/
def rewriteWriter (r : Renderer) : Renderer :=
  let buf := bufBytes r r.Writer
  let r := bufReset r r.Writer
  Write r buf

/-- The handler `renderDocument`. On exit `buf` is a slice of the buffer that is then
reset and written to: the buffer receives the trimmed bytes, which the copy moves to its
start, and the `append` to `LastOut` that follows reads `buf` from the storage as the
copy left it, that is from behind the leading bytes that were trimmed. -/
def renderDocument (_env : Env) (r : Renderer) (node : Site) (entering : Bool) :
    Option Result := do
  if entering then
    pure (pushWriter r, node, .WalkContinue)
  else
    let r ← stackPop r
    let stored := bufBytes r r.Writer
    let lead := (stored.takeWhile (fun c => (bytesOf " \t\n").contains c)).length
    let buf := Trim stored (bytesOf " \t\n")
    let r := bufReset r r.Writer
    let r :=
      if 0 < buf.length then
        let r := bufWrite r r.Writer buf
        appendLastOut r (((buf ++ stored.drop buf.length).drop lead).take buf.length)
      else r
    pure (r, node, .WalkContinue)

/-- The handler `renderParagraph`. On exit `node.Parent.Parent` is read, a nil
dereference when `node.Parent` is nil; so is `grandparent.Tight` on a list without
list data. -/
def renderParagraph (_env : Env) (r : Renderer) (node : Site) (entering : Bool) :
    Option Result := do
  if entering then
    let r ← renderListItemBlockPadding r node
    let r := tag r (bytesOf "span") [attr "data-type" "p", attr "data-block" "0"] false
    pure (r, node, .WalkContinue)
  else
    let r := Newline r
    let _ ← node.Parent
    let grandparent := node.Grandparent
    let inTightList ←
      match grandparent with
      | none => some false
      | some g =>
        if NodeType.NodeList = g.Typ then g.ListData.map (fun d => d.Tight) else some false
    let r := if !inTightList then Write r r.NewlineSV else r
    let r := tagCloseSpan r
    pure (r, node, .WalkContinue)

/-- The handler `renderText`. -/
def renderText (env : Env) (r : Renderer) (node : Site) (_entering : Bool) :
    Option Result :=
  let node := if r.Option.AutoSpace then env.Space node else node
  let node := if r.Option.FixTermTypo then env.FixTermTypo node else node
  let node := if r.Option.ChinesePunct then env.ChinesePunct node else node
  let r := tag r (bytesOf "span") [attr "data-type" "text"] false
  let node := node.setTokens (TrimRight node.node.Tokens (bytesOf "\n"))
  let r := Write r (env.EscapeHTML node.node.Tokens)
  let r := tagCloseSpan r
  some (r, node, .WalkStop)

/-- The handler `renderCodeSpan`. -/
def renderCodeSpan (_env : Env) (r : Renderer) (node : Site) (entering : Bool) :
    Option Result := renderSpan r node entering

/-- The handler `renderCodeSpanOpenMarker`. A nil `node.Parent` or `node.Next` is a nil
dereference. -/
def renderCodeSpanOpenMarker (_env : Env) (r : Renderer) (node : Site)
    (_entering : Bool) : Option Result := do
  let r := tag r (bytesOf "span") [attr "class" "vditor-sv__marker"] false
  let parent ← node.Parent
  let r := WriteString r (← Repeat (bytesOf "`") parent.CodeMarkerLen)
  let next ← node.Next
  let r := if HasPrefix next.Tokens (bytesOf "`") then WriteByte r ItemSpace else r
  let r := tagCloseSpan r
  let r := tag r (bytesOf "span") [] false
  pure (r, node, .WalkStop)

/-- The handler `renderCodeSpanContent`. -/
def renderCodeSpanContent (env : Env) (r : Renderer) (node : Site)
    (_entering : Bool) : Option Result :=
  let r := Write r (env.EscapeHTML node.node.Tokens)
  some (r, node, .WalkStop)

/-- The handler `renderCodeSpanCloseMarker`. A nil `node.Previous` or `node.Parent` is a
nil dereference. -/
def renderCodeSpanCloseMarker (_env : Env) (r : Renderer) (node : Site)
    (_entering : Bool) : Option Result := do
  let r := tagCloseSpan r
  let r := tag r (bytesOf "span") [attr "class" "vditor-sv__marker"] false
  let previous ← node.Previous
  let r := if HasSuffix previous.Tokens (bytesOf "`") then WriteByte r ItemSpace else r
  let parent ← node.Parent
  let r := WriteString r (← Repeat (bytesOf "`") parent.CodeMarkerLen)
  let r := tagCloseSpan r
  pure (r, node, .WalkStop)

/-- The handler `renderEmphasis`. -/
def renderEmphasis (_env : Env) (r : Renderer) (node : Site) (entering : Bool) :
    Option Result := renderSpan r node entering

/-- The handler `renderEmAsteriskOpenMarker`. -/
def renderEmAsteriskOpenMarker (_env : Env) (r : Renderer) (node : Site)
    (_entering : Bool) : Option Result :=
  renderMarker "vditor-sv__marker--bi" (fun r => WriteByte r ItemAsterisk) r node

/-- The handler `renderEmAsteriskCloseMarker`. -/
def renderEmAsteriskCloseMarker (_env : Env) (r : Renderer) (node : Site)
    (_entering : Bool) : Option Result :=
  renderMarker "vditor-sv__marker--bi" (fun r => WriteByte r ItemAsterisk) r node

/-- The handler `renderEmUnderscoreOpenMarker`. -/
def renderEmUnderscoreOpenMarker (_env : Env) (r : Renderer) (node : Site)
    (_entering : Bool) : Option Result :=
  renderMarker "vditor-sv__marker--bi" (fun r => WriteByte r ItemUnderscore) r node

/-- The handler `renderEmUnderscoreCloseMarker`. -/
def renderEmUnderscoreCloseMarker (_env : Env) (r : Renderer) (node : Site)
    (_entering : Bool) : Option Result :=
  renderMarker "vditor-sv__marker--bi" (fun r => WriteByte r ItemUnderscore) r node

/-- The handler `renderStrong`. -/
def renderStrong (_env : Env) (r : Renderer) (node : Site) (entering : Bool) :
    Option Result := renderSpan r node entering

/-- The handler `renderStrongA6kOpenMarker`. -/
def renderStrongA6kOpenMarker (_env : Env) (r : Renderer) (node : Site)
    (_entering : Bool) : Option Result :=
  renderMarker "vditor-sv__marker--bi" (fun r => WriteString r (bytesOf "**")) r node

/-- The handler `renderStrongA6kCloseMarker`. -/
def renderStrongA6kCloseMarker (_env : Env) (r : Renderer) (node : Site)
    (_entering : Bool) : Option Result :=
  renderMarker "vditor-sv__marker--bi" (fun r => WriteString r (bytesOf "**")) r node

/-- The handler `renderStrongU8eOpenMarker`. -/
def renderStrongU8eOpenMarker (_env : Env) (r : Renderer) (node : Site)
    (_entering : Bool) : Option Result :=
  renderMarker "vditor-sv__marker--bi" (fun r => WriteString r (bytesOf "__")) r node

/-- The handler `renderStrongU8eCloseMarker`. -/
def renderStrongU8eCloseMarker (_env : Env) (r : Renderer) (node : Site)
    (_entering : Bool) : Option Result :=
  renderMarker "vditor-sv__marker--bi" (fun r => WriteString r (bytesOf "__")) r node

/-- The loop that `renderBlockquote` and `renderListItem` run on exit: while the buffer
ends with `NewlineSV` followed by `</span>`, that suffix is replaced by `</span>`. `sentinel` is what `NewlineSV` holds when the
loop runs. The second argument bounds the number of iterations; the length of the buffer suffices. -/
def trimNewlines (sentinel : Bytes) : Nat → Bytes → Bytes
  | 0, buf => buf
  | n + 1, buf =>
    if HasSuffix buf (sentinel ++ closeSpan) then
      trimNewlines sentinel n (TrimSuffix buf (sentinel ++ closeSpan) ++ closeSpan)
    else buf

/-- The handler `renderBlockquote`. -/
def renderBlockquote (_env : Env) (r : Renderer) (node : Site) (entering : Bool) :
    Option Result := do
  if entering then
    pure (pushWriter r, node, .WalkContinue)
  else
    let r ← renderListItemBlockPadding r node
    let writer ← stackTop r
    let r ← stackPop r
    let buf := bufBytes r writer
    let buf := trimNewlines r.NewlineSV buf.length buf
    let marker := blockquoteMarker
    let buf := marker ++ buf
    let buf := ReplaceAll buf r.NewlineSV (r.NewlineSV ++ blockquoteMarker)
    let r := bufReset r writer
    let r := bufWrite r writer blockquoteOpen
    let r := bufWrite r writer buf
    let parent ← stackTop r
    let r := bufWrite r parent (bufBytes r writer)
    let r := { r with Writer := parent }
    let r := rewriteWriter r
    let r := Newline r
    let r := Write r r.NewlineSV
    let r := WriteString r (bytesOf "</span>")
    pure (r, node, .WalkContinue)

/-- The handler `renderBlockquoteMarker`. -/
def renderBlockquoteMarker (_env : Env) (r : Renderer) (node : Site)
    (_entering : Bool) : Option Result :=
  some (r, node, .WalkStop)

/-- The handler `renderHeading`. Reading `node.Parent.Type` on a nil parent is a nil
dereference. -/
def renderHeading (env : Env) (r : Renderer) (node : Site) (entering : Bool) :
    Option Result := do
  let parent ← node.Parent
  let rootParent := decide (NodeType.NodeDocument = parent.Typ)
  let level := node.node.data.HeadingLevel
  if entering then
    let r ← renderListItemBlockPadding r node
    let r ←
      if rootParent then do
        let r := tag r (bytesOf "span") [attr "data-block" "0", attr "data-type" "heading"] false
        let h ← sliceBytes env.headingLevel level (level + 1)
        pure (tag r (bytesOf "span") [(bytesOf "class", bytesOf "h" ++ h)] false)
      else pure r
    let r := tag r (bytesOf "span")
      [attr "class" "vditor-sv__marker--heading", attr "data-type" "heading-marker"] false
    let r := WriteString r ((← Repeat (bytesOf "#") level) ++ bytesOf " ")
    let r := tagCloseSpan r
    pure (r, node, .WalkContinue)
  else
    let r := if rootParent then tagCloseSpan r else r
    let r := Write r r.NewlineSV
    let r := Write r r.NewlineSV
    let r := if rootParent then WriteString r (bytesOf "</span>") else r
    pure (r, node, .WalkContinue)

/-- The handler `renderHeadingC8hMarker`. -/
def renderHeadingC8hMarker (_env : Env) (r : Renderer) (node : Site)
    (_entering : Bool) : Option Result :=
  some (r, node, .WalkStop)

/-- The handler `renderHeadingID`. -/
def renderHeadingID (_env : Env) (r : Renderer) (node : Site) (_entering : Bool) :
    Option Result :=
  renderMarker "vditor-sv__marker"
    (fun r => WriteString r (bytesOf " \x7b" ++ node.node.Tokens ++ bytesOf "\x7d")) r node

/-- The handler `renderList`. The fields of the list data are read through the node, a
nil dereference when the node has none. -/
def renderList (_env : Env) (r : Renderer) (node : Site) (entering : Bool) :
    Option Result := do
  let d ← node.node.data.ListData
  if entering then
    let r := { r with ListPadding := r.ListPadding + d.Padding }
    let attrs : List (Bytes × Bytes) := []
    let attrs := if d.Tight then attrs ++ [attr "data-tight" "true"] else attrs
    let attrs :=
      if 0 = d.BulletChar then
        if 1 ≠ d.Start then attrs ++ [(bytesOf "start", Itoa d.Start)] else attrs
      else attrs
    let attrs :=
      if d.Typ = 0 then
        attrs ++ [attr "data-type" "ul"] ++ [(bytesOf "data-marker", d.Marker)]
      else if d.Typ = 1 then
        attrs ++ [attr "data-type" "ol"] ++
          [(bytesOf "data-marker", Itoa d.Num ++ stringOfByte d.Delimiter)]
      else if d.Typ = 3 then
        let attrs := attrs ++ [attr "data-type" "task"]
        if 0 = d.BulletChar then
          attrs ++ [(bytesOf "data-marker", Itoa d.Num ++ stringOfByte d.Delimiter)]
        else attrs ++ [(bytesOf "data-marker", d.Marker)]
      else attrs
    let attrs := attrs ++ [attr "data-block" "0"]
    let r := tag r (bytesOf "span") attrs false
    pure (r, node, .WalkContinue)
  else
    let r := Write r r.NewlineSV
    let r := tagCloseSpan r
    let r := { r with ListPadding := r.ListPadding - d.Padding }
    pure (r, node, .WalkContinue)

/-- The handler `renderListItem`. -/
def renderListItem (_env : Env) (r : Renderer) (node : Site) (entering : Bool) :
    Option Result := do
  if entering then
    pure (pushWriter r, node, .WalkContinue)
  else
    let writer ← stackTop r
    let r ← stackPop r
    let buf := bufBytes r writer
    let buf := trimNewlines r.NewlineSV buf.length buf
    let d ← node.node.data.ListData
    let li ← listItemOpen r.ListPadding d
    let buf := li ++ buf
    let r := bufReset r writer
    let r := bufWrite r writer buf
    let parent ← stackTop r
    let r := bufWrite r parent buf
    let r := { r with Writer := parent }
    let r := rewriteWriter r
    let r := Newline r
    let r := tagCloseSpan r
    pure (r, node, .WalkContinue)

/-- The marker span of `renderTaskListItemMarker`. -/
def taskMarker (cls : String) (write : Renderer → Renderer)
    (r : Renderer) : Renderer :=
  let r := tag r (bytesOf "span") [attr "data-type" "task-marker", attr "class" cls] false
  let r := write r
  tagCloseSpan r

/-- The handler `renderTaskListItemMarker`. A nil `node.Next` is a nil dereference. -/
def renderTaskListItemMarker (_env : Env) (r : Renderer) (node : Site)
    (_entering : Bool) : Option Result := do
  let r := taskMarker "vditor-sv__marker--bi" (fun r => WriteByte r ItemOpenBracket) r
  let r :=
    if node.node.data.TaskListItemChecked then
      taskMarker "vditor-sv__marker--strong" (fun r => WriteByte r 120) r
    else taskMarker "vditor-sv__marker--bi" (fun r => WriteByte r ItemSpace) r
  let r := taskMarker "vditor-sv__marker--bi" (fun r => WriteString r (bytesOf "] ")) r
  let next ← node.Next
  let node := node.setNextTokens (TrimPrefix next.Tokens (bytesOf " "))
  pure (r, node, .WalkStop)

/-- The handler `renderThematicBreak`. -/
def renderThematicBreak (_env : Env) (r : Renderer) (node : Site) (_entering : Bool) :
    Option Result := do
  let r ← renderListItemBlockPadding r node
  let r := tag r (bytesOf "span")
    [attr "data-type" "thematic-break", attr "class" "vditor-sv__marker"] false
  let r := tag r (bytesOf "span") [attr "class" "vditor-sv__marker"] false
  let r := WriteString r (bytesOf "---")
  let r := tagCloseSpan r
  let r := Newline r
  let r := Write r r.NewlineSV
  let r := tagCloseSpan r
  pure (r, node, .WalkStop)

/-- The handler `renderHardBreak`. -/
def renderHardBreak (_env : Env) (r : Renderer) (node : Site) (_entering : Bool) :
    Option Result := do
  let r := Newline r
  let r ← renderListItemBlockPadding r node
  pure (r, node, .WalkStop)

/-- The handler `renderSoftBreak`. -/
def renderSoftBreak (_env : Env) (r : Renderer) (node : Site) (_entering : Bool) :
    Option Result := do
  let r := Newline r
  let r ← renderListItemBlockPadding r node
  pure (r, node, .WalkStop)

/-- The handler table that `NewVditorSVRenderer` fills in: `RendererFuncs[nodeType]`,
`none` for a type it does not register. -/
def RendererFuncs :
    NodeType → Option (Env → Renderer → Site → Bool → Option Result)
  | .NodeDocument => some renderDocument
  | .NodeParagraph => some renderParagraph
  | .NodeText => some renderText
  | .NodeCodeSpan => some renderCodeSpan
  | .NodeCodeSpanOpenMarker => some renderCodeSpanOpenMarker
  | .NodeCodeSpanContent => some renderCodeSpanContent
  | .NodeCodeSpanCloseMarker => some renderCodeSpanCloseMarker
  | .NodeCodeBlock => some renderCodeBlock
  | .NodeCodeBlockFenceOpenMarker => some renderCodeBlockOpenMarker
  | .NodeCodeBlockFenceInfoMarker => some renderCodeBlockInfoMarker
  | .NodeCodeBlockCode => some renderCodeBlockCode
  | .NodeCodeBlockFenceCloseMarker => some renderCodeBlockCloseMarker
  | .NodeMathBlock => some renderMathBlock
  | .NodeMathBlockOpenMarker => some renderMathBlockOpenMarker
  | .NodeMathBlockContent => some renderMathBlockContent
  | .NodeMathBlockCloseMarker => some renderMathBlockCloseMarker
  | .NodeInlineMath => some renderInlineMath
  | .NodeInlineMathOpenMarker => some renderInlineMathOpenMarker
  | .NodeInlineMathContent => some renderInlineMathContent
  | .NodeInlineMathCloseMarker => some renderInlineMathCloseMarker
  | .NodeEmphasis => some renderEmphasis
  | .NodeEmA6kOpenMarker => some renderEmAsteriskOpenMarker
  | .NodeEmA6kCloseMarker => some renderEmAsteriskCloseMarker
  | .NodeEmU8eOpenMarker => some renderEmUnderscoreOpenMarker
  | .NodeEmU8eCloseMarker => some renderEmUnderscoreCloseMarker
  | .NodeStrong => some renderStrong
  | .NodeStrongA6kOpenMarker => some renderStrongA6kOpenMarker
  | .NodeStrongA6kCloseMarker => some renderStrongA6kCloseMarker
  | .NodeStrongU8eOpenMarker => some renderStrongU8eOpenMarker
  | .NodeStrongU8eCloseMarker => some renderStrongU8eCloseMarker
  | .NodeBlockquote => some renderBlockquote
  | .NodeBlockquoteMarker => some renderBlockquoteMarker
  | .NodeHeading => some renderHeading
  | .NodeHeadingC8hMarker => some renderHeadingC8hMarker
  | .NodeHeadingID => some renderHeadingID
  | .NodeList => some renderList
  | .NodeListItem => some renderListItem
  | .NodeThematicBreak => some renderThematicBreak
  | .NodeHardBreak => some renderHardBreak
  | .NodeSoftBreak => some renderSoftBreak
  | .NodeHTMLBlock => some renderHTML
  | .NodeInlineHTML => some renderInlineHTML
  | .NodeLink => some renderLink
  | .NodeImage => some renderImage
  | .NodeBang => some renderBang
  | .NodeOpenBracket => some renderOpenBracket
  | .NodeCloseBracket => some renderCloseBracket
  | .NodeOpenParen => some renderOpenParen
  | .NodeCloseParen => some renderCloseParen
  | .NodeLinkText => some renderLinkText
  | .NodeLinkSpace => some renderLinkSpace
  | .NodeLinkDest => some renderLinkDest
  | .NodeLinkTitle => some renderLinkTitle
  | .NodeStrikethrough => some renderStrikethrough
  | .NodeStrikethrough1OpenMarker => some renderStrikethrough1OpenMarker
  | .NodeStrikethrough1CloseMarker => some renderStrikethrough1CloseMarker
  | .NodeStrikethrough2OpenMarker => some renderStrikethrough2OpenMarker
  | .NodeStrikethrough2CloseMarker => some renderStrikethrough2CloseMarker
  | .NodeTaskListItemMarker => some renderTaskListItemMarker
  | .NodeTable => some renderTable
  | .NodeTableHead => some renderTableHead
  | .NodeTableRow => some renderTableRow
  | .NodeTableCell => some renderTableCell
  | .NodeEmoji => some renderEmoji
  | .NodeEmojiUnicode => some renderEmojiUnicode
  | .NodeEmojiImg => some renderEmojiImg
  | .NodeEmojiAlias => some renderEmojiAlias
  | .NodeFootnotesDef => some renderFootnotesDef
  | .NodeFootnotesRef => some renderFootnotesRef
  | .NodeToC => some renderToC
  | .NodeBackslash => some renderBackslash
  | .NodeBackslashContent => some renderBackslashContent
  | .NodeHTMLEntity => some renderHtmlEntity
  | .NodeOther => none

/-- The body of the loop of `Render`, for one link reference definition `node`. -/
def writeLinkRefDef (env : Env) (r : Renderer) (node : Node) : Option Renderer := do
  let label := node.data.LinkRefLabel
  let dest ← (ChildByType node.children .NodeLinkDest).map Node.Tokens
  let destStr := dest
  let r := WriteString r (bytesOf "[" ++ label ++ bytesOf "]:")
  let r := if env.Caret ≠ destStr then WriteString r (bytesOf " ") else r
  pure (WriteString r (destStr ++ bytesOf "\n"))

/-- The method `Render`. `base` stands for the embedded `BaseRenderer.Render`, which is
declared outside the sources. `linkRefDefs` lists `r.Tree.Context.LinkRefDefs` in the
order in which the `range` over that map visits it in this run; the map does not fix
that order. -/
def Render (env : Env) (base : Renderer → Option (Renderer × Bytes))
    (linkRefDefs : List Node) (r : Renderer) : Option (Renderer × Bytes) := do
  let (r, output) ← base r
  if 1 > linkRefDefs.length ∨ r.needRenderFootnotesDef then pure (r, output)
  else
    let r := WriteString r (bytesOf "<span data-block=\"0\" data-type=\"link-ref-defs-block\">")
    let r ← linkRefDefs.foldlM (writeLinkRefDef env) r
    let r := Newline r
    let r := WriteString r (bytesOf "</span>")
    pure (r, bufBytes r r.Writer)

/-- A renderer right after `renderDocument` was entered on a fresh renderer in a fresh
process: `NewlineSV` holds the separator and `LastOut` shares nothing. -/
def initialRenderer : Renderer :=
  { toVditorSVRenderer := Lute.initialRenderer, NewlineSV := Lute.NewlineSV, aliased := false }

/-- What a result says at the level of values: the renderer without the storage of
`NewlineSV`, the tree and the status. -/
def project (x : Result) : Lute.Result := (x.1.toVditorSVRenderer, x.2.1, x.2.2)

/-- The node types whose handlers read `NewlineSV`, directly or through `Newline`. -/
def readsNewlineSV : NodeType → Bool
  | .NodeToC | .NodeCodeBlockFenceCloseMarker | .NodeCodeBlockFenceInfoMarker | .NodeCodeBlock
  | .NodeMathBlockCloseMarker | .NodeMathBlockOpenMarker | .NodeTable | .NodeHTMLBlock
  | .NodeParagraph | .NodeBlockquote | .NodeHeading | .NodeList | .NodeListItem
  | .NodeThematicBreak | .NodeHardBreak | .NodeSoftBreak => true
  | _ => false

/-- `NewlineSV` holds the separator, and `LastOut` does not share its storage. This is
the state of a fresh process, and the state after any write of at least one byte that
was made while `NewlineSV` held the separator and `LastOut` did not end inside it. -/
def Clean (r : Renderer) : Prop := r.NewlineSV = Lute.NewlineSV ∧ r.aliased = false

/-- `NewlineSV` holds the separator, and a `LastOut` that shares its storage is all of
it: the state right after a `Newline` that wrote the separator from a clean state. -/
def Sound (r : Renderer) : Prop :=
  r.NewlineSV = Lute.NewlineSV ∧ (r.aliased = true → r.LastOut = Lute.NewlineSV)

end Shared

/-! ## Further definitions for the storage level -/

/-- The closing tag `</span>` written `k` times with `WriteString`, at the storage
level. -/
def Shared.writeClosers : Nat → Shared.Renderer → Shared.Renderer
  | 0, r => r
  | k + 1, r => Shared.writeClosers k (Shared.WriteString r closeSpan)

/-- What the flag `aliased` means: a `LastOut` that is a slice of the storage of
`NewlineSV` starting at its first byte holds the first bytes of that storage. -/
def Shared.Slice (r : Shared.Renderer) : Prop :=
  r.aliased = true → r.LastOut = r.NewlineSV.take r.LastOut.length

/-- The storage-level state with the given values in which `NewlineSV` holds its initial
bytes and `LastOut` shares nothing with it. -/
def Shared.ofValues (r : VditorSVRenderer) : Shared.Renderer :=
  { toVditorSVRenderer := r, NewlineSV := NewlineSV, aliased := false }

/-- Modelled from the spec: `BaseRenderer.Render` is declared outside the sources; it
walks the tree and returns the bytes of the writer. `Shared.ReturnsWriter base` says that
of `base` at the storage level: the output it returns is the content of the buffer of the
writer it leaves, which is an allocated buffer. -/
def Shared.ReturnsWriter (base : Shared.Renderer → Option (Shared.Renderer × Bytes)) : Prop :=
  ∀ r r1 output, base r = some (r1, output) →
    output = Shared.bufBytes r1 r1.Writer ∧ r1.Writer < r1.buffers.length

/-- A stand-in for `BaseRenderer.Render` that walks nothing: it returns the content of
the writer as it is, and panics when the writer is not an allocated buffer. -/
def Shared.idleBase (r : Shared.Renderer) : Option (Shared.Renderer × Bytes) :=
  if r.Writer < r.buffers.length then some (r, Shared.bufBytes r r.Writer) else none

/-! ## Sample inputs: two line breaks in a row -/

/-- The child at index `i` of the node at `s`, at its place in the tree; `none` when
there is no such child. -/
def Site.child (s : Site) (i : Nat) : Option Site :=
  (s.node.children[i]?).map fun c =>
    { node := c,
      path := { parent := s.node.data, left := (s.node.children.take i).reverse,
                right := s.node.children.drop (i + 1) } :: s.path }

/-- A paragraph whose children are the text `a`, two hard breaks and the text `b`. -/
def breaksParagraph : Node :=
  .mk (plainData .NodeParagraph []) [leaf .NodeText (bytesOf "a"), leaf .NodeHardBreak [],
    leaf .NodeHardBreak [], leaf .NodeText (bytesOf "b")]

/-- A block quote whose only child is the paragraph `breaksParagraph`. -/
def breaksQuote : Node := .mk (plainData .NodeBlockquote []) [breaksParagraph]

/-- The calls made on the paragraph `breaksParagraph` at `p` before its exit call: the
entering call of `renderParagraph`, then, for the four children in order, `renderText`,
`renderHardBreak`, `renderHardBreak` and `renderText`, each of which returns `WalkStop`.
`none` when a call panics. -/
def Shared.enterBreaks (r : Shared.Renderer) (p : Site) : Option Shared.Renderer := do
  let (r, _, _) ← Shared.renderParagraph plainEnv r p true
  let (r, _, _) ← Shared.renderText plainEnv r (← p.child 0) true
  let (r, _, _) ← Shared.renderHardBreak plainEnv r (← p.child 1) true
  let (r, _, _) ← Shared.renderHardBreak plainEnv r (← p.child 2) true
  let (r, _, _) ← Shared.renderText plainEnv r (← p.child 3) true
  pure r

/-- The calls made on the block quote `breaksQuote` at `q` before its exit call: the
entering call of `renderBlockquote`, then the calls on its paragraph up to and with the
exit call of `renderParagraph`. `none` when a call panics. -/
def Shared.enterBreaksQuote (r : Shared.Renderer) (q : Site) : Option Shared.Renderer := do
  let (r, _, _) ← Shared.renderBlockquote plainEnv r q true
  let p ← q.child 0
  let r ← Shared.enterBreaks r p
  let (r, _, _) ← Shared.renderParagraph plainEnv r p false
  pure r

/-- A fresh renderer after the calls `Newline`, `Newline` and `WriteString("x")`. -/
def Shared.afterNewlinesAndX : Shared.Renderer :=
  Shared.WriteString (Shared.Newline (Shared.Newline Shared.initialRenderer)) (bytesOf "x")

/-- The bytes of `NewlineSV` after the text `x` was written over its byte 61. -/
def overwrittenByX : Bytes :=
  bytesOf "<span data-type=\"newline\"><br /><span style=\"display: none\">\nx/span></span>"

/-- The bytes of `NewlineSV` after the start of a tag `<span` was written over its bytes
61 to 65. -/
def overwrittenBySpan : Bytes :=
  bytesOf "<span data-type=\"newline\"><br /><span style=\"display: none\">\n<spann></span>"

/-! ## Theorems: thematic breaks -/

set_option linter.unreachableTactic false
set_option linter.unusedTactic false

theorem index_natCast (cl : List Nat) (i : Nat) : index cl (i : Int) = cl[i]? := by
  simp [index]

theorem forall_range_succ (Q : Nat → Prop) (i n : Nat) :
    (∀ j, i ≤ j → j < i + (n + 1) → Q j) ↔ (Q i ∧ ∀ j, i + 1 ≤ j → j < i + 1 + n → Q j) := by
  constructor
  · intro h
    exact ⟨h i le_rfl (by omega), fun j h1 h2 => h j (by omega) (by omega)⟩
  · rintro ⟨h0, h⟩ j h1 h2
    rcases Nat.eq_or_lt_of_le h1 with e | l
    · subst e; exact h0
    · exact h j l (by omega)

theorem card_nonblank_succ (cl : List Nat) (i n : Nat) :
    ((Finset.Ico i (i + (n + 1))).filter (fun j => nonblankAt cl j = true)).card =
      (if nonblankAt cl i = true then 1 else 0) +
      ((Finset.Ico (i + 1) (i + 1 + n)).filter (fun j => nonblankAt cl j = true)).card := by
  have h : Finset.Ico i (i + (n + 1)) = insert i (Finset.Ico (i + 1) (i + 1 + n)) := by
    ext j; simp only [Finset.mem_Ico, Finset.mem_insert]; omega
  rw [h, Finset.filter_insert]
  split
  · rw [Finset.card_insert_of_not_mem (by simp)]; omega
  · simp

theorem parseThematicBreakLoop_true_iff (cl : List Nat) :
    ∀ (n i marker markers : Nat), (0 < n → i + n ≤ cl.length) → (marker = itemEnd ∨ isBreakMarker marker) →
      (parseThematicBreakLoop cl n (i : Int) marker markers = some true ↔
        ∃ c, isBreakMarker c ∧ (marker ≠ itemEnd → c = marker) ∧
          (∀ j, i ≤ j → j < i + n → ∀ t, cl[j]? = some t → t = itemSpace ∨ t = itemTab ∨ t = c) ∧
          3 ≤ markers + ((Finset.Ico i (i + n)).filter (fun j => nonblankAt cl j = true)).card) := by
  intro n
  induction n with
  | zero =>
    intro i marker markers _ hm
    simp only [parseThematicBreakLoop, Option.some.injEq, decide_eq_true_eq, add_zero,
      Finset.Ico_self, Finset.filter_empty, Finset.card_empty]
    constructor
    · intro h
      rcases hm with hm | hm
      · exact ⟨itemHyphen, Or.inl rfl, fun h' => absurd hm h', fun j h1 h2 => by omega, h⟩
      · exact ⟨marker, hm, fun _ => rfl, fun j h1 h2 => by omega, h⟩
    · rintro ⟨c, _, _, _, h⟩; exact h
  | succ n ih =>
    intro i marker markers hlen hm
    have hlen' := hlen (Nat.succ_pos n)
    have hi : i < cl.length := by omega
    have hget : cl[i]? = some cl[i] := List.getElem?_eq_getElem hi
    have hcast : ((i : Int) + 1) = ((i + 1 : Nat) : Int) := by push_cast; rfl
    rw [parseThematicBreakLoop, index_natCast, hget]
    simp only []
    rw [hcast, card_nonblank_succ]
    simp only [forall_range_succ, hget, Option.some.injEq, forall_eq']
    have hnb : nonblankAt cl i = decide (cl[i] ≠ itemSpace ∧ cl[i] ≠ itemTab) := by
      simp [nonblankAt, hget]
    rw [hnb]
    generalize cl[i] = t0 at *
    by_cases hb : itemSpace = t0 ∨ itemTab = t0
    · rw [if_pos hb, ih (i + 1) marker markers (fun _ => by omega) hm]
      have hb' : ¬ (t0 ≠ itemSpace ∧ t0 ≠ itemTab) := by
        rcases hb with h | h <;> simp [← h]
      simp only [decide_eq_true_eq, if_neg hb', zero_add]
      constructor
      · rintro ⟨c, h1, h2, h3, h4⟩
        refine ⟨c, h1, h2, ⟨?_, h3⟩, by omega⟩
        rcases hb with h | h
        · exact Or.inl h.symm
        · exact Or.inr (Or.inl h.symm)
      · rintro ⟨c, h1, h2, ⟨_, h3⟩, h4⟩
        exact ⟨c, h1, h2, h3, by omega⟩
    · rw [if_neg hb]
      have hb' : t0 ≠ itemSpace ∧ t0 ≠ itemTab := by
        constructor <;> intro h <;> apply hb <;> simp [h]
      simp only [decide_eq_true_eq, if_pos hb']
      by_cases hk : itemHyphen ≠ t0 ∧ itemUnderscore ≠ t0 ∧ itemAsterisk ≠ t0
      · rw [if_pos hk]
        constructor
        · intro h; cases h
        · rintro ⟨c, h1, _, ⟨h0, _⟩, _⟩
          exfalso
          rcases h0 with h | h | h
          · exact hb'.1 h
          · exact hb'.2 h
          · subst h
            rcases h1 with h | h | h
            · exact hk.1 h.symm
            · exact hk.2.1 h.symm
            · exact hk.2.2 h.symm
      · rw [if_neg hk]
        have ht0 : isBreakMarker t0 := by
          unfold isBreakMarker
          by_contra hcon
          apply hk
          refine ⟨fun h => hcon (Or.inl h.symm), fun h => hcon (Or.inr (Or.inl h.symm)),
            fun h => hcon (Or.inr (Or.inr h.symm))⟩
        have ht0ne : t0 ≠ itemEnd := by
          rcases ht0 with h | h | h <;> rw [h] <;> decide
        by_cases hme : itemEnd ≠ marker
        · rw [if_pos hme]
          by_cases hmt : marker ≠ t0
          · rw [if_pos hmt]
            constructor
            · intro h; cases h
            · rintro ⟨c, _, h2, ⟨h0, _⟩, _⟩
              exfalso
              have hc := h2 (Ne.symm hme)
              rcases h0 with h | h | h
              · exact hb'.1 h
              · exact hb'.2 h
              · exact hmt (h.trans hc).symm
          · rw [if_neg hmt, ih (i + 1) marker (markers + 1) (fun _ => by omega) hm]
            have hmt' : marker = t0 := not_not.mp hmt
            constructor
            · rintro ⟨c, h1, h2, h3, h4⟩
              refine ⟨c, h1, h2, ⟨?_, h3⟩, by omega⟩
              exact Or.inr (Or.inr ((h2 (Ne.symm hme)).trans hmt').symm)
            · rintro ⟨c, h1, h2, ⟨_, h3⟩, h4⟩
              exact ⟨c, h1, h2, h3, by omega⟩
        · rw [if_neg hme, ih (i + 1) t0 (markers + 1) (fun _ => by omega) (Or.inr ht0)]
          have hme' : marker = itemEnd := (not_not.mp hme).symm
          constructor
          · rintro ⟨c, h1, h2, h3, h4⟩
            refine ⟨c, h1, fun h => absurd hme' h, ⟨?_, h3⟩, by omega⟩
            exact Or.inr (Or.inr (h2 ht0ne).symm)
          · rintro ⟨c, h1, _, ⟨h0, h3⟩, h4⟩
            refine ⟨c, h1, fun _ => ?_, h3, by omega⟩
            rcases h0 with h | h | h
            · exact absurd h hb'.1
            · exact absurd h hb'.2
            · exact h.symm

theorem exists_sorted_triple (P : Nat → Prop) (x y z : Nat) (hxy : x ≠ y) (hxz : x ≠ z)
    (hyz : y ≠ z) (hx : P x) (hy : P y) (hz : P z) :
    ∃ i j k, i < j ∧ j < k ∧ P i ∧ P j ∧ P k := by
  rcases Nat.lt_or_gt_of_ne hxy with a | a <;> rcases Nat.lt_or_gt_of_ne hxz with b | b <;>
    rcases Nat.lt_or_gt_of_ne hyz with c | c
  · exact ⟨x, y, z, a, c, hx, hy, hz⟩
  · exact ⟨x, z, y, b, c, hx, hz, hy⟩
  · omega
  · exact ⟨z, x, y, b, a, hz, hx, hy⟩
  · exact ⟨y, x, z, a, b, hy, hx, hz⟩
  · omega
  · exact ⟨y, z, x, c, b, hy, hz, hx⟩
  · exact ⟨z, y, x, c, a, hz, hy, hx⟩

theorem nonblankAt_iff (cl : List Nat) (j : Nat) :
    nonblankAt cl j = true ↔ ∃ t, cl[j]? = some t ∧ t ≠ itemSpace ∧ t ≠ itemTab := by
  unfold nonblankAt
  cases h : cl[j]? with
  | none => simp
  | some t => simp

/-- C1: on a line whose scanned positions `nextNonspace ≤ i < currentLineLen-1` all
exist, `parseThematicBreak` returns true exactly when every scanned token is a space,
a tab or one of `-`, `_`, `*`, any two scanned tokens that are neither space nor tab are
equal, and at least three scanned positions hold such a token. -/
theorem parseThematicBreak_true_iff (currentLine : List Nat) (nextNonspace currentLineLen : Int)
    (h0 : 0 ≤ nextNonspace) (hlen : currentLineLen ≤ currentLine.length) :
    parseThematicBreak currentLine nextNonspace currentLineLen = some true ↔
      (∀ i : Nat, nextNonspace ≤ i → (i : Int) < currentLineLen - 1 →
        ∀ t, currentLine[i]? = some t →
          t = itemSpace ∨ t = itemTab ∨ t = itemHyphen ∨ t = itemUnderscore ∨ t = itemAsterisk) ∧
      (∀ i j : Nat, nextNonspace ≤ i → (i : Int) < currentLineLen - 1 →
        nextNonspace ≤ j → (j : Int) < currentLineLen - 1 →
        ∀ a b, currentLine[i]? = some a → currentLine[j]? = some b →
          a ≠ itemSpace → a ≠ itemTab → b ≠ itemSpace → b ≠ itemTab → a = b) ∧
      (∃ i j k : Nat, nextNonspace ≤ i ∧ i < j ∧ j < k ∧ (k : Int) < currentLineLen - 1 ∧
        (∃ t, currentLine[i]? = some t ∧ t ≠ itemSpace ∧ t ≠ itemTab) ∧
        (∃ t, currentLine[j]? = some t ∧ t ≠ itemSpace ∧ t ≠ itemTab) ∧
        (∃ t, currentLine[k]? = some t ∧ t ≠ itemSpace ∧ t ≠ itemTab)) := by
  obtain ⟨i0, rfl⟩ := Int.eq_ofNat_of_zero_le h0
  have hrange : ∀ j : Nat, (i0 ≤ j ∧ j < i0 + ((currentLineLen - 1 - (i0 : Int)).toNat)) ↔
      ((i0 : Int) ≤ j ∧ (j : Int) < currentLineLen - 1) := by
    intro j; omega
  unfold parseThematicBreak
  rw [parseThematicBreakLoop_true_iff currentLine _ i0 0 0 (fun _ => by omega) (Or.inl rfl)]
  constructor
  · rintro ⟨c, hc, -, hall, hcard⟩
    have hall' : ∀ j : Nat, (i0 : Int) ≤ j → (j : Int) < currentLineLen - 1 →
        ∀ t, currentLine[j]? = some t → t = itemSpace ∨ t = itemTab ∨ t = c := by
      intro j h1 h2
      have := (hrange j).mpr ⟨h1, h2⟩
      exact hall j this.1 this.2
    refine ⟨?_, ?_, ?_⟩
    · intro i h1 h2 t ht
      rcases hall' i h1 h2 t ht with h | h | h
      · exact Or.inl h
      · exact Or.inr (Or.inl h)
      · subst h; exact Or.inr (Or.inr hc)
    · intro i j h1 h2 h3 h4 a b ha hb na na' nb nb'
      rcases hall' i h1 h2 a ha with h | h | h
      · exact absurd h na
      · exact absurd h na'
      · rcases hall' j h3 h4 b hb with g | g | g
        · exact absurd g nb
        · exact absurd g nb'
        · rw [h, g]
    · rw [zero_add] at hcard
      obtain ⟨x, y, z, hx, hy, hz, hxy, hxz, hyz⟩ :=
        Finset.two_lt_card_iff.mp (Nat.lt_of_succ_le hcard)
      simp only [Finset.mem_filter, Finset.mem_Ico, hrange, nonblankAt_iff] at hx hy hz
      obtain ⟨i, j, k, hij, hjk, hi, hj, hk⟩ := exists_sorted_triple
        (fun j => ((i0 : Int) ≤ j ∧ (j : Int) < currentLineLen - 1) ∧
          ∃ t, currentLine[j]? = some t ∧ t ≠ itemSpace ∧ t ≠ itemTab) x y z hxy hxz hyz hx hy hz
      exact ⟨i, j, k, hi.1.1, hij, hjk, hk.1.2, hi.2, hj.2, hk.2⟩
  · rintro ⟨hA, hB, i, j, k, hi, hij, hjk, hk, ⟨a, ha, na, na'⟩, ⟨b, hb, nb, nb'⟩, ⟨c, hc, nc, nc'⟩⟩
    have hi2 : (i : Int) < currentLineLen - 1 := by omega
    have hj1 : (i0 : Int) ≤ j := by omega
    have hj2 : (j : Int) < currentLineLen - 1 := by omega
    have hk1 : (i0 : Int) ≤ k := by omega
    refine ⟨a, ?_, fun h => absurd rfl h, ?_, ?_⟩
    · rcases hA i hi hi2 a ha with h | h | h
      · exact absurd h na
      · exact absurd h na'
      · exact h
    · intro m h1 h2 t ht
      have hm := (hrange m).mp ⟨h1, h2⟩
      by_cases hs : t = itemSpace
      · exact Or.inl hs
      by_cases ht' : t = itemTab
      · exact Or.inr (Or.inl ht')
      exact Or.inr (Or.inr (hB m i hm.1 hm.2 hi hi2 t a ht ha hs ht' na na'))
    · rw [zero_add]
      apply Nat.succ_le_of_lt
      apply Finset.two_lt_card_iff.mpr
      refine ⟨i, j, k, ?_, ?_, ?_, by omega, by omega, by omega⟩ <;>
        simp only [Finset.mem_filter, Finset.mem_Ico, hrange, nonblankAt_iff]
      · exact ⟨⟨hi, hi2⟩, a, ha, na, na'⟩
      · exact ⟨⟨hj1, hj2⟩, b, hb, nb, nb'⟩
      · exact ⟨⟨hk1, hk⟩, c, hc, nc, nc'⟩

/-- Witness for C1: the line ` - - -` with its line terminator, scanned from position 1. -/
theorem parseThematicBreak_true_iff_witness :
    parseThematicBreak (bytesOf " - - -\n") 1 7 = some true ∧
      ∃ i j k : Nat, (1 : Int) ≤ i ∧ i < j ∧ j < k ∧ (k : Int) < 7 - 1 ∧
        (∃ t, (bytesOf " - - -\n")[i]? = some t ∧ t ≠ itemSpace ∧ t ≠ itemTab) ∧
        (∃ t, (bytesOf " - - -\n")[j]? = some t ∧ t ≠ itemSpace ∧ t ≠ itemTab) ∧
        (∃ t, (bytesOf " - - -\n")[k]? = some t ∧ t ≠ itemSpace ∧ t ≠ itemTab) :=
  ⟨by decide,
    ((parseThematicBreak_true_iff (bytesOf " - - -\n") 1 7 (by decide) (by decide)).mp
      (by decide)).2.2⟩

/-! ## Theorems: output coalescing -/

theorem flatten_replicate_succ_right (k : Nat) (c : Bytes) :
    (List.replicate (k + 1) c).flatten = (List.replicate k c).flatten ++ c := by
  rw [List.replicate_succ', List.flatten_append]; simp

theorem HasSuffix_iff (s t : Bytes) : HasSuffix s t = true ↔ t <:+ s := by
  simp [HasSuffix]

theorem trimCloseSpans_spec : ∀ (n : Nat) (lastOut : Bytes), lastOut.length ≤ n →
    ∃ k, lastOut = trimCloseSpans n lastOut ++ (List.replicate k closeSpan).flatten ∧
      ¬ closeSpan <:+ trimCloseSpans n lastOut := by
  intro n
  induction n with
  | zero =>
    intro lastOut h
    have : lastOut = [] := List.length_eq_zero.mp (Nat.le_zero.mp h)
    subst this
    refine ⟨0, by simp [trimCloseSpans], ?_⟩
    simp [trimCloseSpans, closeSpan, bytesOf]
  | succ n ih =>
    intro lastOut h
    rw [trimCloseSpans]
    by_cases hs : HasSuffix lastOut closeSpan = true
    · rw [if_pos hs]
      have hs' := (HasSuffix_iff _ _).mp hs
      obtain ⟨t, ht⟩ := hs'
      have hlen : closeSpan.length = 7 := by decide
      have htake : lastOut.take (lastOut.length - closeSpan.length) = t := by
        rw [← ht]; simp
      rw [htake]
      have htl : t.length ≤ n := by
        have := congrArg List.length ht
        rw [List.length_append, hlen] at this
        omega
      obtain ⟨k, hk1, hk2⟩ := ih t htl
      refine ⟨k + 1, ?_, hk2⟩
      rw [flatten_replicate_succ_right, ← List.append_assoc, ← hk1, ht]
    · rw [if_neg hs]
      refine ⟨0, by simp, ?_⟩
      intro h'
      exact hs ((HasSuffix_iff _ _).mpr h')

theorem NewlineSV_split :
    NewlineSV = NewlineSV.take (NewlineSV.length - closeSpan.length * 2) ++ closeSpan ++ closeSpan := by
  decide

/-- At the level of values: write `LastOut` as `s` followed by `k` copies of `</span>`, where `s` does not end
with `</span>`, and let `opening` be `NewlineSV` without its final two `</span>`. If `s`
does not end with `opening`, `Newline` appends exactly `NewlineSV` to the buffer of the
current writer; if it does, `Newline` leaves every buffer as it is. The writer and the
buffer stack are never changed. -/
theorem Newline_emits_iff (r : VditorSVRenderer) :
    ∃ (s opening : Bytes) (k : Nat),
      NewlineSV = opening ++ closeSpan ++ closeSpan ∧
      r.LastOut = s ++ (List.replicate k closeSpan).flatten ∧ ¬ closeSpan <:+ s ∧
      ((¬ opening <:+ s ∧
          (Newline r).buffers = r.buffers.set r.Writer (bufBytes r r.Writer ++ NewlineSV)) ∨
        (opening <:+ s ∧ (Newline r).buffers = r.buffers)) ∧
      (Newline r).Writer = r.Writer ∧ (Newline r).nodeWriterStack = r.nodeWriterStack := by
  obtain ⟨k, hk1, hk2⟩ := trimCloseSpans_spec r.LastOut.length r.LastOut le_rfl
  refine ⟨trimCloseSpans r.LastOut.length r.LastOut,
    NewlineSV.take (NewlineSV.length - closeSpan.length * 2), k, NewlineSV_split, hk1, hk2, ?_, ?_, ?_⟩
  · by_cases h : HasSuffix (trimCloseSpans r.LastOut.length r.LastOut)
        (NewlineSV.take (NewlineSV.length - closeSpan.length * 2)) = true
    · right
      refine ⟨(HasSuffix_iff _ _).mp h, ?_⟩
      simp [Newline, h]
    · left
      refine ⟨fun h' => h ((HasSuffix_iff _ _).mpr h'), ?_⟩
      simp [Newline, h, bufWrite, bufBytes]
  · unfold Newline; simp only []; split <;> rfl
  · unfold Newline; simp only []; split <;> rfl

theorem closers_unique : ∀ (j m : Nat) (x y : Bytes),
    x ++ (List.replicate j closeSpan).flatten = y ++ (List.replicate m closeSpan).flatten →
    ¬ closeSpan <:+ x → ¬ closeSpan <:+ y → x = y := by
  intro j
  induction j with
  | zero =>
    intro m x y h hx hy
    cases m with
    | zero => simpa using h
    | succ m =>
      exfalso; apply hx
      rw [flatten_replicate_succ_right] at h
      simp only [List.replicate_zero, List.flatten_nil, List.append_nil] at h
      rw [h, ← List.append_assoc]
      exact List.suffix_append _ _
  | succ j ih =>
    intro m x y h hx hy
    cases m with
    | zero =>
      exfalso; apply hy
      rw [flatten_replicate_succ_right] at h
      simp only [List.replicate_zero, List.flatten_nil, List.append_nil] at h
      rw [← h, ← List.append_assoc]
      exact List.suffix_append _ _
    | succ m =>
      rw [flatten_replicate_succ_right, flatten_replicate_succ_right, ← List.append_assoc,
        ← List.append_assoc] at h
      exact ih m x y (List.append_cancel_right h) hx hy

theorem suffix_drop_of_length_le {t l : Bytes} (n : Nat) (h : t <:+ l)
    (hl : t.length + n ≤ l.length) : t <:+ l.drop n := by
  obtain ⟨a, rfl⟩ := h
  have ha : n ≤ a.length := by
    rw [List.length_append] at hl; omega
  rw [List.drop_append_of_le_length ha]
  exact List.suffix_append _ _

theorem suffix_appendLastOut {t lastOut content : Bytes} (h : t <:+ lastOut ++ content)
    (hl : t.length ≤ 513 ∨ (lastOut ++ content).length ≤ 1024) :
    t <:+ appendLastOut lastOut content := by
  unfold appendLastOut
  simp only []
  split
  · rename_i hlt
    apply suffix_drop_of_length_le _ h
    omega
  · exact h

theorem WriteString_closeSpan_LastOut (r : VditorSVRenderer) :
    (WriteString r closeSpan).LastOut = appendLastOut r.LastOut closeSpan := by
  simp [WriteString, closeSpan, bytesOf, bufWrite]

theorem closeSpan_length : closeSpan.length = 7 := by decide

theorem writeClosers_suffix : ∀ (k : Nat) (r : VditorSVRenderer) (t : Bytes),
    t <:+ r.LastOut → (t.length + 7 * k ≤ 513 ∨ r.LastOut.length + 7 * k ≤ 1024) →
    t ++ (List.replicate k closeSpan).flatten <:+ (writeClosers k r).LastOut := by
  intro k
  induction k with
  | zero => intro r t h _; simpa [writeClosers] using h
  | succ k ih =>
    intro r t h hl
    rw [writeClosers]
    have h1 : t ++ closeSpan <:+ r.LastOut ++ closeSpan := by
      obtain ⟨a, ha⟩ := h
      exact ⟨a, by rw [← ha, List.append_assoc]⟩
    have h2 : t ++ closeSpan <:+ (WriteString r closeSpan).LastOut := by
      rw [WriteString_closeSpan_LastOut]
      apply suffix_appendLastOut h1
      rw [List.length_append, List.length_append, closeSpan_length]
      omega
    have h3 := ih (WriteString r closeSpan) (t ++ closeSpan) h2 (by
      rw [WriteString_closeSpan_LastOut, List.length_append, closeSpan_length]
      rcases hl with hl | hl
      · left; omega
      · right
        have : appendLastOut r.LastOut closeSpan = r.LastOut ++ closeSpan := by
          unfold appendLastOut
          simp only []
          rw [if_neg]
          rw [List.length_append, closeSpan_length]; omega
        rw [this, List.length_append, closeSpan_length]; omega)
    rw [List.replicate_succ, List.flatten_cons, ← List.append_assoc]
    exact h3

theorem Newline_silent_of_suffix (r : VditorSVRenderer) (j : Nat)
    (h : NewlineSV.take (NewlineSV.length - closeSpan.length * 2) ++
      (List.replicate j closeSpan).flatten <:+ r.LastOut) :
    (Newline r).buffers = r.buffers := by
  obtain ⟨m, hm1, hm2⟩ := trimCloseSpans_spec r.LastOut.length r.LastOut le_rfl
  obtain ⟨b, hb⟩ := h
  have hne : ¬ closeSpan <:+ b ++ NewlineSV.take (NewlineSV.length - closeSpan.length * 2) := by
    intro hc
    have h1 : NewlineSV.take (NewlineSV.length - closeSpan.length * 2) <:+
        b ++ NewlineSV.take (NewlineSV.length - closeSpan.length * 2) := List.suffix_append _ _
    have h2 := List.suffix_of_suffix_length_le hc h1 (by decide)
    revert h2
    decide
  have he : b ++ NewlineSV.take (NewlineSV.length - closeSpan.length * 2) =
      trimCloseSpans r.LastOut.length r.LastOut := by
    apply closers_unique j m _ _ _ hne hm2
    rw [← hm1, ← hb, List.append_assoc]
  have hs : HasSuffix (trimCloseSpans r.LastOut.length r.LastOut)
      (NewlineSV.take (NewlineSV.length - closeSpan.length * 2)) = true := by
    rw [HasSuffix_iff, ← he]
    exact List.suffix_append _ _
  simp [Newline, hs]

theorem Newline_LastOut_cases (r : VditorSVRenderer) :
    (Newline r).LastOut = NewlineSV ∨
      NewlineSV.take (NewlineSV.length - closeSpan.length * 2) <:+ (Newline r).LastOut := by
  by_cases h : HasSuffix (trimCloseSpans r.LastOut.length r.LastOut)
      (NewlineSV.take (NewlineSV.length - closeSpan.length * 2)) = true
  · right
    have : (Newline r).LastOut = trimCloseSpans r.LastOut.length r.LastOut := by
      simp [Newline, h]
    rw [this]
    exact (HasSuffix_iff _ _).mp h
  · left
    simp [Newline, h, bufWrite]

/-- At the level of values: a `Newline` call that follows another `Newline` call, with at most 64
writes of `</span>` and nothing else in between, leaves every buffer as it is. With no
write in between this is the idempotence of two consecutive calls. -/
theorem Newline_idempotent_within_window (r : VditorSVRenderer) (k : Nat) (hk : k ≤ 64) :
    (Newline (writeClosers k (Newline r))).buffers = (writeClosers k (Newline r)).buffers := by
  rcases Newline_LastOut_cases r with h | h
  · have h1 := writeClosers_suffix k (Newline r) NewlineSV (by rw [h])
      (Or.inr (by rw [h]; have : NewlineSV.length = 75 := by decide
                  omega))
    apply Newline_silent_of_suffix _ (k + 2)
    have : NewlineSV.take (NewlineSV.length - closeSpan.length * 2) ++
        (List.replicate (k + 2) closeSpan).flatten =
        NewlineSV ++ (List.replicate k closeSpan).flatten := by
      rw [show k + 2 = 2 + k by omega, List.replicate_add, List.flatten_append,
        ← List.append_assoc]
      congr 1
    rw [this]
    exact h1
  · have h1 := writeClosers_suffix k (Newline r) _ h
      (Or.inl (by
        have : (NewlineSV.take (NewlineSV.length - closeSpan.length * 2)).length = 61 := by decide
        omega))
    exact Newline_silent_of_suffix _ k h1

/-- An instance: two `</span>` written between two `Newline` calls. -/
theorem Newline_idempotent_within_window_witness :
    (Newline (writeClosers 2 (Newline initialRenderer))).buffers =
      (writeClosers 2 (Newline initialRenderer)).buffers :=
  Newline_idempotent_within_window initialRenderer 2 (by decide)

set_option maxRecDepth 1000000 in
/-- C7 (counterexample): after a first `Newline` and 136 writes of `</span>`, the window
`LastOut` no longer holds the separator, and a second `Newline` emits it again. -/
theorem Newline_not_idempotent_beyond_window :
    (Newline (writeClosers 136 (Newline initialRenderer))).buffers ≠
      (writeClosers 136 (Newline initialRenderer)).buffers := by
  decide

/-! ## Theorems: buffers and the buffer stack -/

theorem bufBytes_bufWrite (r : VditorSVRenderer) (p q : Nat) (c : Bytes) :
    bufBytes (bufWrite r p c) q =
      if q = p ∧ p < r.buffers.length then bufBytes r p ++ c else bufBytes r q := by
  simp only [bufBytes, bufWrite, List.getD_eq_getElem?_getD, List.getElem?_set]
  by_cases h : p = q
  · subst h
    by_cases h2 : p < r.buffers.length
    · simp [h2]
    · simp [h2]
      rw [List.getElem?_eq_none (by omega)]
      rfl
  · have h' : ¬ q = p := fun e => h e.symm
    simp [h, h']

theorem bufBytes_bufReset (r : VditorSVRenderer) (p q : Nat) :
    bufBytes (bufReset r p) q = if q = p then [] else bufBytes r q := by
  simp only [bufBytes, bufReset, List.getD_eq_getElem?_getD, List.getElem?_set]
  by_cases h : p = q
  · subst h
    by_cases h2 : p < r.buffers.length
    · simp [h2]
    · simp [h2]
  · have h' : ¬ q = p := fun e => h e.symm
    simp [h, h']

theorem bufWrite_length (r : VditorSVRenderer) (p : Nat) (c : Bytes) :
    (bufWrite r p c).buffers.length = r.buffers.length := by
  simp [bufWrite]

theorem bufReset_length (r : VditorSVRenderer) (p : Nat) :
    (bufReset r p).buffers.length = r.buffers.length := by
  simp [bufReset]

theorem appends_refl (r : VditorSVRenderer) : Appends r r :=
  ⟨rfl, rfl, rfl, rfl, fun _ _ => rfl, List.prefix_refl _⟩

theorem appends_trans {a b c : VditorSVRenderer} (h1 : Appends a b) (h2 : Appends b c) :
    Appends a c where
  writer := h2.writer.trans h1.writer
  stack := h2.stack.trans h1.stack
  length := h2.length.trans h1.length
  tags := h2.tags.trans h1.tags
  others := fun p hp => (h2.others p (by rw [h1.writer]; exact hp)).trans (h1.others p hp)
  grows := by
    have := h2.grows
    rw [h1.writer] at this
    exact h1.grows.trans this

theorem appends_bufWrite (r : VditorSVRenderer) (c : Bytes) : Appends r (bufWrite r r.Writer c) where
  writer := rfl
  stack := rfl
  length := bufWrite_length _ _ _
  tags := rfl
  others := fun p hp => by rw [bufBytes_bufWrite]; simp [hp]
  grows := by
    rw [bufBytes_bufWrite]
    split
    · exact List.prefix_append _ _
    · exact List.prefix_refl _

theorem appends_lastOut (r : VditorSVRenderer) (l : Bytes) : Appends r { r with LastOut := l } :=
  ⟨rfl, rfl, rfl, rfl, fun _ _ => rfl, List.prefix_refl _⟩

theorem appends_Write (r : VditorSVRenderer) (c : Bytes) : Appends r (Write r c) := by
  unfold Write
  split
  · exact appends_trans (appends_bufWrite r c) (appends_lastOut _ _)
  · exact appends_refl r

theorem appends_WriteString (r : VditorSVRenderer) (c : Bytes) : Appends r (WriteString r c) := by
  unfold WriteString
  split
  · exact appends_trans (appends_bufWrite r c) (appends_lastOut _ _)
  · exact appends_refl r

theorem appends_WriteByte (r : VditorSVRenderer) (c : Nat) : Appends r (WriteByte r c) :=
  appends_trans (appends_bufWrite r [c]) (appends_lastOut _ _)

theorem appends_Newline (r : VditorSVRenderer) : Appends r (Newline r) := by
  unfold Newline
  simp only []
  split
  · exact appends_trans (appends_lastOut r _) (appends_trans (appends_bufWrite _ NewlineSV) (appends_lastOut _ _))
  · exact appends_lastOut r _

theorem appends_run (r : VditorSVRenderer) (c : WriteCall) : Appends r (c.run r) := by
  cases c with
  | Write content => exact appends_Write r content
  | WriteByte b => exact appends_WriteByte r b
  | WriteString content => exact appends_WriteString r content
  | Newline => exact appends_Newline r

theorem appends_runCalls (calls : List WriteCall) :
    ∀ r : VditorSVRenderer, Appends r (runCalls r calls) := by
  induction calls with
  | nil => intro r; exact appends_refl r
  | cons c cs ih =>
    intro r
    exact appends_trans (appends_run r c) (ih (c.run r))

theorem pushWriter_Writer (r : VditorSVRenderer) : (pushWriter r).Writer = r.buffers.length := rfl

theorem pushWriter_stack (r : VditorSVRenderer) :
    (pushWriter r).nodeWriterStack = r.nodeWriterStack ++ [r.buffers.length] := rfl

theorem pushWriter_buffers (r : VditorSVRenderer) : (pushWriter r).buffers = r.buffers ++ [[]] := rfl

theorem bufBytes_pushWriter (r : VditorSVRenderer) (p : Nat) :
    bufBytes (pushWriter r) p = bufBytes r p := by
  simp only [bufBytes, pushWriter_buffers, List.getD_eq_getElem?_getD]
  by_cases h : p < r.buffers.length
  · rw [List.getElem?_append_left h]
  · rw [List.getElem?_append_right (by omega)]
    have hnone : r.buffers[p]? = none := List.getElem?_eq_none (by omega)
    rw [hnone]
    cases h' : p - r.buffers.length <;> simp

/-- C8: after a block quote or a list item was entered, the fresh buffer is the writer
and the top of the stack, and a sequence of `Write`, `WriteByte`, `WriteString` and
`Newline` calls leaves the stack as it is and the content of every buffer below the top
(every buffer `p` of the stack as it was before entering) unchanged. -/
theorem writes_change_only_top (env : Env) (r : VditorSVRenderer) (node : Site)
    (calls : List WriteCall) (p : Nat)
    (hwf : ∀ q ∈ r.nodeWriterStack, q < r.buffers.length) (hp : p ∈ r.nodeWriterStack) :
    renderBlockquote env r node true = some (pushWriter r, node, .WalkContinue) ∧
    renderListItem env r node true = some (pushWriter r, node, .WalkContinue) ∧
    stackTop (pushWriter r) = some (pushWriter r).Writer ∧
    (runCalls (pushWriter r) calls).nodeWriterStack = r.nodeWriterStack ++ [(pushWriter r).Writer] ∧
    (runCalls (pushWriter r) calls).Writer = (pushWriter r).Writer ∧
    bufBytes (runCalls (pushWriter r) calls) p = bufBytes r p := by
  have h := appends_runCalls calls (pushWriter r)
  refine ⟨rfl, rfl, ?_, ?_, h.writer, ?_⟩
  · simp [stackTop, pushWriter_stack, pushWriter_Writer]
  · rw [h.stack]; rfl
  · rw [h.others p, bufBytes_pushWriter]
    rw [pushWriter_Writer]
    exact Nat.ne_of_lt (hwf p hp)

/-- Witness for C8: a block quote entered at the top level, then text and a separator
written; the document buffer stays empty. -/
theorem writes_change_only_top_witness :
    bufBytes (runCalls (pushWriter initialRenderer)
      [.WriteString (bytesOf "a"), .Newline, .WriteByte 98, .Write (bytesOf "c")]) 0 =
      bufBytes initialRenderer 0 :=
  (writes_change_only_top
    plainEnv initialRenderer (topLevel (leaf .NodeBlockquote []))
    [.WriteString (bytesOf "a"), .Newline, .WriteByte 98, .Write (bytesOf "c")] 0
    (by decide) (by decide)).2.2.2.2.2

/-! ## Theorems: leaving a block quote or a list item -/

theorem intercalate_singleton (sep x : Bytes) : List.intercalate sep [x] = x := by
  simp [List.intercalate]

theorem intercalate_cons_cons (sep x y : Bytes) (ys : List Bytes) :
    List.intercalate sep (x :: y :: ys) = x ++ sep ++ List.intercalate sep (y :: ys) := by
  simp [List.intercalate, List.intersperse]

theorem intercalate_cons_head (sep : Bytes) (c : Nat) (l : Bytes) (ls : List Bytes) :
    List.intercalate sep ((c :: l) :: ls) = c :: List.intercalate sep (l :: ls) := by
  cases ls with
  | nil => simp [intercalate_singleton]
  | cons y ys => simp [intercalate_cons_cons]

theorem prefix_intercalate_head (sep l : Bytes) (ls : List Bytes) :
    l <+: List.intercalate sep (l :: ls) := by
  cases ls with
  | nil => simp [intercalate_singleton]
  | cons y ys =>
    rw [intercalate_cons_cons, List.append_assoc]
    exact List.prefix_append _ _

theorem replaceScan_lines (old new : Bytes) (hold : old ≠ []) :
    ∀ (n : Nat) (s : Bytes), s.length ≤ n →
      ∃ lines : List Bytes, lines ≠ [] ∧ s = List.intercalate old lines ∧
        (∀ l ∈ lines, ¬ old <:+: l) ∧ replaceScan old new n s = List.intercalate new lines := by
  have hnil : ¬ old <:+: [] := by
    intro h
    exact hold (List.eq_nil_of_infix_nil h)
  intro n
  induction n with
  | zero =>
    intro s hs
    have : s = [] := List.length_eq_zero.mp (Nat.le_zero.mp hs)
    subst this
    refine ⟨[[]], by simp, by simp [intercalate_singleton], ?_, by simp [replaceScan, intercalate_singleton]⟩
    intro l hl
    simp only [List.mem_singleton] at hl
    subst hl
    exact hnil
  | succ n ih =>
    intro s hs
    cases s with
    | nil =>
      refine ⟨[[]], by simp, by simp [intercalate_singleton], ?_, by simp [replaceScan, intercalate_singleton]⟩
      intro l hl
      simp only [List.mem_singleton] at hl
      subst hl
      exact hnil
    | cons c cs =>
      rw [replaceScan]
      by_cases hp : old.isPrefixOf (c :: cs) = true
      · rw [if_pos hp]
        have hp' : old <+: c :: cs := List.isPrefixOf_iff_prefix.mp hp
        obtain ⟨rest, hrest⟩ := hp'
        have hdrop : (c :: cs).drop old.length = rest := by
          rw [← hrest]; simp
        have holdlen : 0 < old.length := List.length_pos.mpr hold
        have hlen : rest.length ≤ n := by
          have := congrArg List.length hrest
          rw [List.length_append] at this
          simp only [List.length_cons] at hs this
          omega
        obtain ⟨lines, h1, h2, h3, h4⟩ := ih rest hlen
        rw [hdrop, h4]
        cases lines with
        | nil => exact absurd rfl h1
        | cons l ls =>
          refine ⟨[] :: l :: ls, by simp, ?_, ?_, ?_⟩
          · rw [intercalate_cons_cons, ← h2, List.nil_append, hrest]
          · intro x hx
            rcases List.mem_cons.mp hx with hx | hx
            · subst hx; exact hnil
            · exact h3 x hx
          · rw [intercalate_cons_cons, List.nil_append]
      · rw [if_neg hp]
        have hlen : cs.length ≤ n := by
          simp only [List.length_cons] at hs; omega
        obtain ⟨lines, h1, h2, h3, h4⟩ := ih cs hlen
        rw [h4]
        cases lines with
        | nil => exact absurd rfl h1
        | cons l ls =>
          refine ⟨(c :: l) :: ls, by simp, ?_, ?_, ?_⟩
          · rw [intercalate_cons_head, ← h2]
          · intro x hx
            rcases List.mem_cons.mp hx with hx | hx
            · subst hx
              intro hinf
              rcases List.infix_cons_iff.mp hinf with h | h
              · apply hp
                apply List.isPrefixOf_iff_prefix.mpr
                have hl : c :: l <+: c :: cs := by
                  rw [h2]
                  exact (List.prefix_cons_inj c).mpr (prefix_intercalate_head old l ls)
                exact h.trans hl
              · exact h3 l (List.mem_cons_self _ _) h
            · exact h3 x (List.mem_cons_of_mem _ hx)
          · rw [intercalate_cons_head]

theorem take_prefix_of_prefix_append (old t c : Bytes) (h : old <+: t ++ c) :
    t.take old.length <+: old := by
  obtain ⟨z, hz⟩ := h
  have h1 : (t ++ c).take old.length = old := by
    rw [← hz]; simp
  have h2 : t.take old.length <+: (t ++ c).take old.length := by
    rw [List.take_append_eq_append_take]
    exact List.prefix_append _ _
  rw [h1] at h2
  exact h2

theorem replaceScan_append_left (old new : Bytes) :
    ∀ (m : Bytes), noMatchInside old m = true → ∀ (n : Nat) (c : Bytes),
      replaceScan old new (m.length + n) (m ++ c) = m ++ replaceScan old new n c := by
  intro m
  induction m with
  | nil => intro _ n c; simp
  | cons x xs ih =>
    intro h n c
    have hx : ((x :: xs).take old.length).isPrefixOf old = false := by
      simp only [noMatchInside, List.tails, List.all_cons, Bool.and_eq_true] at h
      simpa using h.1
    have hxs : noMatchInside old xs = true := by
      simp only [noMatchInside, List.tails, List.all_cons, Bool.and_eq_true] at h
      exact h.2
    have hfuel : (x :: xs).length + n = (xs.length + n) + 1 := by
      simp only [List.length_cons]; omega
    rw [hfuel, List.cons_append, replaceScan]
    have hnp : ¬ old.isPrefixOf (x :: (xs ++ c)) = true := by
      intro hp
      have := take_prefix_of_prefix_append old (x :: xs) c (List.isPrefixOf_iff_prefix.mp hp)
      rw [← List.isPrefixOf_iff_prefix, hx] at this
      exact Bool.false_ne_true this
    rw [if_neg hnp, ih hxs]
    rfl

theorem marker_intercalate (sep marker : Bytes) :
    ∀ (lines : List Bytes), lines ≠ [] →
      marker ++ List.intercalate (sep ++ marker) lines =
        List.intercalate sep (lines.map (fun l => marker ++ l)) := by
  intro lines
  induction lines with
  | nil => intro h; exact absurd rfl h
  | cons l ls ih =>
    intro _
    cases ls with
    | nil => simp [intercalate_singleton]
    | cons y ys =>
      have := ih (by simp)
      rw [intercalate_cons_cons, List.map_cons, List.map_cons, intercalate_cons_cons,
        ← List.map_cons, ← this]
      simp [List.append_assoc]

theorem noMatchInside_blockquoteMarker : noMatchInside NewlineSV blockquoteMarker = true := by
  decide

theorem NewlineSV_ne_nil : NewlineSV ≠ [] := by decide

/-- The bytes `renderBlockquote` computes from the trimmed content: the marker in front
of every piece that `NewlineSV` delimits. -/
theorem ReplaceAll_blockquote (content : Bytes) :
    ∃ lines : List Bytes, lines ≠ [] ∧ content = List.intercalate NewlineSV lines ∧
      (∀ l ∈ lines, ¬ NewlineSV <:+: l) ∧
      ReplaceAll (blockquoteMarker ++ content) NewlineSV (NewlineSV ++ blockquoteMarker) =
        List.intercalate NewlineSV (lines.map (fun l => blockquoteMarker ++ l)) := by
  obtain ⟨lines, h1, h2, h3, h4⟩ :=
    replaceScan_lines NewlineSV (NewlineSV ++ blockquoteMarker) NewlineSV_ne_nil
      content.length content le_rfl
  refine ⟨lines, h1, h2, h3, ?_⟩
  unfold ReplaceAll
  rw [if_neg NewlineSV_ne_nil, List.length_append,
    replaceScan_append_left _ _ _ noMatchInside_blockquoteMarker, h4]
  exact marker_intercalate _ _ lines h1

theorem bufBytes_Write (r : VditorSVRenderer) (c : Bytes) (h : r.Writer < r.buffers.length) :
    bufBytes (Write r c) r.Writer = bufBytes r r.Writer ++ c := by
  unfold Write
  split
  · show bufBytes (bufWrite r r.Writer c) r.Writer = _
    rw [bufBytes_bufWrite]; simp [h]
  · rename_i hc
    have : c = [] := by
      cases c with
      | nil => rfl
      | cons x xs => simp at hc
    simp [this]

theorem bufBytes_WriteString (r : VditorSVRenderer) (c : Bytes) (h : r.Writer < r.buffers.length) :
    bufBytes (WriteString r c) r.Writer = bufBytes r r.Writer ++ c := by
  unfold WriteString
  split
  · show bufBytes (bufWrite r r.Writer c) r.Writer = _
    rw [bufBytes_bufWrite]; simp [h]
  · rename_i hc
    have : c = [] := by
      cases c with
      | nil => rfl
      | cons x xs => simp at hc
    simp [this]

theorem bufBytes_Newline (r : VditorSVRenderer) (h : r.Writer < r.buffers.length) :
    bufBytes (Newline r) r.Writer = bufBytes r r.Writer ∨
      bufBytes (Newline r) r.Writer = bufBytes r r.Writer ++ NewlineSV := by
  unfold Newline
  simp only []
  split
  · right
    show bufBytes (bufWrite _ r.Writer NewlineSV) r.Writer = _
    rw [bufBytes_bufWrite]
    simp [h, bufBytes]
  · left; rfl

theorem rewriteWriter_bufBytes (r : VditorSVRenderer) (q : Nat) :
    bufBytes (rewriteWriter r) q = bufBytes r q := by
  unfold rewriteWriter
  simp only []
  unfold Write
  split
  · rename_i hc
    show bufBytes (bufWrite (bufReset r r.Writer) r.Writer (bufBytes r r.Writer)) q = _
    rw [bufBytes_bufWrite, bufReset_length, bufBytes_bufReset]
    by_cases hq : q = r.Writer
    · subst hq
      by_cases hl : r.Writer < r.buffers.length
      · simp [hl]
      · exfalso
        have : bufBytes r r.Writer = [] := by
          simp only [bufBytes, List.getD_eq_getElem?_getD]
          rw [List.getElem?_eq_none (by omega)]; rfl
        rw [this] at hc
        simp at hc
    · simp [hq, bufBytes_bufReset]
  · rename_i hc
    rw [bufBytes_bufReset]
    by_cases hq : q = r.Writer
    · subst hq
      simp only [if_true]
      cases hb : bufBytes r r.Writer with
      | nil => rfl
      | cons x xs => rw [hb] at hc; simp at hc
    · simp [hq]

theorem rewriteWriter_fields (r : VditorSVRenderer) :
    (rewriteWriter r).Writer = r.Writer ∧
      (rewriteWriter r).nodeWriterStack = r.nodeWriterStack ∧
      (rewriteWriter r).buffers.length = r.buffers.length ∧
      (rewriteWriter r).DisableTags = r.DisableTags ∧
      (rewriteWriter r).ListPadding = r.ListPadding := by
  unfold rewriteWriter
  simp only []
  unfold Write
  split
  · exact ⟨rfl, rfl, by simp [bufWrite, bufReset], rfl, rfl⟩
  · exact ⟨rfl, rfl, by simp [bufReset], rfl, rfl⟩

theorem stackTop_concat (r : VditorSVRenderer) (xs : List Nat) (a : Nat)
    (h : r.nodeWriterStack = xs ++ [a]) : stackTop r = some a := by
  simp [stackTop, h]

theorem stackPop_concat (r : VditorSVRenderer) (xs : List Nat) (a : Nat)
    (h : r.nodeWriterStack = xs ++ [a]) :
    stackPop r = some { r with nodeWriterStack := xs } := by
  simp [stackPop, h]

theorem Repeat_space (n : Int) (h : 0 ≤ n) :
    Repeat (bytesOf " ") n = some (List.replicate n.toNat 32) := by
  unfold Repeat
  rw [if_neg (by omega)]
  congr 1
  generalize n.toNat = k
  induction k with
  | zero => rfl
  | succ k ih => rw [List.replicate_succ, List.flatten_cons, ih]; rfl

theorem renderListItemBlockPadding_spec (r : VditorSVRenderer) (node : Site)
    (h0 : 0 ≤ r.ListPadding) :
    ∃ r1, renderListItemBlockPadding r node = some r1 ∧ Appends r r1 ∧
      (r.Writer < r.buffers.length →
        bufBytes r1 r.Writer = bufBytes r r.Writer ++ listItemBlockPadding r node) ∧
      r1.ListPadding = r.ListPadding ∧ r1.LastOut = r.LastOut := by
  unfold renderListItemBlockPadding listItemBlockPadding
  simp only []
  by_cases h1 : node.ParentIs .NodeListItem = true
  · by_cases h2 : node.isFirstChild = true
    · simp only [h1, h2, Bool.not_true, Bool.false_eq_true, if_false, if_true, Bool.and_false]
      exact ⟨r, rfl, appends_refl r, fun _ => by simp, rfl, rfl⟩
    · simp only [h1, h2, Bool.not_true, Bool.false_eq_true, if_false, Repeat_space _ h0,
        Bool.not_eq_true, Bool.true_and, Bool.not_eq_true']
      have h2' : node.isFirstChild = false := by simpa using h2
      simp only [h2', if_true]
      refine ⟨_, rfl, appends_bufWrite r _, fun hW => ?_, rfl, rfl⟩
      rw [bufBytes_bufWrite]; simp [hW]
  · have h1' : node.ParentIs .NodeListItem = false := by simpa using h1
    simp only [h1', Bool.not_false, if_true, Bool.false_and, Bool.false_eq_true, if_false]
    exact ⟨r, rfl, appends_refl r, fun _ => by simp, rfl, rfl⟩

/-! ## Theorems: what handlers do to the tree -/

set_option maxHeartbeats 4000000 in
theorem handlers_keep_site (t : NodeType)
    (h : Env → VditorSVRenderer → Site → Bool → Option Result)
    (hh : RendererFuncs t = some h)
    (h1 : t ≠ .NodeText) (h2 : t ≠ .NodeTaskListItemMarker) (h3 : t ≠ .NodeLink) :
    KeepsSite h := by
  intro env r site entering r' site' st hrun
  cases t <;> first | exact absurd rfl h1 | exact absurd rfl h2 | exact absurd rfl h3 | cases hh
  all_goals
    simp only [renderDocument, renderParagraph, renderCodeSpan, renderCodeSpanOpenMarker,
        renderCodeSpanContent, renderCodeSpanCloseMarker, renderCodeBlock,
        renderCodeBlockOpenMarker, renderCodeBlockInfoMarker, renderCodeBlockCode,
        renderCodeBlockCloseMarker, renderMathBlock, renderMathBlockOpenMarker,
        renderMathBlockContent, renderMathBlockCloseMarker, renderInlineMath,
        renderInlineMathOpenMarker, renderInlineMathContent, renderInlineMathCloseMarker,
        renderEmphasis, renderEmAsteriskOpenMarker, renderEmAsteriskCloseMarker,
        renderEmUnderscoreOpenMarker, renderEmUnderscoreCloseMarker, renderStrong,
        renderStrongA6kOpenMarker, renderStrongA6kCloseMarker, renderStrongU8eOpenMarker,
        renderStrongU8eCloseMarker, renderBlockquote, renderBlockquoteMarker, renderHeading,
        renderHeadingC8hMarker, renderHeadingID, renderList, renderListItem,
        renderThematicBreak, renderHardBreak, renderSoftBreak, renderHTML, renderInlineHTML,
        renderImage, renderBang, renderOpenBracket, renderCloseBracket, renderOpenParen,
        renderCloseParen, renderLinkText, renderLinkSpace, renderLinkDest, renderLinkTitle,
        renderStrikethrough, renderStrikethrough1OpenMarker, renderStrikethrough1CloseMarker,
        renderStrikethrough2OpenMarker, renderStrikethrough2CloseMarker, renderTable,
        renderTableHead, renderTableRow, renderTableCell, renderEmoji, renderEmojiUnicode,
        renderEmojiImg, renderEmojiAlias, renderFootnotesDef, renderFootnotesRef, renderToC,
        renderBackslash, renderBackslashContent, renderHtmlEntity, renderMarker, renderSpan,
        renderContinue, Option.bind_eq_bind, Option.pure_def] at hrun
  all_goals
    repeat' first
      | exact (Prod.mk.inj (Prod.mk.inj (Option.some.inj hrun)).2).1.symm
      | (rw [Option.bind_eq_some] at hrun; obtain ⟨_, _, hrun⟩ := hrun)
      | split at hrun
      | cases hrun

theorem unlinkChildByType_sublist (cs cs' : List Node) (t : NodeType)
    (h : unlinkChildByType cs t = some cs') : List.Sublist cs' cs := by
  unfold unlinkChildByType at h
  split at h
  · exact absurd h (by simp)
  · rw [← Option.some.inj h]
    exact List.eraseP_sublist _

theorem unlinkLinkDest_sublist (cs cs' : List Node) (h : unlinkLinkDest cs = some cs') :
    List.Sublist cs' cs := by
  unfold unlinkLinkDest at h
  simp only [Option.bind_eq_bind] at h
  rw [Option.bind_eq_some] at h
  obtain ⟨c1, h1, h⟩ := h
  rw [Option.bind_eq_some] at h
  obtain ⟨c2, h2, h⟩ := h
  have s1 := unlinkChildByType_sublist _ _ _ h1
  have s2 := unlinkChildByType_sublist _ _ _ h2
  split at h
  · rw [Option.bind_eq_some] at h
    obtain ⟨c3, h3, h⟩ := h
    rw [Option.bind_eq_some] at h
    obtain ⟨c4, h4, h5⟩ := h
    exact (unlinkChildByType_sublist _ _ _ h5).trans ((unlinkChildByType_sublist _ _ _ h4).trans
      ((unlinkChildByType_sublist _ _ _ h3).trans (s2.trans s1)))
  · simp only [Option.some_bind] at h
    exact (unlinkChildByType_sublist _ _ _ h).trans (s2.trans s1)

theorem renderLink_tree (env : Env) (r r' : VditorSVRenderer) (site site' : Site)
    (entering : Bool) (st : WalkStatus)
    (hrun : renderLink env r site entering = some (r', site', st)) :
    site'.path = site.path ∧ site'.node.data = site.node.data ∧
      List.Sublist site'.node.children site.node.children ∧
      (¬ (entering = true ∧ 3 = site.node.data.LinkType) → site' = site) := by
  unfold renderLink at hrun
  simp only [Option.bind_eq_bind, Option.pure_def] at hrun
  split at hrun
  · rename_i he
    split at hrun
    · rename_i h3
      rw [Option.bind_eq_some] at hrun
      obtain ⟨cs, hcs, hrun⟩ := hrun
      simp only [Option.some_bind] at hrun
      have hs := (Prod.mk.inj (Prod.mk.inj (Option.some.inj hrun)).2).1.symm
      subst hs
      exact ⟨rfl, rfl, unlinkLinkDest_sublist _ _ hcs, fun hneg => absurd ⟨he, h3⟩ hneg⟩
    · simp only [Option.some_bind] at hrun
      have hs := (Prod.mk.inj (Prod.mk.inj (Option.some.inj hrun)).2).1.symm
      subst hs
      exact ⟨rfl, rfl, List.Sublist.refl _, fun _ => rfl⟩
  · have hs : site' = site := (Prod.mk.inj (Prod.mk.inj (Option.some.inj hrun)).2).1.symm
    subst hs
    exact ⟨rfl, rfl, List.Sublist.refl _, fun _ => rfl⟩

theorem renderText_tree (env : Env) (r r' : VditorSVRenderer) (site site' : Site)
    (entering : Bool) (st : WalkStatus)
    (hrun : renderText env r site entering = some (r', site', st))
    (ha : r.Option.AutoSpace = false) (hf : r.Option.FixTermTypo = false)
    (hc : r.Option.ChinesePunct = false) :
    site' = site.setTokens (TrimRight site.node.Tokens (bytesOf "\n")) := by
  unfold renderText at hrun
  simp only [ha, hf, hc, Bool.false_eq_true, if_false] at hrun
  exact (Prod.mk.inj (Prod.mk.inj (Option.some.inj hrun)).2).1.symm

theorem renderTaskListItemMarker_tree (env : Env) (r r' : VditorSVRenderer) (site site' : Site)
    (entering : Bool) (st : WalkStatus)
    (hrun : renderTaskListItemMarker env r site entering = some (r', site', st)) :
    ∃ next, site.Next = some next ∧
      site' = site.setNextTokens (TrimPrefix next.Tokens (bytesOf " ")) ∧
      site'.node = site.node := by
  unfold renderTaskListItemMarker at hrun
  simp only [Option.bind_eq_bind, Option.pure_def] at hrun
  rw [Option.bind_eq_some] at hrun
  obtain ⟨next, hnext, hrun⟩ := hrun
  have hs := (Prod.mk.inj (Prod.mk.inj (Option.some.inj hrun)).2).1.symm
  refine ⟨next, hnext, hs, ?_⟩
  rw [hs]
  unfold Site.setNextTokens
  split
  · split <;> rfl
  · rfl

/-- C10 (amended): let a registered handler run on a node and return. Unless it is
`renderText`, `renderTaskListItemMarker` or `renderLink`, the tree around the node is
then as before: the node's `Tokens`, its other fields, its children, its siblings and its
ancestors. `renderLink` changes nothing but the children of its node, and those only by
removing some when it enters a link of type 3. `renderText`, with the options `AutoSpace`,
`FixTermTypo` and `ChinesePunct` off, changes nothing but the `Tokens` of its node, from
which it trims the trailing line feeds. `renderTaskListItemMarker` leaves its own node as
it is and trims one leading space from the `Tokens` of the next sibling. -/
theorem handlers_tree_effect (t : NodeType)
    (h : Env → VditorSVRenderer → Site → Bool → Option Result)
    (env : Env) (r r' : VditorSVRenderer) (site site' : Site) (entering : Bool)
    (st : WalkStatus)
    (hh : RendererFuncs t = some h) (hrun : h env r site entering = some (r', site', st)) :
    (t ≠ .NodeText → t ≠ .NodeTaskListItemMarker → t ≠ .NodeLink → site' = site) ∧
    (t = .NodeLink →
      site'.path = site.path ∧ site'.node.data = site.node.data ∧
      List.Sublist site'.node.children site.node.children ∧
      (¬ (entering = true ∧ 3 = site.node.data.LinkType) → site' = site)) ∧
    (t = .NodeText → r.Option.AutoSpace = false → r.Option.FixTermTypo = false →
      r.Option.ChinesePunct = false →
      site' = site.setTokens (TrimRight site.node.Tokens (bytesOf "\n"))) ∧
    (t = .NodeTaskListItemMarker →
      ∃ next, site.Next = some next ∧
        site' = site.setNextTokens (TrimPrefix next.Tokens (bytesOf " ")) ∧
        site'.node = site.node) := by
  refine ⟨fun h1 h2 h3 => handlers_keep_site t h hh h1 h2 h3 env r site entering r' site' st hrun,
    ?_, ?_, ?_⟩
  · intro ht
    subst ht
    cases hh
    exact renderLink_tree env r r' site site' entering st hrun
  · intro ht ha hf hc
    subst ht
    cases hh
    exact renderText_tree env r r' site site' entering st hrun ha hf hc
  · intro ht
    subst ht
    cases hh
    exact renderTaskListItemMarker_tree env r r' site site' entering st hrun

/-- Witness for C10 (amended): the handler of a paragraph, entered at the top level. -/
theorem handlers_tree_effect_witness :
    ∃ (r' : VditorSVRenderer) (site' : Site) (st : WalkStatus),
      renderParagraph plainEnv initialRenderer (topLevel (leaf .NodeParagraph [])) true =
        some (r', site', st) ∧
      site'.node.Tokens = (topLevel (leaf .NodeParagraph [])).node.Tokens ∧
      site'.node.children = (topLevel (leaf .NodeParagraph [])).node.children :=
  ⟨_, _, _, rfl,
    by rw [(handlers_tree_effect .NodeParagraph renderParagraph plainEnv initialRenderer _
        (topLevel (leaf .NodeParagraph [])) _ true _ rfl rfl).1
        (by decide) (by decide) (by decide)],
    by rw [(handlers_tree_effect .NodeParagraph renderParagraph plainEnv initialRenderer _
        (topLevel (leaf .NodeParagraph [])) _ true _ rfl rfl).1
        (by decide) (by decide) (by decide)]⟩

/-- C10 (counterexample): `renderText` is the handler registered for text nodes, and on a
text node whose `Tokens` are `a` and a line feed it leaves the node with the `Tokens` `a`. -/
theorem renderText_changes_Tokens :
    RendererFuncs .NodeText = some renderText ∧
    ∃ (r' : VditorSVRenderer) (site' : Site),
      renderText plainEnv initialRenderer (topLevel (leaf .NodeText (bytesOf "a\n"))) true =
        some (r', site', .WalkStop) ∧
      site'.node.Tokens = bytesOf "a" ∧
      site'.node.Tokens ≠ (topLevel (leaf .NodeText (bytesOf "a\n"))).node.Tokens :=
  ⟨rfl, _, _, rfl, by decide, by decide⟩

theorem appends_step_Write {r s : VditorSVRenderer} (c : Bytes) (h : Appends r s) :
    Appends r (Write s c) := appends_trans h (appends_Write s c)

theorem appends_step_WriteString {r s : VditorSVRenderer} (c : Bytes) (h : Appends r s) :
    Appends r (WriteString s c) := appends_trans h (appends_WriteString s c)

theorem appends_step_WriteByte {r s : VditorSVRenderer} (c : Nat) (h : Appends r s) :
    Appends r (WriteByte s c) := appends_trans h (appends_WriteByte s c)

theorem appends_step_Newline {r s : VditorSVRenderer} (h : Appends r s) :
    Appends r (Newline s) := appends_trans h (appends_Newline s)

theorem appends_foldl_attrs (attrs : List (Bytes × Bytes)) :
    ∀ s : VditorSVRenderer, Appends s (attrs.foldl
      (fun r attr =>
        WriteString r (bytesOf " " ++ attr.1 ++ bytesOf "=\"" ++ attr.2 ++ bytesOf "\"")) s) := by
  induction attrs with
  | nil => intro s; exact appends_refl s
  | cons a as ih =>
    intro s
    exact appends_trans (appends_WriteString s _) (ih _)

theorem appends_tag (s : VditorSVRenderer) (name : Bytes) (attrs : List (Bytes × Bytes))
    (selfclosing : Bool) : Appends s (tag s name attrs selfclosing) := by
  unfold tag
  split
  · exact appends_refl s
  · simp only []
    apply appends_step_WriteString
    have h1 : Appends s (WriteString (WriteString s (bytesOf "<")) name) :=
      appends_trans (appends_WriteString s _) (appends_WriteString _ _)
    have h2 : Appends s (if 0 < attrs.length then attrs.foldl
        (fun r attr =>
          WriteString r (bytesOf " " ++ attr.1 ++ bytesOf "=\"" ++ attr.2 ++ bytesOf "\""))
        (WriteString (WriteString s (bytesOf "<")) name)
        else WriteString (WriteString s (bytesOf "<")) name) := by
      split
      · exact appends_trans h1 (appends_foldl_attrs attrs _)
      · exact h1
    split
    · exact appends_step_WriteString _ h2
    · exact h2

theorem appends_step_tag {r s : VditorSVRenderer} (name : Bytes) (attrs : List (Bytes × Bytes))
    (selfclosing : Bool) (h : Appends r s) : Appends r (tag s name attrs selfclosing) :=
  appends_trans h (appends_tag s name attrs selfclosing)

theorem appends_step_tagCloseSpan {r s : VditorSVRenderer} (h : Appends r s) :
    Appends r (tagCloseSpan s) := appends_trans h (appends_tag s _ _ _)

theorem appends_step_renderSpanNode {r s : VditorSVRenderer} (node : Site) (h : Appends r s) :
    Appends r (renderSpanNode s node) := appends_trans h (appends_tag s _ _ _)

theorem appends_step_bufWrite {r s : VditorSVRenderer} (c : Bytes) (h : Appends r s) :
    Appends r (bufWrite s s.Writer c) := appends_trans h (appends_bufWrite s c)

theorem appends_of_padding {r r1 : VditorSVRenderer} {node : Site}
    (h : renderListItemBlockPadding r node = some r1) : Appends r r1 := by
  unfold renderListItemBlockPadding at h
  simp only [] at h
  split at h
  · rw [← Option.some.inj h]; exact appends_refl r
  · split at h
    · rw [← Option.some.inj h]; exact appends_refl r
    · split at h
      · exact absurd h (by simp)
      · rw [← Option.some.inj h]; exact appends_bufWrite r _

theorem appends_step_padding {r s r1 : VditorSVRenderer} {node : Site}
    (h : renderListItemBlockPadding s node = some r1) (hs : Appends r s) : Appends r r1 :=
  appends_trans hs (appends_of_padding h)

theorem appends_step_listPadding {r s : VditorSVRenderer} (n : Int) (h : Appends r s) :
    Appends r { s with ListPadding := n } :=
  appends_trans h ⟨rfl, rfl, rfl, rfl, fun _ _ => rfl, List.prefix_refl _⟩

theorem appends_renderHeading (env : Env) (r r' : VditorSVRenderer) (site site' : Site)
    (entering : Bool) (st : WalkStatus)
    (hrun : renderHeading env r site entering = some (r', site', st)) : Appends r r' := by
  simp only [renderHeading, Option.bind_eq_bind, Option.pure_def] at hrun
  rw [Option.bind_eq_some] at hrun
  obtain ⟨parent, -, hrun⟩ := hrun
  split at hrun
  · rw [Option.bind_eq_some] at hrun
    obtain ⟨r1, h1, hrun⟩ := hrun
    have a1 : Appends r r1 := appends_of_padding h1
    split at hrun
    · rw [Option.bind_eq_some] at hrun
      obtain ⟨y, -, hrun⟩ := hrun
      simp only [Option.some_bind] at hrun
      rw [Option.bind_eq_some] at hrun
      obtain ⟨x, -, hrun⟩ := hrun
      have hr := (Prod.mk.inj (Option.some.inj hrun)).1
      subst hr
      exact appends_step_tagCloseSpan (appends_step_WriteString _ (appends_step_tag _ _ _
        (appends_step_tag _ _ _ (appends_step_tag _ _ _ a1))))
    · simp only [Option.some_bind] at hrun
      rw [Option.bind_eq_some] at hrun
      obtain ⟨x, -, hrun⟩ := hrun
      have hr := (Prod.mk.inj (Option.some.inj hrun)).1
      subst hr
      exact appends_step_tagCloseSpan (appends_step_WriteString _ (appends_step_tag _ _ _ a1))
  · have hr := (Prod.mk.inj (Option.some.inj hrun)).1
    subst hr
    repeat' first
      | with_reducible exact appends_refl _
      | with_reducible apply appends_step_Write
      | with_reducible apply appends_step_WriteString
      | with_reducible apply appends_step_tagCloseSpan
      | split

theorem appends_renderList (env : Env) (r r' : VditorSVRenderer) (site site' : Site)
    (entering : Bool) (st : WalkStatus)
    (hrun : renderList env r site entering = some (r', site', st)) : Appends r r' := by
  simp only [renderList, Option.bind_eq_bind, Option.pure_def] at hrun
  rw [Option.bind_eq_some] at hrun
  obtain ⟨d, -, hrun⟩ := hrun
  split at hrun
  · have hr := (Prod.mk.inj (Option.some.inj hrun)).1
    subst hr
    exact appends_step_tag _ _ _ (appends_step_listPadding _ (appends_refl r))
  · have hr := (Prod.mk.inj (Option.some.inj hrun)).1
    subst hr
    exact appends_step_listPadding _
      (appends_step_tagCloseSpan (appends_step_Write _ (appends_refl r)))

theorem appends_foldlM_headings (headings : List (Int × Bytes)) :
    ∀ (s s' : VditorSVRenderer),
      headings.foldlM
        (fun r heading =>
          (Repeat (bytesOf "&emsp;") ((heading.1 - 1) * 2)).bind fun x =>
            some (WriteString (WriteString (WriteString r x) (bytesOf "<span data-type=\"toc-h\">"))
              (heading.2 ++ bytesOf "</span><br>"))) s = some s' →
      Appends s s' := by
  induction headings with
  | nil =>
    intro s s' h
    simp only [List.foldlM, Option.pure_def] at h
    rw [← Option.some.inj h]
    exact appends_refl s
  | cons a as ih =>
    intro s s' h
    simp only [List.foldlM, Option.bind_eq_bind] at h
    rw [Option.bind_eq_some] at h
    obtain ⟨s1, h1, h⟩ := h
    rw [Option.bind_eq_some] at h1
    obtain ⟨x, -, h1⟩ := h1
    rw [← Option.some.inj h1] at h
    exact appends_trans (appends_step_WriteString _ (appends_step_WriteString _
      (appends_WriteString s x))) (ih _ _ h)

theorem appends_renderToC (env : Env) (r r' : VditorSVRenderer) (site site' : Site)
    (entering : Bool) (st : WalkStatus)
    (hrun : renderToC env r site entering = some (r', site', st)) : Appends r r' := by
  simp only [renderToC, Option.bind_eq_bind, Option.pure_def] at hrun
  split at hrun
  · rw [Option.bind_eq_some] at hrun
    obtain ⟨r1, h1, hrun⟩ := hrun
    have hr := (Prod.mk.inj (Option.some.inj hrun)).1
    subst hr
    have a1 : Appends r r1 :=
      appends_trans (appends_WriteString r _) (appends_foldlM_headings _ _ _ h1)
    repeat' first
      | exact a1
      | with_reducible apply appends_step_WriteString
      | with_reducible apply appends_step_Newline
      | split
  · simp only [Option.some_bind] at hrun
    have hr := (Prod.mk.inj (Option.some.inj hrun)).1
    subst hr
    repeat' first
      | with_reducible exact appends_refl _
      | with_reducible apply appends_step_WriteString
      | with_reducible apply appends_step_Newline
      | split

set_option maxHeartbeats 4000000 in
theorem handlers_append (t : NodeType)
    (h : Env → VditorSVRenderer → Site → Bool → Option Result)
    (hh : RendererFuncs t = some h)
    (h1 : t ≠ .NodeDocument) (h2 : t ≠ .NodeBlockquote) (h3 : t ≠ .NodeListItem)
    (env : Env) (r r' : VditorSVRenderer) (site site' : Site) (entering : Bool)
    (st : WalkStatus) (hrun : h env r site entering = some (r', site', st)) :
    Appends r r' := by
  cases t <;> first | exact absurd rfl h1 | exact absurd rfl h2 | exact absurd rfl h3 | cases hh
  all_goals
    first
      | with_reducible exact appends_renderHeading env r r' site site' entering st hrun
      | with_reducible exact appends_renderList env r r' site site' entering st hrun
      | with_reducible exact appends_renderToC env r r' site site' entering st hrun
      | skip
  all_goals
    simp only [renderParagraph, renderCodeSpan, renderCodeSpanOpenMarker,
        renderCodeSpanContent, renderCodeSpanCloseMarker, renderCodeBlock,
        renderCodeBlockOpenMarker, renderCodeBlockInfoMarker, renderCodeBlockCode,
        renderCodeBlockCloseMarker, renderMathBlock, renderMathBlockOpenMarker,
        renderMathBlockContent, renderMathBlockCloseMarker, renderInlineMath,
        renderInlineMathOpenMarker, renderInlineMathContent, renderInlineMathCloseMarker,
        renderEmphasis, renderEmAsteriskOpenMarker, renderEmAsteriskCloseMarker,
        renderEmUnderscoreOpenMarker, renderEmUnderscoreCloseMarker, renderStrong,
        renderStrongA6kOpenMarker, renderStrongA6kCloseMarker, renderStrongU8eOpenMarker,
        renderStrongU8eCloseMarker, renderBlockquoteMarker,
        renderHeadingC8hMarker, renderHeadingID, renderText, renderLink,
        renderTaskListItemMarker, taskMarker,
        renderThematicBreak, renderHardBreak, renderSoftBreak, renderHTML, renderInlineHTML,
        renderImage, renderBang, renderOpenBracket, renderCloseBracket, renderOpenParen,
        renderCloseParen, renderLinkText, renderLinkSpace, renderLinkDest, renderLinkTitle,
        renderStrikethrough, renderStrikethrough1OpenMarker, renderStrikethrough1CloseMarker,
        renderStrikethrough2OpenMarker, renderStrikethrough2CloseMarker, renderTable,
        renderTableHead, renderTableRow, renderTableCell, renderEmoji, renderEmojiUnicode,
        renderEmojiImg, renderEmojiAlias, renderFootnotesDef, renderFootnotesRef,
        renderBackslash, renderBackslashContent, renderHtmlEntity, renderMarker, renderSpan,
        renderContinue, Option.bind_eq_bind, Option.pure_def] at hrun
  all_goals
    repeat' first
      | (have hr := (Prod.mk.inj (Option.some.inj hrun)).1; clear hrun; subst hr)
      | (rw [Option.bind_eq_some] at hrun; obtain ⟨_, _, hrun⟩ := hrun)
      | split at hrun
      | cases hrun
  all_goals
    repeat' first
      | with_reducible exact appends_refl _
      | with_reducible apply appends_step_Write
      | with_reducible apply appends_step_WriteString
      | with_reducible apply appends_step_WriteByte
      | with_reducible apply appends_step_Newline
      | with_reducible apply appends_step_tagCloseSpan
      | with_reducible apply appends_step_renderSpanNode
      | with_reducible apply appends_step_tag
      | with_reducible exact appends_of_padding (by with_reducible assumption)
      | with_reducible refine appends_step_padding (by with_reducible assumption) ?_
      | split

/-! ## Theorems: the content that leaves a block quote or a list item -/

theorem blockquote_tail (s : VditorSVRenderer) (h : s.Writer < s.buffers.length) :
    ∃ tail : Bytes, (tail = NewlineSV ++ closeSpan ∨ tail = NewlineSV ++ NewlineSV ++ closeSpan) ∧
      bufBytes (WriteString (Write (Newline (rewriteWriter s)) NewlineSV) (bytesOf "</span>"))
          s.Writer = bufBytes s s.Writer ++ tail ∧
      (WriteString (Write (Newline (rewriteWriter s)) NewlineSV) (bytesOf "</span>")).nodeWriterStack
        = s.nodeWriterStack ∧
      (WriteString (Write (Newline (rewriteWriter s)) NewlineSV) (bytesOf "</span>")).Writer
        = s.Writer ∧
      (WriteString (Write (Newline (rewriteWriter s)) NewlineSV)
        (bytesOf "</span>")).buffers.length = s.buffers.length ∧
      ∀ q, q ≠ s.Writer →
        bufBytes (WriteString (Write (Newline (rewriteWriter s)) NewlineSV) (bytesOf "</span>")) q
          = bufBytes s q := by
  obtain ⟨fa1, fa2, fa3, -, -⟩ := rewriteWriter_fields s
  have hb := appends_Newline (rewriteWriter s)
  have hc := appends_Write (Newline (rewriteWriter s)) NewlineSV
  have hd := appends_WriteString (Write (Newline (rewriteWriter s)) NewlineSV) (bytesOf "</span>")
  have hall := appends_trans hb (appends_trans hc hd)
  have wb : (Newline (rewriteWriter s)).Writer = s.Writer := hb.writer.trans fa1
  have wc : (Write (Newline (rewriteWriter s)) NewlineSV).Writer = s.Writer := hc.writer.trans wb
  have lb : (Newline (rewriteWriter s)).buffers.length = s.buffers.length := hb.length.trans fa3
  have lc : (Write (Newline (rewriteWriter s)) NewlineSV).buffers.length = s.buffers.length :=
    hc.length.trans lb
  have e3 := bufBytes_WriteString (Write (Newline (rewriteWriter s)) NewlineSV) (bytesOf "</span>")
    (by rw [wc, lc]; exact h)
  have e2 := bufBytes_Write (Newline (rewriteWriter s)) NewlineSV (by rw [wb, lb]; exact h)
  have e1 := bufBytes_Newline (rewriteWriter s) (by rw [fa1, fa3]; exact h)
  rw [wc] at e3
  rw [wb] at e2
  rw [fa1, rewriteWriter_bufBytes] at e1
  have hcs : bytesOf "</span>" = closeSpan := rfl
  have hstack := (hd.stack.trans (hc.stack.trans (hb.stack.trans fa2)))
  have hwr := hd.writer.trans wc
  have hlen := hall.length.trans fa3
  have hoth : ∀ q, q ≠ s.Writer →
      bufBytes (WriteString (Write (Newline (rewriteWriter s)) NewlineSV) (bytesOf "</span>")) q
        = bufBytes s q := by
    intro q hq
    rw [hall.others q (by rw [fa1]; exact hq), rewriteWriter_bufBytes]
  rcases e1 with e1 | e1
  · exact ⟨NewlineSV ++ closeSpan, Or.inl rfl,
      by rw [e3, e2, e1, hcs]; simp [List.append_assoc], hstack, hwr, hlen, hoth⟩
  · exact ⟨NewlineSV ++ NewlineSV ++ closeSpan, Or.inr rfl,
      by rw [e3, e2, e1, hcs]; simp [List.append_assoc], hstack, hwr, hlen, hoth⟩

theorem renderBlockquote_exit_core (env : Env) (r r1 : VditorSVRenderer) (node : Site)
    (rest : List Nat) (parent writer : Nat)
    (hr1 : renderListItemBlockPadding r node = some r1)
    (hstack : r.nodeWriterStack = rest ++ [parent, writer]) (hw : r.Writer = writer)
    (hne : parent ≠ writer) (hp : parent < r.buffers.length) (hwl : writer < r.buffers.length) :
    ∃ (r' : VditorSVRenderer) (lines : List Bytes) (tail : Bytes),
      renderBlockquote env r node false = some (r', node, .WalkContinue) ∧
      lines ≠ [] ∧
      trimNewlines (bufBytes r1 writer).length (bufBytes r1 writer) =
        List.intercalate NewlineSV lines ∧
      (∀ l ∈ lines, ¬ NewlineSV <:+: l) ∧
      bufBytes r' parent =
        bufBytes r parent ++ blockquoteOpen ++
          List.intercalate NewlineSV (lines.map (fun l => blockquoteMarker ++ l)) ++ tail ∧
      (tail = NewlineSV ++ closeSpan ∨ tail = NewlineSV ++ NewlineSV ++ closeSpan) ∧
      r'.nodeWriterStack = rest ++ [parent] ∧ r'.Writer = parent ∧
      r'.buffers.length = r.buffers.length ∧
      ∀ q, q ≠ parent → q ≠ writer → bufBytes r' q = bufBytes r q := by
  have hA : Appends r r1 := appends_of_padding hr1
  have hst1 : r1.nodeWriterStack = (rest ++ [parent]) ++ [writer] := by
    rw [hA.stack, hstack]; simp
  have hb2 : bufBytes r1 parent = bufBytes r parent := hA.others parent (by rw [hw]; exact hne)
  have hl1 : r1.buffers.length = r.buffers.length := hA.length
  obtain ⟨lines, hl, hsplit, hno, hrep⟩ := ReplaceAll_blockquote
    (trimNewlines (bufBytes r1 writer).length (bufBytes r1 writer))
  simp only [renderBlockquote, Bool.false_eq_true, if_false, hr1, Option.bind_eq_bind,
    Option.some_bind, stackTop_concat r1 _ _ hst1, stackPop_concat r1 _ _ hst1]
  rw [stackTop_concat _ rest parent rfl]
  simp only [Option.some_bind, pure]
  generalize hs : ({ r1 with nodeWriterStack := rest ++ [parent] } : VditorSVRenderer) = s
  have hsb : ∀ q, bufBytes s q = bufBytes r1 q := by intro q; rw [← hs]; rfl
  have hsl : s.buffers.length = r1.buffers.length := by rw [← hs]
  have hss : s.nodeWriterStack = rest ++ [parent] := by rw [← hs]
  simp only [hsb]
  rw [hrep]
  generalize hX : List.intercalate NewlineSV (lines.map (fun l => blockquoteMarker ++ l)) = X
  generalize hs2 : bufWrite (bufWrite (bufReset s writer) writer blockquoteOpen) writer X = s2
  have hs2w : bufBytes s2 writer = blockquoteOpen ++ X := by
    rw [← hs2]
    simp [bufBytes_bufWrite, bufBytes_bufReset, bufWrite_length, bufReset_length, hsl, hl1, hwl]
  have hs2p : bufBytes s2 parent = bufBytes r parent := by
    rw [← hs2]
    simp [bufBytes_bufWrite, bufBytes_bufReset, hne, hsb, hb2]
  have hs2o : ∀ q, q ≠ writer → bufBytes s2 q = bufBytes r1 q := by
    intro q hq
    rw [← hs2]
    simp [bufBytes_bufWrite, bufBytes_bufReset, hq, hsb]
  have hs2l : s2.buffers.length = r.buffers.length := by
    rw [← hs2, bufWrite_length, bufWrite_length, bufReset_length, hsl, hl1]
  have hs2s : s2.nodeWriterStack = rest ++ [parent] := by rw [← hs2]; exact hss
  generalize hs3 : ({ bufWrite s2 parent (bufBytes s2 writer) with Writer := parent } :
    VditorSVRenderer) = s3
  have hs3b : ∀ q, bufBytes s3 q = bufBytes (bufWrite s2 parent (bufBytes s2 writer)) q := by
    intro q; rw [← hs3]; rfl
  have hs3p : bufBytes s3 parent = bufBytes r parent ++ (blockquoteOpen ++ X) := by
    rw [hs3b, bufBytes_bufWrite, hs2w, hs2p]; simp [hs2l, hp]
  have hs3o : ∀ q, q ≠ parent → q ≠ writer → bufBytes s3 q = bufBytes r q := by
    intro q hq1 hq2
    rw [hs3b, bufBytes_bufWrite, if_neg (fun hc => hq1 hc.1), hs2o q hq2]
    exact hA.others q (by rw [hw]; exact hq2)
  have hs3W : s3.Writer = parent := by rw [← hs3]
  have hs3l : s3.buffers.length = r.buffers.length := by
    rw [← hs3]
    show (bufWrite s2 parent (bufBytes s2 writer)).buffers.length = _
    rw [bufWrite_length, hs2l]
  have hs3s : s3.nodeWriterStack = rest ++ [parent] := by rw [← hs3]; exact hs2s
  obtain ⟨tail, ht, hbytes, hstk, hwr, hlen, hoth⟩ :=
    blockquote_tail s3 (by rw [hs3W, hs3l]; exact hp)
  rw [hs3W] at hbytes hwr hoth
  refine ⟨_, lines, tail, rfl, hl, hsplit, hno, ?_, ht, hstk.trans hs3s, hwr,
    hlen.trans hs3l, ?_⟩
  · rw [hbytes, hs3p, hX]; simp [List.append_assoc]
  · intro q hq1 hq2
    rw [hoth q hq1, hs3o q hq1 hq2]

/-- At the level of values: on exit from a block quote whose buffer `writer` is on top of the stack, above the
buffer `parent`, the handler succeeds. Let the trimmed content be what the trimming loop
leaves of the quote's buffer (read back after the handler's padding call); it splits into
pieces `lines` delimited by `NewlineSV`, none of which contains `NewlineSV`. The parent
buffer receives the opening blockquote span and then the pieces, each with the quote
marker span in front, joined by `NewlineSV` again: one marker per piece, that is one plus
the number of sentinels of the trimmed content. The handler then closes the block with a
coalesced separator, one more `NewlineSV` and `</span>`, pops the stack and makes the
parent the writer. -/
theorem renderBlockquote_exit_content (env : Env) (r : VditorSVRenderer) (node : Site)
    (rest : List Nat) (parent writer : Nat)
    (hstack : r.nodeWriterStack = rest ++ [parent, writer]) (hw : r.Writer = writer)
    (hne : parent ≠ writer) (hp : parent < r.buffers.length) (hwl : writer < r.buffers.length)
    (h0 : 0 ≤ r.ListPadding) :
    ∃ (r' : VditorSVRenderer) (lines : List Bytes) (tail : Bytes),
      renderBlockquote env r node false = some (r', node, .WalkContinue) ∧
      lines ≠ [] ∧
      trimNewlines (bufBytes r writer ++ listItemBlockPadding r node).length
          (bufBytes r writer ++ listItemBlockPadding r node) =
        List.intercalate NewlineSV lines ∧
      (∀ l ∈ lines, ¬ NewlineSV <:+: l) ∧
      bufBytes r' parent =
        bufBytes r parent ++ blockquoteOpen ++
          List.intercalate NewlineSV (lines.map (fun l => blockquoteMarker ++ l)) ++ tail ∧
      (tail = NewlineSV ++ closeSpan ∨ tail = NewlineSV ++ NewlineSV ++ closeSpan) ∧
      r'.nodeWriterStack = rest ++ [parent] ∧ r'.Writer = parent := by
  obtain ⟨r1, hr1, -, hB, -, -⟩ := renderListItemBlockPadding_spec r node h0
  have hb1 : bufBytes r1 writer = bufBytes r writer ++ listItemBlockPadding r node := by
    rw [← hw]; exact hB (by rw [hw]; exact hwl)
  obtain ⟨r', lines, tail, h1, h2, h3, h4, h5, h6, h7, h8, -, -⟩ :=
    renderBlockquote_exit_core env r r1 node rest parent writer hr1 hstack hw hne hp hwl
  rw [hb1] at h3
  exact ⟨r', lines, tail, h1, h2, h3, h4, h5, h6, h7, h8⟩

theorem bufBytes_tagCloseSpan (r : VditorSVRenderer) (h : r.Writer < r.buffers.length) :
    bufBytes (tagCloseSpan r) r.Writer =
      bufBytes r r.Writer ++ (if r.DisableTags > 0 then [] else closeSpan) := by
  unfold tagCloseSpan tag
  by_cases hd : r.DisableTags > 0
  · simp only [hd, if_true]
    simp
  · simp only [hd, if_false, List.length_nil, Nat.lt_irrefl, Bool.false_eq_true]
    have a1 := appends_WriteString r (bytesOf "<")
    have a2 := appends_WriteString (WriteString r (bytesOf "<")) (bytesOf "/span")
    have e1 := bufBytes_WriteString r (bytesOf "<") h
    have e2 := bufBytes_WriteString (WriteString r (bytesOf "<")) (bytesOf "/span")
      (by rw [a1.writer, a1.length]; exact h)
    have e3 := bufBytes_WriteString (WriteString (WriteString r (bytesOf "<")) (bytesOf "/span"))
      (bytesOf ">") (by rw [a2.writer, a2.length, a1.writer, a1.length]; exact h)
    rw [a2.writer, a1.writer] at e3
    rw [a1.writer] at e2
    rw [e3, e2, e1]
    simp only [List.append_assoc]
    rfl

theorem listItem_tail (s : VditorSVRenderer) (h : s.Writer < s.buffers.length) :
    ∃ tail : Bytes,
      (tail = (if s.DisableTags > 0 then [] else closeSpan) ∨
        tail = NewlineSV ++ (if s.DisableTags > 0 then [] else closeSpan)) ∧
      bufBytes (tagCloseSpan (Newline (rewriteWriter s))) s.Writer = bufBytes s s.Writer ++ tail ∧
      (tagCloseSpan (Newline (rewriteWriter s))).nodeWriterStack = s.nodeWriterStack ∧
      (tagCloseSpan (Newline (rewriteWriter s))).Writer = s.Writer ∧
      (tagCloseSpan (Newline (rewriteWriter s))).buffers.length = s.buffers.length ∧
      ∀ q, q ≠ s.Writer →
        bufBytes (tagCloseSpan (Newline (rewriteWriter s))) q = bufBytes s q := by
  obtain ⟨fa1, fa2, fa3, fa4, -⟩ := rewriteWriter_fields s
  have hb := appends_Newline (rewriteWriter s)
  have hc : Appends (Newline (rewriteWriter s)) (tagCloseSpan (Newline (rewriteWriter s))) :=
    appends_tag _ _ _ _
  have hall := appends_trans hb hc
  have wb : (Newline (rewriteWriter s)).Writer = s.Writer := hb.writer.trans fa1
  have lb : (Newline (rewriteWriter s)).buffers.length = s.buffers.length := hb.length.trans fa3
  have tb : (Newline (rewriteWriter s)).DisableTags = s.DisableTags := hb.tags.trans fa4
  have e2 := bufBytes_tagCloseSpan (Newline (rewriteWriter s)) (by rw [wb, lb]; exact h)
  have e1 := bufBytes_Newline (rewriteWriter s) (by rw [fa1, fa3]; exact h)
  rw [wb, tb] at e2
  rw [fa1, rewriteWriter_bufBytes] at e1
  have hstack := hc.stack.trans (hb.stack.trans fa2)
  have hwr := hc.writer.trans wb
  have hlen := hall.length.trans fa3
  have hoth : ∀ q, q ≠ s.Writer →
      bufBytes (tagCloseSpan (Newline (rewriteWriter s))) q = bufBytes s q := by
    intro q hq
    rw [hall.others q (by rw [fa1]; exact hq), rewriteWriter_bufBytes]
  rcases e1 with e1 | e1
  · exact ⟨_, Or.inl rfl, by rw [e2, e1], hstack, hwr, hlen, hoth⟩
  · exact ⟨_, Or.inr rfl, by rw [e2, e1]; simp [List.append_assoc], hstack, hwr, hlen, hoth⟩

theorem renderListItem_exit_core (env : Env) (r : VditorSVRenderer) (node : Site)
    (d : ListData) (li : Bytes) (rest : List Nat) (parent writer : Nat)
    (hd : node.node.data.ListData = some d) (hli : listItemOpen r.ListPadding d = some li)
    (hstack : r.nodeWriterStack = rest ++ [parent, writer])
    (hne : parent ≠ writer) (hp : parent < r.buffers.length) :
    ∃ (r' : VditorSVRenderer) (tail : Bytes),
      renderListItem env r node false = some (r', node, .WalkContinue) ∧
      bufBytes r' parent =
        bufBytes r parent ++ li ++ trimNewlines (bufBytes r writer).length (bufBytes r writer) ++
          tail ∧
      (tail = (if r.DisableTags > 0 then [] else closeSpan) ∨
        tail = NewlineSV ++ (if r.DisableTags > 0 then [] else closeSpan)) ∧
      r'.nodeWriterStack = rest ++ [parent] ∧ r'.Writer = parent ∧
      r'.buffers.length = r.buffers.length ∧
      ∀ q, q ≠ parent → q ≠ writer → bufBytes r' q = bufBytes r q := by
  have hst1 : r.nodeWriterStack = (rest ++ [parent]) ++ [writer] := by
    rw [hstack]; simp
  simp only [renderListItem, Bool.false_eq_true, if_false, Option.bind_eq_bind,
    Option.some_bind, stackTop_concat r _ _ hst1, stackPop_concat r _ _ hst1, hd]
  rw [show ({ r with nodeWriterStack := rest ++ [parent] } : VditorSVRenderer).ListPadding =
    r.ListPadding from rfl, hli]
  simp only [Option.some_bind]
  rw [stackTop_concat _ rest parent rfl]
  simp only [Option.some_bind, pure]
  generalize hs : ({ r with nodeWriterStack := rest ++ [parent] } : VditorSVRenderer) = s
  have hsb : ∀ q, bufBytes s q = bufBytes r q := by intro q; rw [← hs]; rfl
  have hsl : s.buffers.length = r.buffers.length := by rw [← hs]
  have hss : s.nodeWriterStack = rest ++ [parent] := by rw [← hs]
  have hst : s.DisableTags = r.DisableTags := by rw [← hs]
  simp only [hsb]
  generalize hX : li ++ trimNewlines (bufBytes r writer).length (bufBytes r writer) = X
  generalize hs2 : bufWrite (bufReset s writer) writer X = s2
  have hs2o : ∀ q, q ≠ writer → bufBytes s2 q = bufBytes r q := by
    intro q hq
    rw [← hs2]
    simp [bufBytes_bufWrite, bufBytes_bufReset, hq, hsb]
  have hs2l : s2.buffers.length = r.buffers.length := by
    rw [← hs2, bufWrite_length, bufReset_length, hsl]
  have hs2s : s2.nodeWriterStack = rest ++ [parent] := by rw [← hs2]; exact hss
  have hs2t : s2.DisableTags = r.DisableTags := by rw [← hs2]; exact hst
  generalize hs3 : ({ bufWrite s2 parent X with Writer := parent } : VditorSVRenderer) = s3
  have hs3b : ∀ q, bufBytes s3 q = bufBytes (bufWrite s2 parent X) q := by
    intro q; rw [← hs3]; rfl
  have hs3p : bufBytes s3 parent = bufBytes r parent ++ X := by
    rw [hs3b, bufBytes_bufWrite, hs2o parent hne]; simp [hs2l, hp]
  have hs3o : ∀ q, q ≠ parent → q ≠ writer → bufBytes s3 q = bufBytes r q := by
    intro q hq1 hq2
    rw [hs3b, bufBytes_bufWrite, if_neg (fun hc => hq1 hc.1), hs2o q hq2]
  have hs3W : s3.Writer = parent := by rw [← hs3]
  have hs3l : s3.buffers.length = r.buffers.length := by
    rw [← hs3]
    show (bufWrite s2 parent X).buffers.length = _
    rw [bufWrite_length, hs2l]
  have hs3s : s3.nodeWriterStack = rest ++ [parent] := by rw [← hs3]; exact hs2s
  have hs3t : s3.DisableTags = r.DisableTags := by rw [← hs3]; exact hs2t
  obtain ⟨tail, ht, hbytes, hstk, hwr, hlen, hoth⟩ :=
    listItem_tail s3 (by rw [hs3W, hs3l]; exact hp)
  rw [hs3W] at hbytes hwr hoth
  rw [hs3t] at ht
  refine ⟨_, tail, rfl, ?_, ht, hstk.trans hs3s, hwr, hlen.trans hs3l, ?_⟩
  · rw [hbytes, hs3p, ← hX]; simp [List.append_assoc]
  · intro q hq1 hq2
    rw [hoth q hq1, hs3o q hq1 hq2]

/-- At the level of values: on exit from a list item whose buffer `writer` is on top of the stack,
above the buffer `parent`, and whose margin `ListPadding - Padding` is not negative, the
handler succeeds and the parent buffer receives: the opening span `data-type="li"`, a
padding span holding exactly `ListPadding - Padding` spaces, a li-marker span holding the
item marker followed by one space, and then the item's buffered content as the trimming
loop leaves it (every `NewlineSV` directly before the final `</span>` removed). The marker
is the decimal `Num` followed by the `Delimiter` for an ordered item (`Typ` 1, or `Typ` 3
with `BulletChar` 0) and the `Marker` bytes otherwise. The handler then closes the item
with a coalesced separator and the closing tag. -/
theorem renderListItem_exit_content (env : Env) (r : VditorSVRenderer) (node : Site)
    (d : ListData) (rest : List Nat) (parent writer : Nat)
    (hd : node.node.data.ListData = some d)
    (hstack : r.nodeWriterStack = rest ++ [parent, writer])
    (hne : parent ≠ writer) (hp : parent < r.buffers.length)
    (hm : 0 ≤ r.ListPadding - d.Padding) :
    ∃ (r' : VditorSVRenderer) (marker tail : Bytes),
      renderListItem env r node false = some (r', node, .WalkContinue) ∧
      marker = (if 1 = d.Typ ∨ (3 = d.Typ ∧ 0 = d.BulletChar)
        then Itoa d.Num ++ stringOfByte d.Delimiter else d.Marker) ∧
      bufBytes r' parent =
        bufBytes r parent ++ bytesOf "<span data-type=\"li\">" ++
          (bytesOf "<span data-type=\"padding\">" ++
            List.replicate (r.ListPadding - d.Padding).toNat 32 ++ bytesOf "</span>") ++
          (bytesOf "<span data-type=\"li-marker\" class=\"vditor-sv__marker\">" ++ marker ++
            bytesOf " </span>") ++
          trimNewlines (bufBytes r writer).length (bufBytes r writer) ++ tail ∧
      (tail = (if r.DisableTags > 0 then [] else closeSpan) ∨
        tail = NewlineSV ++ (if r.DisableTags > 0 then [] else closeSpan)) ∧
      r'.nodeWriterStack = rest ++ [parent] ∧ r'.Writer = parent := by
  have hopen : listItemOpen r.ListPadding d = some
      (bytesOf "<span data-type=\"li\">" ++
        (bytesOf "<span data-type=\"padding\">" ++
          List.replicate (r.ListPadding - d.Padding).toNat 32 ++ bytesOf "</span>") ++
        (bytesOf "<span data-type=\"li-marker\" class=\"vditor-sv__marker\">" ++ listMarker d ++
          bytesOf " </span>")) := by
    simp only [listItemOpen, Repeat_space _ hm, Option.bind_eq_bind, Option.some_bind, pure]
  obtain ⟨r', tail, h1, h2, h3, h4, h5, -, -⟩ :=
    renderListItem_exit_core env r node d _ rest parent writer hd hopen hstack hne hp
  refine ⟨r', listMarker d, tail, h1, rfl, ?_, h3, h4, h5⟩
  rw [h2]; simp [List.append_assoc]

/-- An instance: a block quote at the top level whose buffer holds two lines. -/
theorem renderBlockquote_exit_content_witness :
    ∃ (r' : VditorSVRenderer) (lines : List Bytes) (tail : Bytes),
      renderBlockquote plainEnv quoteExitState (topLevel (leaf .NodeBlockquote [])) false =
        some (r', topLevel (leaf .NodeBlockquote []), .WalkContinue) ∧
      lines ≠ [] ∧
      trimNewlines
          (bufBytes quoteExitState 1 ++
            listItemBlockPadding quoteExitState (topLevel (leaf .NodeBlockquote []))).length
          (bufBytes quoteExitState 1 ++
            listItemBlockPadding quoteExitState (topLevel (leaf .NodeBlockquote []))) =
        List.intercalate NewlineSV lines ∧
      (∀ l ∈ lines, ¬ NewlineSV <:+: l) ∧
      bufBytes r' 0 =
        bufBytes quoteExitState 0 ++ blockquoteOpen ++
          List.intercalate NewlineSV (lines.map (fun l => blockquoteMarker ++ l)) ++ tail ∧
      (tail = NewlineSV ++ closeSpan ∨ tail = NewlineSV ++ NewlineSV ++ closeSpan) ∧
      r'.nodeWriterStack = [] ++ [0] ∧ r'.Writer = 0 :=
  renderBlockquote_exit_content plainEnv quoteExitState (topLevel (leaf .NodeBlockquote []))
    [] 0 1 (by decide) (by decide) (by decide) (by decide) (by decide) (by decide)

/-- An instance: the item of a tight bullet list holding one paragraph. -/
theorem renderListItem_exit_content_witness :
    ∃ (r' : VditorSVRenderer) (marker tail : Bytes),
      renderListItem plainEnv itemExitState itemSite false = some (r', itemSite, .WalkContinue) ∧
      marker = (if 1 = bulletData.Typ ∨ (3 = bulletData.Typ ∧ 0 = bulletData.BulletChar)
        then Itoa bulletData.Num ++ stringOfByte bulletData.Delimiter else bulletData.Marker) ∧
      bufBytes r' 0 =
        bufBytes itemExitState 0 ++ bytesOf "<span data-type=\"li\">" ++
          (bytesOf "<span data-type=\"padding\">" ++
            List.replicate (itemExitState.ListPadding - bulletData.Padding).toNat 32 ++
            bytesOf "</span>") ++
          (bytesOf "<span data-type=\"li-marker\" class=\"vditor-sv__marker\">" ++ marker ++
            bytesOf " </span>") ++
          trimNewlines (bufBytes itemExitState 1).length (bufBytes itemExitState 1) ++ tail ∧
      (tail = (if itemExitState.DisableTags > 0 then [] else closeSpan) ∨
        tail = NewlineSV ++ (if itemExitState.DisableTags > 0 then [] else closeSpan)) ∧
      r'.nodeWriterStack = [] ++ [0] ∧ r'.Writer = 0 :=
  renderListItem_exit_content plainEnv itemExitState itemSite bulletData [] 0 1 rfl
    (by decide) (by decide) (by decide) (by decide)

set_option maxRecDepth 100000 in
/-- C5 (counterexample): the buffer of the item ends with `NewlineSV` directly before its
closing tag. On exit the parent buffer does not receive the opening spans followed by
the item's buffered content: the trimming loop removed that `NewlineSV`. -/
theorem renderListItem_exit_not_buffered_content :
    ∃ r' : VditorSVRenderer,
      renderListItem plainEnv itemExitState itemSite false = some (r', itemSite, .WalkContinue) ∧
      ¬ (bufBytes itemExitState 0 ++
          bytesOf "<span data-type=\"li\"><span data-type=\"padding\"></span>" ++
          bytesOf "<span data-type=\"li-marker\" class=\"vditor-sv__marker\">- </span>" ++
          bufBytes itemExitState 1) <+: bufBytes r' 0 :=
  ⟨_, rfl, by decide⟩

/-! ## Theorems: the buffer stack across a container -/

theorem renderBlockquote_exit_frame (env : Env) (r r' : VditorSVRenderer) (site site' : Site)
    (st : WalkStatus) (rest : List Nat) (parent writer : Nat)
    (hexit : renderBlockquote env r site false = some (r', site', st))
    (hstack : r.nodeWriterStack = rest ++ [parent, writer]) (hw : r.Writer = writer)
    (hne : parent ≠ writer) (hp : parent < r.buffers.length) (hwl : writer < r.buffers.length) :
    r'.nodeWriterStack = rest ++ [parent] ∧ r'.Writer = parent ∧
      r'.buffers.length = r.buffers.length ∧
      (∀ q, q ≠ parent → q ≠ writer → bufBytes r' q = bufBytes r q) ∧
      bufBytes r parent <+: bufBytes r' parent := by
  have hex := hexit
  simp only [renderBlockquote, Bool.false_eq_true, if_false, Option.bind_eq_bind] at hex
  rw [Option.bind_eq_some] at hex
  obtain ⟨r1, hr1, -⟩ := hex
  obtain ⟨r'', lines, tail, h1, -, -, -, h5, -, h7, h8, h9, h10⟩ :=
    renderBlockquote_exit_core env r r1 site rest parent writer hr1 hstack hw hne hp hwl
  rw [hexit] at h1
  have hr : r' = r'' := (Prod.mk.inj (Option.some.inj h1)).1
  subst hr
  refine ⟨h7, h8, h9, h10, ?_⟩
  rw [h5, List.append_assoc, List.append_assoc]
  exact List.prefix_append _ _

theorem renderListItem_exit_frame (env : Env) (r r' : VditorSVRenderer) (site site' : Site)
    (st : WalkStatus) (rest : List Nat) (parent writer : Nat)
    (hexit : renderListItem env r site false = some (r', site', st))
    (hstack : r.nodeWriterStack = rest ++ [parent, writer])
    (hne : parent ≠ writer) (hp : parent < r.buffers.length) :
    r'.nodeWriterStack = rest ++ [parent] ∧ r'.Writer = parent ∧
      r'.buffers.length = r.buffers.length ∧
      (∀ q, q ≠ parent → q ≠ writer → bufBytes r' q = bufBytes r q) ∧
      bufBytes r parent <+: bufBytes r' parent := by
  have hst1 : r.nodeWriterStack = (rest ++ [parent]) ++ [writer] := by
    rw [hstack]; simp
  have hex := hexit
  simp only [renderListItem, Bool.false_eq_true, if_false, Option.bind_eq_bind,
    Option.some_bind, stackTop_concat r _ _ hst1, stackPop_concat r _ _ hst1] at hex
  rw [Option.bind_eq_some] at hex
  obtain ⟨d, hd, hex⟩ := hex
  rw [Option.bind_eq_some] at hex
  obtain ⟨li, hli, -⟩ := hex
  obtain ⟨r'', tail, h1, h2, -, h4, h5, h6, h7⟩ :=
    renderListItem_exit_core env r site d li rest parent writer hd hli hstack hne hp
  rw [hexit] at h1
  have hr : r' = r'' := (Prod.mk.inj (Option.some.inj h1)).1
  subst hr
  refine ⟨h4, h5, h6, h7, ?_⟩
  rw [h2, List.append_assoc, List.append_assoc]
  exact List.prefix_append _ _

theorem extends_refl (r : VditorSVRenderer) : Extends r r :=
  ⟨rfl, rfl, le_rfl, fun _ _ _ => rfl, List.prefix_refl _⟩

theorem extends_trans {a b c : VditorSVRenderer} (h1 : Extends a b) (h2 : Extends b c) :
    Extends a c where
  stack := h2.stack.trans h1.stack
  writer := h2.writer.trans h1.writer
  length := h1.length.trans h2.length
  others := fun q hq hne =>
    (h2.others q (lt_of_lt_of_le hq h1.length) (by rw [h1.writer]; exact hne)).trans
      (h1.others q hq hne)
  grows := by
    have := h2.grows
    rw [h1.writer] at this
    exact h1.grows.trans this

theorem extends_of_appends {a b : VditorSVRenderer} (h : Appends a b) : Extends a b :=
  ⟨h.stack, h.writer, le_of_eq h.length.symm, fun q _ hne => h.others q hne, h.grows⟩

/-- Leaving a container that was entered from `r1` and rendered up to `r3`, given what the
exit handler does to the stack and the buffers. -/
theorem extends_of_container {r1 r3 r4 : VditorSVRenderer}
    (hvalid : ∀ q ∈ r1.nodeWriterStack, q < r1.buffers.length)
    (htop : stackTop r1 = some r1.Writer)
    (hmid : Extends (pushWriter r1) r3)
    (hexit : ∀ (rest : List Nat) (parent writer : Nat),
      r3.nodeWriterStack = rest ++ [parent, writer] → r3.Writer = writer → parent ≠ writer →
      parent < r3.buffers.length → writer < r3.buffers.length →
      r4.nodeWriterStack = rest ++ [parent] ∧ r4.Writer = parent ∧
        r4.buffers.length = r3.buffers.length ∧
        (∀ q, q ≠ parent → q ≠ writer → bufBytes r4 q = bufBytes r3 q) ∧
        bufBytes r3 parent <+: bufBytes r4 parent) :
    Extends r1 r4 := by
  have hne : r1.nodeWriterStack ≠ [] := by
    intro h
    simp [stackTop, h] at htop
  obtain ⟨rest, hrest⟩ : ∃ rest, r1.nodeWriterStack = rest ++ [r1.Writer] := by
    refine ⟨r1.nodeWriterStack.dropLast, ?_⟩
    have h1 := List.dropLast_append_getLast hne
    have h2 : r1.nodeWriterStack.getLast hne = r1.Writer := by
      have := List.getLast?_eq_getLast _ hne
      unfold stackTop at htop
      rw [this] at htop
      exact Option.some.inj htop
    rw [h2] at h1
    exact h1.symm
  have hwv : r1.Writer < r1.buffers.length :=
    hvalid _ (by rw [hrest]; simp)
  have hst3 : r3.nodeWriterStack = rest ++ [r1.Writer, r1.buffers.length] := by
    rw [hmid.stack, pushWriter_stack, hrest]; simp
  have hw3 : r3.Writer = r1.buffers.length := hmid.writer.trans (pushWriter_Writer r1)
  have hl2 : (pushWriter r1).buffers.length = r1.buffers.length + 1 := by
    simp [pushWriter_buffers]
  have hl3 : r1.buffers.length + 1 ≤ r3.buffers.length := by
    rw [← hl2]; exact hmid.length
  obtain ⟨e1, e2, e3, e4, e5⟩ := hexit rest r1.Writer r1.buffers.length hst3 hw3
    (Nat.ne_of_lt hwv) (by omega) (by omega)
  have hsame : ∀ q, q < r1.buffers.length → bufBytes r3 q = bufBytes r1 q := by
    intro q hq
    rw [hmid.others q (by omega) (by rw [pushWriter_Writer]; omega), bufBytes_pushWriter]
  refine ⟨by rw [e1, hrest], e2, by omega, ?_, ?_⟩
  · intro q hq hqw
    rw [e4 q hqw (by omega), hsame q hq]
  · rw [← hsame _ hwv]
    exact e5

theorem rendered_extends {env : Env} {r r' : VditorSVRenderer} (h : Rendered env r r') :
    (∀ q ∈ r.nodeWriterStack, q < r.buffers.length) → stackTop r = some r.Writer →
    Extends r r' := by
  induction h with
  | done r => intro _ _; exact extends_refl r
  | call t h r r1 r2 site site' entering st _ hh h1 h2 h3 hrun ih =>
    intro hv ht
    exact extends_trans (ih hv ht)
      (extends_of_appends (handlers_append t h hh h1 h2 h3 env r1 r2 site site' entering st hrun))
  | quote r r1 r2 r3 r4 site1 site1' site2 site2' st1 st2 _ henter _ hexit ih1 ih2 =>
    intro hv ht
    have e1 := ih1 hv ht
    have hr2 : r2 = pushWriter r1 := ((Prod.mk.inj (Option.some.inj henter)).1).symm
    subst hr2
    have hv1 : ∀ q ∈ r1.nodeWriterStack, q < r1.buffers.length := by
      intro q hq
      rw [e1.stack] at hq
      exact lt_of_lt_of_le (hv q hq) e1.length
    have ht1 : stackTop r1 = some r1.Writer := by
      unfold stackTop at ht ⊢
      rw [e1.stack, e1.writer]; exact ht
    have hv2 : ∀ q ∈ (pushWriter r1).nodeWriterStack, q < (pushWriter r1).buffers.length := by
      intro q hq
      rw [pushWriter_stack] at hq
      simp only [pushWriter_buffers, List.length_append, List.length_singleton]
      rcases List.mem_append.mp hq with hq | hq
      · exact Nat.lt_succ_of_lt (hv1 q hq)
      · simp only [List.mem_singleton] at hq
        omega
    have ht2 : stackTop (pushWriter r1) = some (pushWriter r1).Writer := by
      simp [stackTop, pushWriter_stack, pushWriter_Writer]
    have e2 := ih2 hv2 ht2
    exact extends_trans e1 (extends_of_container hv1 ht1 e2
      (fun rest parent writer a b c d e =>
        renderBlockquote_exit_frame env r3 r4 site2 site2' st2 rest parent writer hexit a b c d e))
  | item r r1 r2 r3 r4 site1 site1' site2 site2' st1 st2 _ henter _ hexit ih1 ih2 =>
    intro hv ht
    have e1 := ih1 hv ht
    have hr2 : r2 = pushWriter r1 := ((Prod.mk.inj (Option.some.inj henter)).1).symm
    subst hr2
    have hv1 : ∀ q ∈ r1.nodeWriterStack, q < r1.buffers.length := by
      intro q hq
      rw [e1.stack] at hq
      exact lt_of_lt_of_le (hv q hq) e1.length
    have ht1 : stackTop r1 = some r1.Writer := by
      unfold stackTop at ht ⊢
      rw [e1.stack, e1.writer]; exact ht
    have hv2 : ∀ q ∈ (pushWriter r1).nodeWriterStack, q < (pushWriter r1).buffers.length := by
      intro q hq
      rw [pushWriter_stack] at hq
      simp only [pushWriter_buffers, List.length_append, List.length_singleton]
      rcases List.mem_append.mp hq with hq | hq
      · exact Nat.lt_succ_of_lt (hv1 q hq)
      · simp only [List.mem_singleton] at hq
        omega
    have ht2 : stackTop (pushWriter r1) = some (pushWriter r1).Writer := by
      simp [stackTop, pushWriter_stack, pushWriter_Writer]
    have e2 := ih2 hv2 ht2
    exact extends_trans e1 (extends_of_container hv1 ht1 e2
      (fun rest parent writer a _ c d _ =>
        renderListItem_exit_frame env r3 r4 site2 site2' st2 rest parent writer hexit a c d))

/-- C4: let a block quote or a list item be entered when the buffer stack is not empty,
with `top` its top buffer. Entering allocates one fresh empty buffer, makes it the writer
and pushes it. After any sequence of handler calls in which every container entered is
also left, the matching exit leaves the stack as it was before entering, makes `top` the
writer again, and `top` holds what it held before, followed by what was added. -/
theorem container_restores_stack (env : Env) (t : NodeType)
    (h : Env → VditorSVRenderer → Site → Bool → Option Result)
    (r r1 r2 r3 : VditorSVRenderer) (site site' site2 site2' : Site) (st st2 : WalkStatus)
    (top : Nat)
    (ht : t = .NodeBlockquote ∨ t = .NodeListItem) (hh : RendererFuncs t = some h)
    (htop : stackTop r = some top)
    (hvalid : ∀ q ∈ r.nodeWriterStack, q < r.buffers.length)
    (henter : h env r site true = some (r1, site', st))
    (hmid : Rendered env r1 r2)
    (hexit : h env r2 site2 false = some (r3, site2', st2)) :
    r1.buffers = r.buffers ++ [[]] ∧ r1.Writer = r.buffers.length ∧
    r1.nodeWriterStack = r.nodeWriterStack ++ [r1.Writer] ∧
    r3.nodeWriterStack = r.nodeWriterStack ∧ r3.Writer = top ∧
    bufBytes r top <+: bufBytes r3 top := by
  have hr1 : r1 = pushWriter r := by
    rcases ht with ht | ht <;> subst ht <;> cases hh <;>
      exact ((Prod.mk.inj (Option.some.inj henter)).1).symm
  subst hr1
  have hv2 : ∀ q ∈ (pushWriter r).nodeWriterStack, q < (pushWriter r).buffers.length := by
    intro q hq
    rw [pushWriter_stack] at hq
    simp only [pushWriter_buffers, List.length_append, List.length_singleton]
    rcases List.mem_append.mp hq with hq | hq
    · exact Nat.lt_succ_of_lt (hvalid q hq)
    · simp only [List.mem_singleton] at hq
      omega
  have ht2 : stackTop (pushWriter r) = some (pushWriter r).Writer := by
    simp [stackTop, pushWriter_stack, pushWriter_Writer]
  have e2 := rendered_extends hmid hv2 ht2
  have hx : ∀ (rest : List Nat) (parent writer : Nat),
      r2.nodeWriterStack = rest ++ [parent, writer] → r2.Writer = writer → parent ≠ writer →
      parent < r2.buffers.length → writer < r2.buffers.length →
      r3.nodeWriterStack = rest ++ [parent] ∧ r3.Writer = parent ∧
        r3.buffers.length = r2.buffers.length ∧
        (∀ q, q ≠ parent → q ≠ writer → bufBytes r3 q = bufBytes r2 q) ∧
        bufBytes r2 parent <+: bufBytes r3 parent := by
    intro rest parent writer a b c d e
    rcases ht with ht | ht <;> subst ht <;> cases hh
    · exact renderBlockquote_exit_frame env r2 r3 site2 site2' st2 rest parent writer hexit a b c d e
    · exact renderListItem_exit_frame env r2 r3 site2 site2' st2 rest parent writer hexit a c d
  have e := @extends_of_container { r with Writer := top } r2 r3 hvalid htop e2 hx
  exact ⟨rfl, rfl, rfl, e.stack, e.writer, e.grows⟩

/-- Witness for C4: a block quote entered at the top level, one text node rendered inside
it, and the block quote left. -/
theorem container_restores_stack_witness :
    ∃ r2 r3 : VditorSVRenderer,
      renderText plainEnv (pushWriter initialRenderer)
        (topLevel (leaf .NodeText (bytesOf "a"))) true =
        some (r2, topLevel (leaf .NodeText (bytesOf "a")), .WalkStop) ∧
      renderBlockquote plainEnv r2 (topLevel (leaf .NodeBlockquote [])) false =
        some (r3, topLevel (leaf .NodeBlockquote []), .WalkContinue) ∧
      r3.nodeWriterStack = initialRenderer.nodeWriterStack ∧ r3.Writer = 0 ∧
      bufBytes initialRenderer 0 <+: bufBytes r3 0 :=
  ⟨_, _, rfl, rfl,
    (container_restores_stack plainEnv .NodeBlockquote renderBlockquote initialRenderer
      (pushWriter initialRenderer) _ _
      (topLevel (leaf .NodeBlockquote [])) (topLevel (leaf .NodeBlockquote []))
      (topLevel (leaf .NodeBlockquote [])) (topLevel (leaf .NodeBlockquote []))
      .WalkContinue .WalkContinue 0 (Or.inl rfl) rfl rfl (by decide) rfl
      (Rendered.call .NodeText renderText _ _ _ (topLevel (leaf .NodeText (bytesOf "a")))
        (topLevel (leaf .NodeText (bytesOf "a"))) true .WalkStop (Rendered.done _) rfl
        (by decide) (by decide) (by decide) rfl)
      rfl).2.2.2⟩

/-! ## Theorems: the plain-text projection -/

theorem textWalker_entering (d : NodeData) (cs : List Node) (ret : Bytes) :
    textWalker (.mk d cs) true ret = (ret ++ ownText d, .WalkContinue) := by
  unfold textWalker ownText
  simp only [Node.data, Node.Tokens, if_true]
  cases h : d.Typ <;> simp [eq_comm]
  split <;> simp

theorem textWalker_exit (n : Node) (ret : Bytes) :
    textWalker n false ret = (ret, .WalkContinue) := by
  simp [textWalker]

mutual
theorem Walk_textWalker : ∀ (n : Node) (ret : Bytes),
    Walk textWalker n ret = ret ++ Walk textWalker n []
  | .mk d cs, ret => by
    rw [Walk, Walk, textWalker_entering, textWalker_entering]
    simp only [textWalker_exit, List.nil_append]
    rw [WalkChildren_textWalker cs (ret ++ ownText d), WalkChildren_textWalker cs (ownText d),
      List.append_assoc]
theorem WalkChildren_textWalker : ∀ (cs : List Node) (ret : Bytes),
    WalkChildren textWalker cs ret = ret ++ WalkChildren textWalker cs []
  | [], ret => by simp [WalkChildren]
  | c :: cs, ret => by
    rw [WalkChildren, WalkChildren, Walk_textWalker c ret,
      WalkChildren_textWalker cs (ret ++ Walk textWalker c []),
      WalkChildren_textWalker cs (Walk textWalker c [])]
    simp [List.append_assoc]
end

theorem WalkChildren_textWalker_nil : ∀ (cs : List Node),
    WalkChildren textWalker cs [] = (cs.map Text).flatten
  | [] => by simp [WalkChildren]
  | c :: cs => by
    rw [WalkChildren, WalkChildren_textWalker, WalkChildren_textWalker_nil cs]
    simp [Text]

/-- C9: the plain text of a node is the node's own contribution followed by the plain
texts of its children in order. The own contribution is the `Tokens` of a text, link text,
link destination, link title, code block code, code span content, inline math content,
math block content, HTML block or inline HTML node, the `CodeBlockInfo` of a fence info
node, the `LinkRefLabel` of a link of type 3, and nothing for any other node. -/
theorem Text_eq (d : NodeData) (cs : List Node) :
    Text (.mk d cs) = ownText d ++ (cs.map Text).flatten := by
  have h : Text (.mk d cs) = Walk textWalker (.mk d cs) [] := rfl
  rw [h, Walk, textWalker_entering]
  simp only [textWalker_exit, List.nil_append]
  rw [WalkChildren_textWalker, WalkChildren_textWalker_nil]

/-! ## Theorems: padding of blocks inside a list item -/

theorem prefix_of_padding_then_appends {r w r' : VditorSVRenderer} {site : Site}
    (hpad : renderListItemBlockPadding r site = some w) (h0 : 0 ≤ r.ListPadding)
    (hW : r.Writer < r.buffers.length) (happ : Appends w r') :
    bufBytes r r.Writer ++ listItemBlockPadding r site <+: bufBytes r' r.Writer := by
  obtain ⟨r1, hr1, hA, hB, -, -⟩ := renderListItemBlockPadding_spec r site h0
  rw [hpad] at hr1
  have : w = r1 := Option.some.inj hr1
  subst this
  rw [← hB hW, ← hA.writer]
  exact happ.grows

set_option maxHeartbeats 1000000 in
/-- The seven block handlers that call `renderListItemBlockPadding` before anything else:
on entering, what they add to the writer's buffer begins with the padding span of the
node (empty unless the node is inside a list item and not a first child). -/
theorem blocks_emit_padding_first (t : NodeType)
    (h : Env → VditorSVRenderer → Site → Bool → Option Result)
    (env : Env) (r r' : VditorSVRenderer) (site site' : Site) (st : WalkStatus)
    (ht : t = .NodeParagraph ∨ t = .NodeHeading ∨ t = .NodeCodeBlock ∨ t = .NodeMathBlock ∨
      t = .NodeTable ∨ t = .NodeHTMLBlock ∨ t = .NodeThematicBreak)
    (hh : RendererFuncs t = some h) (h0 : 0 ≤ r.ListPadding)
    (hW : r.Writer < r.buffers.length)
    (hrun : h env r site true = some (r', site', st)) :
    bufBytes r r.Writer ++ listItemBlockPadding r site <+: bufBytes r' r.Writer := by
  rcases ht with ht | ht | ht | ht | ht | ht | ht <;> subst ht <;> cases hh
  all_goals
    simp only [renderParagraph, renderHeading, renderCodeBlock, renderMathBlock, renderTable,
      renderHTML, renderThematicBreak, if_true, Option.bind_eq_bind, Option.pure_def] at hrun
  all_goals
    repeat' first
      | (have hr := (Prod.mk.inj (Option.some.inj hrun)).1; clear hrun; subst hr)
      | (simp only [Option.some_bind] at hrun)
      | (rw [Option.bind_eq_some] at hrun; obtain ⟨_, _, hrun⟩ := hrun)
      | split at hrun
      | cases hrun
  all_goals
    refine prefix_of_padding_then_appends (by with_reducible assumption) h0 hW ?_
  all_goals
    repeat' first
      | with_reducible exact appends_refl _
      | with_reducible apply appends_step_Write
      | with_reducible apply appends_step_WriteString
      | with_reducible apply appends_step_WriteByte
      | with_reducible apply appends_step_Newline
      | with_reducible apply appends_step_tagCloseSpan
      | with_reducible apply appends_step_tag
      | split

set_option maxRecDepth 100000 in
/-- C6 (the block quote): a block quote that is the second child of a list item, rendered
with `ListPadding` 2. Entering adds nothing to the item's buffer, so no padding span comes
first. The padding call is made on exit, while the quote's own buffer is still the
writer: the padding span lands behind the quoted content, and what the item's buffer
receives begins with the opening blockquote span. -/
theorem renderBlockquote_padding_misplaced :
    quoteInItemSite.ParentIs .NodeListItem = true ∧ quoteInItemSite.isFirstChild = false ∧
    ∃ r1 r3 : VditorSVRenderer,
      renderBlockquote plainEnv quoteInItemState quoteInItemSite true =
        some (r1, quoteInItemSite, .WalkContinue) ∧
      bufBytes r1 1 = bufBytes quoteInItemState 1 ∧
      renderBlockquote plainEnv (WriteString r1 (bytesOf "b")) quoteInItemSite false =
        some (r3, quoteInItemSite, .WalkContinue) ∧
      bufBytes r3 1 =
        bufBytes quoteInItemState 1 ++ blockquoteOpen ++ blockquoteMarker ++ bytesOf "b" ++
          bytesOf "<span data-type=\"padding\">  </span>" ++
          NewlineSV ++ NewlineSV ++ closeSpan :=
  ⟨by decide, by decide, _, _, rfl, by decide, rfl, by decide⟩

/-! ## Theorems: thematic breaks, totality and rejected lines -/

theorem parseThematicBreakLoop_total (cl : List Nat) :
    ∀ (n i marker markers : Nat), (0 < n → i + n ≤ cl.length) →
      ∃ b, parseThematicBreakLoop cl n (i : Int) marker markers = some b := by
  intro n
  induction n with
  | zero => intro i marker markers _; exact ⟨_, rfl⟩
  | succ n ih =>
    intro i marker markers hlen
    have hlen' := hlen (Nat.succ_pos n)
    have hi : i < cl.length := by omega
    have hcast : ((i : Int) + 1) = ((i + 1 : Nat) : Int) := by push_cast; rfl
    rw [parseThematicBreakLoop, index_natCast, List.getElem?_eq_getElem hi]
    simp only []
    rw [hcast]
    split
    · exact ih _ _ _ (fun _ => by omega)
    · split
      · exact ⟨_, rfl⟩
      · split
        · split
          · exact ⟨_, rfl⟩
          · exact ih _ _ _ (fun _ => by omega)
        · exact ih _ _ _ (fun _ => by omega)

theorem isBreakMarker_ne (t : Nat) (h : isBreakMarker t) :
    t ≠ itemEnd ∧ t ≠ itemSpace ∧ t ≠ itemTab := by
  rcases h with h | h | h <;> subst h <;> decide

/-- Once a marker is recorded, a different marker further on makes the loop answer false. -/
theorem parseThematicBreakLoop_other_marker (cl : List Nat) :
    ∀ (n i marker markers q t : Nat), marker ≠ itemEnd → i ≤ q → q < i + n →
      cl[q]? = some t → isBreakMarker t → t ≠ marker →
      parseThematicBreakLoop cl n (i : Int) marker markers = some false := by
  intro n
  induction n with
  | zero => intro i marker markers q t _ h1 h2; omega
  | succ n ih =>
    intro i marker markers q t hm h1 h2 hq ht hne
    have hqlen : q < cl.length := by
      by_contra hcon
      rw [List.getElem?_eq_none (by omega)] at hq
      cases hq
    have hi : i < cl.length := by omega
    have hget : cl[i]? = some cl[i] := List.getElem?_eq_getElem hi
    have hcast : ((i : Int) + 1) = ((i + 1 : Nat) : Int) := by push_cast; rfl
    rw [parseThematicBreakLoop, index_natCast, hget]
    simp only []
    rw [hcast]
    have hqi : q = i → cl[i] = t := by
      intro e; subst e; rw [hget] at hq; exact Option.some.inj hq
    have hnext : cl[i] ≠ t → i + 1 ≤ q := by
      intro hc
      rcases Nat.eq_or_lt_of_le h1 with e | l
      · exact absurd (hqi e.symm) hc
      · exact l
    obtain ⟨_, hts, htt⟩ := isBreakMarker_ne t ht
    split
    · rename_i hb
      refine ih _ _ _ q t hm (hnext ?_) (by omega) hq ht hne
      rcases hb with h | h
      · rw [← h]; exact Ne.symm hts
      · rw [← h]; exact Ne.symm htt
    · split
      · rfl
      · rw [if_pos (Ne.symm hm)]
        split
        · rfl
        · rename_i hmt
          have hmt' : marker = cl[i] := not_not.mp hmt
          exact ih _ _ _ q t hm (hnext (by rw [← hmt']; exact Ne.symm hne)) (by omega) hq ht hne

/-- Two different markers among the scanned tokens make the loop answer false. -/
theorem parseThematicBreakLoop_mixed (cl : List Nat) :
    ∀ (n i marker markers p q a b : Nat), i ≤ p → p < q → q < i + n →
      cl[p]? = some a → cl[q]? = some b → isBreakMarker a → isBreakMarker b → a ≠ b →
      parseThematicBreakLoop cl n (i : Int) marker markers = some false := by
  intro n
  induction n with
  | zero => intro i marker markers p q a b h1 h2 h3; omega
  | succ n ih =>
    intro i marker markers p q a b h1 h2 h3 hp hq ha hb hab
    have hqlen : q < cl.length := by
      by_contra hcon
      rw [List.getElem?_eq_none (by omega)] at hq
      cases hq
    have hi : i < cl.length := by omega
    have hget : cl[i]? = some cl[i] := List.getElem?_eq_getElem hi
    have hcast : ((i : Int) + 1) = ((i + 1 : Nat) : Int) := by push_cast; rfl
    rw [parseThematicBreakLoop, index_natCast, hget]
    simp only []
    rw [hcast]
    have hpi : p = i → cl[i] = a := by
      intro e; subst e; rw [hget] at hp; exact Option.some.inj hp
    obtain ⟨hae, has, hat⟩ := isBreakMarker_ne a ha
    -- what to do once the token at `i` is a marker `m` that becomes or stays the marker
    have hrest : ∀ m markers', m = cl[i] → m ≠ itemEnd →
        parseThematicBreakLoop cl n ((i + 1 : Nat) : Int) m markers' = some false := by
      intro m markers' hm hme
      rcases Nat.eq_or_lt_of_le h1 with e | l
      · have hma : m = a := hm.trans (hpi e.symm)
        exact parseThematicBreakLoop_other_marker cl n (i + 1) m markers' q b hme (by omega)
          (by omega) hq hb (by rw [hma]; exact Ne.symm hab)
      · exact ih _ _ _ p q a b l h2 (by omega) hp hq ha hb hab
    split
    · rename_i hblank
      have hne : p ≠ i := by
        intro e
        have := hpi e
        rcases hblank with h | h
        · exact has (this.symm.trans h.symm)
        · exact hat (this.symm.trans h.symm)
      exact ih _ _ _ p q a b (by omega) h2 (by omega) hp hq ha hb hab
    · split
      · rfl
      · rename_i hk
        have hmk : isBreakMarker cl[i] := by
          unfold isBreakMarker
          by_contra hcon
          apply hk
          exact ⟨fun h => hcon (Or.inl h.symm), fun h => hcon (Or.inr (Or.inl h.symm)),
            fun h => hcon (Or.inr (Or.inr h.symm))⟩
        split
        · split
          · rfl
          · rename_i hme hmt
            exact hrest marker _ (not_not.mp hmt) (Ne.symm hme)
        · exact hrest cl[i] _ rfl (isBreakMarker_ne _ hmk).1

/-- C14: `parseThematicBreak` is total on every line with `0 ≤ nextNonspace` and
`currentLineLen` not larger than the number of tokens: the loop ends, no index leaves
the line, and a boolean is returned; when no token lies in the scanned range
(`currentLineLen - 1 ≤ nextNonspace`) that boolean is false. -/
theorem parseThematicBreak_total (currentLine : List Nat) (nextNonspace currentLineLen : Int)
    (h0 : 0 ≤ nextNonspace) (hlen : currentLineLen ≤ currentLine.length) :
    (∃ b, parseThematicBreak currentLine nextNonspace currentLineLen = some b) ∧
    (currentLineLen - 1 ≤ nextNonspace →
      parseThematicBreak currentLine nextNonspace currentLineLen = some false) := by
  obtain ⟨i0, rfl⟩ := Int.eq_ofNat_of_zero_le h0
  unfold parseThematicBreak
  constructor
  · exact parseThematicBreakLoop_total currentLine _ i0 0 0 (fun hpos => by omega)
  · intro hempty
    have hz : (currentLineLen - 1 - (i0 : Int)).toNat = 0 := by omega
    rw [hz]
    rfl

/-- Witness for C14: the line that holds a line feed only. -/
theorem parseThematicBreak_total_witness :
    (∃ b, parseThematicBreak (bytesOf "\n") 0 1 = some b) ∧
    ((1 : Int) - 1 ≤ 0 → parseThematicBreak (bytesOf "\n") 0 1 = some false) :=
  parseThematicBreak_total (bytesOf "\n") 0 1 (by decide) (by decide)

/-- C12: a line that holds two different markers among `-`, `_`, `*` at scanned
positions (`nextNonspace ≤ p, q < currentLineLen-1`) makes `parseThematicBreak` return
false, whatever else the line holds. -/
theorem parseThematicBreak_mixed_markers (currentLine : List Nat)
    (nextNonspace currentLineLen : Int) (p q a b : Nat) (h0 : 0 ≤ nextNonspace)
    (hp : nextNonspace ≤ p) (hp' : (p : Int) < currentLineLen - 1)
    (hq : nextNonspace ≤ q) (hq' : (q : Int) < currentLineLen - 1)
    (ha : currentLine[p]? = some a) (hb : currentLine[q]? = some b)
    (hma : isBreakMarker a) (hmb : isBreakMarker b) (hab : a ≠ b) :
    parseThematicBreak currentLine nextNonspace currentLineLen = some false := by
  obtain ⟨i0, rfl⟩ := Int.eq_ofNat_of_zero_le h0
  unfold parseThematicBreak
  have hpq : p ≠ q := by
    intro e; subst e; rw [ha] at hb; exact hab (Option.some.inj hb)
  rcases Nat.lt_or_gt_of_ne hpq with l | l
  · exact parseThematicBreakLoop_mixed currentLine _ i0 0 0 p q a b (by omega) l (by omega)
      ha hb hma hmb hab
  · exact parseThematicBreakLoop_mixed currentLine _ i0 0 0 q p b a (by omega) l (by omega)
      hb ha hmb hma (Ne.symm hab)

/-- Witness for C12: the line `-*-`. -/
theorem parseThematicBreak_mixed_markers_witness :
    parseThematicBreak (bytesOf "-*-\n") 0 4 = some false :=
  parseThematicBreak_mixed_markers (bytesOf "-*-\n") 0 4 0 1 45 42 (by decide) (by decide)
    (by decide) (by decide) (by decide) (by decide) (by decide) (Or.inl rfl)
    (Or.inr (Or.inr rfl)) (by decide)

theorem card_nonblank_block (cl : List Nat) (lo k n : Nat) (hlo : lo ≤ k)
    (h : ∀ j, k ≤ j → j < k + n → nonblankAt cl j = true) :
    n ≤ ((Finset.Ico lo (k + n)).filter (fun j => nonblankAt cl j = true)).card := by
  have hsub : Finset.Ico k (k + n) ⊆
      (Finset.Ico lo (k + n)).filter (fun j => nonblankAt cl j = true) := by
    intro j hj
    rw [Finset.mem_Ico] at hj
    rw [Finset.mem_filter, Finset.mem_Ico]
    exact ⟨⟨by omega, hj.2⟩, h j hj.1 hj.2⟩
  have := Finset.card_le_card hsub
  simpa using this

/-- C13 (amended): `parseThematicBreak` does not look at the indentation. A line
of `k` spaces, `n ≥ 3` copies of one marker and a final token is accepted for every
`k`, from whichever of the leading spaces (or the first marker) the scan starts. -/
theorem parseThematicBreak_indented (k n nn m e : Nat) (hm : isBreakMarker m) (hn : 3 ≤ n)
    (hnn : nn ≤ k) :
    parseThematicBreak (List.replicate k itemSpace ++ List.replicate n m ++ [e]) nn
      ((k + n + 1 : Nat) : Int) = some true := by
  unfold parseThematicBreak
  have hfuel : (((k + n + 1 : Nat) : Int) - 1 - (nn : Int)).toNat = k + n - nn := by omega
  rw [hfuel]
  have hget : ∀ j t, (List.replicate k itemSpace ++ List.replicate n m ++ [e])[j]? = some t →
      j < k + n → (j < k ∧ t = itemSpace) ∨ (k ≤ j ∧ t = m) := by
    intro j t hj hlt
    rw [List.append_assoc] at hj
    by_cases hjk : j < k
    · rw [List.getElem?_append_left (by simpa using hjk)] at hj
      rw [List.getElem?_replicate, if_pos hjk] at hj
      exact Or.inl ⟨hjk, (Option.some.inj hj).symm⟩
    · rw [List.getElem?_append_right (by simpa using hjk)] at hj
      simp only [List.length_replicate] at hj
      rw [List.getElem?_append_left (by simp; omega)] at hj
      rw [List.getElem?_replicate, if_pos (by omega)] at hj
      exact Or.inr ⟨by omega, (Option.some.inj hj).symm⟩
  rw [parseThematicBreakLoop_true_iff _ _ nn 0 0 (fun _ => by simp; omega) (Or.inl rfl)]
  refine ⟨m, hm, fun h => absurd rfl h, ?_, ?_⟩
  · intro j h1 h2 t ht
    rcases hget j t ht (by omega) with ⟨_, h⟩ | ⟨_, h⟩
    · exact Or.inl h
    · exact Or.inr (Or.inr h)
  · have hrange : nn + (k + n - nn) = k + n := by omega
    rw [hrange, zero_add]
    refine le_trans hn (card_nonblank_block _ nn k n hnn ?_)
    intro j h1 h2
    rw [nonblankAt_iff]
    have hlt : j < (List.replicate k itemSpace ++ List.replicate n m ++ [e]).length := by
      simp; omega
    refine ⟨_, List.getElem?_eq_getElem hlt, ?_⟩
    rcases hget j _ (List.getElem?_eq_getElem hlt) h2 with ⟨h, _⟩ | ⟨_, h⟩
    · omega
    · rw [h]; exact (isBreakMarker_ne m hm).2

/-- Witness for C13 (amended): four spaces before `---`, scanned from the first marker. -/
theorem parseThematicBreak_indented_witness :
    parseThematicBreak (List.replicate 4 itemSpace ++ List.replicate 3 itemHyphen ++ [10]) (4 : Nat)
      ((4 + 3 + 1 : Nat) : Int) = some true :=
  parseThematicBreak_indented 4 3 4 itemHyphen 10 (Or.inl rfl) (by decide) (by decide)

/-- C13 (counterexample): the line of four spaces and `---`, scanned from its first
marker, is accepted. -/
theorem parseThematicBreak_accepts_four_spaces :
    parseThematicBreak (bytesOf "    ---\n") 4 8 = some true ∧
    parseThematicBreak (bytesOf "    ---\n") 0 8 = some true := by
  decide

/-! ## Theorems: the trailing window -/

theorem appendLastOut_suffix {lastOut written : Bytes} (content : Bytes)
    (h : lastOut <:+ written) : appendLastOut lastOut content <:+ written ++ content := by
  have h1 : lastOut ++ content <:+ written ++ content := by
    obtain ⟨a, rfl⟩ := h
    exact ⟨a, by simp⟩
  unfold appendLastOut
  simp only []
  split
  · exact (List.drop_suffix _ _).trans h1
  · exact h1

/-- One call other than `Newline`: the bytes of the call are appended to the buffer of
the writer, and a window that was a suffix of that buffer is one afterwards. -/
theorem run_window (r : VditorSVRenderer) (c : WriteCall) (hc : c ≠ WriteCall.Newline)
    (hw : r.Writer < r.buffers.length) (h : r.LastOut <:+ bufBytes r r.Writer) :
    bufBytes (c.run r) r.Writer = bufBytes r r.Writer ++ c.content ∧
      (c.run r).LastOut <:+ bufBytes (c.run r) r.Writer := by
  cases c with
  | Newline => exact absurd rfl hc
  | WriteByte b =>
    have e : bufBytes (WriteByte r b) r.Writer = bufBytes r r.Writer ++ [b] := by
      show bufBytes (bufWrite r r.Writer [b]) r.Writer = _
      rw [bufBytes_bufWrite]; simp [hw]
    refine ⟨e, ?_⟩
    show (WriteByte r b).LastOut <:+ bufBytes (WriteByte r b) r.Writer
    rw [e]
    exact appendLastOut_suffix [b] h
  | Write content =>
    have e := bufBytes_Write r content hw
    refine ⟨e, ?_⟩
    show (Write r content).LastOut <:+ bufBytes (Write r content) r.Writer
    rw [e]
    unfold Write
    split
    · exact appendLastOut_suffix content h
    · rename_i hc'
      have : content = [] := by
        cases content with
        | nil => rfl
        | cons x xs => simp at hc'
      simpa [this] using h
  | WriteString content =>
    have e := bufBytes_WriteString r content hw
    refine ⟨e, ?_⟩
    show (WriteString r content).LastOut <:+ bufBytes (WriteString r content) r.Writer
    rw [e]
    unfold WriteString
    split
    · exact appendLastOut_suffix content h
    · rename_i hc'
      have : content = [] := by
        cases content with
        | nil => rfl
        | cons x xs => simp at hc'
      simpa [this] using h

theorem runCalls_window (calls : List WriteCall) :
    ∀ (r : VditorSVRenderer), (∀ c ∈ calls, c ≠ WriteCall.Newline) →
      r.Writer < r.buffers.length → r.LastOut <:+ bufBytes r r.Writer →
      bufBytes (runCalls r calls) r.Writer =
        bufBytes r r.Writer ++ (calls.map WriteCall.content).flatten ∧
      (runCalls r calls).LastOut <:+ bufBytes (runCalls r calls) r.Writer := by
  induction calls with
  | nil => intro r _ _ h; exact ⟨by simp [runCalls], h⟩
  | cons c cs ih =>
    intro r hcs hw h
    have hc := hcs c (List.mem_cons_self _ _)
    obtain ⟨e1, s1⟩ := run_window r c hc hw h
    have a := appends_run r c
    have hw' : (c.run r).Writer < (c.run r).buffers.length := by
      rw [a.writer, a.length]; exact hw
    have := ih (c.run r) (fun c' hc' => hcs c' (List.mem_cons_of_mem _ hc')) hw'
      (by rw [a.writer]; exact s1)
    rw [a.writer] at this
    obtain ⟨e2, s2⟩ := this
    have hrun : runCalls r (c :: cs) = runCalls (c.run r) cs := rfl
    rw [hrun]
    refine ⟨?_, s2⟩
    rw [e2, e1]
    simp

/-- C16: from an empty buffer of the writer and an empty `LastOut`, after any sequence
of `Write`, `WriteByte` and `WriteString` calls the buffer of the writer holds the
concatenation of the bytes written and `LastOut` is a suffix of it. -/
theorem LastOut_suffix_of_written (r : VditorSVRenderer) (calls : List WriteCall)
    (hw : r.Writer < r.buffers.length) (hbuf : bufBytes r r.Writer = [])
    (hlast : r.LastOut = []) (hcalls : ∀ c ∈ calls, c ≠ WriteCall.Newline) :
    bufBytes (runCalls r calls) r.Writer = (calls.map WriteCall.content).flatten ∧
      (runCalls r calls).LastOut <:+ (calls.map WriteCall.content).flatten := by
  have h := runCalls_window calls r hcalls hw (by rw [hlast]; exact List.nil_suffix)
  rw [hbuf, List.nil_append] at h
  exact ⟨h.1, by rw [← h.1]; exact h.2⟩

/-- Witness for C16: three writes on a fresh renderer. -/
theorem LastOut_suffix_of_written_witness :
    bufBytes (runCalls initialRenderer
        [.WriteString (bytesOf "<p>"), .WriteByte 97, .Write (bytesOf "</p>")]) 0 =
      ([.WriteString (bytesOf "<p>"), .WriteByte 97, .Write (bytesOf "</p>")].map
        WriteCall.content).flatten ∧
    (runCalls initialRenderer
        [.WriteString (bytesOf "<p>"), .WriteByte 97, .Write (bytesOf "</p>")]).LastOut <:+
      ([.WriteString (bytesOf "<p>"), .WriteByte 97, .Write (bytesOf "</p>")].map
        WriteCall.content).flatten :=
  LastOut_suffix_of_written initialRenderer
    [.WriteString (bytesOf "<p>"), .WriteByte 97, .Write (bytesOf "</p>")]
    (by decide) (by decide) (by decide)
    (by intro c hc; simp at hc; rcases hc with rfl | rfl | rfl <;> simp)

/-- At the level of values: when `LastOut` is a suffix of the buffer of the writer, then after
`Newline` the new `LastOut` followed by `k` closing tags `</span>` is a suffix of that
buffer, where `k` is the number of closing tags the call cut off. If the separator was
emitted, or if `LastOut` did not end with `</span>`, then `k = 0`: `LastOut` itself is
a suffix; in the first case it is the separator. -/
theorem Newline_window (r : VditorSVRenderer) (hw : r.Writer < r.buffers.length)
    (h : r.LastOut <:+ bufBytes r r.Writer) :
    ∃ k, (Newline r).LastOut ++ (List.replicate k closeSpan).flatten <:+
        bufBytes (Newline r) r.Writer ∧
      (bufBytes (Newline r) r.Writer ≠ bufBytes r r.Writer →
        k = 0 ∧ (Newline r).LastOut = NewlineSV) ∧
      (¬ closeSpan <:+ r.LastOut → k = 0) := by
  obtain ⟨k, hk1, hk2⟩ := trimCloseSpans_spec r.LastOut.length r.LastOut le_rfl
  by_cases he : HasSuffix (trimCloseSpans r.LastOut.length r.LastOut)
      (NewlineSV.take (NewlineSV.length - closeSpan.length * 2)) = true
  · have hl : (Newline r).LastOut = trimCloseSpans r.LastOut.length r.LastOut := by
      simp [Newline, he]
    have hb : bufBytes (Newline r) r.Writer = bufBytes r r.Writer := by
      simp [Newline, he, bufBytes]
    refine ⟨k, ?_, fun hne => absurd hb hne, ?_⟩
    · rw [hl, hb, ← hk1]; exact h
    · intro hns
      cases k with
      | zero => rfl
      | succ k =>
        exfalso
        apply hns
        rw [hk1, flatten_replicate_succ_right, ← List.append_assoc]
        exact List.suffix_append _ _
  · have hl : (Newline r).LastOut = NewlineSV := by
      simp [Newline, he, bufWrite]
    have hb : bufBytes (Newline r) r.Writer = bufBytes r r.Writer ++ NewlineSV := by
      have : Newline r = { bufWrite r r.Writer NewlineSV with LastOut := NewlineSV } := by
        simp [Newline, he, bufWrite, bufBytes]
      rw [this]
      show bufBytes (bufWrite r r.Writer NewlineSV) r.Writer = _
      rw [bufBytes_bufWrite]; simp [hw]
    refine ⟨0, ?_, fun _ => ⟨rfl, hl⟩, fun _ => rfl⟩
    rw [hl, hb]
    simp only [List.replicate_zero, List.flatten_nil, List.append_nil]
    exact List.suffix_append _ _

/-- An instance: the second of two `Newline` calls on a fresh renderer. -/
theorem Newline_window_witness :
    ∃ k, (Newline (Newline initialRenderer)).LastOut ++ (List.replicate k closeSpan).flatten <:+
        bufBytes (Newline (Newline initialRenderer)) (Newline initialRenderer).Writer ∧
      (bufBytes (Newline (Newline initialRenderer)) (Newline initialRenderer).Writer ≠
          bufBytes (Newline initialRenderer) (Newline initialRenderer).Writer →
        k = 0 ∧ (Newline (Newline initialRenderer)).LastOut = NewlineSV) ∧
      (¬ closeSpan <:+ (Newline initialRenderer).LastOut → k = 0) :=
  Newline_window (Newline initialRenderer) (by decide) (by decide)

set_option maxRecDepth 100000 in
/-- C18 (code divergence): after a first `Newline` on a fresh renderer `LastOut` is a suffix
of the buffer; a second `Newline` emits nothing and leaves a `LastOut` that is not. -/
theorem Newline_breaks_suffix :
    (Newline initialRenderer).LastOut <:+ bufBytes (Newline initialRenderer) 0 ∧
    ¬ (Newline (Newline initialRenderer)).LastOut <:+
      bufBytes (Newline (Newline initialRenderer)) 0 := by
  decide

/-! ## Theorems: paragraphs -/

/-- At the level of values: on exit from a paragraph whose parent is not nil (and whose grandparent, when
it is a list, has list data) the handler calls `Newline` and then writes `NewlineSV`
exactly when the grandparent is not a list with `Tight` set, and closes the span. In a
tight list the buffer of the writer thus grows by at most one separator and the closing
tag; otherwise by the coalesced separator, one `NewlineSV` and the closing tag. -/
theorem renderParagraph_exit (env : Env) (r : VditorSVRenderer) (node : Site)
    (hw : r.Writer < r.buffers.length) (hp : node.Parent ≠ none)
    (hg : ∀ g, node.Grandparent = some g → g.Typ = NodeType.NodeList → g.ListData ≠ none) :
    ∃ r', renderParagraph env r node false = some (r', node, WalkStatus.WalkContinue) ∧
      ((∃ g d, node.Grandparent = some g ∧ g.Typ = NodeType.NodeList ∧
            g.ListData = some d ∧ d.Tight = true) →
        r' = tagCloseSpan (Newline r) ∧
        bufBytes r' r.Writer = bufBytes (Newline r) r.Writer ++
          (if r.DisableTags > 0 then [] else closeSpan) ∧
        (bufBytes (Newline r) r.Writer = bufBytes r r.Writer ∨
          bufBytes (Newline r) r.Writer = bufBytes r r.Writer ++ NewlineSV)) ∧
      (¬ (∃ g d, node.Grandparent = some g ∧ g.Typ = NodeType.NodeList ∧
            g.ListData = some d ∧ d.Tight = true) →
        r' = tagCloseSpan (Write (Newline r) NewlineSV) ∧
        bufBytes r' r.Writer = bufBytes (Newline r) r.Writer ++ NewlineSV ++
          (if r.DisableTags > 0 then [] else closeSpan)) := by
  have aN := appends_Newline r
  have hwN : (Newline r).Writer < (Newline r).buffers.length := by
    rw [aN.writer, aN.length]; exact hw
  have aW := appends_Write (Newline r) NewlineSV
  have hwW : (Write (Newline r) NewlineSV).Writer < (Write (Newline r) NewlineSV).buffers.length := by
    rw [aW.writer, aW.length]; exact hwN
  have bT := bufBytes_tagCloseSpan (Newline r) hwN
  have bW := bufBytes_tagCloseSpan (Write (Newline r) NewlineSV) hwW
  have bWW := bufBytes_Write (Newline r) NewlineSV hwN
  rw [aN.writer, aN.tags] at bT
  rw [aW.writer, aN.writer, aW.tags, aN.tags] at bW
  rw [aN.writer] at bWW
  rw [bWW] at bW
  obtain ⟨pd, hpd⟩ := Option.ne_none_iff_exists'.mp hp
  unfold renderParagraph
  simp only [Bool.false_eq_true, if_false, hpd, Option.bind_eq_bind, Option.some_bind,
    Option.pure_def]
  cases hgp : node.Grandparent with
  | none =>
    refine ⟨_, rfl, ?_, ?_⟩
    · rintro ⟨g, d, h, _⟩; cases h
    · intro _; exact ⟨rfl, bW⟩
  | some g =>
    by_cases ht : NodeType.NodeList = g.Typ
    · obtain ⟨d, hd⟩ := Option.ne_none_iff_exists'.mp (hg g hgp ht.symm)
      simp only [if_pos ht, hd, Option.map_some', Option.some_bind]
      cases hti : d.Tight with
      | true =>
        refine ⟨_, rfl, ?_, ?_⟩
        · intro _; exact ⟨by simp, by simpa using bT, bufBytes_Newline r hw⟩
        · intro hn; exact absurd ⟨g, d, rfl, ht.symm, hd, hti⟩ hn
      | false =>
        refine ⟨_, rfl, ?_, ?_⟩
        · rintro ⟨g', d', h1, _, h3, h4⟩
          cases h1
          rw [hd] at h3
          cases h3
          rw [hti] at h4
          cases h4
        · intro _; exact ⟨by simp, by simpa using bW⟩
    · simp only [if_neg ht, Option.some_bind]
      refine ⟨_, rfl, ?_, ?_⟩
      · rintro ⟨g', d', h1, h2, _⟩
        cases h1
        exact absurd h2.symm ht
      · intro _; exact ⟨by simp, by simpa using bW⟩

/-- An instance: the paragraph of an item of a tight list. -/
theorem renderParagraph_exit_witness :
    ∃ r', renderParagraph plainEnv initialRenderer paragraphInItemSite false =
        some (r', paragraphInItemSite, WalkStatus.WalkContinue) ∧
      ((∃ g d, paragraphInItemSite.Grandparent = some g ∧ g.Typ = NodeType.NodeList ∧
            g.ListData = some d ∧ d.Tight = true) →
        r' = tagCloseSpan (Newline initialRenderer) ∧
        bufBytes r' initialRenderer.Writer = bufBytes (Newline initialRenderer) initialRenderer.Writer ++
          (if initialRenderer.DisableTags > 0 then [] else closeSpan) ∧
        (bufBytes (Newline initialRenderer) initialRenderer.Writer =
            bufBytes initialRenderer initialRenderer.Writer ∨
          bufBytes (Newline initialRenderer) initialRenderer.Writer =
            bufBytes initialRenderer initialRenderer.Writer ++ NewlineSV)) ∧
      (¬ (∃ g d, paragraphInItemSite.Grandparent = some g ∧ g.Typ = NodeType.NodeList ∧
            g.ListData = some d ∧ d.Tight = true) →
        r' = tagCloseSpan (Write (Newline initialRenderer) NewlineSV) ∧
        bufBytes r' initialRenderer.Writer =
          bufBytes (Newline initialRenderer) initialRenderer.Writer ++ NewlineSV ++
            (if initialRenderer.DisableTags > 0 then [] else closeSpan)) :=
  renderParagraph_exit plainEnv initialRenderer paragraphInItemSite (by decide) (by decide)
    (by
      intro g h1 _
      have h := Option.some.inj h1
      subst h
      decide)


/-! ## Theorems: unlinking the destination of a reference link -/

theorem dropFirsts_nil_types : ∀ cs : List Node, dropFirsts [] cs = cs := by
  intro cs
  induction cs with
  | nil => rfl
  | cons c cs ih => simp [dropFirsts, ih]

theorem eraseP_dropFirsts (t : NodeType) : ∀ (cs : List Node) (types : List NodeType),
    t ∉ types →
    (dropFirsts types cs).eraseP (fun c => decide (c.data.Typ = t)) =
      dropFirsts (t :: types) cs := by
  intro cs
  induction cs with
  | nil => intro types _; rfl
  | cons c cs ih =>
    intro types ht
    by_cases hc : c.data.Typ ∈ types
    · have hne : c.data.Typ ≠ t := fun e => ht (e ▸ hc)
      have hne' : ¬ t = c.data.Typ := fun e => hne e.symm
      have hmem : c.data.Typ ∈ t :: types := List.mem_cons_of_mem _ hc
      have herase : (t :: types).erase c.data.Typ = t :: types.erase c.data.Typ := by
        rw [List.erase_cons_tail]
        simpa using hne'
      rw [dropFirsts, if_pos hc, dropFirsts, if_pos hmem, herase]
      exact ih _ (fun h => ht (List.mem_of_mem_erase h))
    · by_cases hct : c.data.Typ = t
      · have hmem : c.data.Typ ∈ t :: types := by rw [hct]; exact List.mem_cons_self _ _
        rw [dropFirsts, if_neg hc, dropFirsts, if_pos hmem, hct, List.erase_cons_head]
        rw [List.eraseP_cons_of_pos (by simpa using hct)]
      · have hmem : c.data.Typ ∉ t :: types := by
          intro h
          rcases List.mem_cons.mp h with h | h
          · exact hct h
          · exact hc h
        rw [dropFirsts, if_neg hc, dropFirsts, if_neg hmem]
        rw [List.eraseP_cons_of_neg (by simpa using hct), ih _ ht]

theorem ChildByType_dropFirsts (t : NodeType) : ∀ (cs : List Node) (types : List NodeType),
    t ∉ types → ChildByType (dropFirsts types cs) t = ChildByType cs t := by
  intro cs
  induction cs with
  | nil => intro types _; rfl
  | cons c cs ih =>
    intro types ht
    by_cases hc : c.data.Typ ∈ types
    · have hne : ¬ c.data.Typ = t := fun e => ht (e ▸ hc)
      rw [dropFirsts, if_pos hc, ih _ (fun h => ht (List.mem_of_mem_erase h))]
      simp [ChildByType, List.find?_cons, hne]
    · rw [dropFirsts, if_neg hc]
      by_cases hct : c.data.Typ = t
      · simp [ChildByType, List.find?_cons, hct]
      · have := ih types ht
        simp only [ChildByType] at this ⊢
        simp [List.find?_cons, hct, this]

theorem ChildByType_isSome (cs : List Node) (t : NodeType) :
    (ChildByType cs t).isSome = hasChild cs t := by
  induction cs with
  | nil => rfl
  | cons c cs ih =>
    simp only [ChildByType, hasChild] at ih ⊢
    by_cases h : c.data.Typ = t
    · simp [List.find?_cons, h]
    · simp [List.find?_cons, h, ih]

theorem unlinkChildByType_dropFirsts (t : NodeType) (cs : List Node) (types : List NodeType)
    (ht : t ∉ types) :
    unlinkChildByType (dropFirsts types cs) t =
      if hasChild cs t then some (dropFirsts (t :: types) cs) else none := by
  unfold unlinkChildByType
  rw [ChildByType_dropFirsts t cs types ht, eraseP_dropFirsts t cs types ht,
    ← ChildByType_isSome]
  cases ChildByType cs t <;> simp

/-- What the unlinking of `renderLink` gives on the children of a link of type 3. -/
theorem unlinkLinkDest_eq (cs : List Node) :
    unlinkLinkDest cs =
      if hasChild cs .NodeOpenParen ∧ hasChild cs .NodeLinkDest ∧ hasChild cs .NodeCloseParen ∧
          (hasChild cs .NodeLinkSpace → hasChild cs .NodeLinkTitle)
      then some (dropFirsts (unlinkedTypes cs) cs) else none := by
  unfold unlinkLinkDest unlinkedTypes
  have e0 := unlinkChildByType_dropFirsts .NodeOpenParen cs [] (by simp)
  rw [dropFirsts_nil_types] at e0
  simp only [Option.bind_eq_bind, e0]
  by_cases h1 : hasChild cs .NodeOpenParen = true
  swap
  · simp [h1]
  simp only [h1, if_true, Option.some_bind, true_and]
  rw [unlinkChildByType_dropFirsts .NodeLinkDest cs _ (by decide)]
  by_cases h2 : hasChild cs .NodeLinkDest = true
  swap
  · simp [h2]
  simp only [h2, if_true, Option.some_bind, true_and]
  have h3e := ChildByType_isSome cs .NodeLinkSpace
  rw [← ChildByType_dropFirsts .NodeLinkSpace cs
    [NodeType.NodeLinkDest, NodeType.NodeOpenParen] (by decide)] at h3e
  cases h3 : ChildByType (dropFirsts [NodeType.NodeLinkDest, NodeType.NodeOpenParen] cs)
      .NodeLinkSpace with
  | none =>
    rw [h3] at h3e
    have h3' : hasChild cs .NodeLinkSpace = false := h3e.symm
    simp only [Option.some_bind, h3']
    rw [unlinkChildByType_dropFirsts .NodeCloseParen cs _ (by decide)]
    by_cases h5 : hasChild cs .NodeCloseParen = true
    · simp [h5]
    · simp [h5]
  | some sp =>
    rw [h3] at h3e
    have h3' : hasChild cs .NodeLinkSpace = true := h3e.symm
    simp only [Option.bind_eq_bind]
    rw [unlinkChildByType_dropFirsts .NodeLinkSpace cs _ (by decide)]
    simp only [h3', if_true, Option.some_bind]
    rw [unlinkChildByType_dropFirsts .NodeLinkTitle cs _ (by decide)]
    by_cases h4 : hasChild cs .NodeLinkTitle = true
    swap
    · simp [h4]
    simp only [h4, if_true, Option.some_bind]
    rw [unlinkChildByType_dropFirsts .NodeCloseParen cs _ (by decide)]
    by_cases h5 : hasChild cs .NodeCloseParen = true
    · simp [h5]
    · simp [h5]

theorem dropFirsts_sublist : ∀ (cs : List Node) (types : List NodeType),
    (dropFirsts types cs).Sublist cs := by
  intro cs
  induction cs with
  | nil => intro types; exact List.Sublist.refl _
  | cons c cs ih =>
    intro types
    rw [dropFirsts]
    split
    · exact (ih _).trans (List.sublist_cons_self _ _)
    · exact (ih _).cons₂ _

theorem hasChild_eq_false_iff (cs : List Node) (t : NodeType) :
    hasChild cs t = false ↔ ∀ c ∈ cs, c.data.Typ ≠ t := by
  simp [hasChild]

theorem countP_type_eq_zero (cs : List Node) (t : NodeType) :
    cs.countP (fun c => decide (c.data.Typ = t)) = 0 ↔ hasChild cs t = false := by
  rw [hasChild_eq_false_iff, List.countP_eq_zero]
  simp

/-- Where no type to take out occurs twice, taking out the first child of each type takes
out every child of these types. -/
theorem dropFirsts_eq_filter : ∀ (cs : List Node) (types : List NodeType),
    (∀ t ∈ types, cs.countP (fun c => decide (c.data.Typ = t)) ≤ 1) →
    dropFirsts types cs = cs.filter (fun c => decide (c.data.Typ ∉ types)) := by
  intro cs
  induction cs with
  | nil => intro types _; rfl
  | cons c cs ih =>
    intro types h
    by_cases hc : c.data.Typ ∈ types
    · have hcount := h _ hc
      rw [List.countP_cons] at hcount
      simp only [decide_True, if_true] at hcount
      have hzero : hasChild cs c.data.Typ = false :=
        (countP_type_eq_zero cs _).mp (by omega)
      rw [hasChild_eq_false_iff] at hzero
      rw [dropFirsts, if_pos hc, List.filter_cons_of_neg (by simpa using hc)]
      rw [ih (types.erase c.data.Typ) (fun t ht => by
        have := h t (List.mem_of_mem_erase ht)
        rw [List.countP_cons] at this
        omega)]
      apply List.filter_congr
      intro x hx
      have hne : x.data.Typ ≠ c.data.Typ := hzero x hx
      simp only [decide_eq_decide]
      rw [List.mem_erase_of_ne hne]
    · rw [dropFirsts, if_neg hc, List.filter_cons_of_pos (by simpa using hc)]
      rw [ih types (fun t ht => by
        have := h t ht
        rw [List.countP_cons] at this
        omega)]

theorem hasChild_dropFirsts_of_count (t : NodeType) : ∀ (cs : List Node) (types : List NodeType),
    t ∈ types → cs.countP (fun c => decide (c.data.Typ = t)) ≤ 1 →
    hasChild (dropFirsts types cs) t = false := by
  intro cs
  induction cs with
  | nil => intro types _ _; rfl
  | cons c cs ih =>
    intro types ht hcount
    by_cases hc : c.data.Typ ∈ types
    · rw [dropFirsts, if_pos hc]
      by_cases hct : c.data.Typ = t
      · rw [List.countP_cons] at hcount
        simp only [hct, decide_True, if_true] at hcount
        have hzero : hasChild cs t = false := (countP_type_eq_zero cs t).mp (by omega)
        rw [hasChild_eq_false_iff] at hzero ⊢
        intro x hx
        exact hzero x ((dropFirsts_sublist cs _).subset hx)
      · rw [List.countP_cons] at hcount
        simp only [hct, decide_False, Bool.false_eq_true, if_false, add_zero] at hcount
        exact ih _ ((List.mem_erase_of_ne (fun e => hct e.symm)).mpr ht) hcount
    · have hct : ¬ c.data.Typ = t := fun e => hc (e ▸ ht)
      rw [List.countP_cons] at hcount
      simp only [hct, decide_False, Bool.false_eq_true, if_false, add_zero] at hcount
      rw [dropFirsts, if_neg hc]
      have := ih types ht hcount
      rw [hasChild_eq_false_iff] at this ⊢
      intro x hx
      rcases List.mem_cons.mp hx with e | hx
      · rw [e]; exact hct
      · exact this x hx

theorem renderLink_enter_eq (env : Env) (r : VditorSVRenderer) (node : Site)
    (h3 : node.node.data.LinkType = 3) :
    renderLink env r node true =
      if hasChild node.node.children .NodeOpenParen ∧ hasChild node.node.children .NodeLinkDest ∧
          hasChild node.node.children .NodeCloseParen ∧
          (hasChild node.node.children .NodeLinkSpace → hasChild node.node.children .NodeLinkTitle)
      then some (renderSpanNode r (unlinkedSite node), unlinkedSite node, WalkStatus.WalkContinue)
      else none := by
  unfold renderLink
  simp only [if_true, h3, Option.bind_eq_bind, Option.pure_def, unlinkLinkDest_eq]
  split <;> rfl

/-- C11 (amended): entering `renderLink` on a link that is not of type 3 leaves the node
and its children as they are. On a link of type 3 that has an open-paren, a destination
and a close-paren child, and a title child if it has a space child, it takes out the
first open-paren, destination and close-paren child, and the first space and title child
when there is a space child; the other children, a title without space among them, stay
in their order. When none of these types occurs twice, what is left is the children of
the other types. -/
theorem renderLink_enter_children (env : Env) (r : VditorSVRenderer) (node : Site) :
    (node.node.data.LinkType ≠ 3 →
      renderLink env r node true = some (renderSpanNode r node, node, WalkStatus.WalkContinue)) ∧
    (node.node.data.LinkType = 3 →
      hasChild node.node.children .NodeOpenParen = true →
      hasChild node.node.children .NodeLinkDest = true →
      hasChild node.node.children .NodeCloseParen = true →
      (hasChild node.node.children .NodeLinkSpace = true →
        hasChild node.node.children .NodeLinkTitle = true) →
      ∃ (r' : VditorSVRenderer) (site' : Site),
        renderLink env r node true = some (r', site', WalkStatus.WalkContinue) ∧
        site'.path = node.path ∧ site'.node.data = node.node.data ∧
        site'.node.children =
          dropFirsts (unlinkedTypes node.node.children) node.node.children ∧
        unlinkedTypes node.node.children =
          (if hasChild node.node.children .NodeLinkSpace then
            [NodeType.NodeCloseParen, .NodeLinkTitle, .NodeLinkSpace, .NodeLinkDest, .NodeOpenParen]
          else [NodeType.NodeCloseParen, .NodeLinkDest, .NodeOpenParen]) ∧
        ((∀ t ∈ unlinkedTypes node.node.children,
            node.node.children.countP (fun c => decide (c.data.Typ = t)) ≤ 1) →
          site'.node.children = node.node.children.filter
            (fun c => decide (c.data.Typ ∉ unlinkedTypes node.node.children)))) := by
  constructor
  · intro h
    have h' : ¬ (3 : Int) = node.node.data.LinkType := fun e => h e.symm
    simp [renderLink, h']
  · intro h3 ho hd hc hs
    refine ⟨renderSpanNode r (unlinkedSite node), unlinkedSite node, ?_, rfl, rfl, rfl, rfl,
      fun hu => dropFirsts_eq_filter _ _ hu⟩
    rw [renderLink_enter_eq env r node h3, if_pos ⟨ho, hd, hc, hs⟩]

/-- Witness for C11 (amended): a link of type 3 without space and title. -/
theorem renderLink_enter_children_witness :
    ∃ (r' : VditorSVRenderer) (site' : Site),
      renderLink plainEnv initialRenderer (topLevel refLink) true =
        some (r', site', WalkStatus.WalkContinue) ∧
      site'.path = (topLevel refLink).path ∧ site'.node.data = (topLevel refLink).node.data ∧
      site'.node.children =
        dropFirsts (unlinkedTypes (topLevel refLink).node.children)
          (topLevel refLink).node.children ∧
      unlinkedTypes (topLevel refLink).node.children =
        (if hasChild (topLevel refLink).node.children .NodeLinkSpace then
          [NodeType.NodeCloseParen, .NodeLinkTitle, .NodeLinkSpace, .NodeLinkDest, .NodeOpenParen]
        else [NodeType.NodeCloseParen, .NodeLinkDest, .NodeOpenParen]) ∧
      ((∀ t ∈ unlinkedTypes (topLevel refLink).node.children,
          (topLevel refLink).node.children.countP (fun c => decide (c.data.Typ = t)) ≤ 1) →
        site'.node.children = (topLevel refLink).node.children.filter
          (fun c => decide (c.data.Typ ∉ unlinkedTypes (topLevel refLink).node.children))) :=
  (renderLink_enter_children plainEnv initialRenderer (topLevel refLink)).2 (by decide)
    (by decide) (by decide) (by decide) (by decide)

/-- C11 (counterexample): a link of type 3 with open paren, destination, title and close
paren but no space keeps its title child when `renderLink` is entered. -/
theorem renderLink_keeps_title_without_space :
    titledRefLink.data.LinkType = 3 ∧
    hasChild titledRefLink.children .NodeOpenParen = true ∧
    hasChild titledRefLink.children .NodeLinkDest = true ∧
    hasChild titledRefLink.children .NodeCloseParen = true ∧
    ∃ (r' : VditorSVRenderer) (site' : Site),
      renderLink plainEnv initialRenderer (topLevel titledRefLink) true =
        some (r', site', WalkStatus.WalkContinue) ∧
      hasChild site'.node.children .NodeLinkTitle = true :=
  ⟨by decide, by decide, by decide, by decide, _, _, rfl, by decide⟩

/-- C20: entering `renderLink` on a link of type 3 fails when the link has no open-paren
child, no destination child or no close-paren child, or has a space child but no title
child. After an entering that succeeded, a second entering of the link as the first one
left it fails, provided the link had at most one open-paren child, or at most one
destination child, or at most one close-paren child. -/
theorem renderLink_enter_fails (env : Env) (r : VditorSVRenderer) (node : Site)
    (h3 : node.node.data.LinkType = 3) :
    ((hasChild node.node.children .NodeOpenParen = false ∨
        hasChild node.node.children .NodeLinkDest = false ∨
        hasChild node.node.children .NodeCloseParen = false ∨
        (hasChild node.node.children .NodeLinkSpace = true ∧
          hasChild node.node.children .NodeLinkTitle = false)) →
      renderLink env r node true = none) ∧
    (∀ (r1 r2 : VditorSVRenderer) (node1 : Site) (st : WalkStatus),
      renderLink env r node true = some (r1, node1, st) →
      (node.node.children.countP (fun c => decide (c.data.Typ = .NodeOpenParen)) ≤ 1 ∨
        node.node.children.countP (fun c => decide (c.data.Typ = .NodeLinkDest)) ≤ 1 ∨
        node.node.children.countP (fun c => decide (c.data.Typ = .NodeCloseParen)) ≤ 1) →
      renderLink env r2 node1 true = none) := by
  constructor
  · intro h
    rw [renderLink_enter_eq env r node h3, if_neg]
    rintro ⟨ho, hd, hc, hs⟩
    rcases h with h | h | h | ⟨h1, h2⟩
    · rw [ho] at h; cases h
    · rw [hd] at h; cases h
    · rw [hc] at h; cases h
    · rw [hs h1] at h2; cases h2
  · intro r1 r2 node1 st hrun hcount
    rw [renderLink_enter_eq env r node h3] at hrun
    split at hrun
    swap
    · cases hrun
    have hnode : node1 = unlinkedSite node :=
      ((Prod.mk.inj (Prod.mk.inj (Option.some.inj hrun)).2).1).symm
    have h3' : node1.node.data.LinkType = 3 := by rw [hnode]; exact h3
    rw [renderLink_enter_eq env r2 node1 h3', if_neg]
    rintro ⟨ho, hd, hc, _⟩
    have hch : node1.node.children =
        dropFirsts (unlinkedTypes node.node.children) node.node.children := by
      rw [hnode]; rfl
    rw [hch] at ho hd hc
    have hmem : NodeType.NodeOpenParen ∈ unlinkedTypes node.node.children ∧
        NodeType.NodeLinkDest ∈ unlinkedTypes node.node.children ∧
        NodeType.NodeCloseParen ∈ unlinkedTypes node.node.children := by
      unfold unlinkedTypes
      split <;> decide
    rcases hcount with h | h | h
    · rw [hasChild_dropFirsts_of_count _ _ _ hmem.1 h] at ho; cases ho
    · rw [hasChild_dropFirsts_of_count _ _ _ hmem.2.1 h] at hd; cases hd
    · rw [hasChild_dropFirsts_of_count _ _ _ hmem.2.2 h] at hc; cases hc

/-- Witness for C20: a second entering of a link of type 3 fails. -/
theorem renderLink_enter_fails_witness :
    (topLevel refLink).node.data.LinkType = 3 ∧
    renderLink plainEnv initialRenderer (topLevel refLink) true =
      some (renderSpanNode initialRenderer (unlinkedSite (topLevel refLink)),
        unlinkedSite (topLevel refLink), WalkStatus.WalkContinue) ∧
    renderLink plainEnv initialRenderer (unlinkedSite (topLevel refLink)) true = none :=
  ⟨rfl, rfl,
    (renderLink_enter_fails plainEnv initialRenderer (topLevel refLink) rfl).2
      (renderSpanNode initialRenderer (unlinkedSite (topLevel refLink))) initialRenderer
      (unlinkedSite (topLevel refLink)) WalkStatus.WalkContinue rfl (Or.inl (by decide))⟩


/-! ## Theorems: the link reference definitions block -/

theorem writeLinkRefDef_spec (env : Env) (r : VditorSVRenderer) (node : Node)
    (hw : r.Writer < r.buffers.length) (hd : hasChild node.children .NodeLinkDest = true) :
    ∃ r', writeLinkRefDef env r node = some r' ∧ Appends r r' ∧
      bufBytes r' r.Writer = bufBytes r r.Writer ++ linkRefDefLine env.Caret node := by
  rw [← ChildByType_isSome] at hd
  obtain ⟨d, hd'⟩ := Option.isSome_iff_exists.mp hd
  have hdest : linkDestOf node = d.Tokens := by simp [linkDestOf, hd']
  unfold writeLinkRefDef linkRefDefLine
  rw [hdest]
  simp only [hd', Option.map_some', Option.bind_eq_bind, Option.some_bind, Option.pure_def]
  have a1 := appends_WriteString r (bytesOf "[" ++ node.data.LinkRefLabel ++ bytesOf "]:")
  have e1 := bufBytes_WriteString r (bytesOf "[" ++ node.data.LinkRefLabel ++ bytesOf "]:") hw
  have hw1 : (WriteString r (bytesOf "[" ++ node.data.LinkRefLabel ++ bytesOf "]:")).Writer <
      (WriteString r (bytesOf "[" ++ node.data.LinkRefLabel ++ bytesOf "]:")).buffers.length := by
    rw [a1.writer, a1.length]; exact hw
  by_cases hc : env.Caret = d.Tokens
  · have hc' : d.Tokens = env.Caret := hc.symm
    simp only [ne_eq, hc, not_true_eq_false, if_false, if_true]
    have a2 := appends_WriteString
      (WriteString r (bytesOf "[" ++ node.data.LinkRefLabel ++ bytesOf "]:"))
      (d.Tokens ++ bytesOf "\n")
    have e2 := bufBytes_WriteString
      (WriteString r (bytesOf "[" ++ node.data.LinkRefLabel ++ bytesOf "]:"))
      (d.Tokens ++ bytesOf "\n") hw1
    rw [a1.writer] at e2
    refine ⟨_, rfl, appends_trans a1 a2, ?_⟩
    rw [e2, e1]
    simp
  · have hc' : ¬ d.Tokens = env.Caret := fun e => hc e.symm
    simp only [ne_eq, hc, not_false_eq_true, if_true, hc', if_false]
    have a2 := appends_WriteString
      (WriteString r (bytesOf "[" ++ node.data.LinkRefLabel ++ bytesOf "]:")) (bytesOf " ")
    have e2 := bufBytes_WriteString
      (WriteString r (bytesOf "[" ++ node.data.LinkRefLabel ++ bytesOf "]:")) (bytesOf " ") hw1
    have hw2 : (WriteString (WriteString r (bytesOf "[" ++ node.data.LinkRefLabel ++ bytesOf "]:"))
        (bytesOf " ")).Writer < (WriteString (WriteString r (bytesOf "[" ++ node.data.LinkRefLabel ++
        bytesOf "]:")) (bytesOf " ")).buffers.length := by
      rw [a2.writer, a2.length]; exact hw1
    have a3 := appends_WriteString (WriteString (WriteString r (bytesOf "[" ++
      node.data.LinkRefLabel ++ bytesOf "]:")) (bytesOf " ")) (d.Tokens ++ bytesOf "\n")
    have e3 := bufBytes_WriteString (WriteString (WriteString r (bytesOf "[" ++
      node.data.LinkRefLabel ++ bytesOf "]:")) (bytesOf " ")) (d.Tokens ++ bytesOf "\n") hw2
    rw [a2.writer, a1.writer] at e3
    rw [a1.writer] at e2
    refine ⟨_, rfl, appends_trans a1 (appends_trans a2 a3), ?_⟩
    rw [e3, e2, e1]
    simp

theorem foldlM_writeLinkRefDef (env : Env) : ∀ (defs : List Node) (r : VditorSVRenderer),
    r.Writer < r.buffers.length → (∀ d ∈ defs, hasChild d.children .NodeLinkDest = true) →
    ∃ r', defs.foldlM (writeLinkRefDef env) r = some r' ∧ Appends r r' ∧
      bufBytes r' r.Writer =
        bufBytes r r.Writer ++ (defs.map (linkRefDefLine env.Caret)).flatten := by
  intro defs
  induction defs with
  | nil => intro r _ _; exact ⟨r, rfl, appends_refl r, by simp⟩
  | cons d ds ih =>
    intro r hw hd
    obtain ⟨r1, h1, a1, e1⟩ := writeLinkRefDef_spec env r d hw (hd d (List.mem_cons_self _ _))
    have hw1 : r1.Writer < r1.buffers.length := by rw [a1.writer, a1.length]; exact hw
    obtain ⟨r2, h2, a2, e2⟩ := ih r1 hw1 (fun d' hd' => hd d' (List.mem_cons_of_mem _ hd'))
    rw [a1.writer] at e2
    refine ⟨r2, ?_, appends_trans a1 a2, ?_⟩
    · rw [List.foldlM_cons, h1]; exact h2
    · rw [e2, e1]; simp

/-- At the level of values: let the embedded `BaseRenderer.Render` return the content of the writer as the
rendered document. With no link reference definition, or in a footnote sub-renderer,
`Render` returns that document alone. Otherwise, when every definition has a destination
child, it returns the document followed by one block: the opening span of type
`link-ref-defs-block`, for each definition in order the line `[label]:`, a space unless
the destination is the caret, the destination and a line feed, then the coalesced
separator (nothing or `NewlineSV`) and the closing `</span>`. -/
theorem Render_output (env : Env) (base : VditorSVRenderer → Option (VditorSVRenderer × Bytes))
    (linkRefDefs : List Node) (r r1 : VditorSVRenderer) (document : Bytes)
    (hret : ReturnsWriter base) (hbase : base r = some (r1, document)) :
    (linkRefDefs = [] ∨ r1.needRenderFootnotesDef = true →
      Render env base linkRefDefs r = some (r1, document)) ∧
    (linkRefDefs ≠ [] → r1.needRenderFootnotesDef = false →
      (∀ d ∈ linkRefDefs, hasChild d.children .NodeLinkDest = true) →
      ∃ (r' : VditorSVRenderer) (sep : Bytes),
        Render env base linkRefDefs r = some (r',
          document ++ bytesOf "<span data-block=\"0\" data-type=\"link-ref-defs-block\">" ++
            (linkRefDefs.map (linkRefDefLine env.Caret)).flatten ++ sep ++ closeSpan) ∧
        (sep = [] ∨ sep = NewlineSV)) := by
  obtain ⟨hdoc, hw⟩ := hret r r1 document hbase
  constructor
  · intro h
    have hcond : 1 > linkRefDefs.length ∨ r1.needRenderFootnotesDef = true := by
      rcases h with h | h
      · left; rw [h]; decide
      · right; exact h
    simp only [Render, hbase, Option.bind_eq_bind, Option.some_bind, if_pos hcond, Option.pure_def]
  · intro hne hfoot hdest
    have hcond : ¬ (1 > linkRefDefs.length ∨ r1.needRenderFootnotesDef = true) := by
      rintro (h | h)
      · exact hne (List.length_eq_zero.mp (by omega))
      · rw [hfoot] at h; cases h
    have a0 := appends_WriteString r1
      (bytesOf "<span data-block=\"0\" data-type=\"link-ref-defs-block\">")
    have e0 := bufBytes_WriteString r1
      (bytesOf "<span data-block=\"0\" data-type=\"link-ref-defs-block\">") hw
    have hw0 : (WriteString r1
        (bytesOf "<span data-block=\"0\" data-type=\"link-ref-defs-block\">")).Writer <
        (WriteString r1
          (bytesOf "<span data-block=\"0\" data-type=\"link-ref-defs-block\">")).buffers.length := by
      rw [a0.writer, a0.length]; exact hw
    obtain ⟨r2, h2, a2, e2⟩ := foldlM_writeLinkRefDef env linkRefDefs _ hw0 hdest
    rw [a0.writer] at e2
    have hw2 : r2.Writer < r2.buffers.length := by
      rw [a2.writer, a2.length]; exact hw0
    have a3 := appends_Newline r2
    have hw3 : (Newline r2).Writer < (Newline r2).buffers.length := by
      rw [a3.writer, a3.length]; exact hw2
    have e4 := bufBytes_WriteString (Newline r2) (bytesOf "</span>") hw3
    have a4 := appends_WriteString (Newline r2) (bytesOf "</span>")
    have hwr : (WriteString (Newline r2) (bytesOf "</span>")).Writer = r1.Writer := by
      rw [a4.writer, a3.writer, a2.writer, a0.writer]
    have hrun : Render env base linkRefDefs r =
        some (WriteString (Newline r2) (bytesOf "</span>"),
          bufBytes (WriteString (Newline r2) (bytesOf "</span>")) r1.Writer) := by
      simp only [Render, hbase, Option.bind_eq_bind, Option.some_bind, if_neg hcond, h2,
        Option.pure_def]
      rw [hwr]
    rw [a3.writer, a2.writer, a0.writer] at e4
    have e3 := bufBytes_Newline r2 hw2
    rw [a2.writer, a0.writer] at e3
    rcases e3 with e3 | e3
    · refine ⟨WriteString (Newline r2) (bytesOf "</span>"), [], hrun.trans ?_, Or.inl rfl⟩
      rw [e4, e3, e2, e0, hdoc]
      simp [closeSpan]
    · refine ⟨WriteString (Newline r2) (bytesOf "</span>"), NewlineSV, hrun.trans ?_, Or.inr rfl⟩
      rw [e4, e3, e2, e0, hdoc]
      rfl

theorem returnsWriter_idleBase : ReturnsWriter idleBase := by
  intro r r1 output h
  unfold idleBase at h
  split at h
  · rename_i hw
    have h' := Option.some.inj h
    have e1 : r = r1 := (Prod.mk.inj h').1
    have e2 : bufBytes r r.Writer = output := (Prod.mk.inj h').2
    subst e1
    exact ⟨e2.symm, hw⟩
  · cases h

/-- An instance: one definition `[foo]: /url` after an empty document. -/
theorem Render_output_witness :
    ([linkRefDef (bytesOf "foo") (bytesOf "/url")] = [] ∨
        initialRenderer.needRenderFootnotesDef = true →
      Render plainEnv idleBase [linkRefDef (bytesOf "foo") (bytesOf "/url")] initialRenderer =
        some (initialRenderer, [])) ∧
    ([linkRefDef (bytesOf "foo") (bytesOf "/url")] ≠ [] →
      initialRenderer.needRenderFootnotesDef = false →
      (∀ d ∈ [linkRefDef (bytesOf "foo") (bytesOf "/url")],
        hasChild d.children .NodeLinkDest = true) →
      ∃ (r' : VditorSVRenderer) (sep : Bytes),
        Render plainEnv idleBase [linkRefDef (bytesOf "foo") (bytesOf "/url")] initialRenderer =
          some (r',
            [] ++ bytesOf "<span data-block=\"0\" data-type=\"link-ref-defs-block\">" ++
              ([linkRefDef (bytesOf "foo") (bytesOf "/url")].map
                (linkRefDefLine plainEnv.Caret)).flatten ++ sep ++ closeSpan) ∧
        (sep = [] ∨ sep = NewlineSV)) :=
  Render_output plainEnv idleBase [linkRefDef (bytesOf "foo") (bytesOf "/url")] initialRenderer
    initialRenderer [] returnsWriter_idleBase rfl

set_option maxRecDepth 100000 in
/-- The output of `Render` for the definition `[foo]: /url` after an empty document. -/
theorem Render_linkRefDef_check :
    (Render plainEnv idleBase [linkRefDef (bytesOf "foo") (bytesOf "/url")]
        initialRenderer).map Prod.snd =
      some (bytesOf "<span data-block=\"0\" data-type=\"link-ref-defs-block\">[foo]: /url\n" ++
        NewlineSV ++ bytesOf "</span>") := by
  decide

/-! ## Theorems: links and wiki links -/

theorem takeWhile_append_stop (p : Nat → Bool) (c : Nat) (rest : Bytes) (hc : p c = false) :
    ∀ a : Bytes, (∀ x ∈ a, p x = true) → (a ++ c :: rest).takeWhile p = a := by
  intro a
  induction a with
  | nil => intro _; simp [List.takeWhile_cons, hc]
  | cons x xs ih =>
    intro h
    have hx := h x (List.mem_cons_self _ _)
    rw [List.cons_append, List.takeWhile_cons, hx]
    simp only [if_true]
    rw [ih (fun y hy => h y (List.mem_cons_of_mem _ hy))]

theorem isLetter_ne (c : Nat) (h : isLetter c = true) :
    c ≠ 10 ∧ c ≠ 32 ∧ c ≠ 40 ∧ c ≠ 41 ∧ c ≠ 91 ∧ c ≠ 93 := by
  simp only [isLetter, Bool.or_eq_true, Bool.and_eq_true, decide_eq_true_eq] at h
  omega

theorem parseInlineDest_letters (b rest : Bytes) (hb : ∀ x ∈ b, isLetter x = true) :
    parseInlineDest (40 :: (b ++ 41 :: rest)) = some (b, rest) := by
  have ht : (b ++ 41 :: rest).takeWhile (fun c => decide (c ≠ 41 ∧ c ≠ 40 ∧ c ≠ 32 ∧ c ≠ 10)) = b :=
    takeWhile_append_stop _ 41 rest (by decide) b (fun x hx => by
      obtain ⟨h1, h2, h3, h4, _, _⟩ := isLetter_ne x (hb x hx)
      simp [h1, h2, h3, h4])
  simp only [parseInlineDest, ht, List.drop_left]

theorem parseWikiName_letters (c rest : Bytes) (hc : ∀ x ∈ c, isLetter x = true) :
    parseWikiName (91 :: 91 :: (c ++ 93 :: 93 :: rest)) = some (c, rest) := by
  have ht : (c ++ 93 :: 93 :: rest).takeWhile (fun c => decide (c ≠ 93 ∧ c ≠ 91 ∧ c ≠ 10)) = c :=
    takeWhile_append_stop _ 93 (93 :: rest) (by decide) c (fun x hx => by
      obtain ⟨h1, _, _, _, h5, h6⟩ := isLetter_ne x (hc x hx)
      simp [h1, h5, h6])
  simp only [parseWikiName, ht, List.drop_left]

theorem parseInlinesLoop_nil (n : Nat) (items : List Item) :
    parseInlinesLoop n [] items = items := by
  cases n <;> rfl

theorem parseInlinesLoop_letters (rest : Bytes) : ∀ (a : Bytes) (n : Nat) (items : List Item),
    (∀ x ∈ a, isLetter x = true) →
    parseInlinesLoop (a.length + n) (a ++ rest) items =
      parseInlinesLoop n rest ((a.reverse.map (fun c => Item.node (Inline.text [c]))) ++ items) := by
  intro a
  induction a with
  | nil => intro n items _; simp
  | cons x xs ih =>
    intro n items h
    obtain ⟨_, _, _, _, h5, h6⟩ := isLetter_ne x (h x (List.mem_cons_self _ _))
    have hlen : (x :: xs).length + n = (xs.length + n) + 1 := by simp; omega
    rw [hlen, List.cons_append, parseInlinesLoop, if_neg h5, if_neg h6,
      ih n _ (fun y hy => h y (List.mem_cons_of_mem _ hy))]
    simp

theorem splitAtOpenBracket_nodes (below : List Item) : ∀ xs : List Inline,
    splitAtOpenBracket (xs.map Item.node ++ Item.openBracket :: below) = some (xs, below) := by
  intro xs
  induction xs with
  | nil => rfl
  | cons x xs ih => simp [splitAtOpenBracket, ih]

theorem inlinesHTML_texts : ∀ a : Bytes,
    inlinesHTML (a.map (fun c => Inline.text [c])) = a := by
  intro a
  induction a with
  | nil => rfl
  | cons x xs ih => simp [inlinesHTML, inlineHTML, ih]

/-- C15: on the model of the parser and the HTML renderer, for every link text `a`,
destination `b` and wiki name `c` made of letters, `MarkdownStr` applied to
`[a](b) [[c]]` returns `<p><a href="b">a</a> <a href="c" class="wikilink">c</a></p>`
followed by a line feed. -/
theorem MarkdownStr_wikilink (name a b c : Bytes) (ha : ∀ x ∈ a, isLetter x = true)
    (hb : ∀ x ∈ b, isLetter x = true) (hc : ∀ x ∈ c, isLetter x = true) :
    MarkdownStr name
        (bytesOf "[" ++ a ++ bytesOf "](" ++ b ++ bytesOf ") [[" ++ c ++ bytesOf "]]") =
      bytesOf "<p><a href=\"" ++ b ++ bytesOf "\">" ++ a ++ bytesOf "</a> <a href=\"" ++ c ++
        bytesOf "\" class=\"wikilink\">" ++ c ++ bytesOf "</a></p>\n" := by
  have hin : bytesOf "[" ++ a ++ bytesOf "](" ++ b ++ bytesOf ") [[" ++ c ++ bytesOf "]]" =
      91 :: (a ++ 93 :: 40 :: (b ++ 41 :: 32 :: 91 :: 91 :: (c ++ 93 :: 93 :: []))) := by
    simp [bytesOf]
  have hlen : (91 :: (a ++ 93 :: 40 :: (b ++ 41 :: 32 :: 91 :: 91 :: (c ++ 93 :: 93 :: [])))).length =
      (a.length + ((((b.length + c.length + 5) + 1) + 1) + 1)) + 1 := by
    simp; omega
  have hloop : parseInlinesLoop
      (91 :: (a ++ 93 :: 40 :: (b ++ 41 :: 32 :: 91 :: 91 :: (c ++ 93 :: 93 :: [])))).length
      (91 :: (a ++ 93 :: 40 :: (b ++ 41 :: 32 :: 91 :: 91 :: (c ++ 93 :: 93 :: [])))) [] =
      [Item.node (Inline.wikilink c), Item.node (Inline.text [32]),
        Item.node (Inline.link (a.map (fun x => Inline.text [x])) b)] := by
    have hw0 : parseWikiName (91 :: (a ++ 93 :: 40 :: (b ++ 41 :: 32 :: 91 :: 91 ::
        (c ++ 93 :: 93 :: [])))) = none := by
      cases a with
      | nil => rfl
      | cons x xs =>
        have h5 := (isLetter_ne x (ha x (List.mem_cons_self _ _))).2.2.2.2.1
        simp only [List.cons_append, parseWikiName]
        split
        · rename_i heq; simp at heq; exact absurd heq.1 h5
        · rfl
    rw [hlen, parseInlinesLoop, if_pos rfl, hw0]
    simp only []
    rw [parseInlinesLoop_letters _ a _ _ ha]
    have hsplit := splitAtOpenBracket_nodes []
      (a.reverse.map (fun x => Inline.text [x]))
    simp only [List.map_map] at hsplit
    have hitems : (a.reverse.map (fun c => Item.node (Inline.text [c]))) ++ [Item.openBracket] =
        List.map (Item.node ∘ fun x => Inline.text [x]) a.reverse ++ [Item.openBracket] := rfl
    rw [hitems, parseInlinesLoop, if_neg (by decide), if_pos rfl, hsplit,
      parseInlineDest_letters b _ hb]
    simp only []
    rw [parseInlinesLoop, if_neg (by decide), if_neg (by decide), parseInlinesLoop,
      if_pos rfl, parseWikiName_letters c [] hc]
    simp only []
    rw [parseInlinesLoop_nil]
    simp [List.map_reverse]
  unfold MarkdownStr parseInlines
  rw [hin, hloop]
  simp [inlinesHTML, inlineHTML, inlinesHTML_texts, bytesOf]

set_option maxRecDepth 100000 in
/-- Witness for C15: the input and the expected output of the test `TestWikilink`. -/
theorem MarkdownStr_wikilink_witness :
    MarkdownStr (bytesOf "wikilink") (bytesOf "[reallink](linktext) [[wikilink]]") =
      bytesOf "<p><a href=\"linktext\">reallink</a> <a href=\"wikilink\" class=\"wikilink\">wikilink</a></p>\n" :=
  MarkdownStr_wikilink (bytesOf "wikilink") (bytesOf "reallink") (bytesOf "linktext")
    (bytesOf "wikilink") (by decide) (by decide) (by decide)


/-! ## Theorems: the scanned range of a thematic break -/

theorem index_congr (cl1 cl2 : List Nat) (i : Int)
    (h : ∀ j : Nat, (j : Int) = i → cl1[j]? = cl2[j]?) : index cl1 i = index cl2 i := by
  unfold index
  split
  · rfl
  · rename_i hi
    exact h i.toNat (by omega)

/-- The loop reads the line at the positions `i ≤ j < i + n` only. -/
theorem parseThematicBreakLoop_congr (cl1 cl2 : List Nat) :
    ∀ (n : Nat) (i : Int) (marker markers : Nat),
      (∀ j : Nat, i ≤ (j : Int) → (j : Int) < i + n → cl1[j]? = cl2[j]?) →
      parseThematicBreakLoop cl1 n i marker markers =
        parseThematicBreakLoop cl2 n i marker markers := by
  intro n
  induction n with
  | zero => intro i marker markers _; rfl
  | succ n ih =>
    intro i marker markers h
    have hidx : index cl1 i = index cl2 i :=
      index_congr cl1 cl2 i (fun j hj => h j (by omega) (by push_cast; omega))
    have hrec : ∀ marker' markers',
        parseThematicBreakLoop cl1 n (i + 1) marker' markers' =
          parseThematicBreakLoop cl2 n (i + 1) marker' markers' :=
      fun marker' markers' =>
        ih (i + 1) marker' markers' (fun j h1 h2 => h j (by omega) (by push_cast; omega))
    rw [parseThematicBreakLoop, parseThematicBreakLoop, hidx]
    cases index cl2 i with
    | none => rfl
    | some token => simp only [hrec]

/-- C25: two lines that agree at every position other than `currentLineLen-1` give the
same result of `parseThematicBreak`, a panic included. -/
theorem parseThematicBreak_last_token (cl1 cl2 : List Nat) (nextNonspace currentLineLen : Int)
    (h : ∀ j : Nat, (j : Int) ≠ currentLineLen - 1 → cl1[j]? = cl2[j]?) :
    parseThematicBreak cl1 nextNonspace currentLineLen =
      parseThematicBreak cl2 nextNonspace currentLineLen := by
  unfold parseThematicBreak
  apply parseThematicBreakLoop_congr
  intro j h1 h2
  apply h
  omega

/-- Witness for C25: `---` ended by a line feed and by a letter. -/
theorem parseThematicBreak_last_token_witness :
    parseThematicBreak (bytesOf "---\n") 0 4 = parseThematicBreak (bytesOf "---a") 0 4 :=
  parseThematicBreak_last_token (bytesOf "---\n") (bytesOf "---a") 0 4 (by
    intro j hj
    have h3 : j ≠ 3 := fun e => hj (by rw [e]; rfl)
    match j, h3 with
    | 0, _ => rfl
    | 1, _ => rfl
    | 2, _ => rfl
    | 3, h => exact absurd rfl h
    | _ + 4, _ => rfl)

/-! ## Theorems: the trimming loop of the containers -/

theorem trimNewlines_fuel : ∀ (n m : Nat) (buf : Bytes), buf.length ≤ n → buf.length ≤ m →
    trimNewlines n buf = trimNewlines m buf := by
  intro n
  induction n with
  | zero =>
    intro m buf h _
    have : buf = [] := List.length_eq_zero.mp (Nat.le_zero.mp h)
    subst this
    cases m with
    | zero => rfl
    | succ m => simp [trimNewlines, HasSuffix, NewlineSV, closeSpan, bytesOf]
  | succ n ih =>
    intro m buf hn hm
    cases m with
    | zero =>
      have : buf = [] := List.length_eq_zero.mp (Nat.le_zero.mp hm)
      subst this
      simp [trimNewlines, HasSuffix, NewlineSV, closeSpan, bytesOf]
    | succ m =>
      rw [trimNewlines, trimNewlines]
      split
      · rename_i hs
        obtain ⟨t, ht⟩ := (HasSuffix_iff _ _).mp hs
        have hlen : (NewlineSV ++ closeSpan).length = 82 := by decide
        have hbl : buf.length = t.length + 82 := by
          rw [← ht, List.length_append, hlen]
        have htrim : TrimSuffix buf (NewlineSV ++ closeSpan) = t := by
          rw [TrimSuffix, if_pos hs, ← ht]; simp
        rw [htrim]
        have hl : (t ++ closeSpan).length = t.length + 7 := by
          rw [List.length_append, closeSpan_length]
        exact ih m _ (by omega) (by omega)
      · rfl

theorem trimNewlines_spec : ∀ (n : Nat) (buf : Bytes), buf.length ≤ n →
    ¬ (NewlineSV ++ closeSpan) <:+ trimNewlines n buf ∧
    (trimNewlines n buf = buf ∨
      ∃ (x : Bytes) (k : Nat), 0 < k ∧
        buf = x ++ (List.replicate k NewlineSV).flatten ++ closeSpan ∧
        trimNewlines n buf = x ++ closeSpan) := by
  intro n
  induction n with
  | zero =>
    intro buf h
    have : buf = [] := List.length_eq_zero.mp (Nat.le_zero.mp h)
    subst this
    refine ⟨?_, Or.inl rfl⟩
    simp [trimNewlines, NewlineSV, closeSpan, bytesOf]
  | succ n ih =>
    intro buf hn
    rw [trimNewlines]
    split
    · rename_i hs
      obtain ⟨t, ht⟩ := (HasSuffix_iff _ _).mp hs
      have hlen : (NewlineSV ++ closeSpan).length = 82 := by decide
      have hbl : buf.length = t.length + 82 := by
        rw [← ht, List.length_append, hlen]
      have htrim : TrimSuffix buf (NewlineSV ++ closeSpan) = t := by
        rw [TrimSuffix, if_pos hs, ← ht]; simp
      rw [htrim]
      have hl : (t ++ closeSpan).length = t.length + 7 := by
        rw [List.length_append, closeSpan_length]
      obtain ⟨h1, h2⟩ := ih (t ++ closeSpan) (by omega)
      refine ⟨h1, Or.inr ?_⟩
      rcases h2 with h2 | ⟨x, k, hk, hx, hres⟩
      · refine ⟨t, 1, Nat.one_pos, ?_, h2⟩
        rw [← ht]; simp
      · refine ⟨x, k + 1, Nat.succ_pos k, ?_, hres⟩
        have ht' : t = x ++ (List.replicate k NewlineSV).flatten := by
          exact List.append_cancel_right hx
        rw [← ht, ht', flatten_replicate_succ_right]
        simp
    · rename_i hs
      refine ⟨fun h => hs ((HasSuffix_iff _ _).mpr h), Or.inl rfl⟩

/-- C26: the trimming loop that `renderBlockquote` and `renderListItem` run on exit ends
for every buffer, within as many iterations as the buffer has bytes: more fuel does not
change the result. The result does not end with `NewlineSV` followed by `</span>`, and
it is the buffer itself or the buffer without the `k > 0` sentinels `NewlineSV` that
stood directly before its final `</span>`. -/
theorem trimNewlines_result (buf : Bytes) :
    (∀ n, buf.length ≤ n → trimNewlines n buf = trimNewlines buf.length buf) ∧
    ¬ (NewlineSV ++ closeSpan) <:+ trimNewlines buf.length buf ∧
    (trimNewlines buf.length buf = buf ∨
      ∃ (x : Bytes) (k : Nat), 0 < k ∧
        buf = x ++ (List.replicate k NewlineSV).flatten ++ closeSpan ∧
        trimNewlines buf.length buf = x ++ closeSpan) :=
  ⟨fun n hn => trimNewlines_fuel n buf.length buf hn le_rfl,
    trimNewlines_spec buf.length buf le_rfl⟩

/-! ## Theorems: the size of the trailing window -/

theorem appendLastOut_length (lastOut content : Bytes) :
    (appendLastOut lastOut content).length =
      if 1024 < lastOut.length + content.length then lastOut.length + content.length - 512
      else lastOut.length + content.length := by
  unfold appendLastOut
  simp only [List.length_append]
  split <;> simp

theorem run_LastOut (r : VditorSVRenderer) (c : WriteCall) (hc : c ≠ WriteCall.Newline) :
    (c.run r).LastOut = r.LastOut ∧ c.content = [] ∨
      (c.run r).LastOut = appendLastOut r.LastOut c.content := by
  cases c with
  | Newline => exact absurd rfl hc
  | WriteByte b => right; rfl
  | Write content =>
    show (Write r content).LastOut = _ ∧ _ ∨ (Write r content).LastOut = _
    unfold Write
    split
    · right; rfl
    · rename_i h
      left
      refine ⟨rfl, ?_⟩
      cases content with
      | nil => rfl
      | cons x xs => simp at h
  | WriteString content =>
    show (WriteString r content).LastOut = _ ∧ _ ∨ (WriteString r content).LastOut = _
    unfold WriteString
    split
    · right; rfl
    · rename_i h
      left
      refine ⟨rfl, ?_⟩
      cases content with
      | nil => rfl
      | cons x xs => simp at h

/-- C28 (amended): when the window holds at most 1024 bytes, then after a `Write`,
`WriteByte` or `WriteString` call it holds the bytes it held and the content, less 512
bytes when these are more than 1024. It thus holds at most 1024 bytes again when the
content has at most 512 bytes; for longer content it can hold more. -/
theorem LastOut_length_after_write (r : VditorSVRenderer) (c : WriteCall)
    (hc : c ≠ WriteCall.Newline) (hl : r.LastOut.length ≤ 1024) :
    (c.run r).LastOut.length =
      (if 1024 < r.LastOut.length + c.content.length then
        r.LastOut.length + c.content.length - 512
      else r.LastOut.length + c.content.length) ∧
    (c.content.length ≤ 512 → (c.run r).LastOut.length ≤ 1024) := by
  have h : (c.run r).LastOut.length =
      (if 1024 < r.LastOut.length + c.content.length then
        r.LastOut.length + c.content.length - 512
      else r.LastOut.length + c.content.length) := by
    rcases run_LastOut r c hc with ⟨h1, h2⟩ | h1
    · rw [h1, h2]
      simp only [List.length_nil, add_zero]
      rw [if_neg (by omega)]
    · rw [h1, appendLastOut_length]
  refine ⟨h, fun h2 => ?_⟩
  rw [h]
  split <;> omega

/-- Witness for C28 (amended): a write of three bytes on a fresh renderer. -/
theorem LastOut_length_after_write_witness :
    ((WriteCall.Write (bytesOf "abc")).run initialRenderer).LastOut.length =
      (if 1024 < initialRenderer.LastOut.length + (WriteCall.Write (bytesOf "abc")).content.length then
        initialRenderer.LastOut.length + (WriteCall.Write (bytesOf "abc")).content.length - 512
      else initialRenderer.LastOut.length + (WriteCall.Write (bytesOf "abc")).content.length) ∧
    ((WriteCall.Write (bytesOf "abc")).content.length ≤ 512 →
      ((WriteCall.Write (bytesOf "abc")).run initialRenderer).LastOut.length ≤ 1024) :=
  LastOut_length_after_write initialRenderer (.Write (bytesOf "abc")) (by simp) (by decide)

/-- C28 (counterexample): on a fresh renderer, whose window is empty, one `Write` of 2000
bytes leaves a window of 1488 bytes. -/
theorem LastOut_exceeds_1024 :
    initialRenderer.LastOut.length ≤ 1024 ∧
    (Write initialRenderer (List.replicate 2000 97)).LastOut.length = 1488 := by
  refine ⟨by decide, ?_⟩
  have hpos : 0 < (List.replicate 2000 97 : Bytes).length := by
    rw [List.length_replicate]; omega
  have h : (Write initialRenderer (List.replicate 2000 97)).LastOut =
      appendLastOut initialRenderer.LastOut (List.replicate 2000 97) := by
    rcases run_LastOut initialRenderer (.Write (List.replicate 2000 97))
      (fun e => WriteCall.noConfusion e) with ⟨_, h2⟩ | h1
    · have h3 : (List.replicate 2000 97 : Bytes) = [] := h2
      rw [h3] at hpos
      exact absurd hpos (by decide)
    · exact h1
  have hl : initialRenderer.LastOut.length = 0 := rfl
  rw [h, appendLastOut_length, List.length_replicate, hl]
  rfl

/-! ## Theorems: the decision of `Newline` and the complete output -/

theorem appendLastOut_whole_or_long {lastOut written : Bytes} (content : Bytes)
    (h : lastOut = written ∨ 512 < lastOut.length) :
    appendLastOut lastOut content = written ++ content ∨
      512 < (appendLastOut lastOut content).length := by
  by_cases hl : 1024 < lastOut.length + content.length
  · right
    rw [appendLastOut_length, if_pos hl]; omega
  · have he : appendLastOut lastOut content = lastOut ++ content := by
      unfold appendLastOut
      simp only []
      rw [if_neg (by rw [List.length_append]; exact hl)]
    rw [he]
    rcases h with h | h
    · left; rw [h]
    · right; rw [List.length_append]; omega

/-- After calls other than `Newline`, the window is the whole buffer of the writer or
holds more than 512 bytes. -/
theorem runCalls_whole_or_long (calls : List WriteCall) :
    ∀ (r : VditorSVRenderer), (∀ c ∈ calls, c ≠ WriteCall.Newline) →
      r.Writer < r.buffers.length →
      (r.LastOut = bufBytes r r.Writer ∨ 512 < r.LastOut.length) →
      ((runCalls r calls).LastOut = bufBytes (runCalls r calls) r.Writer ∨
        512 < (runCalls r calls).LastOut.length) := by
  induction calls with
  | nil => intro r _ _ h; exact h
  | cons c cs ih =>
    intro r hcs hw h
    have hc := hcs c (List.mem_cons_self _ _)
    have a := appends_run r c
    have hw' : (c.run r).Writer < (c.run r).buffers.length := by
      rw [a.writer, a.length]; exact hw
    have hstep : (c.run r).LastOut = bufBytes (c.run r) (c.run r).Writer ∨
        512 < (c.run r).LastOut.length := by
      rw [a.writer]
      have hb : bufBytes (c.run r) r.Writer = bufBytes r r.Writer ++ c.content := by
        cases c with
        | Newline => exact absurd rfl hc
        | WriteByte b =>
          show bufBytes (bufWrite r r.Writer [b]) r.Writer = _
          rw [bufBytes_bufWrite]; simp [hw, WriteCall.content]
        | Write content => exact bufBytes_Write r content hw
        | WriteString content => exact bufBytes_WriteString r content hw
      rcases run_LastOut r c hc with ⟨h1, h2⟩ | h1
      · rw [h1, hb, h2, List.append_nil]; exact h
      · rw [h1, hb]; exact appendLastOut_whole_or_long c.content h
    have := ih (c.run r) (fun c' hc' => hcs c' (List.mem_cons_of_mem _ hc')) hw' hstep
    rw [a.writer] at this
    exact this

theorem opening_not_closed (b : Bytes) :
    ¬ closeSpan <:+ b ++ NewlineSV.take (NewlineSV.length - closeSpan.length * 2) := by
  intro hc
  have h1 : NewlineSV.take (NewlineSV.length - closeSpan.length * 2) <:+
      b ++ NewlineSV.take (NewlineSV.length - closeSpan.length * 2) := List.suffix_append _ _
  have h2 := List.suffix_of_suffix_length_le hc h1 (by decide)
  revert h2
  decide

/-- `Newline` emits the separator when the window is a suffix of a text that, without its
trailing closing tags, does not end with the opening part of the separator. -/
theorem Newline_emits_of_output (r : VditorSVRenderer) (out s : Bytes) (k : Nat)
    (hw : r.Writer < r.buffers.length) (hsuf : r.LastOut <:+ out)
    (hout : out = s ++ (List.replicate k closeSpan).flatten) (hcs : ¬ closeSpan <:+ s)
    (hns : ¬ NewlineSV.take (NewlineSV.length - closeSpan.length * 2) <:+ s) :
    bufBytes (Newline r) r.Writer = bufBytes r r.Writer ++ NewlineSV := by
  obtain ⟨m, hm1, hm2⟩ := trimCloseSpans_spec r.LastOut.length r.LastOut le_rfl
  have hno : ¬ HasSuffix (trimCloseSpans r.LastOut.length r.LastOut)
      (NewlineSV.take (NewlineSV.length - closeSpan.length * 2)) = true := by
    intro hs
    obtain ⟨p, hp⟩ := (HasSuffix_iff _ _).mp hs
    obtain ⟨q, hq⟩ := hsuf
    apply hns
    have he : q ++ p ++ NewlineSV.take (NewlineSV.length - closeSpan.length * 2) = s := by
      apply closers_unique m k _ _ _ (opening_not_closed (q ++ p)) hcs
      rw [← hout, ← hq, hm1, ← hp]
      simp [List.append_assoc]
    rw [← he]
    exact List.suffix_append _ _
  have : Newline r = { bufWrite r r.Writer NewlineSV with LastOut := NewlineSV } := by
    simp [Newline, hno, bufWrite, bufBytes]
  rw [this]
  show bufBytes (bufWrite r r.Writer NewlineSV) r.Writer = _
  rw [bufBytes_bufWrite]; simp [hw]

/-- C22 (amended): after calls of `Write`, `WriteByte` and `WriteString` from an empty
buffer and an empty window, write the output as `s` followed by `k` closing tags
`</span>`, where `s` does not end with a closing tag. If `s` does not end with the
opening part of the separator, `Newline` emits the separator. If `s` ends with it and
`k ≤ 64`, `Newline` emits nothing. -/
theorem Newline_decision_of_output (r : VditorSVRenderer) (calls : List WriteCall)
    (s : Bytes) (k : Nat) (hw : r.Writer < r.buffers.length)
    (hbuf : bufBytes r r.Writer = []) (hlast : r.LastOut = [])
    (hcalls : ∀ c ∈ calls, c ≠ WriteCall.Newline)
    (hout : (calls.map WriteCall.content).flatten = s ++ (List.replicate k closeSpan).flatten)
    (hcs : ¬ closeSpan <:+ s) :
    (¬ NewlineSV.take (NewlineSV.length - closeSpan.length * 2) <:+ s →
      bufBytes (Newline (runCalls r calls)) r.Writer =
        (calls.map WriteCall.content).flatten ++ NewlineSV) ∧
    (NewlineSV.take (NewlineSV.length - closeSpan.length * 2) <:+ s → k ≤ 64 →
      bufBytes (Newline (runCalls r calls)) r.Writer = (calls.map WriteCall.content).flatten) := by
  have hwin := runCalls_window calls r hcalls hw (by rw [hlast]; exact List.nil_suffix)
  rw [hbuf, List.nil_append] at hwin
  obtain ⟨hb, hsuf⟩ := hwin
  have a := appends_runCalls calls r
  have hw' : (runCalls r calls).Writer < (runCalls r calls).buffers.length := by
    rw [a.writer, a.length]; exact hw
  constructor
  · intro hns
    have := Newline_emits_of_output (runCalls r calls) _ s k hw'
      (by rw [← hb]; exact hsuf) hout hcs hns
    rw [a.writer] at this
    rw [this, hb]
  · intro hop hk
    have hlong := runCalls_whole_or_long calls r hcalls hw (Or.inl (by rw [hlast, hbuf]))
    rw [hb] at hsuf hlong
    have hlen7 : ∀ j : Nat, ((List.replicate j closeSpan).flatten).length = 7 * j := by
      intro j
      induction j with
      | zero => rfl
      | succ j ih =>
        rw [flatten_replicate_succ_right, List.length_append, ih, closeSpan_length]; omega
    have htail : NewlineSV.take (NewlineSV.length - closeSpan.length * 2) ++
        (List.replicate k closeSpan).flatten <:+ (calls.map WriteCall.content).flatten := by
      obtain ⟨p, hp⟩ := hop
      exact ⟨p, by rw [hout, ← hp, List.append_assoc]⟩
    have hin : NewlineSV.take (NewlineSV.length - closeSpan.length * 2) ++
        (List.replicate k closeSpan).flatten <:+ (runCalls r calls).LastOut := by
      rcases hlong with e | l
      · rw [e]; exact htail
      · apply List.suffix_of_suffix_length_le htail hsuf
        rw [List.length_append, hlen7]
        have : (NewlineSV.take (NewlineSV.length - closeSpan.length * 2)).length = 61 := by
          decide
        omega
    have hsilent := Newline_silent_of_suffix (runCalls r calls) k hin
    have : bufBytes (Newline (runCalls r calls)) r.Writer = bufBytes (runCalls r calls) r.Writer := by
      unfold bufBytes
      rw [hsilent]
    rw [this, hb]

/-- Witness for C22 (amended): the separator and one closing tag written on a fresh
renderer. -/
theorem Newline_decision_of_output_witness :
    (¬ NewlineSV.take (NewlineSV.length - closeSpan.length * 2) <:+
        NewlineSV.take (NewlineSV.length - closeSpan.length * 2) →
      bufBytes (Newline (runCalls initialRenderer
          [.Write NewlineSV, .WriteString closeSpan])) initialRenderer.Writer =
        ([WriteCall.Write NewlineSV, .WriteString closeSpan].map WriteCall.content).flatten ++
          NewlineSV) ∧
    (NewlineSV.take (NewlineSV.length - closeSpan.length * 2) <:+
        NewlineSV.take (NewlineSV.length - closeSpan.length * 2) → 3 ≤ 64 →
      bufBytes (Newline (runCalls initialRenderer
          [.Write NewlineSV, .WriteString closeSpan])) initialRenderer.Writer =
        ([WriteCall.Write NewlineSV, .WriteString closeSpan].map WriteCall.content).flatten) :=
  Newline_decision_of_output initialRenderer [.Write NewlineSV, .WriteString closeSpan]
    (NewlineSV.take (NewlineSV.length - closeSpan.length * 2)) 3 (by decide) (by decide)
    (by decide) (by intro c hc; simp at hc; rcases hc with rfl | rfl <;> simp) (by decide)
    (by decide)

theorem runCalls_LastOut_le (calls : List WriteCall) :
    ∀ (r : VditorSVRenderer), (∀ c ∈ calls, c ≠ WriteCall.Newline ∧ c.content.length ≤ 512) →
      r.LastOut.length ≤ 1024 → (runCalls r calls).LastOut.length ≤ 1024 := by
  induction calls with
  | nil => intro r _ h; exact h
  | cons c cs ih =>
    intro r hcs h
    obtain ⟨hc, hl⟩ := hcs c (List.mem_cons_self _ _)
    apply ih (c.run r) (fun c' hc' => hcs c' (List.mem_cons_of_mem _ hc'))
    rcases run_LastOut r c hc with ⟨h1, _⟩ | h1
    · rw [h1]; exact h
    · rw [h1, appendLastOut_length]
      split <;> omega

theorem closers_length (j : Nat) : ((List.replicate j closeSpan).flatten).length = 7 * j := by
  induction j with
  | zero => rfl
  | succ j ih =>
    rw [flatten_replicate_succ_right, List.length_append, ih, closeSpan_length]; omega

theorem separator_and_closers (k : Nat) :
    ((WriteCall.Write NewlineSV :: List.replicate k (WriteCall.WriteString closeSpan)).map
        WriteCall.content).flatten =
      NewlineSV.take (NewlineSV.length - closeSpan.length * 2) ++
        (List.replicate (k + 2) closeSpan).flatten := by
  have e : NewlineSV = NewlineSV.take (NewlineSV.length - closeSpan.length * 2) ++
      (closeSpan ++ closeSpan) := by decide
  rw [flatten_replicate_succ_right, flatten_replicate_succ_right]
  simp only [List.map_cons, List.map_replicate, WriteCall.content, List.flatten_cons]
  have hcomm : ∀ j : Nat, (List.replicate j closeSpan).flatten ++ closeSpan =
      closeSpan ++ (List.replicate j closeSpan).flatten := by
    intro j
    induction j with
    | zero => simp
    | succ j ih =>
      rw [flatten_replicate_succ_right, ih, List.append_assoc, ih]
  rw [hcomm k, List.append_assoc, hcomm k, ← List.append_assoc closeSpan closeSpan,
    ← List.append_assoc, ← e]

/-- C22 (counterexample): the separator and 136 closing tags are written on a fresh
renderer. The complete output without its trailing closing tags ends with the opening
part of the separator, yet `Newline` emits the separator: the window holds closing tags
only. -/
theorem Newline_decides_against_output :
    ((WriteCall.Write NewlineSV :: List.replicate 136 (WriteCall.WriteString closeSpan)).map
        WriteCall.content).flatten =
      NewlineSV.take (NewlineSV.length - closeSpan.length * 2) ++
        (List.replicate 138 closeSpan).flatten ∧
    ¬ closeSpan <:+ NewlineSV.take (NewlineSV.length - closeSpan.length * 2) ∧
    bufBytes (Newline (runCalls initialRenderer
        (WriteCall.Write NewlineSV :: List.replicate 136 (WriteCall.WriteString closeSpan)))) 0 =
      ((WriteCall.Write NewlineSV :: List.replicate 136 (WriteCall.WriteString closeSpan)).map
        WriteCall.content).flatten ++ NewlineSV := by
  have hout := separator_and_closers 136
  refine ⟨hout, by decide, ?_⟩
  generalize hcalls :
    WriteCall.Write NewlineSV :: List.replicate 136 (WriteCall.WriteString closeSpan) = calls
    at hout
  have hmem : ∀ c ∈ calls, c ≠ WriteCall.Newline ∧ c.content.length ≤ 512 := by
    intro c hc
    rw [← hcalls] at hc
    rcases List.mem_cons.mp hc with rfl | hc
    · exact ⟨fun h => WriteCall.noConfusion h, by decide⟩
    · rw [(List.mem_replicate.mp hc).2]
      exact ⟨fun h => WriteCall.noConfusion h, by decide⟩
  have hw : initialRenderer.Writer < initialRenderer.buffers.length := by decide
  obtain ⟨hb, hsuf⟩ := runCalls_window calls initialRenderer (fun c hc => (hmem c hc).1) hw
    List.nil_suffix
  have hle := runCalls_LastOut_le calls initialRenderer hmem (by decide)
  have a := appends_runCalls calls initialRenderer
  have hw' : (runCalls initialRenderer calls).Writer <
      (runCalls initialRenderer calls).buffers.length := by
    rw [a.writer, a.length]; exact hw
  have hb' : bufBytes (runCalls initialRenderer calls) 0 =
      (calls.map WriteCall.content).flatten := by
    have : bufBytes initialRenderer initialRenderer.Writer = [] := rfl
    rw [this, List.nil_append] at hb
    exact hb
  have hsplit : NewlineSV.take (NewlineSV.length - closeSpan.length * 2) =
      bytesOf "<sp" ++ (NewlineSV.take (NewlineSV.length - closeSpan.length * 2)).drop 3 := by
    decide
  have hT : (NewlineSV.take (NewlineSV.length - closeSpan.length * 2)).drop 3 ++
      (List.replicate 138 closeSpan).flatten <:+ (calls.map WriteCall.content).flatten :=
    ⟨bytesOf "<sp", by rw [hout, ← List.append_assoc, ← hsplit]⟩
  have hwin : (runCalls initialRenderer calls).LastOut <:+
      (NewlineSV.take (NewlineSV.length - closeSpan.length * 2)).drop 3 ++
        (List.replicate 138 closeSpan).flatten := by
    apply List.suffix_of_suffix_length_le (by rw [← hb']; exact hsuf) hT
    rw [List.length_append, closers_length]
    have : ((NewlineSV.take (NewlineSV.length - closeSpan.length * 2)).drop 3).length = 58 := by
      decide
    omega
  have := Newline_emits_of_output (runCalls initialRenderer calls) _
    ((NewlineSV.take (NewlineSV.length - closeSpan.length * 2)).drop 3) 138 hw' hwin rfl
    (by decide) (by decide)
  rw [a.writer] at this
  rw [← hb']
  exact this

/-! ## Theorems: the bytes a handler writes -/

theorem bufBytes_WriteByte (r : VditorSVRenderer) (c : Nat) (h : r.Writer < r.buffers.length) :
    bufBytes (WriteByte r c) r.Writer = bufBytes r r.Writer ++ [c] := by
  show bufBytes (bufWrite r r.Writer [c]) r.Writer = _
  rw [bufBytes_bufWrite]; simp [h]

theorem bufBytes_Newline_eq (r : VditorSVRenderer) (h : r.Writer < r.buffers.length) :
    bufBytes (Newline r) r.Writer = bufBytes r r.Writer ++ newlineOut r.LastOut := by
  unfold Newline newlineOut
  simp only []
  by_cases hs : HasSuffix (trimCloseSpans r.LastOut.length r.LastOut)
      (NewlineSV.take (NewlineSV.length - closeSpan.length * 2)) = true
  · simp [hs, bufBytes]
  · simp only [hs, Bool.not_eq_true, Bool.false_eq_true, if_false, Bool.not_false, if_true]
    show bufBytes (bufWrite _ r.Writer NewlineSV) r.Writer = _
    rw [bufBytes_bufWrite]
    simp [h, bufBytes]

theorem emits_refl (r : VditorSVRenderer) (h : r.Writer < r.buffers.length) : Emits r r [] :=
  ⟨h, appends_refl r, by simp⟩

theorem emits_alloc_right {r s : VditorSVRenderer} {a : Bytes} (h : Emits r s a) :
    s.Writer < s.buffers.length := by
  rw [h.appends.writer, h.appends.length]; exact h.alloc

theorem emits_step_Write {r s : VditorSVRenderer} {a : Bytes} (c : Bytes) (h : Emits r s a) :
    Emits r (Write s c) (a ++ c) := by
  refine ⟨h.alloc, appends_step_Write c h.appends, ?_⟩
  have := bufBytes_Write s c (emits_alloc_right h)
  rw [h.appends.writer] at this
  rw [this, h.bytes, List.append_assoc]

theorem emits_step_WriteString {r s : VditorSVRenderer} {a : Bytes} (c : Bytes)
    (h : Emits r s a) : Emits r (WriteString s c) (a ++ c) := by
  refine ⟨h.alloc, appends_step_WriteString c h.appends, ?_⟩
  have := bufBytes_WriteString s c (emits_alloc_right h)
  rw [h.appends.writer] at this
  rw [this, h.bytes, List.append_assoc]

theorem emits_step_WriteByte {r s : VditorSVRenderer} {a : Bytes} (c : Nat) (h : Emits r s a) :
    Emits r (WriteByte s c) (a ++ [c]) := by
  refine ⟨h.alloc, appends_step_WriteByte c h.appends, ?_⟩
  have := bufBytes_WriteByte s c (emits_alloc_right h)
  rw [h.appends.writer] at this
  rw [this, h.bytes, List.append_assoc]

theorem emits_step_Newline {r s : VditorSVRenderer} {a : Bytes} (h : Emits r s a) :
    Emits r (Newline s) (a ++ newlineOut s.LastOut) := by
  refine ⟨h.alloc, appends_step_Newline h.appends, ?_⟩
  have := bufBytes_Newline_eq s (emits_alloc_right h)
  rw [h.appends.writer] at this
  rw [this, h.bytes, List.append_assoc]

theorem emits_step_bufWrite {r s : VditorSVRenderer} {a : Bytes} (c : Bytes) (h : Emits r s a) :
    Emits r (bufWrite s s.Writer c) (a ++ c) := by
  refine ⟨h.alloc, appends_step_bufWrite c h.appends, ?_⟩
  rw [bufBytes_bufWrite, h.appends.writer]
  simp only [true_and]
  rw [if_pos (by rw [h.appends.length]; exact h.alloc), h.bytes, List.append_assoc]

theorem emits_foldl_attrs (attrs : List (Bytes × Bytes)) :
    ∀ (r s : VditorSVRenderer) (a : Bytes), Emits r s a →
      Emits r (attrs.foldl
        (fun r attr =>
          WriteString r (bytesOf " " ++ attr.1 ++ bytesOf "=\"" ++ attr.2 ++ bytesOf "\"")) s)
        (a ++ (attrs.map
          (fun a => bytesOf " " ++ a.1 ++ bytesOf "=\"" ++ a.2 ++ bytesOf "\"")).flatten) := by
  induction attrs with
  | nil => intro r s a h; simpa using h
  | cons x xs ih =>
    intro r s a h
    have := ih r _ _ (emits_step_WriteString
      (bytesOf " " ++ x.1 ++ bytesOf "=\"" ++ x.2 ++ bytesOf "\"") h)
    simpa [List.append_assoc] using this

theorem emits_step_tag {r s : VditorSVRenderer} {a : Bytes} (name : Bytes)
    (attrs : List (Bytes × Bytes)) (selfclosing : Bool) (h : Emits r s a) :
    Emits r (tag s name attrs selfclosing) (a ++ tagOut r.DisableTags name attrs selfclosing) := by
  unfold tag tagOut
  rw [h.appends.tags]
  by_cases hd : r.DisableTags > 0
  · simp only [hd, if_true, List.append_nil]
    exact h
  · simp only [hd, if_false]
    have h1 := emits_step_WriteString name (emits_step_WriteString (bytesOf "<") h)
    have h2 : Emits r (if 0 < attrs.length then attrs.foldl
        (fun r attr =>
          WriteString r (bytesOf " " ++ attr.1 ++ bytesOf "=\"" ++ attr.2 ++ bytesOf "\""))
        (WriteString (WriteString s (bytesOf "<")) name)
        else WriteString (WriteString s (bytesOf "<")) name)
        (a ++ bytesOf "<" ++ name ++ (attrs.map
          (fun a => bytesOf " " ++ a.1 ++ bytesOf "=\"" ++ a.2 ++ bytesOf "\"")).flatten) := by
      split
      · exact emits_foldl_attrs attrs r _ _ h1
      · rename_i hl
        have : attrs = [] := by
          cases attrs with
          | nil => rfl
          | cons x xs => simp at hl
        subst this
        simpa using h1
    cases selfclosing with
    | true =>
      have h3 := emits_step_WriteString (bytesOf ">") (emits_step_WriteString (bytesOf " /") h2)
      simpa [tagText, List.append_assoc] using h3
    | false =>
      have h3 := emits_step_WriteString (bytesOf ">") h2
      simpa [tagText, List.append_assoc] using h3

theorem emits_step_tagCloseSpan {r s : VditorSVRenderer} {a : Bytes} (h : Emits r s a) :
    Emits r (tagCloseSpan s) (a ++ tagOut r.DisableTags (bytesOf "/span") [] false) :=
  emits_step_tag _ _ _ h

theorem emits_padding {r r1 : VditorSVRenderer} {node : Site}
    (hw : r.Writer < r.buffers.length)
    (h : renderListItemBlockPadding r node = some r1) :
    Emits r r1 (listItemBlockPadding r node) ∧ r1.LastOut = r.LastOut ∧
      r1.ListPadding = r.ListPadding := by
  unfold renderListItemBlockPadding at h
  unfold listItemBlockPadding
  simp only [] at h
  split at h
  · rename_i h1
    have h1' : node.ParentIs .NodeListItem = false := by simpa using h1
    rw [← Option.some.inj h]
    simp only [h1', Bool.false_and, Bool.false_eq_true, if_false]
    exact ⟨emits_refl r hw, trivial, trivial⟩
  · rename_i h1
    have h1' : node.ParentIs .NodeListItem = true := by simpa using h1
    split at h
    · rename_i h2
      rw [← Option.some.inj h]
      simp only [h1', h2, Bool.not_true, Bool.and_false, Bool.false_eq_true, if_false]
      exact ⟨emits_refl r hw, trivial, trivial⟩
    · rename_i h2
      have h2' : node.isFirstChild = false := by simpa using h2
      split at h
      · exact absurd h (by simp)
      · rename_i spaces hsp
        rw [← Option.some.inj h]
        simp only [h1', h2', Bool.not_false, Bool.and_self, if_true]
        have h0 : 0 ≤ r.ListPadding := by
          by_contra hneg
          simp [Repeat, show r.ListPadding < 0 by omega] at hsp
        rw [Repeat_space _ h0] at hsp
        rw [← Option.some.inj hsp]
        have := emits_step_bufWrite
          (bytesOf "<span data-type=\"padding\">" ++ List.replicate r.ListPadding.toNat 32 ++
            bytesOf "</span>") (emits_refl r hw)
        exact ⟨by simpa using this, rfl, rfl⟩

/-! ## Theorems: the thematic break written and read again -/

theorem WriteString_LastOut_suffix (s : VditorSVRenderer) (c t : Bytes) (h : t <:+ s.LastOut)
    (hl : t.length + c.length ≤ 513) : t ++ c <:+ (WriteString s c).LastOut := by
  unfold WriteString
  split
  · show t ++ c <:+ appendLastOut s.LastOut c
    apply suffix_appendLastOut
    · obtain ⟨a, ha⟩ := h
      exact ⟨a, by rw [← ha, List.append_assoc]⟩
    · left; rw [List.length_append]; exact hl
  · rename_i hc
    have : c = [] := by
      cases c with
      | nil => rfl
      | cons x xs => simp at hc
    rw [this, List.append_nil]; exact h

theorem tagCloseSpan_LastOut_suffix (s : VditorSVRenderer) (t : Bytes) (h : t <:+ s.LastOut)
    (hl : t.length ≤ 500) :
    ∃ j, t ++ (List.replicate j closeSpan).flatten <:+ (tagCloseSpan s).LastOut := by
  unfold tagCloseSpan tag
  split
  · exact ⟨0, by simpa using h⟩
  · refine ⟨1, ?_⟩
    simp only [List.length_nil, Nat.lt_irrefl, if_false, Bool.false_eq_true]
    have h1 := WriteString_LastOut_suffix s (bytesOf "<") t h (by
      have : (bytesOf "<").length = 1 := by decide
      omega)
    have h2 := WriteString_LastOut_suffix _ (bytesOf "/span") _ h1 (by
      have : (bytesOf "<").length = 1 := by decide
      have : (bytesOf "/span").length = 5 := by decide
      rw [List.length_append]; omega)
    have h3 := WriteString_LastOut_suffix _ (bytesOf ">") _ h2 (by
      have : (bytesOf "<").length = 1 := by decide
      have : (bytesOf "/span").length = 5 := by decide
      have : (bytesOf ">").length = 1 := by decide
      rw [List.length_append, List.length_append]; omega)
    have e : t ++ (List.replicate 1 closeSpan).flatten =
        t ++ bytesOf "<" ++ bytesOf "/span" ++ bytesOf ">" := by
      simp [closeSpan, bytesOf]
    rw [e]
    exact h3

theorem last_of_suffix_concat {t y : Bytes} {c d : Nat} (h : t ++ [d] <:+ y ++ [c]) : d = c := by
  obtain ⟨u, hu⟩ := h
  have := congrArg List.getLast? hu
  rw [← List.append_assoc, List.getLast?_append, List.getLast?_append] at this
  simpa using this

/-- After text that ends with a byte other than `>` and a line feed, followed by closing
tags only, `Newline` emits the separator. -/
theorem newlineOut_after_text (lastOut x : Bytes) (c j : Nat)
    (h : x ++ [c] ++ (List.replicate j closeSpan).flatten <:+ lastOut) (hc1 : c ≠ 62)
    (hc2 : c ≠ 10) : newlineOut lastOut = NewlineSV := by
  obtain ⟨m, hm1, hm2⟩ := trimCloseSpans_spec lastOut.length lastOut le_rfl
  obtain ⟨b, hb⟩ := h
  have hne : ¬ closeSpan <:+ b ++ x ++ [c] := by
    intro hcs
    have e : closeSpan = bytesOf "</span" ++ [62] := by decide
    rw [e] at hcs
    exact hc1 (last_of_suffix_concat hcs).symm
  have he : b ++ x ++ [c] = trimCloseSpans lastOut.length lastOut := by
    apply closers_unique j m _ _ _ hne hm2
    rw [← hm1, ← hb]
    simp [List.append_assoc]
  unfold newlineOut
  rw [if_neg]
  intro hs
  have hs' := (HasSuffix_iff _ _).mp hs
  rw [← he] at hs'
  have e : NewlineSV.take (NewlineSV.length - closeSpan.length * 2) =
      (NewlineSV.take (NewlineSV.length - closeSpan.length * 2 - 1)) ++ [10] := by decide
  rw [e] at hs'
  exact hc2 (last_of_suffix_concat hs').symm

/-- C21: for every thematic break node, whatever its tokens, and for either value of
`entering`, `renderThematicBreak` appends to the buffer of the writer the padding of a
list item block, the two opening spans, the marker text `---`, the closing span, two
separators `NewlineSV` and the closing span, and returns `WalkStop`. The line made of
`---` and one further token is accepted by `parseThematicBreak` from position 0. -/
theorem renderThematicBreak_marker (env : Env) (r : VditorSVRenderer) (node : Site)
    (entering : Bool) (hw : r.Writer < r.buffers.length) (hpad : 0 ≤ r.ListPadding) :
    (∃ r', renderThematicBreak env r node entering = some (r', node, WalkStatus.WalkStop) ∧
      bufBytes r' r.Writer = bufBytes r r.Writer ++ listItemBlockPadding r node ++
        tagOut r.DisableTags (bytesOf "span")
          [attr "data-type" "thematic-break", attr "class" "vditor-sv__marker"] false ++
        tagOut r.DisableTags (bytesOf "span") [attr "class" "vditor-sv__marker"] false ++
        bytesOf "---" ++ tagOut r.DisableTags (bytesOf "/span") [] false ++
        NewlineSV ++ NewlineSV ++ tagOut r.DisableTags (bytesOf "/span") [] false) ∧
    (∀ e : Nat, parseThematicBreak (bytesOf "---" ++ [e]) 0 4 = some true) := by
  refine ⟨?_, fun e => rfl⟩
  obtain ⟨r1, hr1, _, _, _, _⟩ := renderListItemBlockPadding_spec r node hpad
  obtain ⟨e1, _, _⟩ := emits_padding hw hr1
  have e2 := emits_step_WriteString (bytesOf "---")
    (emits_step_tag (bytesOf "span") [attr "class" "vditor-sv__marker"] false
      (emits_step_tag (bytesOf "span")
        [attr "data-type" "thematic-break", attr "class" "vditor-sv__marker"] false e1))
  have e3 := emits_step_tagCloseSpan e2
  have hs0 := WriteString_LastOut_suffix
    (tag (tag r1 (bytesOf "span")
      [attr "data-type" "thematic-break", attr "class" "vditor-sv__marker"] false)
      (bytesOf "span") [attr "class" "vditor-sv__marker"] false) (bytesOf "---") []
    List.nil_suffix (by decide)
  obtain ⟨j, hj⟩ := tagCloseSpan_LastOut_suffix _ _ hs0 (by decide)
  have hsplit : bytesOf "--" ++ [45] = [] ++ bytesOf "---" := by decide
  rw [← hsplit] at hj
  have hnl := newlineOut_after_text _ (bytesOf "--") 45 j hj (by decide) (by decide)
  have e4 := emits_step_tagCloseSpan (emits_step_Write NewlineSV (emits_step_Newline e3))
  rw [hnl] at e4
  have hrun : renderThematicBreak env r node entering =
      some (tagCloseSpan (Write (Newline (tagCloseSpan (WriteString (tag (tag r1 (bytesOf "span")
        [attr "data-type" "thematic-break", attr "class" "vditor-sv__marker"] false)
        (bytesOf "span") [attr "class" "vditor-sv__marker"] false) (bytesOf "---")))) NewlineSV),
        node, WalkStatus.WalkStop) := by
    simp only [renderThematicBreak, hr1, Option.bind_eq_bind, Option.some_bind, Option.pure_def]
  refine ⟨_, hrun, ?_⟩
  rw [e4.bytes]
  simp only [List.append_assoc]

/-! ## Theorems: the close bracket of a link -/

/-- C29: `renderCloseBracket`, called on a node whose parent is not nil (and has a link
text child when it is a link of type 3), appends the closing-bracket span to the buffer
of the writer, and after it the span holding `[`, the `LinkRefLabel` and `]` exactly
when the parent has `LinkType` 3 and `EqualFold` finds its `LinkRefLabel` different from
the tokens of its first link text child; it returns `WalkStop`. -/
theorem renderCloseBracket_output (env : Env) (r : VditorSVRenderer) (node : Site)
    (entering : Bool) (parent : NodeData) (hw : r.Writer < r.buffers.length)
    (hp : node.Parent = some parent)
    (hlt : parent.LinkType = 3 → ∃ lt, ChildByType node.siblings .NodeLinkText = some lt) :
    ∃ r', renderCloseBracket env r node entering = some (r', node, WalkStatus.WalkStop) ∧
      ((parent.LinkType = 3 ∧ ∃ lt, ChildByType node.siblings .NodeLinkText = some lt ∧
            env.EqualFold parent.LinkRefLabel lt.Tokens = false) →
        bufBytes r' r.Writer = bufBytes r r.Writer ++
          (tagOut r.DisableTags (bytesOf "span") [attr "class" "vditor-sv__marker--bracket"] false ++
            [ItemCloseBracket] ++ tagOut r.DisableTags (bytesOf "/span") [] false) ++
          (tagOut r.DisableTags (bytesOf "span") [attr "class" "vditor-sv__marker--link"] false ++
            [ItemOpenBracket] ++ parent.LinkRefLabel ++ [ItemCloseBracket] ++
            tagOut r.DisableTags (bytesOf "/span") [] false)) ∧
      (¬ (parent.LinkType = 3 ∧ ∃ lt, ChildByType node.siblings .NodeLinkText = some lt ∧
            env.EqualFold parent.LinkRefLabel lt.Tokens = false) →
        bufBytes r' r.Writer = bufBytes r r.Writer ++
          (tagOut r.DisableTags (bytesOf "span") [attr "class" "vditor-sv__marker--bracket"] false ++
            [ItemCloseBracket] ++ tagOut r.DisableTags (bytesOf "/span") [] false)) := by
  have e1 := emits_step_tagCloseSpan (emits_step_WriteByte ItemCloseBracket
    (emits_step_tag (bytesOf "span") [attr "class" "vditor-sv__marker--bracket"] false
      (emits_refl r hw)))
  have e2 := emits_step_tagCloseSpan (emits_step_WriteByte ItemCloseBracket
    (emits_step_Write parent.LinkRefLabel (emits_step_WriteByte ItemOpenBracket
      (emits_step_tag (bytesOf "span") [attr "class" "vditor-sv__marker--link"] false e1))))
  have b1 := e1.bytes
  have b2 := e2.bytes
  simp only [List.nil_append, List.append_assoc] at b1 b2
  unfold renderCloseBracket
  simp only [hp]
  by_cases h3 : (3 : Int) = parent.LinkType
  · obtain ⟨lt, hl⟩ := hlt h3.symm
    simp only [if_pos h3, hl]
    cases hf : env.EqualFold parent.LinkRefLabel lt.Tokens with
    | false =>
      simp only [Bool.not_false, if_true]
      refine ⟨_, rfl, fun _ => ?_, fun hn => ?_⟩
      · rw [b2]; simp only [List.append_assoc]
      · exact absurd ⟨h3.symm, lt, rfl, hf⟩ hn
    | true =>
      simp only [Bool.not_true, Bool.false_eq_true, if_false]
      refine ⟨_, rfl, ?_, fun _ => ?_⟩
      · rintro ⟨_, lt', hl', hf'⟩
        have e := Option.some.inj hl'
        subst e
        rw [hf] at hf'
        cases hf'
      · rw [b1]; simp only [List.append_assoc]
  · simp only [if_neg h3]
    refine ⟨_, rfl, ?_, fun _ => ?_⟩
    · rintro ⟨h, _⟩
      exact absurd h.symm h3
    · rw [b1]; simp only [List.append_assoc]

/-! ## Theorems: the list padding -/

theorem samePadding_refl (r : VditorSVRenderer) : SamePadding r r := rfl

theorem samePadding_trans {a b c : VditorSVRenderer} (h1 : SamePadding a b)
    (h2 : SamePadding b c) : SamePadding a c := by
  unfold SamePadding at *
  rw [h2, h1]

theorem samePadding_Write (r : VditorSVRenderer) (c : Bytes) : SamePadding r (Write r c) := by
  unfold SamePadding Write
  split <;> rfl

theorem samePadding_WriteString (r : VditorSVRenderer) (c : Bytes) :
    SamePadding r (WriteString r c) := by
  unfold SamePadding WriteString
  split <;> rfl

theorem samePadding_WriteByte (r : VditorSVRenderer) (c : Nat) :
    SamePadding r (WriteByte r c) := rfl

theorem samePadding_Newline (r : VditorSVRenderer) : SamePadding r (Newline r) := by
  unfold SamePadding Newline
  simp only []
  split <;> rfl

theorem samePadding_step_Write {r s : VditorSVRenderer} (c : Bytes) (h : SamePadding r s) :
    SamePadding r (Write s c) := samePadding_trans h (samePadding_Write s c)

theorem samePadding_step_WriteString {r s : VditorSVRenderer} (c : Bytes)
    (h : SamePadding r s) : SamePadding r (WriteString s c) :=
  samePadding_trans h (samePadding_WriteString s c)

theorem samePadding_step_WriteByte {r s : VditorSVRenderer} (c : Nat) (h : SamePadding r s) :
    SamePadding r (WriteByte s c) := samePadding_trans h (samePadding_WriteByte s c)

theorem samePadding_step_Newline {r s : VditorSVRenderer} (h : SamePadding r s) :
    SamePadding r (Newline s) := samePadding_trans h (samePadding_Newline s)

theorem samePadding_foldl_attrs (attrs : List (Bytes × Bytes)) :
    ∀ s : VditorSVRenderer, SamePadding s (attrs.foldl
      (fun r attr =>
        WriteString r (bytesOf " " ++ attr.1 ++ bytesOf "=\"" ++ attr.2 ++ bytesOf "\"")) s) := by
  induction attrs with
  | nil => intro s; exact samePadding_refl s
  | cons a as ih =>
    intro s
    exact samePadding_trans (samePadding_WriteString s _) (ih _)

theorem samePadding_tag (s : VditorSVRenderer) (name : Bytes) (attrs : List (Bytes × Bytes))
    (selfclosing : Bool) : SamePadding s (tag s name attrs selfclosing) := by
  unfold tag
  split
  · exact samePadding_refl s
  · simp only []
    apply samePadding_step_WriteString
    have h1 : SamePadding s (WriteString (WriteString s (bytesOf "<")) name) :=
      samePadding_trans (samePadding_WriteString s _) (samePadding_WriteString _ _)
    have h2 : SamePadding s (if 0 < attrs.length then attrs.foldl
        (fun r attr =>
          WriteString r (bytesOf " " ++ attr.1 ++ bytesOf "=\"" ++ attr.2 ++ bytesOf "\""))
        (WriteString (WriteString s (bytesOf "<")) name)
        else WriteString (WriteString s (bytesOf "<")) name) := by
      split
      · exact samePadding_trans h1 (samePadding_foldl_attrs attrs _)
      · exact h1
    split
    · exact samePadding_step_WriteString _ h2
    · exact h2

theorem samePadding_step_tag {r s : VditorSVRenderer} (name : Bytes)
    (attrs : List (Bytes × Bytes)) (selfclosing : Bool) (h : SamePadding r s) :
    SamePadding r (tag s name attrs selfclosing) :=
  samePadding_trans h (samePadding_tag s name attrs selfclosing)

theorem samePadding_step_tagCloseSpan {r s : VditorSVRenderer} (h : SamePadding r s) :
    SamePadding r (tagCloseSpan s) := samePadding_trans h (samePadding_tag s _ _ _)

theorem samePadding_step_renderSpanNode {r s : VditorSVRenderer} (node : Site)
    (h : SamePadding r s) : SamePadding r (renderSpanNode s node) :=
  samePadding_trans h (samePadding_tag s _ _ _)

theorem samePadding_of_padding {r r1 : VditorSVRenderer} {node : Site}
    (h : renderListItemBlockPadding r node = some r1) : SamePadding r r1 := by
  unfold renderListItemBlockPadding at h
  simp only [] at h
  split at h
  · rw [← Option.some.inj h]; exact samePadding_refl r
  · split at h
    · rw [← Option.some.inj h]; exact samePadding_refl r
    · split at h
      · exact absurd h (by simp)
      · rw [← Option.some.inj h]; rfl

theorem samePadding_step_padding {r s r1 : VditorSVRenderer} {node : Site}
    (h : renderListItemBlockPadding s node = some r1) (hs : SamePadding r s) :
    SamePadding r r1 := samePadding_trans hs (samePadding_of_padding h)

theorem samePadding_renderHeading (env : Env) (r r' : VditorSVRenderer) (site site' : Site)
    (entering : Bool) (st : WalkStatus)
    (hrun : renderHeading env r site entering = some (r', site', st)) : SamePadding r r' := by
  simp only [renderHeading, Option.bind_eq_bind, Option.pure_def] at hrun
  rw [Option.bind_eq_some] at hrun
  obtain ⟨parent, -, hrun⟩ := hrun
  split at hrun
  · rw [Option.bind_eq_some] at hrun
    obtain ⟨r1, h1, hrun⟩ := hrun
    have a1 : SamePadding r r1 := samePadding_of_padding h1
    split at hrun
    · rw [Option.bind_eq_some] at hrun
      obtain ⟨y, -, hrun⟩ := hrun
      simp only [Option.some_bind] at hrun
      rw [Option.bind_eq_some] at hrun
      obtain ⟨x, -, hrun⟩ := hrun
      have hr := (Prod.mk.inj (Option.some.inj hrun)).1
      subst hr
      exact samePadding_step_tagCloseSpan (samePadding_step_WriteString _
        (samePadding_step_tag _ _ _ (samePadding_step_tag _ _ _ (samePadding_step_tag _ _ _ a1))))
    · simp only [Option.some_bind] at hrun
      rw [Option.bind_eq_some] at hrun
      obtain ⟨x, -, hrun⟩ := hrun
      have hr := (Prod.mk.inj (Option.some.inj hrun)).1
      subst hr
      exact samePadding_step_tagCloseSpan (samePadding_step_WriteString _
        (samePadding_step_tag _ _ _ a1))
  · have hr := (Prod.mk.inj (Option.some.inj hrun)).1
    subst hr
    repeat' first
      | with_reducible exact samePadding_refl _
      | with_reducible apply samePadding_step_Write
      | with_reducible apply samePadding_step_WriteString
      | with_reducible apply samePadding_step_tagCloseSpan
      | split

theorem samePadding_foldlM_headings (headings : List (Int × Bytes)) :
    ∀ (s s' : VditorSVRenderer),
      headings.foldlM
        (fun r heading =>
          (Repeat (bytesOf "&emsp;") ((heading.1 - 1) * 2)).bind fun x =>
            some (WriteString (WriteString (WriteString r x) (bytesOf "<span data-type=\"toc-h\">"))
              (heading.2 ++ bytesOf "</span><br>"))) s = some s' →
      SamePadding s s' := by
  induction headings with
  | nil =>
    intro s s' h
    simp only [List.foldlM, Option.pure_def] at h
    rw [← Option.some.inj h]
    exact samePadding_refl s
  | cons a as ih =>
    intro s s' h
    simp only [List.foldlM, Option.bind_eq_bind] at h
    rw [Option.bind_eq_some] at h
    obtain ⟨s1, h1, h⟩ := h
    rw [Option.bind_eq_some] at h1
    obtain ⟨x, -, h1⟩ := h1
    rw [← Option.some.inj h1] at h
    exact samePadding_trans (samePadding_step_WriteString _ (samePadding_step_WriteString _
      (samePadding_WriteString s x))) (ih _ _ h)

theorem samePadding_renderToC (env : Env) (r r' : VditorSVRenderer) (site site' : Site)
    (entering : Bool) (st : WalkStatus)
    (hrun : renderToC env r site entering = some (r', site', st)) : SamePadding r r' := by
  simp only [renderToC, Option.bind_eq_bind, Option.pure_def] at hrun
  split at hrun
  · rw [Option.bind_eq_some] at hrun
    obtain ⟨r1, h1, hrun⟩ := hrun
    have hr := (Prod.mk.inj (Option.some.inj hrun)).1
    subst hr
    have a1 : SamePadding r r1 :=
      samePadding_trans (samePadding_WriteString r _) (samePadding_foldlM_headings _ _ _ h1)
    repeat' first
      | exact a1
      | with_reducible apply samePadding_step_WriteString
      | with_reducible apply samePadding_step_Newline
      | split
  · simp only [Option.some_bind] at hrun
    have hr := (Prod.mk.inj (Option.some.inj hrun)).1
    subst hr
    repeat' first
      | with_reducible exact samePadding_refl _
      | with_reducible apply samePadding_step_WriteString
      | with_reducible apply samePadding_step_Newline
      | split

theorem samePadding_rewriteWriter (r : VditorSVRenderer) : SamePadding r (rewriteWriter r) := by
  unfold rewriteWriter
  exact samePadding_Write (bufReset r r.Writer) _

theorem samePadding_renderDocument (env : Env) (r r' : VditorSVRenderer) (site site' : Site)
    (entering : Bool) (st : WalkStatus)
    (hrun : renderDocument env r site entering = some (r', site', st)) : SamePadding r r' := by
  simp only [renderDocument, Option.bind_eq_bind, Option.pure_def] at hrun
  split at hrun
  · rw [← (Prod.mk.inj (Option.some.inj hrun)).1]; rfl
  · rw [Option.bind_eq_some] at hrun
    obtain ⟨r1, h1, hrun⟩ := hrun
    have e1 : SamePadding r r1 := by
      unfold stackPop at h1
      split at h1
      · cases h1
      · rw [← Option.some.inj h1]; rfl
    rw [← (Prod.mk.inj (Option.some.inj hrun)).1]
    exact samePadding_trans e1 (samePadding_Write (bufReset r1 r1.Writer) _)

theorem samePadding_renderBlockquote (env : Env) (r r' : VditorSVRenderer) (site site' : Site)
    (entering : Bool) (st : WalkStatus)
    (hrun : renderBlockquote env r site entering = some (r', site', st)) : SamePadding r r' := by
  simp only [renderBlockquote, Option.bind_eq_bind, Option.pure_def] at hrun
  split at hrun
  · rw [← (Prod.mk.inj (Option.some.inj hrun)).1]; rfl
  · rw [Option.bind_eq_some] at hrun
    obtain ⟨r1, h1, hrun⟩ := hrun
    rw [Option.bind_eq_some] at hrun
    obtain ⟨w, -, hrun⟩ := hrun
    rw [Option.bind_eq_some] at hrun
    obtain ⟨r2, h2, hrun⟩ := hrun
    rw [Option.bind_eq_some] at hrun
    obtain ⟨p, -, hrun⟩ := hrun
    have e1 : SamePadding r r1 := samePadding_of_padding h1
    have e2 : SamePadding r1 r2 := by
      unfold stackPop at h2
      split at h2
      · cases h2
      · rw [← Option.some.inj h2]; rfl
    rw [← (Prod.mk.inj (Option.some.inj hrun)).1]
    refine samePadding_trans (samePadding_trans e1 e2) ?_
    apply samePadding_step_WriteString
    apply samePadding_step_Write
    apply samePadding_step_Newline
    refine samePadding_trans ?_ (samePadding_rewriteWriter _)
    rfl

theorem samePadding_renderListItem (env : Env) (r r' : VditorSVRenderer) (site site' : Site)
    (entering : Bool) (st : WalkStatus)
    (hrun : renderListItem env r site entering = some (r', site', st)) : SamePadding r r' := by
  simp only [renderListItem, Option.bind_eq_bind, Option.pure_def] at hrun
  split at hrun
  · rw [← (Prod.mk.inj (Option.some.inj hrun)).1]; rfl
  · rw [Option.bind_eq_some] at hrun
    obtain ⟨w, -, hrun⟩ := hrun
    rw [Option.bind_eq_some] at hrun
    obtain ⟨r2, h2, hrun⟩ := hrun
    rw [Option.bind_eq_some] at hrun
    obtain ⟨d, -, hrun⟩ := hrun
    rw [Option.bind_eq_some] at hrun
    obtain ⟨li, -, hrun⟩ := hrun
    rw [Option.bind_eq_some] at hrun
    obtain ⟨p, -, hrun⟩ := hrun
    have e2 : SamePadding r r2 := by
      unfold stackPop at h2
      split at h2
      · cases h2
      · rw [← Option.some.inj h2]; rfl
    rw [← (Prod.mk.inj (Option.some.inj hrun)).1]
    refine samePadding_trans e2 ?_
    apply samePadding_step_tagCloseSpan
    apply samePadding_step_Newline
    refine samePadding_trans ?_ (samePadding_rewriteWriter _)
    rfl

set_option maxHeartbeats 4000000 in
/-- Every handler of the table other than `renderList` leaves `ListPadding` as it is. -/
theorem handlers_keep_ListPadding (t : NodeType)
    (h : Env → VditorSVRenderer → Site → Bool → Option Result)
    (hh : RendererFuncs t = some h) (h1 : t ≠ .NodeList)
    (env : Env) (r r' : VditorSVRenderer) (site site' : Site) (entering : Bool)
    (st : WalkStatus) (hrun : h env r site entering = some (r', site', st)) :
    SamePadding r r' := by
  cases t <;> first | exact absurd rfl h1 | cases hh
  all_goals
    first
      | with_reducible exact samePadding_renderHeading env r r' site site' entering st hrun
      | with_reducible exact samePadding_renderToC env r r' site site' entering st hrun
      | with_reducible exact samePadding_renderDocument env r r' site site' entering st hrun
      | with_reducible exact samePadding_renderBlockquote env r r' site site' entering st hrun
      | with_reducible exact samePadding_renderListItem env r r' site site' entering st hrun
      | skip
  all_goals
    simp only [renderParagraph, renderCodeSpan, renderCodeSpanOpenMarker,
        renderCodeSpanContent, renderCodeSpanCloseMarker, renderCodeBlock,
        renderCodeBlockOpenMarker, renderCodeBlockInfoMarker, renderCodeBlockCode,
        renderCodeBlockCloseMarker, renderMathBlock, renderMathBlockOpenMarker,
        renderMathBlockContent, renderMathBlockCloseMarker, renderInlineMath,
        renderInlineMathOpenMarker, renderInlineMathContent, renderInlineMathCloseMarker,
        renderEmphasis, renderEmAsteriskOpenMarker, renderEmAsteriskCloseMarker,
        renderEmUnderscoreOpenMarker, renderEmUnderscoreCloseMarker, renderStrong,
        renderStrongA6kOpenMarker, renderStrongA6kCloseMarker, renderStrongU8eOpenMarker,
        renderStrongU8eCloseMarker, renderBlockquoteMarker,
        renderHeadingC8hMarker, renderHeadingID, renderText, renderLink,
        renderTaskListItemMarker, taskMarker,
        renderThematicBreak, renderHardBreak, renderSoftBreak, renderHTML, renderInlineHTML,
        renderImage, renderBang, renderOpenBracket, renderCloseBracket, renderOpenParen,
        renderCloseParen, renderLinkText, renderLinkSpace, renderLinkDest, renderLinkTitle,
        renderStrikethrough, renderStrikethrough1OpenMarker, renderStrikethrough1CloseMarker,
        renderStrikethrough2OpenMarker, renderStrikethrough2CloseMarker, renderTable,
        renderTableHead, renderTableRow, renderTableCell, renderEmoji, renderEmojiUnicode,
        renderEmojiImg, renderEmojiAlias, renderFootnotesDef, renderFootnotesRef,
        renderBackslash, renderBackslashContent, renderHtmlEntity, renderMarker, renderSpan,
        renderContinue, Option.bind_eq_bind, Option.pure_def] at hrun
  all_goals
    repeat' first
      | (have hr := (Prod.mk.inj (Option.some.inj hrun)).1; clear hrun; subst hr)
      | (rw [Option.bind_eq_some] at hrun; obtain ⟨_, _, hrun⟩ := hrun)
      | split at hrun
      | cases hrun
  all_goals
    repeat' first
      | with_reducible exact samePadding_refl _
      | with_reducible apply samePadding_step_Write
      | with_reducible apply samePadding_step_WriteString
      | with_reducible apply samePadding_step_WriteByte
      | with_reducible apply samePadding_step_Newline
      | with_reducible apply samePadding_step_tagCloseSpan
      | with_reducible apply samePadding_step_renderSpanNode
      | with_reducible apply samePadding_step_tag
      | with_reducible exact samePadding_of_padding (by with_reducible assumption)
      | with_reducible refine samePadding_step_padding (by with_reducible assumption) ?_
      | split

theorem renderList_ListPadding (env : Env) (r r' : VditorSVRenderer) (site site' : Site)
    (entering : Bool) (st : WalkStatus) (d : ListData)
    (hd : site.node.data.ListData = some d)
    (hrun : renderList env r site entering = some (r', site', st)) :
    r'.ListPadding = if entering then r.ListPadding + d.Padding else r.ListPadding - d.Padding := by
  simp only [renderList, hd, Option.bind_eq_bind, Option.some_bind, Option.pure_def] at hrun
  split at hrun
  · rename_i he
    rw [← (Prod.mk.inj (Option.some.inj hrun)).1, he, if_pos rfl]
    exact samePadding_tag _ _ _ _
  · rename_i he
    have he' : entering = false := by simpa using he
    rw [← (Prod.mk.inj (Option.some.inj hrun)).1, he']
    simp only [Bool.false_eq_true, if_false]
    have := samePadding_step_tagCloseSpan (samePadding_Write r NewlineSV)
    unfold SamePadding at this
    rw [this]

/-- While lists are entered, `ListPadding` is its value at the start plus the `Padding` of
the lists entered and not yet left. -/
theorem listsEntered_ListPadding {env : Env} {r0 r : VditorSVRenderer} {ds : List ListData}
    (h : ListsEntered env r0 ds r) :
    r.ListPadding = r0.ListPadding + (ds.map (fun d => d.Padding)).sum := by
  induction h with
  | start => simp
  | call t h ds r r' site site' entering st _ hh ht hrun ih =>
    have := handlers_keep_ListPadding t h hh ht env r r' site site' entering st hrun
    unfold SamePadding at this
    rw [this, ih]
  | enter d ds r r' site site' st _ hd hrun ih =>
    have := renderList_ListPadding env r r' site site' true st d hd hrun
    rw [this, if_pos rfl, ih]
    simp only [List.map_cons, List.sum_cons]
    omega
  | leave d ds r r' site site' st _ hd hrun ih =>
    have := renderList_ListPadding env r r' site site' false st d hd hrun
    rw [this, ih]
    simp only [Bool.false_eq_true, if_false, List.map_cons, List.sum_cons]
    omega

/-- C27: over a sequence of handler calls in which each list that is left is left with the
list data it was entered with, `ListPadding` is its value at the start plus the `Padding`
of the lists entered and not yet left. So it is back at the value before the enter once
a list and the lists nested in it are left, and from a fresh renderer, whose
`ListPadding` is 0, it is the sum of the `Padding` of the lists currently entered. -/
theorem ListPadding_of_lists (env : Env) (r0 r : VditorSVRenderer) (ds : List ListData)
    (h : ListsEntered env r0 ds r) :
    r.ListPadding = r0.ListPadding + (ds.map (fun d => d.Padding)).sum ∧
    (ds = [] → r.ListPadding = r0.ListPadding) ∧
    (r0.ListPadding = 0 → r.ListPadding = (ds.map (fun d => d.Padding)).sum) := by
  have e := listsEntered_ListPadding h
  refine ⟨e, fun hnil => ?_, fun h0 => ?_⟩
  · rw [e, hnil]; simp
  · rw [e, h0]; simp

theorem listEnteredState_run :
    renderList plainEnv initialRenderer listSite true =
      some (listEnteredState, listSite, WalkStatus.WalkContinue) := rfl

/-- Witness for C27: one list entered from a fresh renderer. -/
theorem ListPadding_of_lists_witness :
    listEnteredState.ListPadding =
      initialRenderer.ListPadding + ([bulletData].map (fun d => d.Padding)).sum ∧
    ([bulletData] = [] → listEnteredState.ListPadding = initialRenderer.ListPadding) ∧
    (initialRenderer.ListPadding = 0 →
      listEnteredState.ListPadding = ([bulletData].map (fun d => d.Padding)).sum) :=
  ListPadding_of_lists plainEnv initialRenderer listEnteredState [bulletData]
    (ListsEntered.enter bulletData [] initialRenderer listEnteredState listSite listSite
      WalkStatus.WalkContinue ListsEntered.start rfl listEnteredState_run)

/-- C24: let a list item be left while its own list, with list data `d`, is the innermost
list entered, in a rendering that started with a non-negative `ListPadding` (0 on a
fresh renderer) and in which the enclosing lists have non-negative `Padding`. If the
`Padding` of the item is at most that of its list, the margin `ListPadding - Padding` is
not negative, the repetition of the space succeeds and the opening bytes of the item
are computed. -/
theorem listItem_margin (env : Env) (r0 r : VditorSVRenderer) (d item : ListData)
    (ds : List ListData) (h : ListsEntered env r0 (d :: ds) r) (h0 : 0 ≤ r0.ListPadding)
    (hds : ∀ d' ∈ ds, 0 ≤ d'.Padding) (hle : item.Padding ≤ d.Padding) :
    0 ≤ r.ListPadding - item.Padding ∧
    Repeat (bytesOf " ") (r.ListPadding - item.Padding) =
      some (List.replicate (r.ListPadding - item.Padding).toNat 32) ∧
    (listItemOpen r.ListPadding item).isSome = true := by
  have e := listsEntered_ListPadding h
  have hsum : 0 ≤ (ds.map (fun d => d.Padding)).sum := by
    apply List.sum_nonneg
    intro x hx
    obtain ⟨d', hd', rfl⟩ := List.mem_map.mp hx
    exact hds d' hd'
  have hm : 0 ≤ r.ListPadding - item.Padding := by
    rw [e]
    simp only [List.map_cons, List.sum_cons]
    omega
  refine ⟨hm, Repeat_space _ hm, ?_⟩
  simp [listItemOpen, Repeat_space _ hm]

/-- Witness for C24: an item of the bullet list, left while its list is entered. -/
theorem listItem_margin_witness :
    0 ≤ listEnteredState.ListPadding - bulletData.Padding ∧
    Repeat (bytesOf " ") (listEnteredState.ListPadding - bulletData.Padding) =
      some (List.replicate (listEnteredState.ListPadding - bulletData.Padding).toNat 32) ∧
    (listItemOpen listEnteredState.ListPadding bulletData).isSome = true :=
  listItem_margin plainEnv initialRenderer listEnteredState bulletData bulletData []
    (ListsEntered.enter bulletData [] initialRenderer listEnteredState listSite listSite
      WalkStatus.WalkContinue ListsEntered.start rfl listEnteredState_run)
    (by decide) (by intro d' hd'; cases hd') (by decide)

/-- Witness for C21: a thematic break at the top level, on a fresh renderer. -/
theorem renderThematicBreak_marker_witness :
    (∃ r', renderThematicBreak plainEnv initialRenderer (topLevel (leaf .NodeThematicBreak []))
          true = some (r', topLevel (leaf .NodeThematicBreak []), WalkStatus.WalkStop) ∧
      bufBytes r' initialRenderer.Writer = bufBytes initialRenderer initialRenderer.Writer ++
        listItemBlockPadding initialRenderer (topLevel (leaf .NodeThematicBreak [])) ++
        tagOut initialRenderer.DisableTags (bytesOf "span")
          [attr "data-type" "thematic-break", attr "class" "vditor-sv__marker"] false ++
        tagOut initialRenderer.DisableTags (bytesOf "span")
          [attr "class" "vditor-sv__marker"] false ++
        bytesOf "---" ++ tagOut initialRenderer.DisableTags (bytesOf "/span") [] false ++
        NewlineSV ++ NewlineSV ++ tagOut initialRenderer.DisableTags (bytesOf "/span") [] false) ∧
    (∀ e : Nat, parseThematicBreak (bytesOf "---" ++ [e]) 0 4 = some true) :=
  renderThematicBreak_marker plainEnv initialRenderer (topLevel (leaf .NodeThematicBreak []))
    true (by decide) (by decide)

/-- Witness for C29: the closing bracket of a reference link whose label is its text. -/
theorem renderCloseBracket_output_witness :
    ∃ r', renderCloseBracket plainEnv initialRenderer closeBracketSite true =
        some (r', closeBracketSite, WalkStatus.WalkStop) ∧
      ((refLink.data.LinkType = 3 ∧
          ∃ lt, ChildByType closeBracketSite.siblings .NodeLinkText = some lt ∧
            plainEnv.EqualFold refLink.data.LinkRefLabel lt.Tokens = false) →
        bufBytes r' initialRenderer.Writer = bufBytes initialRenderer initialRenderer.Writer ++
          (tagOut initialRenderer.DisableTags (bytesOf "span")
              [attr "class" "vditor-sv__marker--bracket"] false ++
            [ItemCloseBracket] ++ tagOut initialRenderer.DisableTags (bytesOf "/span") [] false) ++
          (tagOut initialRenderer.DisableTags (bytesOf "span")
              [attr "class" "vditor-sv__marker--link"] false ++
            [ItemOpenBracket] ++ refLink.data.LinkRefLabel ++ [ItemCloseBracket] ++
            tagOut initialRenderer.DisableTags (bytesOf "/span") [] false)) ∧
      (¬ (refLink.data.LinkType = 3 ∧
          ∃ lt, ChildByType closeBracketSite.siblings .NodeLinkText = some lt ∧
            plainEnv.EqualFold refLink.data.LinkRefLabel lt.Tokens = false) →
        bufBytes r' initialRenderer.Writer = bufBytes initialRenderer initialRenderer.Writer ++
          (tagOut initialRenderer.DisableTags (bytesOf "span")
              [attr "class" "vditor-sv__marker--bracket"] false ++
            [ItemCloseBracket] ++ tagOut initialRenderer.DisableTags (bytesOf "/span") [] false)) :=
  renderCloseBracket_output plainEnv initialRenderer closeBracketSite true refLink.data
    (by decide) rfl (fun _ => ⟨leaf .NodeLinkText (bytesOf "foo"), rfl⟩)

/-! ## Theorems: reading the tags of the output -/

theorem scanTags_nil (s : List Bytes × Option Bytes) : scanTags [] s = some s := rfl

theorem scanTags_cons (c : Nat) (out : Bytes) (s : List Bytes × Option Bytes) :
    scanTags (c :: out) s = (scanByte s c).bind (scanTags out) := by
  unfold scanTags
  rw [List.foldlM_cons]
  rfl

theorem scanTags_append (a b : Bytes) (s : List Bytes × Option Bytes) :
    scanTags (a ++ b) s = (scanTags a s).bind (scanTags b) := by
  unfold scanTags
  rw [List.foldlM_append]
  rfl

theorem scanTags_append_of {a b : Bytes} {s s1 : List Bytes × Option Bytes}
    (h : scanTags a s = some s1) : scanTags (a ++ b) s = scanTags b s1 := by
  rw [scanTags_append, h]; rfl

theorem plain_nil : plain [] = true := rfl

theorem plain_append (a b : Bytes) : plain (a ++ b) = (plain a && plain b) := by
  simp [plain, List.all_append]

theorem plain_cons (c : Nat) (b : Bytes) :
    plain (c :: b) = ((c != 60 && c != 62) && plain b) := by
  simp [plain]

theorem plain_replicate (n c : Nat) (h1 : c ≠ 60) (h2 : c ≠ 62) :
    plain (List.replicate n c) = true := by
  induction n with
  | zero => rfl
  | succ n ih => rw [List.replicate_succ, plain_cons, ih]; simp [h1, h2]

theorem scanTags_text (b : Bytes) (opened : List Bytes) (h : plain b = true) :
    scanTags b (opened, none) = some (opened, none) := by
  induction b with
  | nil => rfl
  | cons c cs ih =>
    rw [plain_cons] at h
    simp only [Bool.and_eq_true, bne_iff_ne, ne_eq] at h
    rw [scanTags_cons]
    have : scanByte (opened, none) c = some (opened, none) := by
      simp [scanByte, h.1.1]
    rw [this]
    exact ih h.2

theorem scanTags_inTag (b : Bytes) (opened : List Bytes) :
    ∀ body : Bytes, plain b = true →
      scanTags b (opened, some body) = some (opened, some (body ++ b)) := by
  induction b with
  | nil => intro body _; simp [scanTags_nil]
  | cons c cs ih =>
    intro body h
    rw [plain_cons] at h
    simp only [Bool.and_eq_true, bne_iff_ne, ne_eq] at h
    rw [scanTags_cons]
    have : scanByte (opened, some body) c = some (opened, some (body ++ [c])) := by
      simp [scanByte, h.1.1, h.1.2]
    rw [this]
    show scanTags cs (opened, some (body ++ [c])) = _
    rw [ih _ h.2]
    simp

theorem scanTag_base (base opened opened' : List Bytes) (body : Bytes)
    (h : scanTag opened body = some opened') :
    scanTag (opened ++ base) body = some (opened' ++ base) := by
  unfold scanTag at h ⊢
  split
  · rename_i hc
    rw [if_pos hc] at h
    cases opened with
    | nil => simp at h
    | cons top rest =>
      simp only [List.cons_append]
      simp only [] at h
      split
      · rename_i ht
        rw [if_pos ht] at h
        rw [← Option.some.inj h]
      · rename_i ht
        rw [if_neg ht] at h
        cases h
  · rename_i hc
    rw [if_neg hc] at h
    split
    · rename_i hv
      rw [if_pos hv] at h
      rw [← Option.some.inj h]
    · rename_i hv
      rw [if_neg hv] at h
      rw [← Option.some.inj h]
      rfl

theorem scanByte_base (base : List Bytes) (s s' : List Bytes × Option Bytes) (c : Nat)
    (h : scanByte s c = some s') : scanByte (s.1 ++ base, s.2) c = some (s'.1 ++ base, s'.2) := by
  obtain ⟨opened, cur⟩ := s
  cases cur with
  | none =>
    simp only [scanByte] at h ⊢
    split
    · rename_i hc
      rw [if_pos hc] at h
      rw [← Option.some.inj h]
    · rename_i hc
      rw [if_neg hc] at h
      rw [← Option.some.inj h]
  | some body =>
    simp only [scanByte] at h ⊢
    split
    · rename_i hc
      rw [if_pos hc] at h
      cases h
    · rename_i hc
      rw [if_neg hc] at h
      split
      · rename_i hc2
        rw [if_pos hc2] at h
        cases ht : scanTag opened body with
        | none => rw [ht] at h; cases h
        | some o' =>
          rw [ht] at h
          rw [scanTag_base base opened o' body ht]
          rw [← Option.some.inj h]
          rfl
      · rename_i hc2
        rw [if_neg hc2] at h
        rw [← Option.some.inj h]

theorem scanTags_base (base : List Bytes) (out : Bytes) :
    ∀ (s s' : List Bytes × Option Bytes), scanTags out s = some s' →
      scanTags out (s.1 ++ base, s.2) = some (s'.1 ++ base, s'.2) := by
  induction out with
  | nil =>
    intro s s' h
    rw [scanTags_nil] at h ⊢
    rw [← Option.some.inj h]
  | cons c cs ih =>
    intro s s' h
    rw [scanTags_cons] at h ⊢
    cases hb : scanByte s c with
    | none => rw [hb] at h; cases h
    | some s1 =>
      rw [hb] at h
      rw [scanByte_base base s s1 c hb]
      exact ih s1 s' h

/-- Balanced output leaves any open tags as they are. -/
theorem balanced_scan {out : Bytes} (h : Balanced out) (opened : List Bytes) :
    scanTags out (opened, none) = some (opened, none) := by
  have := scanTags_base opened out _ _ h
  simpa using this

theorem opensSpan_scan {out : Bytes} (h : OpensSpan out) (opened : List Bytes) :
    scanTags out (opened, none) = some (bytesOf "span" :: opened, none) := by
  have := scanTags_base opened out _ _ h
  simpa using this

theorem closesSpan_scan {out : Bytes} (h : ClosesSpan out) (opened : List Bytes) :
    scanTags out (bytesOf "span" :: opened, none) = some (opened, none) := by
  have := scanTags_base opened out _ _ h
  simpa using this

theorem balanced_nil : Balanced [] := rfl

theorem balanced_append {a b : Bytes} (ha : Balanced a) (hb : Balanced b) : Balanced (a ++ b) := by
  unfold Balanced
  rw [scanTags_append_of ha]
  exact hb

theorem balanced_of_plain {b : Bytes} (h : plain b = true) : Balanced b :=
  scanTags_text b [] h

theorem balanced_NewlineSV : Balanced NewlineSV := by unfold Balanced; decide

theorem balanced_newlineOut (lastOut : Bytes) : Balanced (newlineOut lastOut) := by
  unfold newlineOut
  split
  · exact balanced_nil
  · exact balanced_NewlineSV

theorem balanced_listItemBlockPadding (r : VditorSVRenderer) (node : Site) :
    Balanced (listItemBlockPadding r node) := by
  unfold listItemBlockPadding
  split
  · unfold Balanced
    have h1 : scanTags (bytesOf "<span data-type=\"padding\">") ([], none) =
        some ([bytesOf "span"], none) := by decide
    have h2 : scanTags (bytesOf "</span>") ([bytesOf "span"], none) = some ([], none) := by
      decide
    rw [List.append_assoc, scanTags_append_of h1,
      scanTags_append_of (scanTags_text _ _ (plain_replicate _ 32 (by decide) (by decide)))]
    exact h2
  · exact balanced_nil

theorem plain_attrsText (attrs : List (Bytes × Bytes)) (h : plainAttrs attrs = true) :
    plain (attrs.map
      (fun a => bytesOf " " ++ a.1 ++ bytesOf "=\"" ++ a.2 ++ bytesOf "\"")).flatten = true := by
  induction attrs with
  | nil => rfl
  | cons a as ih =>
    simp only [plainAttrs, List.all_cons, Bool.and_eq_true] at h
    simp only [List.map_cons, List.flatten_cons, plain_append, Bool.and_eq_true]
    exact ⟨⟨⟨⟨⟨by decide, h.1.1⟩, by decide⟩, h.1.2⟩, by decide⟩, ih h.2⟩

theorem attrsText_shape (attrs : List (Bytes × Bytes)) :
    (attrs.map
        (fun a => bytesOf " " ++ a.1 ++ bytesOf "=\"" ++ a.2 ++ bytesOf "\"")).flatten = [] ∨
      ∃ rest, (attrs.map
        (fun a => bytesOf " " ++ a.1 ++ bytesOf "=\"" ++ a.2 ++ bytesOf "\"")).flatten =
          32 :: (rest ++ [34]) := by
  induction attrs with
  | nil => left; rfl
  | cons a as ih =>
    right
    simp only [List.map_cons, List.flatten_cons]
    rcases ih with h | ⟨rest, h⟩
    · rw [h]
      exact ⟨a.1 ++ bytesOf "=\"" ++ a.2, by
        show bytesOf " " ++ a.1 ++ bytesOf "=\"" ++ a.2 ++ [34] ++ [] = _
        simp [bytesOf, List.append_assoc]⟩
    · rw [h]
      exact ⟨a.1 ++ bytesOf "=\"" ++ a.2 ++ [34] ++ 32 :: rest, by
        show bytesOf " " ++ a.1 ++ bytesOf "=\"" ++ a.2 ++ [34] ++ 32 :: (rest ++ [34]) = _
        simp [bytesOf, List.append_assoc]⟩

theorem scanTag_span (opened : List Bytes) (F : Bytes)
    (hF : F = [] ∨ ∃ rest, F = 32 :: (rest ++ [34])) :
    scanTag opened (bytesOf "span" ++ F) = some (bytesOf "span" :: opened) := by
  have e : bytesOf "span" = [115, 112, 97, 110] := by decide
  rcases hF with hF | ⟨rest, hF⟩
  · subst hF
    rw [List.append_nil]
    rfl
  · subst hF
    have hl : (bytesOf "span" ++ 32 :: (rest ++ [34])).getLast? = some 34 := by
      rw [show bytesOf "span" ++ 32 :: (rest ++ [34]) = (bytesOf "span" ++ 32 :: rest) ++ [34] by
        simp [List.append_assoc]]
      exact List.getLast?_concat _
    have ht : (bytesOf "span" ++ 32 :: (rest ++ [34])).takeWhile (fun c => c != 32) =
        bytesOf "span" := by
      rw [e]
      simp [List.takeWhile]
    unfold scanTag
    rw [hl, ht]
    rw [if_neg (by rw [e]; simp), if_neg (by decide)]

/-- An opening `span` tag with attributes free of `<` and `>` opens a span. -/
theorem scanTags_span_open (opened : List Bytes) (attrs : List (Bytes × Bytes))
    (h : plainAttrs attrs = true) :
    scanTags (tagText (bytesOf "span") attrs false) (opened, none) =
      some (bytesOf "span" :: opened, none) := by
  unfold tagText
  have hp := plain_attrsText attrs h
  have hF := attrsText_shape attrs
  generalize (attrs.map
    (fun a => bytesOf " " ++ a.1 ++ bytesOf "=\"" ++ a.2 ++ bytesOf "\"")).flatten = F
    at hp hF ⊢
  simp only [Bool.false_eq_true, if_false, List.append_nil]
  have hb : plain (bytesOf "span" ++ F) = true := by
    rw [plain_append, hp]; decide
  show scanTags (60 :: (bytesOf "span" ++ F ++ [62])) (opened, none) = _
  rw [scanTags_cons]
  show scanTags (bytesOf "span" ++ F ++ [62]) (opened, some []) = _
  rw [scanTags_append_of (scanTags_inTag _ opened [] hb), List.nil_append, scanTags_cons]
  show ((scanTag opened (bytesOf "span" ++ F)).map (fun o => (o, none))).bind (scanTags []) = _
  rw [scanTag_span opened F hF]
  rfl

/-- The closing tag `</span>` closes the innermost span. -/
theorem scanTags_span_close (opened : List Bytes) :
    scanTags (tagText (bytesOf "/span") [] false) (bytesOf "span" :: opened, none) =
      some (opened, none) := by
  have := scanTags_base opened (tagText (bytesOf "/span") [] false)
    ([bytesOf "span"], none) ([], none) (by decide)
  simpa using this

/-! ## Theorems: the tags a handler writes -/

theorem emits_trans {r s t : VditorSVRenderer} {a b : Bytes} (h1 : Emits r s a)
    (h2 : Emits s t b) : Emits r t (a ++ b) := by
  refine ⟨h1.alloc, appends_trans h1.appends h2.appends, ?_⟩
  have := h2.bytes
  rw [h1.appends.writer] at this
  rw [this, h1.bytes, List.append_assoc]

theorem scans_refl (r : VditorSVRenderer) (o : List Bytes) (hw : r.Writer < r.buffers.length) :
    Scans r r o o :=
  ⟨[], emits_refl r hw, rfl⟩

theorem scans_trans {r s t : VditorSVRenderer} {o o1 o2 : List Bytes} (h1 : Scans r s o o1)
    (h2 : Scans s t o1 o2) : Scans r t o o2 := by
  obtain ⟨a, ea, sa⟩ := h1
  obtain ⟨b, eb, sb⟩ := h2
  exact ⟨a ++ b, emits_trans ea eb, by rw [scanTags_append_of sa]; exact sb⟩

theorem scans_of_emits {r s : VditorSVRenderer} {a : Bytes} {o o' : List Bytes}
    (h : Emits r s a) (hs : scanTags a (o, none) = some (o', none)) : Scans r s o o' :=
  ⟨a, h, hs⟩

theorem tagOut_zero (name : Bytes) (attrs : List (Bytes × Bytes)) (selfclosing : Bool) :
    tagOut 0 name attrs selfclosing = tagText name attrs selfclosing := by
  unfold tagOut
  rw [if_neg (by decide)]

theorem scans_step_Write {r s : VditorSVRenderer} {o o' : List Bytes} (c : Bytes)
    (hc : Balanced c) (h : Scans r s o o') : Scans r (Write s c) o o' := by
  obtain ⟨a, ea, sa⟩ := h
  exact ⟨a ++ c, emits_step_Write c ea, by rw [scanTags_append_of sa]; exact balanced_scan hc o'⟩

theorem scans_step_WriteString {r s : VditorSVRenderer} {o o' : List Bytes} (c : Bytes)
    (hc : Balanced c) (h : Scans r s o o') : Scans r (WriteString s c) o o' := by
  obtain ⟨a, ea, sa⟩ := h
  exact ⟨a ++ c, emits_step_WriteString c ea, by rw [scanTags_append_of sa]; exact balanced_scan hc o'⟩

theorem scans_step_WriteString_open {r s : VditorSVRenderer} {o o' : List Bytes} (c : Bytes)
    (hc : OpensSpan c) (h : Scans r s o o') :
    Scans r (WriteString s c) o (bytesOf "span" :: o') := by
  obtain ⟨a, ea, sa⟩ := h
  exact ⟨a ++ c, emits_step_WriteString c ea, by rw [scanTags_append_of sa]; exact opensSpan_scan hc o'⟩

theorem scans_step_WriteString_close {r s : VditorSVRenderer} {o o' : List Bytes} (c : Bytes)
    (hc : ClosesSpan c) (h : Scans r s o (bytesOf "span" :: o')) :
    Scans r (WriteString s c) o o' := by
  obtain ⟨a, ea, sa⟩ := h
  exact ⟨a ++ c, emits_step_WriteString c ea, by rw [scanTags_append_of sa]; exact closesSpan_scan hc o'⟩

theorem scans_step_WriteByte {r s : VditorSVRenderer} {o o' : List Bytes} (c : Nat)
    (hc : plain [c] = true) (h : Scans r s o o') : Scans r (WriteByte s c) o o' := by
  obtain ⟨a, ea, sa⟩ := h
  exact ⟨a ++ [c], emits_step_WriteByte c ea, by
    rw [scanTags_append_of sa]; exact scanTags_text _ _ hc⟩

theorem scans_step_Newline {r s : VditorSVRenderer} {o o' : List Bytes} (h : Scans r s o o') :
    Scans r (Newline s) o o' := by
  obtain ⟨a, ea, sa⟩ := h
  exact ⟨_, emits_step_Newline ea, by
    rw [scanTags_append_of sa]; exact balanced_scan (balanced_newlineOut _) o'⟩

theorem scans_step_tag {r s : VditorSVRenderer} {o o' : List Bytes}
    (attrs : List (Bytes × Bytes)) (ha : plainAttrs attrs = true) (hd : r.DisableTags = 0)
    (h : Scans r s o o') :
    Scans r (tag s (bytesOf "span") attrs false) o (bytesOf "span" :: o') := by
  obtain ⟨a, ea, sa⟩ := h
  refine ⟨_, emits_step_tag (bytesOf "span") attrs false ea, ?_⟩
  rw [scanTags_append_of sa, hd, tagOut_zero]
  exact scanTags_span_open o' attrs ha

theorem scans_step_tagCloseSpan {r s : VditorSVRenderer} {o o' : List Bytes}
    (hd : r.DisableTags = 0) (h : Scans r s o (bytesOf "span" :: o')) :
    Scans r (tagCloseSpan s) o o' := by
  obtain ⟨a, ea, sa⟩ := h
  refine ⟨_, emits_step_tagCloseSpan ea, ?_⟩
  rw [scanTags_append_of sa, hd, tagOut_zero]
  exact scanTags_span_close o'

theorem scans_step_renderSpanNode {r s : VditorSVRenderer} {o o' : List Bytes} (node : Site)
    (hd : r.DisableTags = 0) (h : Scans r s o o') :
    Scans r (renderSpanNode s node) o (bytesOf "span" :: o') := by
  unfold renderSpanNode
  apply scans_step_tag _ _ hd h
  split <;> first | decide | (split <;> decide)

theorem scans_step_padding {r s s1 : VditorSVRenderer} {o o' : List Bytes} {node : Site}
    (hp : renderListItemBlockPadding s node = some s1) (h : Scans r s o o') :
    Scans r s1 o o' := by
  obtain ⟨a, ea, sa⟩ := h
  obtain ⟨e1, -, -⟩ := emits_padding (emits_alloc_right ea) hp
  exact ⟨_, emits_trans ea e1, by
    rw [scanTags_append_of sa]; exact balanced_scan (balanced_listItemBlockPadding _ _) o'⟩

theorem plain_flatten_replicate (n : Nat) (s : Bytes) (h : plain s = true) :
    plain (List.replicate n s).flatten = true := by
  induction n with
  | zero => rfl
  | succ n ih => rw [List.replicate_succ, List.flatten_cons, plain_append, h, ih]; rfl

theorem plain_Repeat {s x : Bytes} {n : Int} (h : plain s = true) (hx : Repeat s n = some x) :
    plain x = true := by
  unfold Repeat at hx
  split at hx
  · cases hx
  · rw [← Option.some.inj hx]
    exact plain_flatten_replicate _ s h

theorem plain_sliceBytes {s x : Bytes} {lo hi : Int} (h : plain s = true)
    (hx : sliceBytes s lo hi = some x) : plain x = true := by
  unfold sliceBytes at hx
  split at hx
  · cases hx
  · rw [← Option.some.inj hx]
    unfold plain at h ⊢
    rw [List.all_eq_true] at h ⊢
    intro c hc
    exact h c (List.mem_of_mem_drop (List.mem_of_mem_take hc))

theorem scans_to_balanced {r s : VditorSVRenderer} (h : Scans r s [] []) :
    ∃ out, Emits r s out ∧ Balanced out := h

theorem digitChar_plain (k : Nat) (h : k < 10) :
    ((Nat.digitChar k).toNat != 60 && (Nat.digitChar k).toNat != 62) = true := by
  interval_cases k <;> decide

theorem toDigitsCore_plain : ∀ (fuel n : Nat) (acc : List Char),
    plain (acc.map Char.toNat) = true →
      plain ((Nat.toDigitsCore 10 fuel n acc).map Char.toNat) = true := by
  intro fuel
  induction fuel with
  | zero => intro n acc h; exact h
  | succ f ih =>
    intro n acc h
    have hd : plain ((Nat.digitChar (n % 10) :: acc).map Char.toNat) = true := by
      rw [List.map_cons, plain_cons, h, digitChar_plain _ (Nat.mod_lt _ (by decide))]
      rfl
    rw [Nat.toDigitsCore]
    split
    · exact hd
    · exact ih _ _ hd

theorem plain_Itoa (i : Int) : plain (Itoa i) = true := by
  unfold Itoa
  split
  · rw [plain_cons]
    have := toDigitsCore_plain ((-i).toNat + 1) (-i).toNat [] rfl
    unfold Nat.toDigits
    rw [this]
    rfl
  · exact toDigitsCore_plain (i.toNat + 1) i.toNat [] rfl

theorem plain_listMarker (d : ListData) (h1 : plain d.Marker = true)
    (h2 : plain (stringOfByte d.Delimiter) = true) : plain (listMarker d) = true := by
  unfold listMarker
  split
  · rw [plain_append, plain_Itoa, h2]; rfl
  · exact h1

theorem closesSpan_of_plain_append {a b : Bytes} (ha : plain a = true) (hb : ClosesSpan b) :
    ClosesSpan (a ++ b) := by
  unfold ClosesSpan
  rw [scanTags_append_of (scanTags_text a _ ha)]
  exact hb

theorem scans_renderHeadingID (env : Env) (r r' : VditorSVRenderer) (site site' : Site)
    (entering : Bool) (st : WalkStatus) (o : List Bytes) (hd : r.DisableTags = 0)
    (hw : r.Writer < r.buffers.length) (hpn : plain site.node.Tokens = true)
    (hrun : renderHeadingID env r site entering = some (r', site', st)) : Scans r r' o o := by
  simp only [renderHeadingID, renderMarker] at hrun
  have hr := (Prod.mk.inj (Option.some.inj hrun)).1
  subst hr
  refine scans_step_tagCloseSpan hd (scans_step_WriteString _ (balanced_of_plain ?_)
    (scans_step_tag _ (by decide) hd (scans_refl _ _ hw)))
  rw [plain_append, plain_append, hpn]
  decide

theorem scans_foldlM_headings (r : VditorSVRenderer) (o o' : List Bytes)
    (headings : List (Int × Bytes)) :
    ∀ (s s' : VditorSVRenderer), (∀ h ∈ headings, plain h.2 = true) →
      headings.foldlM
        (fun r heading =>
          (Repeat (bytesOf "&emsp;") ((heading.1 - 1) * 2)).bind fun x =>
            some (WriteString (WriteString (WriteString r x) (bytesOf "<span data-type=\"toc-h\">"))
              (heading.2 ++ bytesOf "</span><br>"))) s = some s' →
      Scans r s o o' → Scans r s' o o' := by
  induction headings with
  | nil =>
    intro s s' _ h hs
    simp only [List.foldlM, Option.pure_def] at h
    rw [← Option.some.inj h]
    exact hs
  | cons a as ih =>
    intro s s' hp h hs
    simp only [List.foldlM, Option.bind_eq_bind] at h
    rw [Option.bind_eq_some] at h
    obtain ⟨s1, h1, h⟩ := h
    rw [Option.bind_eq_some] at h1
    obtain ⟨x, hx, h1⟩ := h1
    rw [← Option.some.inj h1] at h
    refine ih _ _ (fun h hh => hp h (List.mem_cons_of_mem _ hh)) h ?_
    refine scans_step_WriteString_close _ (closesSpan_of_plain_append
      (hp a (List.mem_cons_self _ _)) (by unfold ClosesSpan; decide)) ?_
    refine scans_step_WriteString_open _ (by unfold OpensSpan; decide) ?_
    exact scans_step_WriteString _ (balanced_of_plain (plain_Repeat (by decide) hx)) hs

set_option maxRecDepth 100000 in
theorem scans_renderToC (env : Env) (r r' : VditorSVRenderer) (site site' : Site)
    (entering : Bool) (st : WalkStatus) (o : List Bytes)
    (hw : r.Writer < r.buffers.length) (hpe : PlainContent env)
    (hrun : renderToC env r site entering = some (r', site', st)) : Scans r r' o o := by
  simp only [renderToC, Option.bind_eq_bind, Option.pure_def] at hrun
  have h0 : Scans r (WriteString r (bytesOf
      "<span class=\"vditor-toc\" data-block=\"0\" data-type=\"toc-block\" contenteditable=\"false\">"))
      o (bytesOf "span" :: o) :=
    scans_step_WriteString_open _ (by unfold OpensSpan; decide) (scans_refl r o hw)
  have hfin : ∀ s : VditorSVRenderer, Scans r s o (bytesOf "span" :: o) →
      Scans r (WriteString
        (if decide (env.CaretTokens <:+: site.node.Tokens) = true then
          WriteString (WriteString (WriteString (Newline s) (bytesOf "</span>"))
            (bytesOf "<span data-type=\"p\" data-block=\"0\">")) env.Caret
        else WriteString (WriteString (Newline s) (bytesOf "</span>"))
            (bytesOf "<span data-type=\"p\" data-block=\"0\">"))
        (bytesOf "</span>")) o o := by
    intro s hs
    have h1 : Scans r (WriteString (WriteString (Newline s) (bytesOf "</span>"))
        (bytesOf "<span data-type=\"p\" data-block=\"0\">")) o (bytesOf "span" :: o) :=
      scans_step_WriteString_open _ (by unfold OpensSpan; decide)
        (scans_step_WriteString_close _ (by unfold ClosesSpan; decide) (scans_step_Newline hs))
    refine scans_step_WriteString_close _ (by unfold ClosesSpan; decide) ?_
    split
    · exact scans_step_WriteString _ (balanced_of_plain hpe.caret) h1
    · exact h1
  split at hrun
  · rw [Option.bind_eq_some] at hrun
    obtain ⟨r1, h1, hrun⟩ := hrun
    have hr := (Prod.mk.inj (Option.some.inj hrun)).1
    subst hr
    exact hfin r1 (scans_foldlM_headings r o _ env.headings _ _ hpe.headings h1 h0)
  · simp only [Option.some_bind] at hrun
    have hr := (Prod.mk.inj (Option.some.inj hrun)).1
    subst hr
    exact hfin _ (scans_step_WriteString _ (by unfold Balanced; decide) h0)

set_option maxHeartbeats 4000000 in
/-- A handler that returns `WalkStop`, other than those of the HTML entity, the inline
math content and the code span markers, writes balanced tags. -/
theorem stop_handlers_scan (t : NodeType)
    (h : Env → VditorSVRenderer → Site → Bool → Option Result)
    (hh : RendererFuncs t = some h) (h1 : t ≠ .NodeHTMLEntity)
    (h2 : t ≠ .NodeInlineMathContent) (h3 : t ≠ .NodeCodeSpanOpenMarker)
    (h4 : t ≠ .NodeCodeSpanCloseMarker)
    (env : Env) (r r' : VditorSVRenderer) (site site' : Site) (entering : Bool)
    (o : List Bytes) (hd : r.DisableTags = 0) (hw : r.Writer < r.buffers.length)
    (hpe : PlainContent env) (hpn : PlainCopied t site)
    (hrun : h env r site entering = some (r', site', WalkStatus.WalkStop)) :
    Scans r r' o o := by
  cases t <;>
    first
      | exact absurd rfl h1 | exact absurd rfl h2 | exact absurd rfl h3 | exact absurd rfl h4
      | cases hh
  all_goals
    first
      | with_reducible exact scans_renderToC env r r' site site' entering _ o hw hpe hrun
      | (have ht := hpn.tokens rfl
         with_reducible exact scans_renderHeadingID env r r' site site' entering _ o hd hw ht hrun)
      | skip
  all_goals
    simp only [renderParagraph, renderCodeSpan, renderCodeSpanOpenMarker,
        renderCodeSpanContent, renderCodeSpanCloseMarker, renderCodeBlock,
        renderCodeBlockOpenMarker, renderCodeBlockInfoMarker, renderCodeBlockCode,
        renderCodeBlockCloseMarker, renderMathBlock, renderMathBlockOpenMarker,
        renderMathBlockContent, renderMathBlockCloseMarker, renderInlineMath,
        renderInlineMathOpenMarker, renderInlineMathContent, renderInlineMathCloseMarker,
        renderEmphasis, renderEmAsteriskOpenMarker, renderEmAsteriskCloseMarker,
        renderEmUnderscoreOpenMarker, renderEmUnderscoreCloseMarker, renderStrong,
        renderStrongA6kOpenMarker, renderStrongA6kCloseMarker, renderStrongU8eOpenMarker,
        renderStrongU8eCloseMarker, renderBlockquoteMarker,
        renderHeadingC8hMarker, renderText, renderLink, renderHeading, renderList,
        renderDocument, renderBlockquote, renderListItem,
        renderTaskListItemMarker, taskMarker,
        renderThematicBreak, renderHardBreak, renderSoftBreak, renderHTML, renderInlineHTML,
        renderImage, renderBang, renderOpenBracket, renderCloseBracket, renderOpenParen,
        renderCloseParen, renderLinkText, renderLinkSpace, renderLinkDest, renderLinkTitle,
        renderStrikethrough, renderStrikethrough1OpenMarker, renderStrikethrough1CloseMarker,
        renderStrikethrough2OpenMarker, renderStrikethrough2CloseMarker, renderTable,
        renderTableHead, renderTableRow, renderTableCell, renderEmoji, renderEmojiUnicode,
        renderEmojiImg, renderEmojiAlias, renderFootnotesDef, renderFootnotesRef,
        renderBackslash, renderBackslashContent, renderHtmlEntity, renderMarker, renderSpan,
        renderContinue, Option.bind_eq_bind, Option.pure_def] at hrun
  all_goals
    repeat' first
      | (have hst := (Prod.mk.inj (Prod.mk.inj (Option.some.inj hrun)).2).2
         have hr := (Prod.mk.inj (Option.some.inj hrun)).1
         clear hrun
         first | (cases hst; done) | (cases hst; subst hr))
      | (rw [Option.bind_eq_some] at hrun; obtain ⟨_, _, hrun⟩ := hrun)
      | split at hrun
      | cases hrun
  all_goals
    repeat' first
      | with_reducible exact scans_refl _ _ hw
      | with_reducible refine scans_step_tagCloseSpan hd ?_
      | with_reducible refine scans_step_renderSpanNode _ hd ?_
      | (with_reducible refine scans_step_tag _ ?_ hd ?_; decide)
      | with_reducible refine scans_step_Newline ?_
      | (with_reducible refine scans_step_WriteByte _ ?_ ?_; decide)
      | (with_reducible refine scans_step_Write _ ?_ ?_
         first
           | exact balanced_of_plain (hpe.escaped _)
           | exact balanced_of_plain (hpn.tokens rfl)
           | exact balanced_of_plain (hpn.info rfl)
           | exact balanced_of_plain (hpn.label rfl _ (by assumption))
           | exact balanced_NewlineSV
           | (unfold Balanced; decide))
      | (with_reducible refine scans_step_WriteString _ ?_ ?_
         first
           | exact balanced_of_plain (hpe.escaped _)
           | exact balanced_of_plain (hpn.tokens rfl)
           | (unfold Balanced; decide))
      | (with_reducible refine scans_step_WriteString_close _ ?_ ?_
         unfold ClosesSpan; decide)
      | (with_reducible refine scans_step_WriteString_open _ ?_ ?_
         unfold OpensSpan; decide)
      | with_reducible refine scans_step_padding (by with_reducible assumption) ?_
      | split

theorem scans_pair_renderHeading (env : Env) (r r1 r2 r3 : VditorSVRenderer)
    (site site1 site3 : Site) (st3 : WalkStatus) (o : List Bytes)
    (hd : r.DisableTags = 0) (hw : r.Writer < r.buffers.length)
    (hd2 : r2.DisableTags = 0) (hw2 : r2.Writer < r2.buffers.length)
    (hpe : PlainContent env)
    (hrun1 : renderHeading env r site true = some (r1, site1, WalkStatus.WalkContinue))
    (hrun2 : renderHeading env r2 site1 false = some (r3, site3, st3)) :
    ∃ o1, Scans r r1 o o1 ∧ Scans r2 r3 o1 o := by
  simp only [renderHeading, Option.bind_eq_bind, Option.pure_def, if_true, Bool.false_eq_true,
    if_false] at hrun1 hrun2
  rw [Option.bind_eq_some] at hrun1
  obtain ⟨parent, hp, hrun1⟩ := hrun1
  rw [Option.bind_eq_some] at hrun1
  obtain ⟨ra, hpad, hrun1⟩ := hrun1
  have s0 : Scans r ra o o := scans_step_padding hpad (scans_refl r o hw)
  split at hrun1
  · rename_i hroot
    rw [Option.bind_eq_some] at hrun1
    obtain ⟨y, hsl, hrun1⟩ := hrun1
    simp only [Option.some_bind] at hrun1
    rw [Option.bind_eq_some] at hrun1
    obtain ⟨x, hx, hrun1⟩ := hrun1
    have hinj := Prod.mk.inj (Option.some.inj hrun1)
    have hr := hinj.1
    have hs := (Prod.mk.inj hinj.2).1
    subst hr
    subst hs
    rw [hp] at hrun2
    simp only [Option.some_bind, hroot, if_true] at hrun2
    have hr3 := (Prod.mk.inj (Option.some.inj hrun2)).1
    subst hr3
    refine ⟨bytesOf "span" :: bytesOf "span" :: o, ?_, ?_⟩
    · refine scans_step_tagCloseSpan hd (scans_step_WriteString _ (balanced_of_plain ?_)
        (scans_step_tag _ (by decide) hd (scans_step_tag _ ?_ hd
          (scans_step_tag _ (by decide) hd s0))))
      · rw [plain_append, plain_Repeat (by decide) hx]; decide
      · simp only [plainAttrs, List.all_cons, List.all_nil, Bool.and_true, plain_append,
          plain_sliceBytes hpe.level hsl]
        decide
    · exact scans_step_WriteString_close _ (by unfold ClosesSpan; decide)
        (scans_step_Write _ balanced_NewlineSV (scans_step_Write _ balanced_NewlineSV
          (scans_step_tagCloseSpan hd2 (scans_refl r2 _ hw2))))
  · rename_i hroot
    simp only [Option.some_bind] at hrun1
    rw [Option.bind_eq_some] at hrun1
    obtain ⟨x, hx, hrun1⟩ := hrun1
    have hinj := Prod.mk.inj (Option.some.inj hrun1)
    have hr := hinj.1
    have hs := (Prod.mk.inj hinj.2).1
    subst hr
    subst hs
    rw [hp] at hrun2
    simp only [Option.some_bind, hroot, if_false, Bool.false_eq_true] at hrun2
    have hr3 := (Prod.mk.inj (Option.some.inj hrun2)).1
    subst hr3
    refine ⟨o, ?_, ?_⟩
    · refine scans_step_tagCloseSpan hd (scans_step_WriteString _ (balanced_of_plain ?_)
        (scans_step_tag _ (by decide) hd s0))
      rw [plain_append, plain_Repeat (by decide) hx]; decide
    · exact scans_step_Write _ balanced_NewlineSV (scans_step_Write _ balanced_NewlineSV
        (scans_refl r2 _ hw2))

theorem plainAttrs_append (a b : List (Bytes × Bytes)) :
    plainAttrs (a ++ b) = (plainAttrs a && plainAttrs b) := by
  simp [plainAttrs, List.all_append]

theorem scans_setPadding {r s : VditorSVRenderer} {o o' : List Bytes} (p : Int)
    (h : Scans r s o o') : Scans r { s with ListPadding := p } o o' := by
  obtain ⟨a, ea, sa⟩ := h
  exact ⟨a, ⟨ea.alloc, ⟨ea.appends.writer, ea.appends.stack, ea.appends.length, ea.appends.tags,
    ea.appends.others, ea.appends.grows⟩, ea.bytes⟩, sa⟩

theorem scans_pair_renderList (env : Env) (r r1 r2 r3 : VditorSVRenderer)
    (site site1 site3 : Site) (st3 : WalkStatus) (o : List Bytes)
    (hd : r.DisableTags = 0) (hw : r.Writer < r.buffers.length)
    (hd2 : r2.DisableTags = 0) (hw2 : r2.Writer < r2.buffers.length)
    (hpn : ∀ d : ListData, site.node.data.ListData = some d →
      plain d.Marker = true ∧ plain (stringOfByte d.Delimiter) = true)
    (hrun1 : renderList env r site true = some (r1, site1, WalkStatus.WalkContinue))
    (hrun2 : renderList env r2 site1 false = some (r3, site3, st3)) :
    ∃ o1, Scans r r1 o o1 ∧ Scans r2 r3 o1 o := by
  simp only [renderList, Option.bind_eq_bind, Option.pure_def, if_true, Bool.false_eq_true,
    if_false] at hrun1 hrun2
  rw [Option.bind_eq_some] at hrun1
  obtain ⟨d, hdd, hrun1⟩ := hrun1
  have hinj := Prod.mk.inj (Option.some.inj hrun1)
  have hr := hinj.1
  have hs := (Prod.mk.inj hinj.2).1
  subst hr
  subst hs
  rw [hdd] at hrun2
  simp only [Option.some_bind] at hrun2
  have hr3 := (Prod.mk.inj (Option.some.inj hrun2)).1
  subst hr3
  obtain ⟨hm1, hm2⟩ := hpn d hdd
  have hnum : plain (Itoa d.Num ++ stringOfByte d.Delimiter) = true := by
    rw [plain_append, plain_Itoa, hm2]; rfl
  refine ⟨bytesOf "span" :: o, ?_, ?_⟩
  · refine scans_step_tag _ ?_ hd (scans_setPadding _ (scans_refl r o hw))
    repeat' split
    all_goals
      simp only [plainAttrs, List.nil_append, List.all_append, List.all_cons, List.all_nil,
        plain_Itoa, hm1, hnum, Bool.and_true, Bool.true_and]
      first | done | decide
  · exact scans_setPadding _ (scans_step_tagCloseSpan hd2
      (scans_step_Write _ balanced_NewlineSV (scans_refl r2 _ hw2)))

set_option maxHeartbeats 4000000 in
/-- A handler other than those of the three containers whose entering call returns
`WalkContinue` leaves open, on entering, the tags that its exit call closes. -/
theorem pair_handlers_scan (t : NodeType)
    (h : Env → VditorSVRenderer → Site → Bool → Option Result)
    (hh : RendererFuncs t = some h) (h1 : t ≠ .NodeDocument) (h2 : t ≠ .NodeBlockquote)
    (h3 : t ≠ .NodeListItem)
    (env : Env) (r r1 r2 r3 : VditorSVRenderer) (site site1 site3 : Site) (st3 : WalkStatus)
    (o : List Bytes) (hd : r.DisableTags = 0) (hw : r.Writer < r.buffers.length)
    (hd2 : r2.DisableTags = 0) (hw2 : r2.Writer < r2.buffers.length)
    (hpe : PlainContent env) (hpn : PlainCopied t site)
    (hrun1 : h env r site true = some (r1, site1, WalkStatus.WalkContinue))
    (hrun2 : h env r2 site1 false = some (r3, site3, st3)) :
    ∃ o1, Scans r r1 o o1 ∧ Scans r2 r3 o1 o := by
  cases t <;>
    first
      | exact absurd rfl h1 | exact absurd rfl h2 | exact absurd rfl h3
      | cases hh
  all_goals
    first
      | with_reducible exact scans_pair_renderHeading env r r1 r2 r3 _ _ _ _ o hd hw hd2 hw2 hpe hrun1 hrun2
      | with_reducible exact scans_pair_renderList env r r1 r2 r3 _ _ _ _ o hd hw hd2 hw2 (hpn.marker (Or.inl rfl)) hrun1 hrun2
      | skip
  all_goals
    simp only [renderParagraph, renderCodeSpan, renderCodeSpanOpenMarker,
        renderCodeSpanContent, renderCodeSpanCloseMarker, renderCodeBlock,
        renderCodeBlockOpenMarker, renderCodeBlockInfoMarker, renderCodeBlockCode,
        renderCodeBlockCloseMarker, renderMathBlock, renderMathBlockOpenMarker,
        renderMathBlockContent, renderMathBlockCloseMarker, renderInlineMath,
        renderInlineMathOpenMarker, renderInlineMathContent, renderInlineMathCloseMarker,
        renderEmphasis, renderEmAsteriskOpenMarker, renderEmAsteriskCloseMarker,
        renderEmUnderscoreOpenMarker, renderEmUnderscoreCloseMarker, renderStrong,
        renderStrongA6kOpenMarker, renderStrongA6kCloseMarker, renderStrongU8eOpenMarker,
        renderStrongU8eCloseMarker, renderBlockquoteMarker,
        renderHeadingC8hMarker, renderHeadingID, renderText, renderLink, renderToC,
        renderTaskListItemMarker, taskMarker,
        renderThematicBreak, renderHardBreak, renderSoftBreak, renderHTML, renderInlineHTML,
        renderImage, renderBang, renderOpenBracket, renderCloseBracket, renderOpenParen,
        renderCloseParen, renderLinkText, renderLinkSpace, renderLinkDest, renderLinkTitle,
        renderStrikethrough, renderStrikethrough1OpenMarker, renderStrikethrough1CloseMarker,
        renderStrikethrough2OpenMarker, renderStrikethrough2CloseMarker, renderTable,
        renderTableHead, renderTableRow, renderTableCell, renderEmoji, renderEmojiUnicode,
        renderEmojiImg, renderEmojiAlias, renderFootnotesDef, renderFootnotesRef,
        renderBackslash, renderBackslashContent, renderHtmlEntity, renderMarker, renderSpan,
        renderContinue, Option.bind_eq_bind, Option.pure_def, if_true, Bool.false_eq_true,
        if_false] at hrun1 hrun2
  all_goals
    repeat' first
      | (have hst := (Prod.mk.inj (Prod.mk.inj (Option.some.inj hrun1)).2).2
         have hs := (Prod.mk.inj (Prod.mk.inj (Option.some.inj hrun1)).2).1
         have hr := (Prod.mk.inj (Option.some.inj hrun1)).1
         clear hrun1
         first | (cases hst; done) | (cases hst; subst hr; subst hs))
      | (rw [Option.bind_eq_some] at hrun1; obtain ⟨_, _, hrun1⟩ := hrun1)
      | split at hrun1
      | cases hrun1
  all_goals
    repeat' first
      | (have hr := (Prod.mk.inj (Option.some.inj hrun2)).1; clear hrun2; subst hr)
      | (rw [Option.bind_eq_some] at hrun2; obtain ⟨_, _, hrun2⟩ := hrun2)
      | split at hrun2
      | cases hrun2
  all_goals try contradiction
  all_goals
    first
    | (refine ⟨o, ?_, ?_⟩
       all_goals
         repeat' first
           | with_reducible exact scans_refl _ _ hw
           | with_reducible exact scans_refl _ _ hw2
           | with_reducible refine scans_step_tagCloseSpan hd ?_
           | with_reducible refine scans_step_tagCloseSpan hd2 ?_
           | with_reducible refine scans_step_renderSpanNode _ hd ?_
           | (with_reducible refine scans_step_tag _ ?_ hd ?_; decide)
           | (with_reducible refine scans_step_tag _ ?_ hd2 ?_; decide)
           | with_reducible refine scans_step_Newline ?_
           | (with_reducible refine scans_step_WriteByte _ ?_ ?_; decide)
           | (with_reducible refine scans_step_Write _ ?_ ?_
              first
                | exact balanced_of_plain (hpe.escaped _)
                | exact balanced_of_plain (hpn.tokens rfl)
                | exact balanced_of_plain (hpn.info rfl)
                | exact balanced_NewlineSV
                | (unfold Balanced; decide))
           | (with_reducible refine scans_step_WriteString _ ?_ ?_
              first
                | exact balanced_of_plain (hpe.escaped _)
                | exact balanced_of_plain (hpn.tokens rfl)
                | (unfold Balanced; decide))
           | (with_reducible refine scans_step_WriteString_close _ ?_ ?_
              unfold ClosesSpan; decide)
           | (with_reducible refine scans_step_WriteString_open _ ?_ ?_
              unfold OpensSpan; decide)
           | with_reducible refine scans_step_padding (by with_reducible assumption) ?_
           | split
       done)
    | (refine ⟨bytesOf "span" :: o, ?_, ?_⟩
       all_goals
         repeat' first
           | with_reducible exact scans_refl _ _ hw
           | with_reducible exact scans_refl _ _ hw2
           | with_reducible refine scans_step_tagCloseSpan hd ?_
           | with_reducible refine scans_step_tagCloseSpan hd2 ?_
           | with_reducible refine scans_step_renderSpanNode _ hd ?_
           | (with_reducible refine scans_step_tag _ ?_ hd ?_; decide)
           | (with_reducible refine scans_step_tag _ ?_ hd2 ?_; decide)
           | with_reducible refine scans_step_Newline ?_
           | (with_reducible refine scans_step_WriteByte _ ?_ ?_; decide)
           | (with_reducible refine scans_step_Write _ ?_ ?_
              first
                | exact balanced_of_plain (hpe.escaped _)
                | exact balanced_of_plain (hpn.tokens rfl)
                | exact balanced_of_plain (hpn.info rfl)
                | exact balanced_NewlineSV
                | (unfold Balanced; decide))
           | (with_reducible refine scans_step_WriteString _ ?_ ?_
              first
                | exact balanced_of_plain (hpe.escaped _)
                | exact balanced_of_plain (hpn.tokens rfl)
                | (unfold Balanced; decide))
           | (with_reducible refine scans_step_WriteString_close _ ?_ ?_
              unfold ClosesSpan; decide)
           | (with_reducible refine scans_step_WriteString_open _ ?_ ?_
              unfold OpensSpan; decide)
           | with_reducible refine scans_step_padding (by with_reducible assumption) ?_
           | split
       done)

/-! ## Theorems: the tags of the containers and of the code span markers -/

theorem scanTags_open_inTag (rest body : Bytes) (opened : List Bytes) :
    scanTags (60 :: rest) (opened, some body) = none := by
  rw [scanTags_cons]
  rfl

theorem balanced_flatten_replicate (k : Nat) (s : Bytes) (h : Balanced s) :
    Balanced (List.replicate k s).flatten := by
  induction k with
  | zero => rfl
  | succ k ih =>
    rw [List.replicate_succ, List.flatten_cons]
    exact balanced_append h ih

theorem opensSpan_append {a b : Bytes} (ha : OpensSpan a) (hb : Balanced b) :
    OpensSpan (a ++ b) := by
  unfold OpensSpan
  rw [scanTags_append_of ha]
  exact balanced_scan hb _

theorem balanced_of_open_close {a b c : Bytes} (ha : OpensSpan a) (hb : Balanced b)
    (hc : ClosesSpan c) : Balanced (a ++ b ++ c) := by
  unfold Balanced
  rw [List.append_assoc, scanTags_append_of ha, scanTags_append_of (balanced_scan hb _)]
  exact hc

theorem closesSpan_of_balanced_append {a b : Bytes} (ha : Balanced a) (hb : ClosesSpan b) :
    ClosesSpan (a ++ b) := by
  unfold ClosesSpan
  rw [scanTags_append_of (balanced_scan ha _)]
  exact hb

/-- Text without `<` and `>` after balanced output: the output before it is balanced. -/
theorem balanced_of_append_plain {a ws : Bytes} (hws : plain ws = true)
    (h : Balanced (a ++ ws)) : Balanced a := by
  unfold Balanced at h ⊢
  rw [scanTags_append] at h
  cases hx : scanTags a ([], none) with
  | none => rw [hx] at h; cases h
  | some s1 =>
    obtain ⟨o1, cur⟩ := s1
    rw [hx] at h
    cases cur with
    | none =>
      have h2 : scanTags ws (o1, none) = some ([], none) := h
      rw [scanTags_text ws o1 hws] at h2
      rw [h2]
    | some body =>
      have h2 : scanTags ws (o1, some body) = some ([], none) := h
      rw [scanTags_inTag ws o1 body hws] at h2
      cases h2

theorem balanced_of_plain_append {ws a : Bytes} (hws : plain ws = true)
    (h : Balanced (ws ++ a)) : Balanced a := by
  unfold Balanced at h ⊢
  rw [scanTags_append_of (scanTags_text ws [] hws)] at h
  exact h

theorem NewlineSV_head : NewlineSV = 60 :: NewlineSV.tail := by decide

theorem scans_trimNewlines (n : Nat) (buf : Bytes) (hn : buf.length ≤ n) (o o' : List Bytes)
    (h : scanTags buf (o, none) = some (o', none)) :
    scanTags (trimNewlines n buf) (o, none) = some (o', none) := by
  rcases (trimNewlines_spec n buf hn).2 with he | ⟨x, k, hk, hbuf, he⟩
  · rw [he]; exact h
  · rw [he]
    rw [hbuf, List.append_assoc, scanTags_append] at h
    rw [scanTags_append]
    cases hx : scanTags x (o, none) with
    | none => rw [hx] at h; cases h
    | some s1 =>
      obtain ⟨o1, cur⟩ := s1
      rw [hx] at h
      cases cur with
      | none =>
        have h2 : scanTags ((List.replicate k NewlineSV).flatten ++ closeSpan) (o1, none) =
            some (o', none) := h
        rw [scanTags_append_of
          (balanced_scan (balanced_flatten_replicate k _ balanced_NewlineSV) o1)] at h2
        exact h2
      | some body =>
        have h2 : scanTags ((List.replicate k NewlineSV).flatten ++ closeSpan) (o1, some body) =
            some (o', none) := h
        obtain ⟨k', rfl⟩ : ∃ k', k = k' + 1 := ⟨k - 1, by omega⟩
        rw [List.replicate_succ, List.flatten_cons] at h2
        rw [NewlineSV_head, List.cons_append, List.cons_append, scanTags_open_inTag] at h2
        cases h2

theorem balanced_trimNewlines (buf : Bytes) (h : Balanced buf) :
    Balanced (trimNewlines buf.length buf) :=
  scans_trimNewlines buf.length buf le_rfl [] [] h

theorem opensSpan_listItemOpen (lp : Int) (d : ListData) (li : Bytes)
    (h : listItemOpen lp d = some li) (hm : plain (listMarker d) = true) : OpensSpan li := by
  simp only [listItemOpen, Option.bind_eq_bind, Option.pure_def] at h
  rw [Option.bind_eq_some] at h
  obtain ⟨sp, hsp, h⟩ := h
  rw [← Option.some.inj h]
  have hs : plain sp = true := plain_Repeat (by decide) hsp
  have h1 : OpensSpan (bytesOf "<span data-type=\"li\">") := by unfold OpensSpan; decide
  have h2 : OpensSpan (bytesOf "<span data-type=\"padding\">") := by unfold OpensSpan; decide
  have h3 : ClosesSpan (bytesOf "</span>") := by unfold ClosesSpan; decide
  have h4 : OpensSpan (bytesOf "<span data-type=\"li-marker\" class=\"vditor-sv__marker\">") := by
    unfold OpensSpan; decide
  have h5 : ClosesSpan (bytesOf " </span>") := by unfold ClosesSpan; decide
  have h6 := balanced_of_open_close h2 (balanced_of_plain hs) h3
  have h7 := balanced_of_open_close h4 (balanced_of_plain hm) h5
  have := opensSpan_append (opensSpan_append h1 h6) h7
  simpa [List.append_assoc] using this

/-- Putting a balanced marker at the start of each of the lines that a balanced separator
starting with `<` delimits keeps the tags. -/
theorem scanTags_intercalate_map (sep m sepTail : Bytes) (hsep : Balanced sep)
    (hhead : sep = 60 :: sepTail) (hm : Balanced m) (lines : List Bytes) :
    ∀ (o o' : List Bytes),
      scanTags (List.intercalate sep lines) (o, none) = some (o', none) →
      scanTags (List.intercalate sep (lines.map (fun l => m ++ l))) (o, none) =
        some (o', none) := by
  induction lines with
  | nil => intro o o' h; exact h
  | cons l ls ih =>
    intro o o' h
    cases ls with
    | nil =>
      rw [intercalate_singleton] at h
      rw [List.map_cons, List.map_nil, intercalate_singleton,
        scanTags_append_of (balanced_scan hm o)]
      exact h
    | cons l2 ls2 =>
      rw [intercalate_cons_cons, List.append_assoc, scanTags_append] at h
      rw [List.map_cons, List.map_cons, intercalate_cons_cons, List.append_assoc,
        List.append_assoc, scanTags_append_of (balanced_scan hm o), scanTags_append]
      rw [List.map_cons] at ih
      cases hx : scanTags l (o, none) with
      | none => rw [hx] at h; cases h
      | some s1 =>
        obtain ⟨o1, cur⟩ := s1
        rw [hx] at h
        rw [Option.some_bind] at h ⊢
        cases cur with
        | none =>
          rw [scanTags_append_of (balanced_scan hsep o1)] at h ⊢
          exact ih o1 o' h
        | some body =>
          rw [hhead, List.cons_append, scanTags_open_inTag] at h
          cases h

theorem balanced_blockquoteMarker : Balanced blockquoteMarker := by unfold Balanced; decide

theorem plain_of_all_mem (s cut : Bytes) (hc : plain cut = true)
    (h : ∀ c ∈ s, cut.contains c = true) : plain s = true := by
  unfold plain at hc ⊢
  rw [List.all_eq_true] at hc ⊢
  intro c hcs
  have := h c hcs
  rw [List.contains_iff_exists_mem_beq] at this
  obtain ⟨a, ha, hb⟩ := this
  have hca : c = a := by simpa using hb
  rw [hca]
  exact hc a ha

theorem balanced_Trim (s cut : Bytes) (hc : plain cut = true) (h : Balanced s) :
    Balanced (Trim s cut) := by
  unfold Trim TrimRight
  have h1 : Balanced (s.dropWhile (fun c => cut.contains c)) :=
    balanced_of_plain_append
      (plain_of_all_mem (s.takeWhile (fun c => cut.contains c)) cut hc
        (fun c hcs => List.mem_takeWhile_imp hcs))
      (by rw [List.takeWhile_append_dropWhile]; exact h)
  generalize s.dropWhile (fun c => cut.contains c) = s' at h1
  exact balanced_of_append_plain
    (plain_of_all_mem (s'.reverse.takeWhile (fun c => cut.contains c)).reverse cut hc
      (fun c hcs => List.mem_takeWhile_imp (List.mem_reverse.mp hcs)))
    (by
      rw [← List.reverse_append, List.takeWhile_append_dropWhile, List.reverse_reverse]
      exact h1)

theorem scans_renderCodeSpanOpenMarker (env : Env) (r r' : VditorSVRenderer)
    (site site' : Site) (entering : Bool) (st : WalkStatus) (o : List Bytes)
    (hd : r.DisableTags = 0) (hw : r.Writer < r.buffers.length)
    (hrun : renderCodeSpanOpenMarker env r site entering = some (r', site', st)) :
    Scans r r' o (bytesOf "span" :: o) := by
  simp only [renderCodeSpanOpenMarker, Option.bind_eq_bind, Option.pure_def] at hrun
  rw [Option.bind_eq_some] at hrun
  obtain ⟨parent, hp, hrun⟩ := hrun
  rw [Option.bind_eq_some] at hrun
  obtain ⟨x, hx, hrun⟩ := hrun
  rw [Option.bind_eq_some] at hrun
  obtain ⟨next, hn, hrun⟩ := hrun
  have hr := (Prod.mk.inj (Option.some.inj hrun)).1
  subst hr
  refine scans_step_tag _ (by decide) hd (scans_step_tagCloseSpan hd ?_)
  have h1 := scans_step_WriteString x (balanced_of_plain (plain_Repeat (by decide) hx))
    (scans_step_tag [attr "class" "vditor-sv__marker"] (by decide) hd (scans_refl r o hw))
  split
  · exact scans_step_WriteByte _ (by decide) h1
  · exact h1

theorem scans_renderCodeSpanCloseMarker (env : Env) (r r' : VditorSVRenderer)
    (site site' : Site) (entering : Bool) (st : WalkStatus) (o : List Bytes)
    (hd : r.DisableTags = 0) (hw : r.Writer < r.buffers.length)
    (hrun : renderCodeSpanCloseMarker env r site entering = some (r', site', st)) :
    Scans r r' (bytesOf "span" :: o) o := by
  simp only [renderCodeSpanCloseMarker, Option.bind_eq_bind, Option.pure_def] at hrun
  rw [Option.bind_eq_some] at hrun
  obtain ⟨previous, hp, hrun⟩ := hrun
  rw [Option.bind_eq_some] at hrun
  obtain ⟨parent, hpa, hrun⟩ := hrun
  rw [Option.bind_eq_some] at hrun
  obtain ⟨x, hx, hrun⟩ := hrun
  have hr := (Prod.mk.inj (Option.some.inj hrun)).1
  subst hr
  refine scans_step_tagCloseSpan hd
    (scans_step_WriteString x (balanced_of_plain (plain_Repeat (by decide) hx)) ?_)
  have h1 := scans_step_tag [attr "class" "vditor-sv__marker"] (by decide) hd
    (scans_step_tagCloseSpan hd (scans_refl r (bytesOf "span" :: o) hw))
  split
  · exact scans_step_WriteByte _ (by decide) h1
  · exact h1

/-! ## Theorems: balanced tags -/

/-- The state that the exit call of a container finds when its children wrote `mid`. -/
theorem children_of_container {r r2 : VditorSVRenderer} {mid : Bytes}
    (hw : r.Writer < r.buffers.length) (htop : stackTop r = some r.Writer)
    (hc : ChildrenWrote (pushWriter r) r2 mid) :
    ∃ rest, r2.nodeWriterStack = rest ++ [r.Writer, r.buffers.length] ∧
      r2.Writer = r.buffers.length ∧ r.Writer ≠ r.buffers.length ∧
      r.Writer < r2.buffers.length ∧ r.buffers.length < r2.buffers.length ∧
      bufBytes r2 r.Writer = bufBytes r r.Writer ∧ bufBytes r2 r.buffers.length = mid := by
  have hne : r.nodeWriterStack ≠ [] := by
    intro h
    simp [stackTop, h] at htop
  obtain ⟨rest, hrest⟩ : ∃ rest, r.nodeWriterStack = rest ++ [r.Writer] := by
    refine ⟨r.nodeWriterStack.dropLast, ?_⟩
    have h1 := List.dropLast_append_getLast hne
    have h2 : r.nodeWriterStack.getLast hne = r.Writer := by
      have := List.getLast?_eq_getLast _ hne
      unfold stackTop at htop
      rw [this] at htop
      exact Option.some.inj htop
    rw [h2] at h1
    exact h1.symm
  have hl2 : (pushWriter r).buffers.length = r.buffers.length + 1 := by
    simp [pushWriter_buffers]
  have hl3 : r.buffers.length + 1 ≤ r2.buffers.length := by
    rw [← hl2]; exact hc.frame.length
  refine ⟨rest, ?_, hc.frame.writer.trans (pushWriter_Writer r), Nat.ne_of_lt hw, by omega,
    by omega, ?_, ?_⟩
  · rw [hc.frame.stack, pushWriter_stack, hrest]; simp
  · rw [hc.frame.others _ (by omega) (by rw [pushWriter_Writer]; omega), bufBytes_pushWriter]
  · have := hc.bytes
    rw [pushWriter_Writer, bufBytes_pushWriter] at this
    rw [this]
    have h0 : bufBytes r r.buffers.length = [] := by
      simp [bufBytes, List.getD_eq_getElem?_getD]
    rw [h0, List.nil_append]

theorem balanced_pair_renderListItem (env : Env) (r r1 r2 r3 : VditorSVRenderer)
    (site site1 site3 : Site) (st1 st3 : WalkStatus) (mid : Bytes)
    (hw : r.Writer < r.buffers.length) (htop : stackTop r = some r.Writer)
    (hpn : ∀ d : ListData, site.node.data.ListData = some d →
      plain d.Marker = true ∧ plain (stringOfByte d.Delimiter) = true)
    (hrun1 : renderListItem env r site true = some (r1, site1, st1))
    (hc : ChildrenWrote r1 r2 mid) (hb : Balanced mid)
    (hrun2 : renderListItem env r2 site1 false = some (r3, site3, st3)) :
    ∃ out, r3.Writer = r.Writer ∧ bufBytes r3 r.Writer = bufBytes r r.Writer ++ out ∧
      Balanced out := by
  simp only [renderListItem, if_true, Option.pure_def] at hrun1
  have hr1 : r1 = pushWriter r := ((Prod.mk.inj (Option.some.inj hrun1)).1).symm
  have hs1 : site1 = site := ((Prod.mk.inj (Prod.mk.inj (Option.some.inj hrun1)).2).1).symm
  subst hr1
  subst hs1
  obtain ⟨rest, hst, -, hne, hp, -, hpar, hmid⟩ := children_of_container hw htop hc
  have hst1 : r2.nodeWriterStack = (rest ++ [r.Writer]) ++ [r.buffers.length] := by
    rw [hst]; simp
  have hex := hrun2
  simp only [renderListItem, Bool.false_eq_true, if_false, Option.bind_eq_bind,
    Option.some_bind, stackTop_concat r2 _ _ hst1, stackPop_concat r2 _ _ hst1] at hex
  rw [Option.bind_eq_some] at hex
  obtain ⟨d, hd, hex⟩ := hex
  rw [Option.bind_eq_some] at hex
  obtain ⟨li, hli, -⟩ := hex
  obtain ⟨r'', tail, h1, h2, h3, -, h5, -, -⟩ :=
    renderListItem_exit_core env r2 site1 d li rest r.Writer r.buffers.length hd hli hst hne hp
  rw [hrun2] at h1
  have hr : r3 = r'' := (Prod.mk.inj (Option.some.inj h1)).1
  subst hr
  obtain ⟨hm1, hm2⟩ := hpn d hd
  have hopen : OpensSpan li := opensSpan_listItemOpen _ d li hli (plain_listMarker d hm1 hm2)
  have hclose : ClosesSpan closeSpan := by unfold ClosesSpan; decide
  have htail : ClosesSpan tail := by
    rw [hc.tags] at h3
    rcases h3 with h3 | h3
    · rw [h3]; exact hclose
    · rw [h3]; exact closesSpan_of_balanced_append balanced_NewlineSV hclose
  refine ⟨li ++ trimNewlines mid.length mid ++ tail, h5, ?_,
    balanced_of_open_close hopen (balanced_trimNewlines mid hb) htail⟩
  rw [h2, hpar, hmid]
  simp only [List.append_assoc]

theorem balanced_pair_renderBlockquote (env : Env) (r r1 r2 r3 : VditorSVRenderer)
    (site site1 site3 : Site) (st1 st3 : WalkStatus) (mid : Bytes)
    (hw : r.Writer < r.buffers.length) (htop : stackTop r = some r.Writer)
    (hrun1 : renderBlockquote env r site true = some (r1, site1, st1))
    (hc : ChildrenWrote r1 r2 mid) (hb : Balanced mid)
    (hrun2 : renderBlockquote env r2 site1 false = some (r3, site3, st3)) :
    ∃ out, r3.Writer = r.Writer ∧ bufBytes r3 r.Writer = bufBytes r r.Writer ++ out ∧
      Balanced out := by
  simp only [renderBlockquote, if_true, Option.pure_def] at hrun1
  have hr1 : r1 = pushWriter r := ((Prod.mk.inj (Option.some.inj hrun1)).1).symm
  have hs1 : site1 = site := ((Prod.mk.inj (Prod.mk.inj (Option.some.inj hrun1)).2).1).symm
  subst hr1
  subst hs1
  obtain ⟨rest, hst, hwr, hne, hp, hwl, hpar, hmid⟩ := children_of_container hw htop hc
  have hex := hrun2
  simp only [renderBlockquote, Bool.false_eq_true, if_false, Option.bind_eq_bind] at hex
  rw [Option.bind_eq_some] at hex
  obtain ⟨ra, hra, -⟩ := hex
  obtain ⟨r'', lines, tail, h1, -, h3, -, h5, h6, -, h8, -, -⟩ :=
    renderBlockquote_exit_core env r2 ra site1 rest r.Writer r.buffers.length hra hst hwr hne
      hp hwl
  rw [hrun2] at h1
  have hr : r3 = r'' := (Prod.mk.inj (Option.some.inj h1)).1
  subst hr
  have hpad : bufBytes ra r.buffers.length = mid ++ listItemBlockPadding r2 site1 := by
    have := (emits_padding (by rw [hwr]; exact hwl) hra).1.bytes
    rw [hwr, hmid] at this
    exact this
  have hbuf : Balanced (bufBytes ra r.buffers.length) := by
    rw [hpad]
    exact balanced_append hb (balanced_listItemBlockPadding _ _)
  have hlines : Balanced (List.intercalate NewlineSV lines) := by
    rw [← h3]
    exact balanced_trimNewlines _ hbuf
  have hmapped := scanTags_intercalate_map NewlineSV blockquoteMarker NewlineSV.tail
    balanced_NewlineSV NewlineSV_head balanced_blockquoteMarker lines [] [] hlines
  have hclose : ClosesSpan closeSpan := by unfold ClosesSpan; decide
  have htail : ClosesSpan tail := by
    rcases h6 with h6 | h6
    · rw [h6]; exact closesSpan_of_balanced_append balanced_NewlineSV hclose
    · rw [h6]
      exact closesSpan_of_balanced_append (balanced_append balanced_NewlineSV balanced_NewlineSV)
        hclose
  have hopen : OpensSpan blockquoteOpen := by unfold OpensSpan; decide
  refine ⟨blockquoteOpen ++ List.intercalate NewlineSV
      (lines.map (fun l => blockquoteMarker ++ l)) ++ tail, h8, ?_,
    balanced_of_open_close hopen hmapped htail⟩
  rw [h5, hpar]
  simp only [List.append_assoc]

theorem balanced_pair_renderDocument (env : Env) (r r1 r2 r3 : VditorSVRenderer)
    (site site1 site3 : Site) (st1 st3 : WalkStatus) (mid : Bytes)
    (hrun1 : renderDocument env r site true = some (r1, site1, st1))
    (hc : ChildrenWrote r1 r2 mid) (hb : Balanced mid)
    (hrun2 : renderDocument env r2 site1 false = some (r3, site3, st3)) :
    Balanced (bufBytes r3 r3.Writer) := by
  simp only [renderDocument, if_true, Option.pure_def] at hrun1
  have hr1 : r1 = pushWriter r := ((Prod.mk.inj (Option.some.inj hrun1)).1).symm
  subst hr1
  have hwr : r2.Writer = r.buffers.length := hc.frame.writer.trans (pushWriter_Writer r)
  have hl2 : (pushWriter r).buffers.length = r.buffers.length + 1 := by
    simp [pushWriter_buffers]
  have hl3 : r.buffers.length + 1 ≤ r2.buffers.length := by
    rw [← hl2]; exact hc.frame.length
  have hmid : bufBytes r2 r2.Writer = mid := by
    have := hc.bytes
    rw [pushWriter_Writer, bufBytes_pushWriter] at this
    rw [hwr, this]
    have h0 : bufBytes r r.buffers.length = [] := by
      simp [bufBytes, List.getD_eq_getElem?_getD]
    rw [h0, List.nil_append]
  simp only [renderDocument, Bool.false_eq_true, if_false, Option.bind_eq_bind,
    Option.pure_def] at hrun2
  rw [Option.bind_eq_some] at hrun2
  obtain ⟨rp, hrp, hrun2⟩ := hrun2
  have hr3 := (Prod.mk.inj (Option.some.inj hrun2)).1
  have hpw : rp.Writer = r2.Writer ∧ rp.buffers = r2.buffers := by
    unfold stackPop at hrp
    split at hrp
    · cases hrp
    · rw [← Option.some.inj hrp]
      exact ⟨rfl, rfl⟩
  rw [← hr3]
  have hwl : (bufReset rp rp.Writer).Writer < (bufReset rp rp.Writer).buffers.length := by
    rw [bufReset_length, hpw.2]
    show rp.Writer < _
    rw [hpw.1]
    omega
  rw [(appends_Write _ _).writer, bufBytes_Write _ _ hwl]
  show Balanced (bufBytes (bufReset rp rp.Writer) rp.Writer ++ _)
  rw [bufBytes_bufReset, if_pos rfl, List.nil_append]
  have hm : bufBytes rp rp.Writer = mid := by
    unfold bufBytes
    rw [hpw.2, hpw.1]
    exact hmid
  rw [hm]
  exact balanced_Trim _ _ (by decide) hb

theorem plain_escapeByte (c : Nat) : plain (escapeByte c) = true := by
  unfold escapeByte
  split
  · decide
  · split
    · decide
    · split
      · decide
      · split
        · decide
        · rename_i h1 h2 h3
          simp [plain, h1, h2]

theorem plainContent_escapingEnv : PlainContent escapingEnv where
  escaped := by
    intro x
    show plain (x.flatMap escapeByte) = true
    induction x with
    | nil => rfl
    | cons c cs ih => rw [List.flatMap_cons, plain_append, plain_escapeByte, ih]; rfl
  headings := by intro h hh; cases hh
  caret := by decide
  level := by decide

/-- At the level of values, with `DisableTags` equal to 0: the tags every handler other
than those of the HTML entity and of the inline math content emits are balanced, where
the opening marker of a code span leaves one `span` open and the closing marker of a code
span closes one `span` that was open. When the entering call returns `WalkStop`, what it
wrote is balanced; when it returns `WalkContinue` and the output `mid` of the children is
balanced, what the writer's buffer gained from the entering call to the exit call is
balanced, and for the document, whose output stays in its own buffer, that buffer is
balanced. -/
theorem handlers_balanced_values (t : NodeType)
    (h : Env → VditorSVRenderer → Site → Bool → Option Result)
    (hh : RendererFuncs t = some h)
    (hent : t ≠ .NodeHTMLEntity) (hmath : t ≠ .NodeInlineMathContent)
    (env : Env) (r r1 : VditorSVRenderer) (site site1 : Site) (st1 : WalkStatus)
    (hd : r.DisableTags = 0) (hw : r.Writer < r.buffers.length)
    (hpe : PlainContent env) (hpn : PlainCopied t site)
    (hrun1 : h env r site true = some (r1, site1, st1)) :
    (st1 = .WalkStop → ∃ out, Emits r r1 out ∧
        (t ≠ .NodeCodeSpanOpenMarker → t ≠ .NodeCodeSpanCloseMarker → Balanced out) ∧
        (t = .NodeCodeSpanOpenMarker → OpensSpan out) ∧
        (t = .NodeCodeSpanCloseMarker → ClosesSpan out)) ∧
    (st1 = .WalkContinue →
      ∀ (r2 r3 : VditorSVRenderer) (site3 : Site) (st3 : WalkStatus) (mid : Bytes),
        ChildrenWrote r1 r2 mid → Balanced mid →
        (t = .NodeBlockquote ∨ t = .NodeListItem → stackTop r = some r.Writer) →
        h env r2 site1 false = some (r3, site3, st3) →
        (t = .NodeDocument → Balanced (bufBytes r3 r3.Writer)) ∧
        (t ≠ .NodeDocument → ∃ out, r3.Writer = r.Writer ∧
          bufBytes r3 r.Writer = bufBytes r r.Writer ++ out ∧ Balanced out)) := by
  constructor
  · intro hst
    subst hst
    by_cases ho : t = .NodeCodeSpanOpenMarker
    · subst ho
      cases hh
      obtain ⟨out, e, s⟩ := scans_renderCodeSpanOpenMarker env r r1 site site1 true _ [] hd hw hrun1
      exact ⟨out, e, fun h => absurd rfl h, fun _ => s, fun h => by cases h⟩
    · by_cases hc : t = .NodeCodeSpanCloseMarker
      · subst hc
        cases hh
        obtain ⟨out, e, s⟩ :=
          scans_renderCodeSpanCloseMarker env r r1 site site1 true _ [] hd hw hrun1
        exact ⟨out, e, fun _ h => absurd rfl h, fun h => (by cases h), fun _ => s⟩
      · obtain ⟨out, e, s⟩ := stop_handlers_scan t h hh hent hmath ho hc env r r1 site site1 true
          [] hd hw hpe hpn hrun1
        exact ⟨out, e, fun _ _ => s, fun h => absurd h ho, fun h => absurd h hc⟩
  · intro hst r2 r3 site3 st3 mid hcw hb htop hrun2
    subst hst
    by_cases hdoc : t = .NodeDocument
    · subst hdoc
      cases hh
      exact ⟨fun _ => balanced_pair_renderDocument env r r1 r2 r3 site site1 site3 _ st3 mid
        hrun1 hcw hb hrun2, fun h => absurd rfl h⟩
    · refine ⟨fun h => absurd h hdoc, fun _ => ?_⟩
      by_cases hbq : t = .NodeBlockquote
      · subst hbq
        cases hh
        exact balanced_pair_renderBlockquote env r r1 r2 r3 site site1 site3 _ st3 mid hw
          (htop (Or.inl rfl)) hrun1 hcw hb hrun2
      · by_cases hli : t = .NodeListItem
        · subst hli
          cases hh
          exact balanced_pair_renderListItem env r r1 r2 r3 site site1 site3 _ st3 mid hw
            (htop (Or.inr rfl)) (hpn.marker (Or.inr rfl)) hrun1 hcw hb hrun2
        · have ha : Appends r r1 :=
            handlers_append t h hh hdoc hbq hli env r r1 site site1 true _ hrun1
          have hw2 : r2.Writer < r2.buffers.length := by
            have h1 := hcw.frame.writer
            have h2 := hcw.frame.length
            have h3 := ha.writer
            have h4 := ha.length
            omega
          obtain ⟨o1, ⟨out1, e1, s1⟩, ⟨out3, e3, s3⟩⟩ :=
            pair_handlers_scan t h hh hdoc hbq hli env r r1 r2 r3 site site1 site3 st3 []
              hd hw hcw.tags hw2 hpe hpn hrun1 hrun2
          have hwr : r2.Writer = r.Writer := hcw.frame.writer.trans ha.writer
          refine ⟨out1 ++ mid ++ out3, ?_, ?_, ?_⟩
          · rw [e3.appends.writer, hwr]
          · have b3 := e3.bytes
            have b2 := hcw.bytes
            have b1 := e1.bytes
            rw [hwr] at b3
            rw [ha.writer] at b2
            rw [b3, b2, b1]
            simp only [List.append_assoc]
          · unfold Balanced
            rw [List.append_assoc, scanTags_append_of s1,
              scanTags_append_of (balanced_scan hb o1)]
            exact s3

/-- C23 (counterexample): with `DisableTags` equal to 0, the entering call of the handler
of the opening marker of a code span returns `WalkStop`, so that no exit call follows,
and the tags it wrote are not balanced: its last tag is an opening `span` that is left
unclosed. -/
theorem renderCodeSpanOpenMarker_leaves_span_open :
    RendererFuncs .NodeCodeSpanOpenMarker = some renderCodeSpanOpenMarker ∧
    initialRenderer.DisableTags = 0 ∧
    ∃ r' : VditorSVRenderer,
      renderCodeSpanOpenMarker escapingEnv initialRenderer codeSpanOpenSite true =
        some (r', codeSpanOpenSite, .WalkStop) ∧
      bufBytes r' r'.Writer = bytesOf "<span class=\"vditor-sv__marker\">`</span><span>" ∧
      OpensSpan (bytesOf "<span class=\"vditor-sv__marker\">`</span><span>") ∧
      ¬ Balanced (bytesOf "<span class=\"vditor-sv__marker\">`</span><span>") :=
  ⟨rfl, rfl, _, rfl, by decide, by unfold OpensSpan; decide, by unfold Balanced; decide⟩

/-! ## Theorems: the storage-level primitives and the value-level ones -/

theorem toV_bufWrite (r : Shared.Renderer) (p : Nat) (c : Bytes) :
    (Shared.bufWrite r p c).toVditorSVRenderer = bufWrite r.toVditorSVRenderer p c := rfl

theorem toV_bufReset (r : Shared.Renderer) (p : Nat) :
    (Shared.bufReset r p).toVditorSVRenderer = bufReset r.toVditorSVRenderer p := rfl

theorem toV_bufBytes (r : Shared.Renderer) (p : Nat) :
    Shared.bufBytes r p = bufBytes r.toVditorSVRenderer p := rfl

theorem toV_appendLastOut (r : Shared.Renderer) (c : Bytes) :
    (Shared.appendLastOut r c).toVditorSVRenderer =
      { r.toVditorSVRenderer with LastOut := appendLastOut r.LastOut c } := by
  unfold Shared.appendLastOut
  split <;> rfl

theorem toV_WriteByte (r : Shared.Renderer) (c : Nat) :
    (Shared.WriteByte r c).toVditorSVRenderer = WriteByte r.toVditorSVRenderer c := by
  unfold Shared.WriteByte WriteByte
  simp only [toV_appendLastOut]
  rfl

theorem toV_Write (r : Shared.Renderer) (c : Bytes) :
    (Shared.Write r c).toVditorSVRenderer = Write r.toVditorSVRenderer c := by
  unfold Shared.Write Write
  split
  · simp only [toV_appendLastOut]
    rfl
  · rfl

theorem toV_WriteString (r : Shared.Renderer) (c : Bytes) :
    (Shared.WriteString r c).toVditorSVRenderer = WriteString r.toVditorSVRenderer c := by
  unfold Shared.WriteString WriteString
  split
  · simp only [toV_appendLastOut]
    rfl
  · rfl

theorem toV_foldl_attrs (attrs : List (Bytes × Bytes)) : ∀ r : Shared.Renderer,
    (attrs.foldl (fun r attr => Shared.WriteString r
        (bytesOf " " ++ attr.1 ++ bytesOf "=\"" ++ attr.2 ++ bytesOf "\"")) r).toVditorSVRenderer =
      attrs.foldl (fun r attr => WriteString r
        (bytesOf " " ++ attr.1 ++ bytesOf "=\"" ++ attr.2 ++ bytesOf "\"")) r.toVditorSVRenderer := by
  induction attrs with
  | nil => intro r; rfl
  | cons a as ih =>
    intro r
    simp only [List.foldl_cons]
    rw [ih, toV_WriteString]

theorem toV_tag (r : Shared.Renderer) (name : Bytes) (attrs : List (Bytes × Bytes))
    (selfclosing : Bool) :
    (Shared.tag r name attrs selfclosing).toVditorSVRenderer =
      tag r.toVditorSVRenderer name attrs selfclosing := by
  unfold Shared.tag tag
  split
  · rfl
  · simp only [toV_WriteString]
    split <;> split <;> simp only [toV_WriteString, toV_foldl_attrs]

theorem toV_Newline (r : Shared.Renderer) (h : r.NewlineSV = NewlineSV) :
    (Shared.Newline r).toVditorSVRenderer = Newline r.toVditorSVRenderer := by
  unfold Shared.Newline Newline
  simp only [h]
  split <;> rfl

/-! ### Clean and sound states -/

theorem sound_of_clean {r : Shared.Renderer} (h : Shared.Clean r) : Shared.Sound r :=
  ⟨h.1, fun ha => by rw [h.2] at ha; cases ha⟩

theorem clean_bufWrite {r : Shared.Renderer} (p : Nat) (c : Bytes) (h : Shared.Clean r) :
    Shared.Clean (Shared.bufWrite r p c) := h

theorem clean_bufReset {r : Shared.Renderer} (p : Nat) (h : Shared.Clean r) :
    Shared.Clean (Shared.bufReset r p) := h

theorem sound_bufWrite {r : Shared.Renderer} (p : Nat) (c : Bytes) (h : Shared.Sound r) :
    Shared.Sound (Shared.bufWrite r p c) := h

theorem sound_bufReset {r : Shared.Renderer} (p : Nat) (h : Shared.Sound r) :
    Shared.Sound (Shared.bufReset r p) := h

theorem NewlineSV_length : NewlineSV.length = 75 := by decide

theorem clean_appendLastOut {r : Shared.Renderer} (c : Bytes) (h : Shared.Clean r) :
    Shared.Clean (Shared.appendLastOut r c) := by
  unfold Shared.appendLastOut
  rw [if_neg (by rw [h.2]; simp)]
  exact ⟨h.1, rfl⟩

/-- From a sound state an `append` of at least one byte allocates. -/
theorem clean_appendLastOut_of_sound {r : Shared.Renderer} (c : Bytes) (hc : c ≠ [])
    (h : Shared.Sound r) : Shared.Clean (Shared.appendLastOut r c) := by
  unfold Shared.appendLastOut
  have hl : 0 < c.length := List.length_pos.mpr hc
  split
  · rename_i hfit
    have hlo := h.2 hfit.1
    have := hfit.2
    rw [hlo, h.1] at this
    omega
  · exact ⟨h.1, rfl⟩

theorem sound_appendLastOut {r : Shared.Renderer} (c : Bytes) (h : Shared.Sound r) :
    Shared.Sound (Shared.appendLastOut r c) := by
  by_cases hc : c = []
  · subst hc
    unfold Shared.appendLastOut
    split
    · rename_i hfit
      have hlo := h.2 hfit.1
      refine ⟨?_, fun _ => ?_⟩
      · show r.NewlineSV.take r.LastOut.length ++ [] ++ r.NewlineSV.drop (r.LastOut.length + 0) = _
        simp [h.1]
      · show appendLastOut r.LastOut [] = _
        rw [hlo]
        decide
    · exact ⟨h.1, fun ha => by cases ha⟩
  · exact sound_of_clean (clean_appendLastOut_of_sound c hc h)

theorem clean_WriteByte {r : Shared.Renderer} (c : Nat) (h : Shared.Sound r) :
    Shared.Clean (Shared.WriteByte r c) :=
  clean_appendLastOut_of_sound [c] (by simp) (sound_bufWrite _ _ h)

theorem clean_Write {r : Shared.Renderer} (c : Bytes) (h : Shared.Clean r) :
    Shared.Clean (Shared.Write r c) := by
  unfold Shared.Write
  split
  · exact clean_appendLastOut c (clean_bufWrite _ _ h)
  · exact h

theorem sound_Write {r : Shared.Renderer} (c : Bytes) (h : Shared.Sound r) :
    Shared.Sound (Shared.Write r c) := by
  unfold Shared.Write
  split
  · exact sound_appendLastOut c (sound_bufWrite _ _ h)
  · exact h

theorem clean_Write_of_sound {r : Shared.Renderer} (c : Bytes) (hc : c ≠ [])
    (h : Shared.Sound r) : Shared.Clean (Shared.Write r c) := by
  unfold Shared.Write
  rw [if_pos (List.length_pos.mpr hc)]
  exact clean_appendLastOut_of_sound c hc (sound_bufWrite _ _ h)

theorem clean_WriteString {r : Shared.Renderer} (c : Bytes) (h : Shared.Clean r) :
    Shared.Clean (Shared.WriteString r c) := clean_Write c h

theorem sound_WriteString {r : Shared.Renderer} (c : Bytes) (h : Shared.Sound r) :
    Shared.Sound (Shared.WriteString r c) := sound_Write c h

theorem clean_WriteString_of_sound {r : Shared.Renderer} (c : Bytes) (hc : c ≠ [])
    (h : Shared.Sound r) : Shared.Clean (Shared.WriteString r c) := clean_Write_of_sound c hc h

theorem clean_foldl_attrs (attrs : List (Bytes × Bytes)) : ∀ r : Shared.Renderer,
    Shared.Clean r →
    Shared.Clean (attrs.foldl (fun r attr => Shared.WriteString r
        (bytesOf " " ++ attr.1 ++ bytesOf "=\"" ++ attr.2 ++ bytesOf "\"")) r) := by
  induction attrs with
  | nil => intro r h; exact h
  | cons a as ih =>
    intro r h
    simp only [List.foldl_cons]
    exact ih _ (clean_WriteString _ h)

/-- A tag written with `DisableTags` at 0 starts with `<`: from a sound state the state
after it is clean. -/
theorem clean_tag_of_sound {r : Shared.Renderer} (name : Bytes) (attrs : List (Bytes × Bytes))
    (selfclosing : Bool) (hd : r.DisableTags = 0) (h : Shared.Sound r) :
    Shared.Clean (Shared.tag r name attrs selfclosing) := by
  unfold Shared.tag
  rw [if_neg (by rw [hd]; decide)]
  have h1 : Shared.Clean (Shared.WriteString r (bytesOf "<")) :=
    clean_WriteString_of_sound _ (by decide) h
  have h2 := clean_WriteString name h1
  apply clean_WriteString
  split <;> split <;>
    first
      | exact clean_WriteString _ (clean_foldl_attrs _ _ h2)
      | exact clean_foldl_attrs _ _ h2
      | exact clean_WriteString _ h2
      | exact h2

theorem clean_tag {r : Shared.Renderer} (name : Bytes) (attrs : List (Bytes × Bytes))
    (selfclosing : Bool) (h : Shared.Clean r) :
    Shared.Clean (Shared.tag r name attrs selfclosing) := by
  unfold Shared.tag
  split
  · exact h
  · have h2 := clean_WriteString name (clean_WriteString (bytesOf "<") h)
    apply clean_WriteString
    split <;> split <;>
      first
        | exact clean_WriteString _ (clean_foldl_attrs _ _ h2)
        | exact clean_foldl_attrs _ _ h2
        | exact clean_WriteString _ h2
        | exact h2

/-- From a clean state `Newline` leaves a sound state: when it writes the separator,
`LastOut` is all of `NewlineSV`; when it does not, `LastOut` shares nothing. -/
theorem sound_Newline {r : Shared.Renderer} (h : Shared.Clean r) :
    Shared.Sound (Shared.Newline r) := by
  unfold Shared.Newline
  simp only []
  split
  · exact ⟨h.1, fun _ => h.1⟩
  · exact ⟨h.1, fun ha => by rw [show r.aliased = false from h.2] at ha; cases ha⟩

theorem toV_Newline_of_sound {r : Shared.Renderer} (h : Shared.Sound r) :
    (Shared.Newline r).toVditorSVRenderer = Newline r.toVditorSVRenderer :=
  toV_Newline r h.1

/-! ## Theorems: the handlers at the two levels -/

theorem toV_tagCloseSpan (r : Shared.Renderer) :
    (Shared.tagCloseSpan r).toVditorSVRenderer = tagCloseSpan r.toVditorSVRenderer :=
  toV_tag r _ _ _

theorem toV_renderSpanNode (r : Shared.Renderer) (node : Site) :
    (Shared.renderSpanNode r node).toVditorSVRenderer =
      renderSpanNode r.toVditorSVRenderer node :=
  toV_tag r _ _ _

theorem toV_padding (r : Shared.Renderer) (node : Site) :
    renderListItemBlockPadding r.toVditorSVRenderer node =
      (Shared.renderListItemBlockPadding r node).map (fun x => x.toVditorSVRenderer) := by
  unfold Shared.renderListItemBlockPadding renderListItemBlockPadding
  simp only []
  split
  · rfl
  · split
    · rfl
    · show (match Repeat (bytesOf " ") r.ListPadding with
        | none => none
        | some spaces => _) = _
      cases Repeat (bytesOf " ") r.ListPadding <;> rfl

theorem toV_stackTop (r : Shared.Renderer) :
    Shared.stackTop r = stackTop r.toVditorSVRenderer := rfl

theorem toV_stackPop (r : Shared.Renderer) :
    stackPop r.toVditorSVRenderer = (Shared.stackPop r).map (fun x => x.toVditorSVRenderer) := by
  unfold Shared.stackPop stackPop
  split <;> rfl

theorem toV_pushWriter (r : Shared.Renderer) :
    (Shared.pushWriter r).toVditorSVRenderer = pushWriter r.toVditorSVRenderer := rfl

theorem toV_rewriteWriter (r : Shared.Renderer) :
    (Shared.rewriteWriter r).toVditorSVRenderer = rewriteWriter r.toVditorSVRenderer := by
  unfold Shared.rewriteWriter rewriteWriter
  simp only [toV_Write]
  rfl

set_option maxHeartbeats 4000000 in
/-- A handler that does not read `NewlineSV` does at the level of values what the
value-level handler does, in every state. -/
theorem handlers_free_simulate (t : NodeType)
    (h2 : Env → Shared.Renderer → Site → Bool → Option Shared.Result)
    (h : Env → VditorSVRenderer → Site → Bool → Option Result)
    (hh2 : Shared.RendererFuncs t = some h2) (hh : RendererFuncs t = some h)
    (hfree : Shared.readsNewlineSV t = false) (hdoc : t ≠ .NodeDocument)
    (env : Env) (r : Shared.Renderer) (site : Site) (entering : Bool) :
    (h2 env r site entering).map Shared.project = h env r.toVditorSVRenderer site entering := by
  cases t <;>
    first
      | (cases hfree; done)
      | exact absurd rfl hdoc
      | (cases hh2 <;> cases hh)
  all_goals
    simp only [Shared.renderBackslash, Shared.renderBackslashContent, Shared.renderBang,
        Shared.renderBlockquote, Shared.renderBlockquoteMarker, Shared.renderCloseBracket,
        Shared.renderCloseParen, Shared.renderCodeBlock, Shared.renderCodeBlockCloseMarker,
        Shared.renderCodeBlockCode, Shared.renderCodeBlockInfoMarker,
        Shared.renderCodeBlockOpenMarker, Shared.renderCodeSpan, Shared.renderCodeSpanCloseMarker,
        Shared.renderCodeSpanContent, Shared.renderCodeSpanOpenMarker, Shared.renderDocument,
        Shared.renderEmAsteriskCloseMarker, Shared.renderEmAsteriskOpenMarker,
        Shared.renderEmUnderscoreCloseMarker, Shared.renderEmUnderscoreOpenMarker,
        Shared.renderEmoji, Shared.renderEmojiAlias, Shared.renderEmojiImg,
        Shared.renderEmojiUnicode, Shared.renderEmphasis, Shared.renderFootnotesDef,
        Shared.renderFootnotesRef, Shared.renderHTML, Shared.renderHardBreak,
        Shared.renderHeading, Shared.renderHeadingC8hMarker, Shared.renderHeadingID,
        Shared.renderHtmlEntity, Shared.renderImage, Shared.renderInlineHTML,
        Shared.renderInlineMath, Shared.renderInlineMathCloseMarker,
        Shared.renderInlineMathContent, Shared.renderInlineMathOpenMarker, Shared.renderLink,
        Shared.renderLinkDest, Shared.renderLinkSpace, Shared.renderLinkText,
        Shared.renderLinkTitle, Shared.renderList, Shared.renderListItem, Shared.renderMathBlock,
        Shared.renderMathBlockCloseMarker, Shared.renderMathBlockContent,
        Shared.renderMathBlockOpenMarker, Shared.renderOpenBracket, Shared.renderOpenParen,
        Shared.renderParagraph, Shared.renderSoftBreak, Shared.renderStrikethrough,
        Shared.renderStrikethrough1CloseMarker, Shared.renderStrikethrough1OpenMarker,
        Shared.renderStrikethrough2CloseMarker, Shared.renderStrikethrough2OpenMarker,
        Shared.renderStrong, Shared.renderStrongA6kCloseMarker, Shared.renderStrongA6kOpenMarker,
        Shared.renderStrongU8eCloseMarker, Shared.renderStrongU8eOpenMarker, Shared.renderTable,
        Shared.renderTableCell, Shared.renderTableHead, Shared.renderTableRow,
        Shared.renderTaskListItemMarker, Shared.renderText, Shared.renderThematicBreak,
        Shared.renderToC, Shared.renderMarker, Shared.renderSpan, Shared.renderContinue,
        Shared.taskMarker, renderBackslash, renderBackslashContent, renderBang, renderBlockquote,
        renderBlockquoteMarker, renderCloseBracket, renderCloseParen, renderCodeBlock,
        renderCodeBlockCloseMarker, renderCodeBlockCode, renderCodeBlockInfoMarker,
        renderCodeBlockOpenMarker, renderCodeSpan, renderCodeSpanCloseMarker,
        renderCodeSpanContent, renderCodeSpanOpenMarker, renderDocument,
        renderEmAsteriskCloseMarker, renderEmAsteriskOpenMarker, renderEmUnderscoreCloseMarker,
        renderEmUnderscoreOpenMarker, renderEmoji, renderEmojiAlias, renderEmojiImg,
        renderEmojiUnicode, renderEmphasis, renderFootnotesDef, renderFootnotesRef, renderHTML,
        renderHardBreak, renderHeading, renderHeadingC8hMarker, renderHeadingID, renderHtmlEntity,
        renderImage, renderInlineHTML, renderInlineMath, renderInlineMathCloseMarker,
        renderInlineMathContent, renderInlineMathOpenMarker, renderLink, renderLinkDest,
        renderLinkSpace, renderLinkText, renderLinkTitle, renderList, renderListItem,
        renderMathBlock, renderMathBlockCloseMarker, renderMathBlockContent,
        renderMathBlockOpenMarker, renderOpenBracket, renderOpenParen, renderParagraph,
        renderSoftBreak, renderStrikethrough, renderStrikethrough1CloseMarker,
        renderStrikethrough1OpenMarker, renderStrikethrough2CloseMarker,
        renderStrikethrough2OpenMarker, renderStrong, renderStrongA6kCloseMarker,
        renderStrongA6kOpenMarker, renderStrongU8eCloseMarker, renderStrongU8eOpenMarker,
        renderTable, renderTableCell, renderTableHead, renderTableRow, renderTaskListItemMarker,
        renderText, renderThematicBreak, renderToC, renderMarker, renderSpan, renderContinue,
        taskMarker,
        Shared.project, Option.bind_eq_bind, Option.pure_def, Option.map_some', Option.map_none',
        Option.map_bind', apply_ite (Option.map _), toV_tag, toV_tagCloseSpan,
        toV_renderSpanNode, toV_Write, toV_WriteString, toV_WriteByte, toV_padding,
        Option.bind_map, Function.comp_def,
        apply_ite Shared.Renderer.toVditorSVRenderer]
  all_goals
    repeat' first
      | rfl
      | (split <;> try simp only [*, Shared.renderBackslash, Shared.renderBackslashContent, Shared.renderBang,
          Shared.renderBlockquote, Shared.renderBlockquoteMarker, Shared.renderCloseBracket,
          Shared.renderCloseParen, Shared.renderCodeBlock, Shared.renderCodeBlockCloseMarker,
          Shared.renderCodeBlockCode, Shared.renderCodeBlockInfoMarker,
          Shared.renderCodeBlockOpenMarker, Shared.renderCodeSpan, Shared.renderCodeSpanCloseMarker,
          Shared.renderCodeSpanContent, Shared.renderCodeSpanOpenMarker, Shared.renderDocument,
          Shared.renderEmAsteriskCloseMarker, Shared.renderEmAsteriskOpenMarker,
          Shared.renderEmUnderscoreCloseMarker, Shared.renderEmUnderscoreOpenMarker,
          Shared.renderEmoji, Shared.renderEmojiAlias, Shared.renderEmojiImg,
          Shared.renderEmojiUnicode, Shared.renderEmphasis, Shared.renderFootnotesDef,
          Shared.renderFootnotesRef, Shared.renderHTML, Shared.renderHardBreak,
          Shared.renderHeading, Shared.renderHeadingC8hMarker, Shared.renderHeadingID,
          Shared.renderHtmlEntity, Shared.renderImage, Shared.renderInlineHTML,
          Shared.renderInlineMath, Shared.renderInlineMathCloseMarker,
          Shared.renderInlineMathContent, Shared.renderInlineMathOpenMarker, Shared.renderLink,
          Shared.renderLinkDest, Shared.renderLinkSpace, Shared.renderLinkText,
          Shared.renderLinkTitle, Shared.renderList, Shared.renderListItem, Shared.renderMathBlock,
          Shared.renderMathBlockCloseMarker, Shared.renderMathBlockContent,
          Shared.renderMathBlockOpenMarker, Shared.renderOpenBracket, Shared.renderOpenParen,
          Shared.renderParagraph, Shared.renderSoftBreak, Shared.renderStrikethrough,
          Shared.renderStrikethrough1CloseMarker, Shared.renderStrikethrough1OpenMarker,
          Shared.renderStrikethrough2CloseMarker, Shared.renderStrikethrough2OpenMarker,
          Shared.renderStrong, Shared.renderStrongA6kCloseMarker, Shared.renderStrongA6kOpenMarker,
          Shared.renderStrongU8eCloseMarker, Shared.renderStrongU8eOpenMarker, Shared.renderTable,
          Shared.renderTableCell, Shared.renderTableHead, Shared.renderTableRow,
          Shared.renderTaskListItemMarker, Shared.renderText, Shared.renderThematicBreak,
          Shared.renderToC, Shared.renderMarker, Shared.renderSpan, Shared.renderContinue,
          Shared.taskMarker, renderBackslash, renderBackslashContent, renderBang, renderBlockquote,
          renderBlockquoteMarker, renderCloseBracket, renderCloseParen, renderCodeBlock,
          renderCodeBlockCloseMarker, renderCodeBlockCode, renderCodeBlockInfoMarker,
          renderCodeBlockOpenMarker, renderCodeSpan, renderCodeSpanCloseMarker,
          renderCodeSpanContent, renderCodeSpanOpenMarker, renderDocument,
          renderEmAsteriskCloseMarker, renderEmAsteriskOpenMarker, renderEmUnderscoreCloseMarker,
          renderEmUnderscoreOpenMarker, renderEmoji, renderEmojiAlias, renderEmojiImg,
          renderEmojiUnicode, renderEmphasis, renderFootnotesDef, renderFootnotesRef, renderHTML,
          renderHardBreak, renderHeading, renderHeadingC8hMarker, renderHeadingID, renderHtmlEntity,
          renderImage, renderInlineHTML, renderInlineMath, renderInlineMathCloseMarker,
          renderInlineMathContent, renderInlineMathOpenMarker, renderLink, renderLinkDest,
          renderLinkSpace, renderLinkText, renderLinkTitle, renderList, renderListItem,
          renderMathBlock, renderMathBlockCloseMarker, renderMathBlockContent,
          renderMathBlockOpenMarker, renderOpenBracket, renderOpenParen, renderParagraph,
          renderSoftBreak, renderStrikethrough, renderStrikethrough1CloseMarker,
          renderStrikethrough1OpenMarker, renderStrikethrough2CloseMarker,
          renderStrikethrough2OpenMarker, renderStrong, renderStrongA6kCloseMarker,
          renderStrongA6kOpenMarker, renderStrongU8eCloseMarker, renderStrongU8eOpenMarker,
          renderTable, renderTableCell, renderTableHead, renderTableRow, renderTaskListItemMarker,
          renderText, renderThematicBreak, renderToC, renderMarker, renderSpan, renderContinue,
          taskMarker,
          Shared.project, Option.bind_eq_bind, Option.pure_def, Option.map_some', Option.map_none',
          Option.map_bind', apply_ite (Option.map _), toV_tag, toV_tagCloseSpan,
          toV_renderSpanNode, toV_Write, toV_WriteString, toV_WriteByte, toV_padding,
          Option.bind_map, Function.comp_def,
          apply_ite Shared.Renderer.toVditorSVRenderer])

/-! ### Handlers that read `NewlineSV` -/

theorem tags_bufWrite (v : VditorSVRenderer) (p : Nat) (c : Bytes) :
    (bufWrite v p c).DisableTags = v.DisableTags := rfl

theorem tags_bufReset (v : VditorSVRenderer) (p : Nat) :
    (bufReset v p).DisableTags = v.DisableTags := rfl

theorem tags_Write (v : VditorSVRenderer) (c : Bytes) :
    (Write v c).DisableTags = v.DisableTags := (appends_Write v c).tags

theorem tags_WriteString (v : VditorSVRenderer) (c : Bytes) :
    (WriteString v c).DisableTags = v.DisableTags := (appends_WriteString v c).tags

theorem tags_WriteByte (v : VditorSVRenderer) (c : Nat) :
    (WriteByte v c).DisableTags = v.DisableTags := (appends_WriteByte v c).tags

theorem tags_Newline (v : VditorSVRenderer) :
    (Newline v).DisableTags = v.DisableTags := (appends_Newline v).tags

theorem tags_tag (v : VditorSVRenderer) (name : Bytes) (attrs : List (Bytes × Bytes))
    (selfclosing : Bool) : (tag v name attrs selfclosing).DisableTags = v.DisableTags :=
  (appends_tag v name attrs selfclosing).tags

theorem tags_tagCloseSpan (v : VditorSVRenderer) :
    (tagCloseSpan v).DisableTags = v.DisableTags := tags_tag v _ _ _

theorem tags_rewriteWriter (v : VditorSVRenderer) :
    (rewriteWriter v).DisableTags = v.DisableTags := by
  unfold rewriteWriter
  rw [tags_Write]
  rfl

theorem trimNewlines_shared : ∀ (n : Nat) (buf : Bytes),
    Shared.trimNewlines NewlineSV n buf = trimNewlines n buf := by
  intro n
  induction n with
  | zero => intro buf; rfl
  | succ n ih =>
    intro buf
    unfold Shared.trimNewlines trimNewlines
    split
    · exact ih _
    · rfl

theorem sentinel_of_sound {r : Shared.Renderer} (h : Shared.Sound r) :
    r.NewlineSV = NewlineSV := h.1

theorem clean_tagCloseSpan_of_sound {r : Shared.Renderer} (hd : r.DisableTags = 0)
    (h : Shared.Sound r) : Shared.Clean (Shared.tagCloseSpan r) :=
  clean_tag_of_sound _ _ _ hd h

theorem sound_tag {r : Shared.Renderer} (name : Bytes) (attrs : List (Bytes × Bytes))
    (selfclosing : Bool) (hd : r.DisableTags = 0) (h : Shared.Sound r) :
    Shared.Sound (Shared.tag r name attrs selfclosing) :=
  sound_of_clean (clean_tag_of_sound name attrs selfclosing hd h)

theorem sound_rewriteWriter {r : Shared.Renderer} (h : Shared.Sound r) :
    Shared.Sound (Shared.rewriteWriter r) := by
  unfold Shared.rewriteWriter
  exact sound_Write _ (sound_bufReset _ h)

theorem clean_rewriteWriter {r : Shared.Renderer} (h : Shared.Clean r) :
    Shared.Clean (Shared.rewriteWriter r) := by
  unfold Shared.rewriteWriter
  exact clean_Write _ (clean_bufReset _ h)


theorem sharedTags_appendLastOut (r : Shared.Renderer) (c : Bytes) :
    (Shared.appendLastOut r c).DisableTags = r.DisableTags := by
  unfold Shared.appendLastOut
  split <;> rfl

theorem sharedTags_Write (r : Shared.Renderer) (c : Bytes) :
    (Shared.Write r c).DisableTags = r.DisableTags := by
  rw [toV_Write, tags_Write]

theorem sharedTags_WriteString (r : Shared.Renderer) (c : Bytes) :
    (Shared.WriteString r c).DisableTags = r.DisableTags := by
  rw [toV_WriteString, tags_WriteString]

theorem sharedTags_WriteByte (r : Shared.Renderer) (c : Nat) :
    (Shared.WriteByte r c).DisableTags = r.DisableTags := by
  rw [toV_WriteByte, tags_WriteByte]

theorem sharedTags_Newline (r : Shared.Renderer) :
    (Shared.Newline r).DisableTags = r.DisableTags := by
  unfold Shared.Newline
  simp only []
  split <;> rfl

theorem sharedTags_tag (r : Shared.Renderer) (name : Bytes) (attrs : List (Bytes × Bytes))
    (selfclosing : Bool) : (Shared.tag r name attrs selfclosing).DisableTags = r.DisableTags := by
  rw [toV_tag, tags_tag]

theorem sharedTags_tagCloseSpan (r : Shared.Renderer) :
    (Shared.tagCloseSpan r).DisableTags = r.DisableTags := sharedTags_tag r _ _ _

theorem sharedTags_bufWrite (r : Shared.Renderer) (p : Nat) (c : Bytes) :
    (Shared.bufWrite r p c).DisableTags = r.DisableTags := rfl

theorem sharedTags_bufReset (r : Shared.Renderer) (p : Nat) :
    (Shared.bufReset r p).DisableTags = r.DisableTags := rfl

theorem sharedTags_rewriteWriter (r : Shared.Renderer) :
    (Shared.rewriteWriter r).DisableTags = r.DisableTags := by
  rw [toV_rewriteWriter, tags_rewriteWriter]

theorem sound_ite {c : Prop} [Decidable c] {a b : Shared.Renderer} (ha : Shared.Sound a)
    (hb : Shared.Sound b) : Shared.Sound (if c then a else b) := by
  split <;> assumption

theorem clean_ite {c : Prop} [Decidable c] {a b : Shared.Renderer} (ha : Shared.Clean a)
    (hb : Shared.Clean b) : Shared.Clean (if c then a else b) := by
  split <;> assumption

theorem clean_of_eq {x : Shared.Renderer} (h1 : x.NewlineSV = NewlineSV)
    (h2 : x.aliased = false) : Shared.Clean x := ⟨h1, h2⟩

theorem sound_tagCloseSpan {r : Shared.Renderer} (hd : r.DisableTags = 0)
    (h : Shared.Sound r) : Shared.Sound (Shared.tagCloseSpan r) :=
  sound_of_clean (clean_tagCloseSpan_of_sound hd h)

theorem map_bind_congr {α β γ : Type} (p : β → γ) (x : Option α) (f : α → Option β)
    (g : α → Option γ) (h : ∀ a, Option.map p (f a) = g a) :
    Option.map p (x.bind f) = x.bind g := by
  cases x with
  | none => rfl
  | some a => exact h a

/-! ## Theorems: the handlers that read NewlineSV, from a clean state -/

theorem sim_renderCodeBlockCloseMarker (env : Env) (r : Shared.Renderer) (site : Site) (entering : Bool)
    (hc : Shared.Clean r) (hd : r.DisableTags = 0) :
    (Shared.renderCodeBlockCloseMarker env r site entering).map Shared.project =
      renderCodeBlockCloseMarker env r.toVditorSVRenderer site entering := by
  have hs := sound_of_clean hc
  have hc1 : r.NewlineSV = NewlineSV := hc.1
  have hc2 : r.aliased = false := hc.2
  simp (disch := (repeat' first
      | exact hc | exact hs | exact hd
      | with_reducible apply sound_ite | with_reducible apply clean_ite
      | with_reducible apply sound_Newline | with_reducible apply sound_Write
      | with_reducible apply sound_WriteString | with_reducible apply sound_tag
      | with_reducible apply sound_tagCloseSpan | with_reducible apply sound_bufWrite
      | with_reducible apply sound_bufReset | with_reducible apply sound_rewriteWriter
      | with_reducible apply clean_tag_of_sound
      | with_reducible apply clean_tagCloseSpan_of_sound | with_reducible apply clean_Write
      | with_reducible apply clean_WriteString | with_reducible apply clean_WriteByte
      | with_reducible apply clean_bufWrite | with_reducible apply clean_bufReset
      | with_reducible apply clean_rewriteWriter | with_reducible apply sound_of_clean
      | ((with_reducible apply clean_of_eq) <;> first | rfl | exact hc1 | exact hc2)
      | (simp only [sharedTags_bufWrite, sharedTags_bufReset, sharedTags_Write,
          sharedTags_WriteString, sharedTags_WriteByte, sharedTags_Newline, sharedTags_tag,
          sharedTags_tagCloseSpan, sharedTags_rewriteWriter, hd]; done)))
    only [Shared.renderCodeBlockCloseMarker, renderCodeBlockCloseMarker, Shared.renderMarker, renderMarker,
    Shared.renderListItemBlockPadding, renderListItemBlockPadding, Shared.project,
    Option.bind_eq_bind, Option.pure_def, Option.map_some', Option.map_none',
    Option.map_bind', Option.some_bind, Option.none_bind, apply_ite (Option.map _), toV_tag,
    toV_tagCloseSpan, toV_renderSpanNode, toV_Write, toV_WriteString, toV_WriteByte,
    toV_bufWrite, toV_bufReset, toV_bufBytes, toV_pushWriter, toV_rewriteWriter,
    toV_Newline_of_sound, sentinel_of_sound, trimNewlines_shared,
    apply_ite Shared.Renderer.toVditorSVRenderer]
  repeat' first
    | with_reducible rfl
    | (split <;> try simp (disch := (repeat' first
      | exact hc | exact hs | exact hd
      | with_reducible apply sound_ite | with_reducible apply clean_ite
      | with_reducible apply sound_Newline | with_reducible apply sound_Write
      | with_reducible apply sound_WriteString | with_reducible apply sound_tag
      | with_reducible apply sound_tagCloseSpan | with_reducible apply sound_bufWrite
      | with_reducible apply sound_bufReset | with_reducible apply sound_rewriteWriter
      | with_reducible apply clean_tag_of_sound
      | with_reducible apply clean_tagCloseSpan_of_sound | with_reducible apply clean_Write
      | with_reducible apply clean_WriteString | with_reducible apply clean_WriteByte
      | with_reducible apply clean_bufWrite | with_reducible apply clean_bufReset
      | with_reducible apply clean_rewriteWriter | with_reducible apply sound_of_clean
      | ((with_reducible apply clean_of_eq) <;> first | rfl | exact hc1 | exact hc2)
      | (simp only [sharedTags_bufWrite, sharedTags_bufReset, sharedTags_Write,
          sharedTags_WriteString, sharedTags_WriteByte, sharedTags_Newline, sharedTags_tag,
          sharedTags_tagCloseSpan, sharedTags_rewriteWriter, hd]; done)))
        only [*, Shared.project, Option.bind_eq_bind, Option.pure_def, Option.map_some', Option.map_none',
    Option.map_bind', Option.some_bind, Option.none_bind, apply_ite (Option.map _), toV_tag,
    toV_tagCloseSpan, toV_renderSpanNode, toV_Write, toV_WriteString, toV_WriteByte,
    toV_bufWrite, toV_bufReset, toV_bufBytes, toV_pushWriter, toV_rewriteWriter,
    toV_Newline_of_sound, sentinel_of_sound, trimNewlines_shared,
    apply_ite Shared.Renderer.toVditorSVRenderer])
  done

theorem sim_renderCodeBlockInfoMarker (env : Env) (r : Shared.Renderer) (site : Site) (entering : Bool)
    (hc : Shared.Clean r) (hd : r.DisableTags = 0) :
    (Shared.renderCodeBlockInfoMarker env r site entering).map Shared.project =
      renderCodeBlockInfoMarker env r.toVditorSVRenderer site entering := by
  have hs := sound_of_clean hc
  have hc1 : r.NewlineSV = NewlineSV := hc.1
  have hc2 : r.aliased = false := hc.2
  simp (disch := (repeat' first
      | exact hc | exact hs | exact hd
      | with_reducible apply sound_ite | with_reducible apply clean_ite
      | with_reducible apply sound_Newline | with_reducible apply sound_Write
      | with_reducible apply sound_WriteString | with_reducible apply sound_tag
      | with_reducible apply sound_tagCloseSpan | with_reducible apply sound_bufWrite
      | with_reducible apply sound_bufReset | with_reducible apply sound_rewriteWriter
      | with_reducible apply clean_tag_of_sound
      | with_reducible apply clean_tagCloseSpan_of_sound | with_reducible apply clean_Write
      | with_reducible apply clean_WriteString | with_reducible apply clean_WriteByte
      | with_reducible apply clean_bufWrite | with_reducible apply clean_bufReset
      | with_reducible apply clean_rewriteWriter | with_reducible apply sound_of_clean
      | ((with_reducible apply clean_of_eq) <;> first | rfl | exact hc1 | exact hc2)
      | (simp only [sharedTags_bufWrite, sharedTags_bufReset, sharedTags_Write,
          sharedTags_WriteString, sharedTags_WriteByte, sharedTags_Newline, sharedTags_tag,
          sharedTags_tagCloseSpan, sharedTags_rewriteWriter, hd]; done)))
    only [Shared.renderCodeBlockInfoMarker, renderCodeBlockInfoMarker, Shared.renderMarker, renderMarker,
    Shared.renderListItemBlockPadding, renderListItemBlockPadding, Shared.project,
    Option.bind_eq_bind, Option.pure_def, Option.map_some', Option.map_none',
    Option.map_bind', Option.some_bind, Option.none_bind, apply_ite (Option.map _), toV_tag,
    toV_tagCloseSpan, toV_renderSpanNode, toV_Write, toV_WriteString, toV_WriteByte,
    toV_bufWrite, toV_bufReset, toV_bufBytes, toV_pushWriter, toV_rewriteWriter,
    toV_Newline_of_sound, sentinel_of_sound, trimNewlines_shared,
    apply_ite Shared.Renderer.toVditorSVRenderer]
  repeat' first
    | with_reducible rfl
    | (split <;> try simp (disch := (repeat' first
      | exact hc | exact hs | exact hd
      | with_reducible apply sound_ite | with_reducible apply clean_ite
      | with_reducible apply sound_Newline | with_reducible apply sound_Write
      | with_reducible apply sound_WriteString | with_reducible apply sound_tag
      | with_reducible apply sound_tagCloseSpan | with_reducible apply sound_bufWrite
      | with_reducible apply sound_bufReset | with_reducible apply sound_rewriteWriter
      | with_reducible apply clean_tag_of_sound
      | with_reducible apply clean_tagCloseSpan_of_sound | with_reducible apply clean_Write
      | with_reducible apply clean_WriteString | with_reducible apply clean_WriteByte
      | with_reducible apply clean_bufWrite | with_reducible apply clean_bufReset
      | with_reducible apply clean_rewriteWriter | with_reducible apply sound_of_clean
      | ((with_reducible apply clean_of_eq) <;> first | rfl | exact hc1 | exact hc2)
      | (simp only [sharedTags_bufWrite, sharedTags_bufReset, sharedTags_Write,
          sharedTags_WriteString, sharedTags_WriteByte, sharedTags_Newline, sharedTags_tag,
          sharedTags_tagCloseSpan, sharedTags_rewriteWriter, hd]; done)))
        only [*, Shared.project, Option.bind_eq_bind, Option.pure_def, Option.map_some', Option.map_none',
    Option.map_bind', Option.some_bind, Option.none_bind, apply_ite (Option.map _), toV_tag,
    toV_tagCloseSpan, toV_renderSpanNode, toV_Write, toV_WriteString, toV_WriteByte,
    toV_bufWrite, toV_bufReset, toV_bufBytes, toV_pushWriter, toV_rewriteWriter,
    toV_Newline_of_sound, sentinel_of_sound, trimNewlines_shared,
    apply_ite Shared.Renderer.toVditorSVRenderer])
  done

theorem sim_renderCodeBlock (env : Env) (r : Shared.Renderer) (site : Site) (entering : Bool)
    (hc : Shared.Clean r) (hd : r.DisableTags = 0) :
    (Shared.renderCodeBlock env r site entering).map Shared.project =
      renderCodeBlock env r.toVditorSVRenderer site entering := by
  have hs := sound_of_clean hc
  have hc1 : r.NewlineSV = NewlineSV := hc.1
  have hc2 : r.aliased = false := hc.2
  simp (disch := (repeat' first
      | exact hc | exact hs | exact hd
      | with_reducible apply sound_ite | with_reducible apply clean_ite
      | with_reducible apply sound_Newline | with_reducible apply sound_Write
      | with_reducible apply sound_WriteString | with_reducible apply sound_tag
      | with_reducible apply sound_tagCloseSpan | with_reducible apply sound_bufWrite
      | with_reducible apply sound_bufReset | with_reducible apply sound_rewriteWriter
      | with_reducible apply clean_tag_of_sound
      | with_reducible apply clean_tagCloseSpan_of_sound | with_reducible apply clean_Write
      | with_reducible apply clean_WriteString | with_reducible apply clean_WriteByte
      | with_reducible apply clean_bufWrite | with_reducible apply clean_bufReset
      | with_reducible apply clean_rewriteWriter | with_reducible apply sound_of_clean
      | ((with_reducible apply clean_of_eq) <;> first | rfl | exact hc1 | exact hc2)
      | (simp only [sharedTags_bufWrite, sharedTags_bufReset, sharedTags_Write,
          sharedTags_WriteString, sharedTags_WriteByte, sharedTags_Newline, sharedTags_tag,
          sharedTags_tagCloseSpan, sharedTags_rewriteWriter, hd]; done)))
    only [Shared.renderCodeBlock, renderCodeBlock, Shared.renderMarker, renderMarker,
    Shared.renderListItemBlockPadding, renderListItemBlockPadding, Shared.project,
    Option.bind_eq_bind, Option.pure_def, Option.map_some', Option.map_none',
    Option.map_bind', Option.some_bind, Option.none_bind, apply_ite (Option.map _), toV_tag,
    toV_tagCloseSpan, toV_renderSpanNode, toV_Write, toV_WriteString, toV_WriteByte,
    toV_bufWrite, toV_bufReset, toV_bufBytes, toV_pushWriter, toV_rewriteWriter,
    toV_Newline_of_sound, sentinel_of_sound, trimNewlines_shared,
    apply_ite Shared.Renderer.toVditorSVRenderer]
  repeat' first
    | with_reducible rfl
    | (split <;> try simp (disch := (repeat' first
      | exact hc | exact hs | exact hd
      | with_reducible apply sound_ite | with_reducible apply clean_ite
      | with_reducible apply sound_Newline | with_reducible apply sound_Write
      | with_reducible apply sound_WriteString | with_reducible apply sound_tag
      | with_reducible apply sound_tagCloseSpan | with_reducible apply sound_bufWrite
      | with_reducible apply sound_bufReset | with_reducible apply sound_rewriteWriter
      | with_reducible apply clean_tag_of_sound
      | with_reducible apply clean_tagCloseSpan_of_sound | with_reducible apply clean_Write
      | with_reducible apply clean_WriteString | with_reducible apply clean_WriteByte
      | with_reducible apply clean_bufWrite | with_reducible apply clean_bufReset
      | with_reducible apply clean_rewriteWriter | with_reducible apply sound_of_clean
      | ((with_reducible apply clean_of_eq) <;> first | rfl | exact hc1 | exact hc2)
      | (simp only [sharedTags_bufWrite, sharedTags_bufReset, sharedTags_Write,
          sharedTags_WriteString, sharedTags_WriteByte, sharedTags_Newline, sharedTags_tag,
          sharedTags_tagCloseSpan, sharedTags_rewriteWriter, hd]; done)))
        only [*, Shared.project, Option.bind_eq_bind, Option.pure_def, Option.map_some', Option.map_none',
    Option.map_bind', Option.some_bind, Option.none_bind, apply_ite (Option.map _), toV_tag,
    toV_tagCloseSpan, toV_renderSpanNode, toV_Write, toV_WriteString, toV_WriteByte,
    toV_bufWrite, toV_bufReset, toV_bufBytes, toV_pushWriter, toV_rewriteWriter,
    toV_Newline_of_sound, sentinel_of_sound, trimNewlines_shared,
    apply_ite Shared.Renderer.toVditorSVRenderer])
  done

theorem sim_renderMathBlockCloseMarker (env : Env) (r : Shared.Renderer) (site : Site) (entering : Bool)
    (hc : Shared.Clean r) (hd : r.DisableTags = 0) :
    (Shared.renderMathBlockCloseMarker env r site entering).map Shared.project =
      renderMathBlockCloseMarker env r.toVditorSVRenderer site entering := by
  have hs := sound_of_clean hc
  have hc1 : r.NewlineSV = NewlineSV := hc.1
  have hc2 : r.aliased = false := hc.2
  simp (disch := (repeat' first
      | exact hc | exact hs | exact hd
      | with_reducible apply sound_ite | with_reducible apply clean_ite
      | with_reducible apply sound_Newline | with_reducible apply sound_Write
      | with_reducible apply sound_WriteString | with_reducible apply sound_tag
      | with_reducible apply sound_tagCloseSpan | with_reducible apply sound_bufWrite
      | with_reducible apply sound_bufReset | with_reducible apply sound_rewriteWriter
      | with_reducible apply clean_tag_of_sound
      | with_reducible apply clean_tagCloseSpan_of_sound | with_reducible apply clean_Write
      | with_reducible apply clean_WriteString | with_reducible apply clean_WriteByte
      | with_reducible apply clean_bufWrite | with_reducible apply clean_bufReset
      | with_reducible apply clean_rewriteWriter | with_reducible apply sound_of_clean
      | ((with_reducible apply clean_of_eq) <;> first | rfl | exact hc1 | exact hc2)
      | (simp only [sharedTags_bufWrite, sharedTags_bufReset, sharedTags_Write,
          sharedTags_WriteString, sharedTags_WriteByte, sharedTags_Newline, sharedTags_tag,
          sharedTags_tagCloseSpan, sharedTags_rewriteWriter, hd]; done)))
    only [Shared.renderMathBlockCloseMarker, renderMathBlockCloseMarker, Shared.renderMarker, renderMarker,
    Shared.renderListItemBlockPadding, renderListItemBlockPadding, Shared.project,
    Option.bind_eq_bind, Option.pure_def, Option.map_some', Option.map_none',
    Option.map_bind', Option.some_bind, Option.none_bind, apply_ite (Option.map _), toV_tag,
    toV_tagCloseSpan, toV_renderSpanNode, toV_Write, toV_WriteString, toV_WriteByte,
    toV_bufWrite, toV_bufReset, toV_bufBytes, toV_pushWriter, toV_rewriteWriter,
    toV_Newline_of_sound, sentinel_of_sound, trimNewlines_shared,
    apply_ite Shared.Renderer.toVditorSVRenderer]
  repeat' first
    | with_reducible rfl
    | (split <;> try simp (disch := (repeat' first
      | exact hc | exact hs | exact hd
      | with_reducible apply sound_ite | with_reducible apply clean_ite
      | with_reducible apply sound_Newline | with_reducible apply sound_Write
      | with_reducible apply sound_WriteString | with_reducible apply sound_tag
      | with_reducible apply sound_tagCloseSpan | with_reducible apply sound_bufWrite
      | with_reducible apply sound_bufReset | with_reducible apply sound_rewriteWriter
      | with_reducible apply clean_tag_of_sound
      | with_reducible apply clean_tagCloseSpan_of_sound | with_reducible apply clean_Write
      | with_reducible apply clean_WriteString | with_reducible apply clean_WriteByte
      | with_reducible apply clean_bufWrite | with_reducible apply clean_bufReset
      | with_reducible apply clean_rewriteWriter | with_reducible apply sound_of_clean
      | ((with_reducible apply clean_of_eq) <;> first | rfl | exact hc1 | exact hc2)
      | (simp only [sharedTags_bufWrite, sharedTags_bufReset, sharedTags_Write,
          sharedTags_WriteString, sharedTags_WriteByte, sharedTags_Newline, sharedTags_tag,
          sharedTags_tagCloseSpan, sharedTags_rewriteWriter, hd]; done)))
        only [*, Shared.project, Option.bind_eq_bind, Option.pure_def, Option.map_some', Option.map_none',
    Option.map_bind', Option.some_bind, Option.none_bind, apply_ite (Option.map _), toV_tag,
    toV_tagCloseSpan, toV_renderSpanNode, toV_Write, toV_WriteString, toV_WriteByte,
    toV_bufWrite, toV_bufReset, toV_bufBytes, toV_pushWriter, toV_rewriteWriter,
    toV_Newline_of_sound, sentinel_of_sound, trimNewlines_shared,
    apply_ite Shared.Renderer.toVditorSVRenderer])
  done

theorem sim_renderMathBlockOpenMarker (env : Env) (r : Shared.Renderer) (site : Site) (entering : Bool)
    (hc : Shared.Clean r) (hd : r.DisableTags = 0) :
    (Shared.renderMathBlockOpenMarker env r site entering).map Shared.project =
      renderMathBlockOpenMarker env r.toVditorSVRenderer site entering := by
  have hs := sound_of_clean hc
  have hc1 : r.NewlineSV = NewlineSV := hc.1
  have hc2 : r.aliased = false := hc.2
  simp (disch := (repeat' first
      | exact hc | exact hs | exact hd
      | with_reducible apply sound_ite | with_reducible apply clean_ite
      | with_reducible apply sound_Newline | with_reducible apply sound_Write
      | with_reducible apply sound_WriteString | with_reducible apply sound_tag
      | with_reducible apply sound_tagCloseSpan | with_reducible apply sound_bufWrite
      | with_reducible apply sound_bufReset | with_reducible apply sound_rewriteWriter
      | with_reducible apply clean_tag_of_sound
      | with_reducible apply clean_tagCloseSpan_of_sound | with_reducible apply clean_Write
      | with_reducible apply clean_WriteString | with_reducible apply clean_WriteByte
      | with_reducible apply clean_bufWrite | with_reducible apply clean_bufReset
      | with_reducible apply clean_rewriteWriter | with_reducible apply sound_of_clean
      | ((with_reducible apply clean_of_eq) <;> first | rfl | exact hc1 | exact hc2)
      | (simp only [sharedTags_bufWrite, sharedTags_bufReset, sharedTags_Write,
          sharedTags_WriteString, sharedTags_WriteByte, sharedTags_Newline, sharedTags_tag,
          sharedTags_tagCloseSpan, sharedTags_rewriteWriter, hd]; done)))
    only [Shared.renderMathBlockOpenMarker, renderMathBlockOpenMarker, Shared.renderMarker, renderMarker,
    Shared.renderListItemBlockPadding, renderListItemBlockPadding, Shared.project,
    Option.bind_eq_bind, Option.pure_def, Option.map_some', Option.map_none',
    Option.map_bind', Option.some_bind, Option.none_bind, apply_ite (Option.map _), toV_tag,
    toV_tagCloseSpan, toV_renderSpanNode, toV_Write, toV_WriteString, toV_WriteByte,
    toV_bufWrite, toV_bufReset, toV_bufBytes, toV_pushWriter, toV_rewriteWriter,
    toV_Newline_of_sound, sentinel_of_sound, trimNewlines_shared,
    apply_ite Shared.Renderer.toVditorSVRenderer]
  repeat' first
    | with_reducible rfl
    | (split <;> try simp (disch := (repeat' first
      | exact hc | exact hs | exact hd
      | with_reducible apply sound_ite | with_reducible apply clean_ite
      | with_reducible apply sound_Newline | with_reducible apply sound_Write
      | with_reducible apply sound_WriteString | with_reducible apply sound_tag
      | with_reducible apply sound_tagCloseSpan | with_reducible apply sound_bufWrite
      | with_reducible apply sound_bufReset | with_reducible apply sound_rewriteWriter
      | with_reducible apply clean_tag_of_sound
      | with_reducible apply clean_tagCloseSpan_of_sound | with_reducible apply clean_Write
      | with_reducible apply clean_WriteString | with_reducible apply clean_WriteByte
      | with_reducible apply clean_bufWrite | with_reducible apply clean_bufReset
      | with_reducible apply clean_rewriteWriter | with_reducible apply sound_of_clean
      | ((with_reducible apply clean_of_eq) <;> first | rfl | exact hc1 | exact hc2)
      | (simp only [sharedTags_bufWrite, sharedTags_bufReset, sharedTags_Write,
          sharedTags_WriteString, sharedTags_WriteByte, sharedTags_Newline, sharedTags_tag,
          sharedTags_tagCloseSpan, sharedTags_rewriteWriter, hd]; done)))
        only [*, Shared.project, Option.bind_eq_bind, Option.pure_def, Option.map_some', Option.map_none',
    Option.map_bind', Option.some_bind, Option.none_bind, apply_ite (Option.map _), toV_tag,
    toV_tagCloseSpan, toV_renderSpanNode, toV_Write, toV_WriteString, toV_WriteByte,
    toV_bufWrite, toV_bufReset, toV_bufBytes, toV_pushWriter, toV_rewriteWriter,
    toV_Newline_of_sound, sentinel_of_sound, trimNewlines_shared,
    apply_ite Shared.Renderer.toVditorSVRenderer])
  done

theorem sim_renderTable (env : Env) (r : Shared.Renderer) (site : Site) (entering : Bool)
    (hc : Shared.Clean r) (hd : r.DisableTags = 0) :
    (Shared.renderTable env r site entering).map Shared.project =
      renderTable env r.toVditorSVRenderer site entering := by
  have hs := sound_of_clean hc
  have hc1 : r.NewlineSV = NewlineSV := hc.1
  have hc2 : r.aliased = false := hc.2
  simp (disch := (repeat' first
      | exact hc | exact hs | exact hd
      | with_reducible apply sound_ite | with_reducible apply clean_ite
      | with_reducible apply sound_Newline | with_reducible apply sound_Write
      | with_reducible apply sound_WriteString | with_reducible apply sound_tag
      | with_reducible apply sound_tagCloseSpan | with_reducible apply sound_bufWrite
      | with_reducible apply sound_bufReset | with_reducible apply sound_rewriteWriter
      | with_reducible apply clean_tag_of_sound
      | with_reducible apply clean_tagCloseSpan_of_sound | with_reducible apply clean_Write
      | with_reducible apply clean_WriteString | with_reducible apply clean_WriteByte
      | with_reducible apply clean_bufWrite | with_reducible apply clean_bufReset
      | with_reducible apply clean_rewriteWriter | with_reducible apply sound_of_clean
      | ((with_reducible apply clean_of_eq) <;> first | rfl | exact hc1 | exact hc2)
      | (simp only [sharedTags_bufWrite, sharedTags_bufReset, sharedTags_Write,
          sharedTags_WriteString, sharedTags_WriteByte, sharedTags_Newline, sharedTags_tag,
          sharedTags_tagCloseSpan, sharedTags_rewriteWriter, hd]; done)))
    only [Shared.renderTable, renderTable, Shared.renderMarker, renderMarker,
    Shared.renderListItemBlockPadding, renderListItemBlockPadding, Shared.project,
    Option.bind_eq_bind, Option.pure_def, Option.map_some', Option.map_none',
    Option.map_bind', Option.some_bind, Option.none_bind, apply_ite (Option.map _), toV_tag,
    toV_tagCloseSpan, toV_renderSpanNode, toV_Write, toV_WriteString, toV_WriteByte,
    toV_bufWrite, toV_bufReset, toV_bufBytes, toV_pushWriter, toV_rewriteWriter,
    toV_Newline_of_sound, sentinel_of_sound, trimNewlines_shared,
    apply_ite Shared.Renderer.toVditorSVRenderer]
  repeat' first
    | with_reducible rfl
    | (split <;> try simp (disch := (repeat' first
      | exact hc | exact hs | exact hd
      | with_reducible apply sound_ite | with_reducible apply clean_ite
      | with_reducible apply sound_Newline | with_reducible apply sound_Write
      | with_reducible apply sound_WriteString | with_reducible apply sound_tag
      | with_reducible apply sound_tagCloseSpan | with_reducible apply sound_bufWrite
      | with_reducible apply sound_bufReset | with_reducible apply sound_rewriteWriter
      | with_reducible apply clean_tag_of_sound
      | with_reducible apply clean_tagCloseSpan_of_sound | with_reducible apply clean_Write
      | with_reducible apply clean_WriteString | with_reducible apply clean_WriteByte
      | with_reducible apply clean_bufWrite | with_reducible apply clean_bufReset
      | with_reducible apply clean_rewriteWriter | with_reducible apply sound_of_clean
      | ((with_reducible apply clean_of_eq) <;> first | rfl | exact hc1 | exact hc2)
      | (simp only [sharedTags_bufWrite, sharedTags_bufReset, sharedTags_Write,
          sharedTags_WriteString, sharedTags_WriteByte, sharedTags_Newline, sharedTags_tag,
          sharedTags_tagCloseSpan, sharedTags_rewriteWriter, hd]; done)))
        only [*, Shared.project, Option.bind_eq_bind, Option.pure_def, Option.map_some', Option.map_none',
    Option.map_bind', Option.some_bind, Option.none_bind, apply_ite (Option.map _), toV_tag,
    toV_tagCloseSpan, toV_renderSpanNode, toV_Write, toV_WriteString, toV_WriteByte,
    toV_bufWrite, toV_bufReset, toV_bufBytes, toV_pushWriter, toV_rewriteWriter,
    toV_Newline_of_sound, sentinel_of_sound, trimNewlines_shared,
    apply_ite Shared.Renderer.toVditorSVRenderer])
  done

theorem sim_renderHTML (env : Env) (r : Shared.Renderer) (site : Site) (entering : Bool)
    (hc : Shared.Clean r) (hd : r.DisableTags = 0) :
    (Shared.renderHTML env r site entering).map Shared.project =
      renderHTML env r.toVditorSVRenderer site entering := by
  have hs := sound_of_clean hc
  have hc1 : r.NewlineSV = NewlineSV := hc.1
  have hc2 : r.aliased = false := hc.2
  simp (disch := (repeat' first
      | exact hc | exact hs | exact hd
      | with_reducible apply sound_ite | with_reducible apply clean_ite
      | with_reducible apply sound_Newline | with_reducible apply sound_Write
      | with_reducible apply sound_WriteString | with_reducible apply sound_tag
      | with_reducible apply sound_tagCloseSpan | with_reducible apply sound_bufWrite
      | with_reducible apply sound_bufReset | with_reducible apply sound_rewriteWriter
      | with_reducible apply clean_tag_of_sound
      | with_reducible apply clean_tagCloseSpan_of_sound | with_reducible apply clean_Write
      | with_reducible apply clean_WriteString | with_reducible apply clean_WriteByte
      | with_reducible apply clean_bufWrite | with_reducible apply clean_bufReset
      | with_reducible apply clean_rewriteWriter | with_reducible apply sound_of_clean
      | ((with_reducible apply clean_of_eq) <;> first | rfl | exact hc1 | exact hc2)
      | (simp only [sharedTags_bufWrite, sharedTags_bufReset, sharedTags_Write,
          sharedTags_WriteString, sharedTags_WriteByte, sharedTags_Newline, sharedTags_tag,
          sharedTags_tagCloseSpan, sharedTags_rewriteWriter, hd]; done)))
    only [Shared.renderHTML, renderHTML, Shared.renderMarker, renderMarker,
    Shared.renderListItemBlockPadding, renderListItemBlockPadding, Shared.project,
    Option.bind_eq_bind, Option.pure_def, Option.map_some', Option.map_none',
    Option.map_bind', Option.some_bind, Option.none_bind, apply_ite (Option.map _), toV_tag,
    toV_tagCloseSpan, toV_renderSpanNode, toV_Write, toV_WriteString, toV_WriteByte,
    toV_bufWrite, toV_bufReset, toV_bufBytes, toV_pushWriter, toV_rewriteWriter,
    toV_Newline_of_sound, sentinel_of_sound, trimNewlines_shared,
    apply_ite Shared.Renderer.toVditorSVRenderer]
  repeat' first
    | with_reducible rfl
    | (split <;> try simp (disch := (repeat' first
      | exact hc | exact hs | exact hd
      | with_reducible apply sound_ite | with_reducible apply clean_ite
      | with_reducible apply sound_Newline | with_reducible apply sound_Write
      | with_reducible apply sound_WriteString | with_reducible apply sound_tag
      | with_reducible apply sound_tagCloseSpan | with_reducible apply sound_bufWrite
      | with_reducible apply sound_bufReset | with_reducible apply sound_rewriteWriter
      | with_reducible apply clean_tag_of_sound
      | with_reducible apply clean_tagCloseSpan_of_sound | with_reducible apply clean_Write
      | with_reducible apply clean_WriteString | with_reducible apply clean_WriteByte
      | with_reducible apply clean_bufWrite | with_reducible apply clean_bufReset
      | with_reducible apply clean_rewriteWriter | with_reducible apply sound_of_clean
      | ((with_reducible apply clean_of_eq) <;> first | rfl | exact hc1 | exact hc2)
      | (simp only [sharedTags_bufWrite, sharedTags_bufReset, sharedTags_Write,
          sharedTags_WriteString, sharedTags_WriteByte, sharedTags_Newline, sharedTags_tag,
          sharedTags_tagCloseSpan, sharedTags_rewriteWriter, hd]; done)))
        only [*, Shared.project, Option.bind_eq_bind, Option.pure_def, Option.map_some', Option.map_none',
    Option.map_bind', Option.some_bind, Option.none_bind, apply_ite (Option.map _), toV_tag,
    toV_tagCloseSpan, toV_renderSpanNode, toV_Write, toV_WriteString, toV_WriteByte,
    toV_bufWrite, toV_bufReset, toV_bufBytes, toV_pushWriter, toV_rewriteWriter,
    toV_Newline_of_sound, sentinel_of_sound, trimNewlines_shared,
    apply_ite Shared.Renderer.toVditorSVRenderer])
  done

theorem sim_renderParagraph (env : Env) (r : Shared.Renderer) (site : Site) (entering : Bool)
    (hc : Shared.Clean r) (hd : r.DisableTags = 0) :
    (Shared.renderParagraph env r site entering).map Shared.project =
      renderParagraph env r.toVditorSVRenderer site entering := by
  have hs := sound_of_clean hc
  have hc1 : r.NewlineSV = NewlineSV := hc.1
  have hc2 : r.aliased = false := hc.2
  simp (disch := (repeat' first
      | exact hc | exact hs | exact hd
      | with_reducible apply sound_ite | with_reducible apply clean_ite
      | with_reducible apply sound_Newline | with_reducible apply sound_Write
      | with_reducible apply sound_WriteString | with_reducible apply sound_tag
      | with_reducible apply sound_tagCloseSpan | with_reducible apply sound_bufWrite
      | with_reducible apply sound_bufReset | with_reducible apply sound_rewriteWriter
      | with_reducible apply clean_tag_of_sound
      | with_reducible apply clean_tagCloseSpan_of_sound | with_reducible apply clean_Write
      | with_reducible apply clean_WriteString | with_reducible apply clean_WriteByte
      | with_reducible apply clean_bufWrite | with_reducible apply clean_bufReset
      | with_reducible apply clean_rewriteWriter | with_reducible apply sound_of_clean
      | ((with_reducible apply clean_of_eq) <;> first | rfl | exact hc1 | exact hc2)
      | (simp only [sharedTags_bufWrite, sharedTags_bufReset, sharedTags_Write,
          sharedTags_WriteString, sharedTags_WriteByte, sharedTags_Newline, sharedTags_tag,
          sharedTags_tagCloseSpan, sharedTags_rewriteWriter, hd]; done)))
    only [Shared.renderParagraph, renderParagraph, Shared.renderMarker, renderMarker,
    Shared.renderListItemBlockPadding, renderListItemBlockPadding, Shared.project,
    Option.bind_eq_bind, Option.pure_def, Option.map_some', Option.map_none',
    Option.map_bind', Option.some_bind, Option.none_bind, apply_ite (Option.map _), toV_tag,
    toV_tagCloseSpan, toV_renderSpanNode, toV_Write, toV_WriteString, toV_WriteByte,
    toV_bufWrite, toV_bufReset, toV_bufBytes, toV_pushWriter, toV_rewriteWriter,
    toV_Newline_of_sound, sentinel_of_sound, trimNewlines_shared,
    apply_ite Shared.Renderer.toVditorSVRenderer]
  repeat' first
    | with_reducible rfl
    | (split <;> try simp (disch := (repeat' first
      | exact hc | exact hs | exact hd
      | with_reducible apply sound_ite | with_reducible apply clean_ite
      | with_reducible apply sound_Newline | with_reducible apply sound_Write
      | with_reducible apply sound_WriteString | with_reducible apply sound_tag
      | with_reducible apply sound_tagCloseSpan | with_reducible apply sound_bufWrite
      | with_reducible apply sound_bufReset | with_reducible apply sound_rewriteWriter
      | with_reducible apply clean_tag_of_sound
      | with_reducible apply clean_tagCloseSpan_of_sound | with_reducible apply clean_Write
      | with_reducible apply clean_WriteString | with_reducible apply clean_WriteByte
      | with_reducible apply clean_bufWrite | with_reducible apply clean_bufReset
      | with_reducible apply clean_rewriteWriter | with_reducible apply sound_of_clean
      | ((with_reducible apply clean_of_eq) <;> first | rfl | exact hc1 | exact hc2)
      | (simp only [sharedTags_bufWrite, sharedTags_bufReset, sharedTags_Write,
          sharedTags_WriteString, sharedTags_WriteByte, sharedTags_Newline, sharedTags_tag,
          sharedTags_tagCloseSpan, sharedTags_rewriteWriter, hd]; done)))
        only [*, Shared.project, Option.bind_eq_bind, Option.pure_def, Option.map_some', Option.map_none',
    Option.map_bind', Option.some_bind, Option.none_bind, apply_ite (Option.map _), toV_tag,
    toV_tagCloseSpan, toV_renderSpanNode, toV_Write, toV_WriteString, toV_WriteByte,
    toV_bufWrite, toV_bufReset, toV_bufBytes, toV_pushWriter, toV_rewriteWriter,
    toV_Newline_of_sound, sentinel_of_sound, trimNewlines_shared,
    apply_ite Shared.Renderer.toVditorSVRenderer])
  done

theorem sim_renderHeading (env : Env) (r : Shared.Renderer) (site : Site) (entering : Bool)
    (hc : Shared.Clean r) (hd : r.DisableTags = 0) :
    (Shared.renderHeading env r site entering).map Shared.project =
      renderHeading env r.toVditorSVRenderer site entering := by
  have hs := sound_of_clean hc
  have hc1 : r.NewlineSV = NewlineSV := hc.1
  have hc2 : r.aliased = false := hc.2
  simp (disch := (repeat' first
      | exact hc | exact hs | exact hd
      | with_reducible apply sound_ite | with_reducible apply clean_ite
      | with_reducible apply sound_Newline | with_reducible apply sound_Write
      | with_reducible apply sound_WriteString | with_reducible apply sound_tag
      | with_reducible apply sound_tagCloseSpan | with_reducible apply sound_bufWrite
      | with_reducible apply sound_bufReset | with_reducible apply sound_rewriteWriter
      | with_reducible apply clean_tag_of_sound
      | with_reducible apply clean_tagCloseSpan_of_sound | with_reducible apply clean_Write
      | with_reducible apply clean_WriteString | with_reducible apply clean_WriteByte
      | with_reducible apply clean_bufWrite | with_reducible apply clean_bufReset
      | with_reducible apply clean_rewriteWriter | with_reducible apply sound_of_clean
      | ((with_reducible apply clean_of_eq) <;> first | rfl | exact hc1 | exact hc2)
      | (simp only [sharedTags_bufWrite, sharedTags_bufReset, sharedTags_Write,
          sharedTags_WriteString, sharedTags_WriteByte, sharedTags_Newline, sharedTags_tag,
          sharedTags_tagCloseSpan, sharedTags_rewriteWriter, hd]; done)))
    only [Shared.renderHeading, renderHeading, Shared.renderMarker, renderMarker,
    Shared.renderListItemBlockPadding, renderListItemBlockPadding, Shared.project,
    Option.bind_eq_bind, Option.pure_def, Option.map_some', Option.map_none',
    Option.map_bind', Option.some_bind, Option.none_bind, apply_ite (Option.map _), toV_tag,
    toV_tagCloseSpan, toV_renderSpanNode, toV_Write, toV_WriteString, toV_WriteByte,
    toV_bufWrite, toV_bufReset, toV_bufBytes, toV_pushWriter, toV_rewriteWriter,
    toV_Newline_of_sound, sentinel_of_sound, trimNewlines_shared,
    apply_ite Shared.Renderer.toVditorSVRenderer]
  repeat' first
    | with_reducible rfl
    | (split <;> try simp (disch := (repeat' first
      | exact hc | exact hs | exact hd
      | with_reducible apply sound_ite | with_reducible apply clean_ite
      | with_reducible apply sound_Newline | with_reducible apply sound_Write
      | with_reducible apply sound_WriteString | with_reducible apply sound_tag
      | with_reducible apply sound_tagCloseSpan | with_reducible apply sound_bufWrite
      | with_reducible apply sound_bufReset | with_reducible apply sound_rewriteWriter
      | with_reducible apply clean_tag_of_sound
      | with_reducible apply clean_tagCloseSpan_of_sound | with_reducible apply clean_Write
      | with_reducible apply clean_WriteString | with_reducible apply clean_WriteByte
      | with_reducible apply clean_bufWrite | with_reducible apply clean_bufReset
      | with_reducible apply clean_rewriteWriter | with_reducible apply sound_of_clean
      | ((with_reducible apply clean_of_eq) <;> first | rfl | exact hc1 | exact hc2)
      | (simp only [sharedTags_bufWrite, sharedTags_bufReset, sharedTags_Write,
          sharedTags_WriteString, sharedTags_WriteByte, sharedTags_Newline, sharedTags_tag,
          sharedTags_tagCloseSpan, sharedTags_rewriteWriter, hd]; done)))
        only [*, Shared.project, Option.bind_eq_bind, Option.pure_def, Option.map_some', Option.map_none',
    Option.map_bind', Option.some_bind, Option.none_bind, apply_ite (Option.map _), toV_tag,
    toV_tagCloseSpan, toV_renderSpanNode, toV_Write, toV_WriteString, toV_WriteByte,
    toV_bufWrite, toV_bufReset, toV_bufBytes, toV_pushWriter, toV_rewriteWriter,
    toV_Newline_of_sound, sentinel_of_sound, trimNewlines_shared,
    apply_ite Shared.Renderer.toVditorSVRenderer])
  done

theorem sim_renderThematicBreak (env : Env) (r : Shared.Renderer) (site : Site) (entering : Bool)
    (hc : Shared.Clean r) (hd : r.DisableTags = 0) :
    (Shared.renderThematicBreak env r site entering).map Shared.project =
      renderThematicBreak env r.toVditorSVRenderer site entering := by
  have hs := sound_of_clean hc
  have hc1 : r.NewlineSV = NewlineSV := hc.1
  have hc2 : r.aliased = false := hc.2
  simp (disch := (repeat' first
      | exact hc | exact hs | exact hd
      | with_reducible apply sound_ite | with_reducible apply clean_ite
      | with_reducible apply sound_Newline | with_reducible apply sound_Write
      | with_reducible apply sound_WriteString | with_reducible apply sound_tag
      | with_reducible apply sound_tagCloseSpan | with_reducible apply sound_bufWrite
      | with_reducible apply sound_bufReset | with_reducible apply sound_rewriteWriter
      | with_reducible apply clean_tag_of_sound
      | with_reducible apply clean_tagCloseSpan_of_sound | with_reducible apply clean_Write
      | with_reducible apply clean_WriteString | with_reducible apply clean_WriteByte
      | with_reducible apply clean_bufWrite | with_reducible apply clean_bufReset
      | with_reducible apply clean_rewriteWriter | with_reducible apply sound_of_clean
      | ((with_reducible apply clean_of_eq) <;> first | rfl | exact hc1 | exact hc2)
      | (simp only [sharedTags_bufWrite, sharedTags_bufReset, sharedTags_Write,
          sharedTags_WriteString, sharedTags_WriteByte, sharedTags_Newline, sharedTags_tag,
          sharedTags_tagCloseSpan, sharedTags_rewriteWriter, hd]; done)))
    only [Shared.renderThematicBreak, renderThematicBreak, Shared.renderMarker, renderMarker,
    Shared.renderListItemBlockPadding, renderListItemBlockPadding, Shared.project,
    Option.bind_eq_bind, Option.pure_def, Option.map_some', Option.map_none',
    Option.map_bind', Option.some_bind, Option.none_bind, apply_ite (Option.map _), toV_tag,
    toV_tagCloseSpan, toV_renderSpanNode, toV_Write, toV_WriteString, toV_WriteByte,
    toV_bufWrite, toV_bufReset, toV_bufBytes, toV_pushWriter, toV_rewriteWriter,
    toV_Newline_of_sound, sentinel_of_sound, trimNewlines_shared,
    apply_ite Shared.Renderer.toVditorSVRenderer]
  repeat' first
    | with_reducible rfl
    | (split <;> try simp (disch := (repeat' first
      | exact hc | exact hs | exact hd
      | with_reducible apply sound_ite | with_reducible apply clean_ite
      | with_reducible apply sound_Newline | with_reducible apply sound_Write
      | with_reducible apply sound_WriteString | with_reducible apply sound_tag
      | with_reducible apply sound_tagCloseSpan | with_reducible apply sound_bufWrite
      | with_reducible apply sound_bufReset | with_reducible apply sound_rewriteWriter
      | with_reducible apply clean_tag_of_sound
      | with_reducible apply clean_tagCloseSpan_of_sound | with_reducible apply clean_Write
      | with_reducible apply clean_WriteString | with_reducible apply clean_WriteByte
      | with_reducible apply clean_bufWrite | with_reducible apply clean_bufReset
      | with_reducible apply clean_rewriteWriter | with_reducible apply sound_of_clean
      | ((with_reducible apply clean_of_eq) <;> first | rfl | exact hc1 | exact hc2)
      | (simp only [sharedTags_bufWrite, sharedTags_bufReset, sharedTags_Write,
          sharedTags_WriteString, sharedTags_WriteByte, sharedTags_Newline, sharedTags_tag,
          sharedTags_tagCloseSpan, sharedTags_rewriteWriter, hd]; done)))
        only [*, Shared.project, Option.bind_eq_bind, Option.pure_def, Option.map_some', Option.map_none',
    Option.map_bind', Option.some_bind, Option.none_bind, apply_ite (Option.map _), toV_tag,
    toV_tagCloseSpan, toV_renderSpanNode, toV_Write, toV_WriteString, toV_WriteByte,
    toV_bufWrite, toV_bufReset, toV_bufBytes, toV_pushWriter, toV_rewriteWriter,
    toV_Newline_of_sound, sentinel_of_sound, trimNewlines_shared,
    apply_ite Shared.Renderer.toVditorSVRenderer])
  done

theorem sim_renderHardBreak (env : Env) (r : Shared.Renderer) (site : Site) (entering : Bool)
    (hc : Shared.Clean r) (hd : r.DisableTags = 0) :
    (Shared.renderHardBreak env r site entering).map Shared.project =
      renderHardBreak env r.toVditorSVRenderer site entering := by
  have hs := sound_of_clean hc
  have hc1 : r.NewlineSV = NewlineSV := hc.1
  have hc2 : r.aliased = false := hc.2
  simp (disch := (repeat' first
      | exact hc | exact hs | exact hd
      | with_reducible apply sound_ite | with_reducible apply clean_ite
      | with_reducible apply sound_Newline | with_reducible apply sound_Write
      | with_reducible apply sound_WriteString | with_reducible apply sound_tag
      | with_reducible apply sound_tagCloseSpan | with_reducible apply sound_bufWrite
      | with_reducible apply sound_bufReset | with_reducible apply sound_rewriteWriter
      | with_reducible apply clean_tag_of_sound
      | with_reducible apply clean_tagCloseSpan_of_sound | with_reducible apply clean_Write
      | with_reducible apply clean_WriteString | with_reducible apply clean_WriteByte
      | with_reducible apply clean_bufWrite | with_reducible apply clean_bufReset
      | with_reducible apply clean_rewriteWriter | with_reducible apply sound_of_clean
      | ((with_reducible apply clean_of_eq) <;> first | rfl | exact hc1 | exact hc2)
      | (simp only [sharedTags_bufWrite, sharedTags_bufReset, sharedTags_Write,
          sharedTags_WriteString, sharedTags_WriteByte, sharedTags_Newline, sharedTags_tag,
          sharedTags_tagCloseSpan, sharedTags_rewriteWriter, hd]; done)))
    only [Shared.renderHardBreak, renderHardBreak, Shared.renderMarker, renderMarker,
    Shared.renderListItemBlockPadding, renderListItemBlockPadding, Shared.project,
    Option.bind_eq_bind, Option.pure_def, Option.map_some', Option.map_none',
    Option.map_bind', Option.some_bind, Option.none_bind, apply_ite (Option.map _), toV_tag,
    toV_tagCloseSpan, toV_renderSpanNode, toV_Write, toV_WriteString, toV_WriteByte,
    toV_bufWrite, toV_bufReset, toV_bufBytes, toV_pushWriter, toV_rewriteWriter,
    toV_Newline_of_sound, sentinel_of_sound, trimNewlines_shared,
    apply_ite Shared.Renderer.toVditorSVRenderer]
  repeat' first
    | with_reducible rfl
    | (split <;> try simp (disch := (repeat' first
      | exact hc | exact hs | exact hd
      | with_reducible apply sound_ite | with_reducible apply clean_ite
      | with_reducible apply sound_Newline | with_reducible apply sound_Write
      | with_reducible apply sound_WriteString | with_reducible apply sound_tag
      | with_reducible apply sound_tagCloseSpan | with_reducible apply sound_bufWrite
      | with_reducible apply sound_bufReset | with_reducible apply sound_rewriteWriter
      | with_reducible apply clean_tag_of_sound
      | with_reducible apply clean_tagCloseSpan_of_sound | with_reducible apply clean_Write
      | with_reducible apply clean_WriteString | with_reducible apply clean_WriteByte
      | with_reducible apply clean_bufWrite | with_reducible apply clean_bufReset
      | with_reducible apply clean_rewriteWriter | with_reducible apply sound_of_clean
      | ((with_reducible apply clean_of_eq) <;> first | rfl | exact hc1 | exact hc2)
      | (simp only [sharedTags_bufWrite, sharedTags_bufReset, sharedTags_Write,
          sharedTags_WriteString, sharedTags_WriteByte, sharedTags_Newline, sharedTags_tag,
          sharedTags_tagCloseSpan, sharedTags_rewriteWriter, hd]; done)))
        only [*, Shared.project, Option.bind_eq_bind, Option.pure_def, Option.map_some', Option.map_none',
    Option.map_bind', Option.some_bind, Option.none_bind, apply_ite (Option.map _), toV_tag,
    toV_tagCloseSpan, toV_renderSpanNode, toV_Write, toV_WriteString, toV_WriteByte,
    toV_bufWrite, toV_bufReset, toV_bufBytes, toV_pushWriter, toV_rewriteWriter,
    toV_Newline_of_sound, sentinel_of_sound, trimNewlines_shared,
    apply_ite Shared.Renderer.toVditorSVRenderer])
  done

theorem sim_renderSoftBreak (env : Env) (r : Shared.Renderer) (site : Site) (entering : Bool)
    (hc : Shared.Clean r) (hd : r.DisableTags = 0) :
    (Shared.renderSoftBreak env r site entering).map Shared.project =
      renderSoftBreak env r.toVditorSVRenderer site entering := by
  have hs := sound_of_clean hc
  have hc1 : r.NewlineSV = NewlineSV := hc.1
  have hc2 : r.aliased = false := hc.2
  simp (disch := (repeat' first
      | exact hc | exact hs | exact hd
      | with_reducible apply sound_ite | with_reducible apply clean_ite
      | with_reducible apply sound_Newline | with_reducible apply sound_Write
      | with_reducible apply sound_WriteString | with_reducible apply sound_tag
      | with_reducible apply sound_tagCloseSpan | with_reducible apply sound_bufWrite
      | with_reducible apply sound_bufReset | with_reducible apply sound_rewriteWriter
      | with_reducible apply clean_tag_of_sound
      | with_reducible apply clean_tagCloseSpan_of_sound | with_reducible apply clean_Write
      | with_reducible apply clean_WriteString | with_reducible apply clean_WriteByte
      | with_reducible apply clean_bufWrite | with_reducible apply clean_bufReset
      | with_reducible apply clean_rewriteWriter | with_reducible apply sound_of_clean
      | ((with_reducible apply clean_of_eq) <;> first | rfl | exact hc1 | exact hc2)
      | (simp only [sharedTags_bufWrite, sharedTags_bufReset, sharedTags_Write,
          sharedTags_WriteString, sharedTags_WriteByte, sharedTags_Newline, sharedTags_tag,
          sharedTags_tagCloseSpan, sharedTags_rewriteWriter, hd]; done)))
    only [Shared.renderSoftBreak, renderSoftBreak, Shared.renderMarker, renderMarker,
    Shared.renderListItemBlockPadding, renderListItemBlockPadding, Shared.project,
    Option.bind_eq_bind, Option.pure_def, Option.map_some', Option.map_none',
    Option.map_bind', Option.some_bind, Option.none_bind, apply_ite (Option.map _), toV_tag,
    toV_tagCloseSpan, toV_renderSpanNode, toV_Write, toV_WriteString, toV_WriteByte,
    toV_bufWrite, toV_bufReset, toV_bufBytes, toV_pushWriter, toV_rewriteWriter,
    toV_Newline_of_sound, sentinel_of_sound, trimNewlines_shared,
    apply_ite Shared.Renderer.toVditorSVRenderer]
  repeat' first
    | with_reducible rfl
    | (split <;> try simp (disch := (repeat' first
      | exact hc | exact hs | exact hd
      | with_reducible apply sound_ite | with_reducible apply clean_ite
      | with_reducible apply sound_Newline | with_reducible apply sound_Write
      | with_reducible apply sound_WriteString | with_reducible apply sound_tag
      | with_reducible apply sound_tagCloseSpan | with_reducible apply sound_bufWrite
      | with_reducible apply sound_bufReset | with_reducible apply sound_rewriteWriter
      | with_reducible apply clean_tag_of_sound
      | with_reducible apply clean_tagCloseSpan_of_sound | with_reducible apply clean_Write
      | with_reducible apply clean_WriteString | with_reducible apply clean_WriteByte
      | with_reducible apply clean_bufWrite | with_reducible apply clean_bufReset
      | with_reducible apply clean_rewriteWriter | with_reducible apply sound_of_clean
      | ((with_reducible apply clean_of_eq) <;> first | rfl | exact hc1 | exact hc2)
      | (simp only [sharedTags_bufWrite, sharedTags_bufReset, sharedTags_Write,
          sharedTags_WriteString, sharedTags_WriteByte, sharedTags_Newline, sharedTags_tag,
          sharedTags_tagCloseSpan, sharedTags_rewriteWriter, hd]; done)))
        only [*, Shared.project, Option.bind_eq_bind, Option.pure_def, Option.map_some', Option.map_none',
    Option.map_bind', Option.some_bind, Option.none_bind, apply_ite (Option.map _), toV_tag,
    toV_tagCloseSpan, toV_renderSpanNode, toV_Write, toV_WriteString, toV_WriteByte,
    toV_bufWrite, toV_bufReset, toV_bufBytes, toV_pushWriter, toV_rewriteWriter,
    toV_Newline_of_sound, sentinel_of_sound, trimNewlines_shared,
    apply_ite Shared.Renderer.toVditorSVRenderer])
  done

theorem sim_renderListItem_any (env : Env) (r : Shared.Renderer) (site : Site) (entering : Bool)
    (hc : Shared.Clean r) :
    (Shared.renderListItem env r site entering).map Shared.project =
      renderListItem env r.toVditorSVRenderer site entering := by
  have hs := sound_of_clean hc
  have hc1 : r.NewlineSV = NewlineSV := hc.1
  have hc2 : r.aliased = false := hc.2
  cases entering with
  | true => rfl
  | false =>
    simp only [Shared.renderListItem, renderListItem, Bool.false_eq_true, if_false, Option.bind_eq_bind,
      Option.pure_def, toV_stackTop, Shared.stackPop, stackPop]
    by_cases he : r.nodeWriterStack.isEmpty = true
    · simp only [he, if_true, Option.none_bind]
      exact map_bind_congr _ _ _ _ (fun _ => rfl)
    · simp only [he, if_false, Bool.false_eq_true, Option.some_bind, hc1, trimNewlines_shared,
        toV_bufBytes, toV_stackTop, toV_bufWrite, toV_bufReset]
      repeat' first
        | with_reducible rfl
        | refine map_bind_congr _ _ _ _ (fun _ => ?_)
      simp only [Shared.project, Option.map_some', toV_tagCloseSpan]
      rw [toV_Newline_of_sound]
      · simp only [toV_rewriteWriter, toV_bufWrite, toV_bufReset, toV_bufBytes]
      · repeat' first
          | exact hc | exact hs
          | with_reducible apply sound_ite | with_reducible apply clean_ite
          | with_reducible apply sound_Newline | with_reducible apply sound_Write
          | with_reducible apply sound_WriteString | with_reducible apply sound_tag
          | with_reducible apply sound_tagCloseSpan | with_reducible apply sound_bufWrite
          | with_reducible apply sound_bufReset | with_reducible apply sound_rewriteWriter
          | with_reducible apply clean_tag_of_sound
          | with_reducible apply clean_tagCloseSpan_of_sound | with_reducible apply clean_Write
          | with_reducible apply clean_WriteString | with_reducible apply clean_WriteByte
          | with_reducible apply clean_bufWrite | with_reducible apply clean_bufReset
          | with_reducible apply clean_rewriteWriter | with_reducible apply sound_of_clean
          | ((with_reducible apply clean_of_eq) <;> first | rfl | exact hc1 | exact hc2)
          | (simp only [sharedTags_bufWrite, sharedTags_bufReset, sharedTags_Write,
              sharedTags_WriteString, sharedTags_WriteByte, sharedTags_Newline, sharedTags_tag,
              sharedTags_tagCloseSpan, sharedTags_rewriteWriter]; done)
        done

theorem sim_renderListItem (env : Env) (r : Shared.Renderer) (site : Site) (entering : Bool)
    (hc : Shared.Clean r) (hd : r.DisableTags = 0) :
    (Shared.renderListItem env r site entering).map Shared.project =
      renderListItem env r.toVditorSVRenderer site entering :=
  sim_renderListItem_any env r site entering hc

theorem clean_stackPop {r r2 : Shared.Renderer} (h : Shared.stackPop r = some r2)
    (hc : Shared.Clean r) : Shared.Clean r2 ∧ r2.DisableTags = r.DisableTags := by
  unfold Shared.stackPop at h
  split at h
  · cases h
  · cases h
    exact ⟨hc, rfl⟩

theorem clean_padding {r r2 : Shared.Renderer} (node : Site)
    (h : Shared.renderListItemBlockPadding r node = some r2) (hc : Shared.Clean r) :
    Shared.Clean r2 ∧ r2.DisableTags = r.DisableTags := by
  unfold Shared.renderListItemBlockPadding at h
  simp only [] at h
  split at h
  · cases h
    exact ⟨hc, rfl⟩
  · split at h
    · cases h
      exact ⟨hc, rfl⟩
    · split at h
      · cases h
      · cases h
        exact ⟨clean_bufWrite _ _ hc, rfl⟩

theorem sim_quote_tail (x : Shared.Renderer) (c : Bytes) (hx : Shared.Clean x) :
    (Shared.WriteString (Shared.Write (Shared.Newline (Shared.rewriteWriter x))
        (Shared.Newline (Shared.rewriteWriter x)).NewlineSV) c).toVditorSVRenderer =
      WriteString (Write (Newline (rewriteWriter x.toVditorSVRenderer)) NewlineSV) c := by
  have h1 := sound_Newline (clean_rewriteWriter hx)
  rw [toV_WriteString, toV_Write, sentinel_of_sound h1,
    toV_Newline_of_sound (sound_of_clean (clean_rewriteWriter hx)), toV_rewriteWriter]

theorem sim_renderBlockquote (env : Env) (r : Shared.Renderer) (site : Site) (entering : Bool)
    (hc : Shared.Clean r) (hd : r.DisableTags = 0) :
    (Shared.renderBlockquote env r site entering).map Shared.project =
      renderBlockquote env r.toVditorSVRenderer site entering := by
  cases entering with
  | true => rfl
  | false =>
    simp only [Shared.renderBlockquote, renderBlockquote, Bool.false_eq_true, if_false,
      Option.bind_eq_bind, Option.pure_def]
    rw [toV_padding, Option.bind_map]
    cases hp : Shared.renderListItemBlockPadding r site with
    | none => rfl
    | some rp =>
      obtain ⟨hcp, hdp⟩ := clean_padding site hp hc
      simp only [Option.some_bind, Function.comp]
      rw [toV_stackTop]
      refine map_bind_congr _ _ _ _ (fun writer => ?_)
      rw [toV_stackPop, Option.bind_map]
      cases hq : Shared.stackPop rp with
      | none => rfl
      | some r2 =>
        obtain ⟨hc2, hd2⟩ := clean_stackPop hq hcp
        have hc := hc2
        have hs := sound_of_clean hc2
        have hd : r2.DisableTags = 0 := hd2.trans (hdp.trans hd)
        have hc1 : r2.NewlineSV = NewlineSV := hc2.1
        have hc2 : r2.aliased = false := hc2.2
        simp only [Option.some_bind, Function.comp, hc1, trimNewlines_shared, toV_bufBytes,
          toV_stackTop, toV_bufWrite, toV_bufReset]
        refine map_bind_congr _ _ _ _ (fun parent => ?_)
        simp only [Shared.project, Option.map_some']
        rw [sim_quote_tail]
        exact ⟨hc1, hc2⟩

theorem sim_renderList (env : Env) (r : Shared.Renderer) (site : Site) (entering : Bool)
    (hc : Shared.Clean r) (hd : r.DisableTags = 0) :
    (Shared.renderList env r site entering).map Shared.project =
      renderList env r.toVditorSVRenderer site entering := by
  have hc1 : r.NewlineSV = NewlineSV := hc.1
  simp only [Shared.renderList, renderList, Option.bind_eq_bind, Option.pure_def]
  refine map_bind_congr _ _ _ _ (fun d => ?_)
  cases entering with
  | true =>
    simp only [if_true, Option.map_some', Shared.project, toV_tag]

  | false =>
    simp only [Bool.false_eq_true, if_false, Option.map_some', Shared.project,
      toV_tagCloseSpan, toV_Write, hc1]


theorem sim_toc_fold (hs : List (Int × Bytes)) : ∀ r : Shared.Renderer, Shared.Clean r →
    (hs.foldlM
        (fun (r : VditorSVRenderer) (heading : Int × Bytes) =>
          (Repeat (bytesOf "&emsp;") ((heading.1 - 1) * 2)).bind fun x =>
            some (WriteString (WriteString (WriteString r x)
              (bytesOf "<span data-type=\"toc-h\">")) (heading.2 ++ bytesOf "</span><br>")))
        r.toVditorSVRenderer =
      (hs.foldlM
        (fun (r : Shared.Renderer) (heading : Int × Bytes) =>
          (Repeat (bytesOf "&emsp;") ((heading.1 - 1) * 2)).bind fun x =>
            some (Shared.WriteString (Shared.WriteString (Shared.WriteString r x)
              (bytesOf "<span data-type=\"toc-h\">")) (heading.2 ++ bytesOf "</span><br>")))
        r).map (fun x : Shared.Renderer => x.toVditorSVRenderer)) ∧
    ∀ r2, hs.foldlM
        (fun (r : Shared.Renderer) (heading : Int × Bytes) =>
          (Repeat (bytesOf "&emsp;") ((heading.1 - 1) * 2)).bind fun x =>
            some (Shared.WriteString (Shared.WriteString (Shared.WriteString r x)
              (bytesOf "<span data-type=\"toc-h\">")) (heading.2 ++ bytesOf "</span><br>")))
        r = some r2 →
      Shared.Clean r2 := by
  induction hs with
  | nil =>
    intro r hc
    exact ⟨rfl, fun r2 h => by cases h; exact hc⟩
  | cons hd tl ih =>
    intro r hc
    simp only [List.foldlM_cons, Option.bind_eq_bind]
    cases hrep : Repeat (bytesOf "&emsp;") ((hd.1 - 1) * 2) with
    | none => exact ⟨rfl, fun r2 h => by cases h⟩
    | some sp =>
      simp only [Option.some_bind]
      have hc3 : Shared.Clean (Shared.WriteString (Shared.WriteString (Shared.WriteString r sp)
          (bytesOf "<span data-type=\"toc-h\">")) (hd.2 ++ bytesOf "</span><br>")) :=
        clean_WriteString _ (clean_WriteString _ (clean_WriteString _ hc))
      obtain ⟨h1, h2⟩ := ih _ hc3
      refine ⟨?_, h2⟩
      simp only [toV_WriteString] at h1
      exact h1

theorem sim_toc_tail (x : Shared.Renderer) (hx : Shared.Clean x) (b : Bool) (c : Bytes) :
    (Shared.WriteString
        (if b = true then
          Shared.WriteString
            (Shared.WriteString (Shared.WriteString (Shared.Newline x) (bytesOf "</span>"))
              (bytesOf "<span data-type=\"p\" data-block=\"0\">")) c
        else
          Shared.WriteString (Shared.WriteString (Shared.Newline x) (bytesOf "</span>"))
            (bytesOf "<span data-type=\"p\" data-block=\"0\">"))
        (bytesOf "</span>")).toVditorSVRenderer =
      WriteString
        (if b = true then
          WriteString
            (WriteString (WriteString (Newline x.toVditorSVRenderer) (bytesOf "</span>"))
              (bytesOf "<span data-type=\"p\" data-block=\"0\">")) c
        else
          WriteString (WriteString (Newline x.toVditorSVRenderer) (bytesOf "</span>"))
            (bytesOf "<span data-type=\"p\" data-block=\"0\">"))
        (bytesOf "</span>") := by
  cases b <;>
    simp only [toV_WriteString, toV_Newline_of_sound (sound_of_clean hx), if_true,
      Bool.false_eq_true, if_false]

theorem sim_renderToC (env : Env) (r : Shared.Renderer) (site : Site) (entering : Bool)
    (hc : Shared.Clean r) (hd : r.DisableTags = 0) :
    (Shared.renderToC env r site entering).map Shared.project =
      renderToC env r.toVditorSVRenderer site entering := by
  simp only [Shared.renderToC, renderToC, Option.bind_eq_bind, Option.pure_def]
  by_cases hl : 0 < env.headings.length
  · simp only [hl, if_true]
    have hc0 := clean_WriteString (bytesOf
      "<span class=\"vditor-toc\" data-block=\"0\" data-type=\"toc-block\" contenteditable=\"false\">")
      hc
    obtain ⟨h1, h2⟩ := sim_toc_fold env.headings _ hc0
    rw [← toV_WriteString, h1, Option.bind_map]
    generalize List.foldlM (m := Option) _ (Shared.WriteString r _) env.headings = X at h2 ⊢
    cases X with
    | none => rfl
    | some rf =>
      simp only [Option.some_bind, Option.map_some', Shared.project, Function.comp]
      rw [sim_toc_tail _ (h2 rf rfl)]
  · simp only [hl, if_false, Option.some_bind, Option.map_some', Shared.project]
    rw [sim_toc_tail _ (clean_WriteString _ (clean_WriteString _ hc)), toV_WriteString,
      toV_WriteString]

/-! ## Theorems: every handler, from a clean state -/

/-- The two tables of handlers name a handler for the same node types. -/
theorem tables_agree (t : NodeType)
    (h2 : Env → Shared.Renderer → Site → Bool → Option Shared.Result)
    (hh2 : Shared.RendererFuncs t = some h2) :
    ∃ h : Env → VditorSVRenderer → Site → Bool → Option Result, RendererFuncs t = some h := by
  cases t <;> first | (cases hh2; done) | exact ⟨_, rfl⟩

set_option maxHeartbeats 4000000 in
/-- From a state in which `NewlineSV` holds its initial bytes and `LastOut` does not share
its storage, with `DisableTags` at 0, every handler other than that of the document does
at the level of values what the value-level handler does. -/
theorem handlers_simulate (t : NodeType)
    (h2 : Env → Shared.Renderer → Site → Bool → Option Shared.Result)
    (h : Env → VditorSVRenderer → Site → Bool → Option Result)
    (hh2 : Shared.RendererFuncs t = some h2) (hh : RendererFuncs t = some h)
    (hdoc : t ≠ .NodeDocument)
    (env : Env) (r : Shared.Renderer) (site : Site) (entering : Bool)
    (hc : Shared.Clean r) (hd : r.DisableTags = 0) :
    (h2 env r site entering).map Shared.project = h env r.toVditorSVRenderer site entering := by
  cases hf : Shared.readsNewlineSV t with
  | false => exact handlers_free_simulate t h2 h hh2 hh hf hdoc env r site entering
  | true =>
    cases t <;> first | (cases hf; done) | (cases hh2; cases hh)
    all_goals
      first
        | with_reducible exact sim_renderToC env r site entering hc hd
        | with_reducible exact sim_renderCodeBlockCloseMarker env r site entering hc hd
        | with_reducible exact sim_renderCodeBlockInfoMarker env r site entering hc hd
        | with_reducible exact sim_renderCodeBlock env r site entering hc hd
        | with_reducible exact sim_renderMathBlockCloseMarker env r site entering hc hd
        | with_reducible exact sim_renderMathBlockOpenMarker env r site entering hc hd
        | with_reducible exact sim_renderTable env r site entering hc hd
        | with_reducible exact sim_renderHTML env r site entering hc hd
        | with_reducible exact sim_renderParagraph env r site entering hc hd
        | with_reducible exact sim_renderBlockquote env r site entering hc hd
        | with_reducible exact sim_renderHeading env r site entering hc hd
        | with_reducible exact sim_renderList env r site entering hc hd
        | with_reducible exact sim_renderListItem env r site entering hc hd
        | with_reducible exact sim_renderThematicBreak env r site entering hc hd
        | with_reducible exact sim_renderHardBreak env r site entering hc hd
        | with_reducible exact sim_renderSoftBreak env r site entering hc hd

/-- A run of a handler other than that of the document from a clean state is a run of
the value-level handler on the values. -/
theorem handlers_run_values (t : NodeType)
    (h2 : Env → Shared.Renderer → Site → Bool → Option Shared.Result)
    (h : Env → VditorSVRenderer → Site → Bool → Option Result)
    (hh2 : Shared.RendererFuncs t = some h2) (hh : RendererFuncs t = some h)
    (hdoc : t ≠ .NodeDocument)
    (env : Env) (r r' : Shared.Renderer) (site site' : Site) (entering : Bool)
    (st : WalkStatus) (hc : Shared.Clean r) (hd : r.DisableTags = 0)
    (hrun : h2 env r site entering = some (r', site', st)) :
    h env r.toVditorSVRenderer site entering = some (r'.toVditorSVRenderer, site', st) := by
  rw [← handlers_simulate t h2 h hh2 hh hdoc env r site entering hc hd, hrun]
  rfl

/-- Entering the document does at the level of values what the value-level handler
does. -/
theorem sim_renderDocument_enter (env : Env) (r : Shared.Renderer) (site : Site) :
    (Shared.renderDocument env r site true).map Shared.project =
      renderDocument env r.toVditorSVRenderer site true := rfl

theorem buffers_appendLastOut (r : Shared.Renderer) (c : Bytes) :
    (Shared.appendLastOut r c).buffers = r.buffers ∧
      (Shared.appendLastOut r c).Writer = r.Writer := by
  unfold Shared.appendLastOut
  split <;> exact ⟨rfl, rfl⟩

theorem sim_document_tail (x : Shared.Renderer) (buf c : Bytes) :
    (Write (bufReset x.toVditorSVRenderer x.Writer) buf).buffers =
        (if 0 < buf.length then
          Shared.appendLastOut (Shared.bufWrite (Shared.bufReset x x.Writer)
            (Shared.bufReset x x.Writer).Writer buf) c
        else Shared.bufReset x x.Writer).buffers ∧
      (Write (bufReset x.toVditorSVRenderer x.Writer) buf).Writer =
        (if 0 < buf.length then
          Shared.appendLastOut (Shared.bufWrite (Shared.bufReset x x.Writer)
            (Shared.bufReset x x.Writer).Writer buf) c
        else Shared.bufReset x x.Writer).Writer := by
  unfold Write
  by_cases hpos : 0 < buf.length
  · simp only [hpos, if_true, (buffers_appendLastOut _ _).1, (buffers_appendLastOut _ _).2]
    exact ⟨rfl, rfl⟩
  · simp only [hpos, if_false]
    exact ⟨rfl, rfl⟩

/-- On exit from the document the buffers and the writer are those of the value-level
handler; `LastOut` may differ. -/
theorem sim_renderDocument_exit (env : Env) (r r3 : Shared.Renderer) (site site3 : Site)
    (st3 : WalkStatus)
    (hrun : Shared.renderDocument env r site false = some (r3, site3, st3)) :
    ∃ rv : VditorSVRenderer,
      renderDocument env r.toVditorSVRenderer site false = some (rv, site3, st3) ∧
      rv.buffers = r3.buffers ∧ rv.Writer = r3.Writer := by
  simp only [Shared.renderDocument, renderDocument, Bool.false_eq_true, if_false,
    Option.bind_eq_bind, Option.pure_def] at hrun ⊢
  rw [toV_stackPop]
  cases hp : Shared.stackPop r with
  | none => rw [hp] at hrun; cases hrun
  | some rp =>
    rw [hp] at hrun
    simp only [Option.some_bind, Option.map_some'] at hrun ⊢
    have hinj := Prod.mk.inj (Option.some.inj hrun)
    refine ⟨_, by rw [← (Prod.mk.inj hinj.2).1, ← (Prod.mk.inj hinj.2).2], ?_, ?_⟩
    · rw [← hinj.1]
      exact (sim_document_tail rp _ _).1
    · rw [← hinj.1]
      exact (sim_document_tail rp _ _).2

/-- C23 (amended): with `DisableTags` equal to 0, and from states in which `NewlineSV`
holds its initial bytes and `LastOut` does not share its storage, the tags every handler
other than those of the HTML entity and of the inline math content emits are balanced,
where the opening marker of a code span leaves one `span` open and the closing marker of a
code span closes one `span` that was open. For every node, over its entering call and,
when that call returns `WalkContinue`, its exit call, and given that the output `mid` of
its children is balanced: when the entering call returns `WalkStop`, what it wrote is
balanced (for the two code span markers: opens, respectively closes, one `span`); when it
returns `WalkContinue`, what the writer's buffer gained from the entering call to the
exit call is balanced, and for the document, whose output stays in its own buffer, that
buffer is balanced. The tags are read from the bytes written; of the texts copied into
the output, those that a handler does not escape hold neither `<` nor `>`. -/
theorem handlers_tags_balanced (t : NodeType)
    (h : Env → Shared.Renderer → Site → Bool → Option Shared.Result)
    (hh : Shared.RendererFuncs t = some h)
    (hent : t ≠ .NodeHTMLEntity) (hmath : t ≠ .NodeInlineMathContent)
    (env : Env) (r r1 : Shared.Renderer) (site site1 : Site) (st1 : WalkStatus)
    (hc : Shared.Clean r) (hd : r.DisableTags = 0) (hw : r.Writer < r.buffers.length)
    (hpe : PlainContent env) (hpn : PlainCopied t site)
    (hrun1 : h env r site true = some (r1, site1, st1)) :
    (st1 = .WalkStop → ∃ out, Emits r.toVditorSVRenderer r1.toVditorSVRenderer out ∧
        (t ≠ .NodeCodeSpanOpenMarker → t ≠ .NodeCodeSpanCloseMarker → Balanced out) ∧
        (t = .NodeCodeSpanOpenMarker → OpensSpan out) ∧
        (t = .NodeCodeSpanCloseMarker → ClosesSpan out)) ∧
    (st1 = .WalkContinue →
      ∀ (r2 r3 : Shared.Renderer) (site3 : Site) (st3 : WalkStatus) (mid : Bytes),
        ChildrenWrote r1.toVditorSVRenderer r2.toVditorSVRenderer mid → Balanced mid →
        Shared.Clean r2 →
        (t = .NodeBlockquote ∨ t = .NodeListItem →
          stackTop r.toVditorSVRenderer = some r.Writer) →
        h env r2 site1 false = some (r3, site3, st3) →
        (t = .NodeDocument → Balanced (Shared.bufBytes r3 r3.Writer)) ∧
        (t ≠ .NodeDocument → ∃ out, r3.Writer = r.Writer ∧
          Shared.bufBytes r3 r.Writer = Shared.bufBytes r r.Writer ++ out ∧ Balanced out)) := by
  obtain ⟨hv, hhv⟩ := tables_agree t h hh
  by_cases hdoc : t = .NodeDocument
  · subst hdoc
    cases hh
    cases hhv
    have hrun1v : renderDocument env r.toVditorSVRenderer site true =
        some (r1.toVditorSVRenderer, site1, st1) := by
      rw [← sim_renderDocument_enter, hrun1]
      rfl
    have hval := handlers_balanced_values .NodeDocument renderDocument rfl hent hmath env
      r.toVditorSVRenderer r1.toVditorSVRenderer site site1 st1 hd hw hpe hpn hrun1v
    refine ⟨hval.1, fun hst r2 r3 site3 st3 mid hcw hb _ htop hrun2 => ?_⟩
    obtain ⟨rv, hrv, hbuf, hwr⟩ := sim_renderDocument_exit env r2 r3 site1 site3 st3 hrun2
    have hres := hval.2 hst r2.toVditorSVRenderer rv site3 st3 mid hcw hb htop hrv
    refine ⟨fun _ => ?_, fun hne => absurd rfl hne⟩
    have hbal := hres.1 rfl
    unfold bufBytes at hbal
    unfold Shared.bufBytes
    rw [hbuf, hwr] at hbal
    exact hbal
  · have hrun1v := handlers_run_values t h hv hh hhv hdoc env r r1 site site1 true st1 hc hd
      hrun1
    have hval := handlers_balanced_values t hv hhv hent hmath env
      r.toVditorSVRenderer r1.toVditorSVRenderer site site1 st1 hd hw hpe hpn hrun1v
    refine ⟨hval.1, fun hst r2 r3 site3 st3 mid hcw hb hc2 htop hrun2 => ?_⟩
    have hrun2v := handlers_run_values t h hv hh hhv hdoc env r2 r3 site1 site3 false st3 hc2
      hcw.tags hrun2
    have hres := hval.2 hst r2.toVditorSVRenderer r3.toVditorSVRenderer site3 st3 mid hcw hb
      htop hrun2v
    exact ⟨fun hd => absurd hd hdoc, hres.2⟩

/-- C23 (witness): a paragraph at the top level, entered on a fresh renderer, whose
children wrote one text span: from the entering call to the exit call the writer's buffer
gained balanced output. -/
theorem handlers_tags_balanced_witness :
    ∃ (r1 r3 : Shared.Renderer) (out : Bytes),
      Shared.renderParagraph escapingEnv Shared.initialRenderer
          (topLevel (leaf .NodeParagraph [])) true =
        some (r1, topLevel (leaf .NodeParagraph []), .WalkContinue) ∧
      Shared.renderParagraph escapingEnv
          (Shared.Write r1 (bytesOf "<span data-type=\"text\">a</span>"))
          (topLevel (leaf .NodeParagraph [])) false =
        some (r3, topLevel (leaf .NodeParagraph []), .WalkContinue) ∧
      r3.Writer = Shared.initialRenderer.Writer ∧
      Shared.bufBytes r3 Shared.initialRenderer.Writer =
        Shared.bufBytes Shared.initialRenderer Shared.initialRenderer.Writer ++ out ∧
      Balanced out := by
  obtain ⟨out, h1, h2, h3⟩ :=
    ((handlers_tags_balanced .NodeParagraph Shared.renderParagraph rfl (by decide) (by decide)
      escapingEnv Shared.initialRenderer _ (topLevel (leaf .NodeParagraph [])) _ .WalkContinue
      ⟨rfl, rfl⟩ rfl (by decide) plainContent_escapingEnv
      ⟨fun h => (by cases h), fun h => (by cases h), fun h => (by cases h),
        fun h => (by rcases h with h | h <;> cases h)⟩ rfl).2 rfl
      (Shared.Write _ (bytesOf "<span data-type=\"text\">a</span>")) _ _ .WalkContinue
      (bytesOf "<span data-type=\"text\">a</span>")
      (by
        rw [toV_Write]
        exact ⟨extends_of_appends (appends_Write _ _), rfl, bufBytes_Write _ _ (by decide)⟩)
      (by unfold Balanced; decide) (clean_Write _ ⟨rfl, rfl⟩)
      (fun h => by rcases h with h | h <;> cases h) rfl).2
      (by decide)
  exact ⟨_, _, out, rfl, rfl, h1, h2, h3⟩

/-! ## Theorems: `Newline` twice, at the storage level -/

theorem toV_writeClosers : ∀ (k : Nat) (r : Shared.Renderer),
    (Shared.writeClosers k r).toVditorSVRenderer = writeClosers k r.toVditorSVRenderer := by
  intro k
  induction k with
  | zero => intro r; rfl
  | succ k ih =>
    intro r
    rw [Shared.writeClosers, writeClosers, ih, toV_WriteString]

/-- After `Newline` or a closing tag written behind it, a `LastOut` that shares the
storage of `NewlineSV` ends where one of the two closing tags of `NewlineSV` starts or
ends, and `NewlineSV` holds its initial bytes. -/
theorem closers_keep_sentinel (s : Shared.Renderer)
    (h : s.NewlineSV = NewlineSV ∧ (s.aliased = true →
      s.LastOut = NewlineSV.take 61 ∨ s.LastOut = NewlineSV.take 68 ∨ s.LastOut = NewlineSV)) :
    (Shared.WriteString s closeSpan).NewlineSV = NewlineSV ∧
      ((Shared.WriteString s closeSpan).aliased = true →
        (Shared.WriteString s closeSpan).LastOut = NewlineSV.take 61 ∨
        (Shared.WriteString s closeSpan).LastOut = NewlineSV.take 68 ∨
        (Shared.WriteString s closeSpan).LastOut = NewlineSV) := by
  obtain ⟨hi, hl⟩ := h
  have hpos : 0 < closeSpan.length := by decide
  unfold Shared.WriteString
  rw [if_pos hpos]
  unfold Shared.appendLastOut
  have e1 : (Shared.bufWrite s s.Writer closeSpan).LastOut = s.LastOut := rfl
  have e2 : (Shared.bufWrite s s.Writer closeSpan).NewlineSV = s.NewlineSV := rfl
  have e3 : (Shared.bufWrite s s.Writer closeSpan).aliased = s.aliased := rfl
  simp only []
  split
  · rename_i hcond
    rw [e1, e2, e3, hi] at hcond
    rcases hl hcond.1 with h1 | h1 | h1
    · refine ⟨?_, fun _ => Or.inr (Or.inl ?_)⟩
      · show List.take (s.LastOut.length) s.NewlineSV ++ closeSpan ++
          List.drop (s.LastOut.length + closeSpan.length) s.NewlineSV = NewlineSV
        rw [hi, h1]
        decide
      · show appendLastOut s.LastOut closeSpan = _
        rw [h1]
        decide
    · refine ⟨?_, fun _ => Or.inr (Or.inr ?_)⟩
      · show List.take (s.LastOut.length) s.NewlineSV ++ closeSpan ++
          List.drop (s.LastOut.length + closeSpan.length) s.NewlineSV = NewlineSV
        rw [hi, h1]
        decide
      · show appendLastOut s.LastOut closeSpan = _
        rw [h1]
        decide
    · exfalso
      have h2 := hcond.2
      rw [h1] at h2
      revert h2
      decide
  · exact ⟨hi, fun ha => by cases ha⟩

theorem closers_keep_sentinel_iter : ∀ (k : Nat) (s : Shared.Renderer),
    (s.NewlineSV = NewlineSV ∧ (s.aliased = true →
      s.LastOut = NewlineSV.take 61 ∨ s.LastOut = NewlineSV.take 68 ∨ s.LastOut = NewlineSV)) →
    (Shared.writeClosers k s).NewlineSV = NewlineSV := by
  intro k
  induction k with
  | zero => intro s h; exact h.1
  | succ k ih =>
    intro s h
    rw [Shared.writeClosers]
    exact ih _ (closers_keep_sentinel s h)

set_option maxRecDepth 100000 in
/-- A prefix of `NewlineSV` that, once its trailing closing tags are cut, ends with the
opening part of `NewlineSV` is cut to that opening part. -/
theorem trim_prefix_of_sentinel : ∀ n, n ≤ 75 →
    HasSuffix (trimCloseSpans n (NewlineSV.take n))
      (NewlineSV.take (NewlineSV.length - closeSpan.length * 2)) = true →
    trimCloseSpans n (NewlineSV.take n) = NewlineSV.take 61 := by
  decide

/-- After `Newline` from a state in which `NewlineSV` holds its initial bytes, a
`LastOut` that shares its storage is its opening part or all of it. -/
theorem Newline_keeps_sentinel (r : Shared.Renderer) (hi : r.NewlineSV = NewlineSV)
    (hs : Shared.Slice r) :
    (Shared.Newline r).NewlineSV = NewlineSV ∧ ((Shared.Newline r).aliased = true →
      (Shared.Newline r).LastOut = NewlineSV.take 61 ∨
      (Shared.Newline r).LastOut = NewlineSV.take 68 ∨
      (Shared.Newline r).LastOut = NewlineSV) := by
  unfold Shared.Newline
  simp only []
  split
  · exact ⟨hi, fun _ => Or.inr (Or.inr hi)⟩
  · rename_i hcond
    refine ⟨hi, fun ha => Or.inl ?_⟩
    have ha2 : r.aliased = true := ha
    have hL := hs ha2
    rw [hi] at hL hcond
    simp only [Bool.not_eq_true, Bool.not_eq_false_eq_eq_true, Bool.not_not,
      Bool.not_eq_true'] at hcond
    show trimCloseSpans r.LastOut.length r.LastOut = _
    generalize hn : r.LastOut.length = n at hL hcond ⊢
    have hle : n ≤ 75 := by
      have h1 := congrArg List.length hL
      rw [hn, List.length_take] at h1
      have h2 : NewlineSV.length = 75 := by decide
      omega
    rw [hL] at hcond ⊢
    exact trim_prefix_of_sentinel n hle (by simpa using hcond)

/-- C7 (amended): in every state in which `NewlineSV` holds its initial bytes, a `Newline`
call that follows another `Newline` call, with at most 64 writes of `</span>` and nothing
else in between, leaves every buffer as it is. With no write in between this is the
idempotence of two consecutive calls. The state is that of the storage level: `LastOut`
may share the storage of `NewlineSV`, and the closing tags written behind the opening
part then land on the closing tags that `NewlineSV` holds there. -/
theorem Newline_idempotent_while_intact (r : Shared.Renderer) (k : Nat) (hk : k ≤ 64)
    (hi : r.NewlineSV = NewlineSV) (hs : Shared.Slice r) :
    (Shared.Newline (Shared.writeClosers k (Shared.Newline r))).buffers =
      (Shared.writeClosers k (Shared.Newline r)).buffers := by
  have h1 := closers_keep_sentinel_iter k _ (Newline_keeps_sentinel r hi hs)
  have h2 := toV_Newline _ h1
  have h3 := Newline_idempotent_within_window r.toVditorSVRenderer k hk
  rw [← toV_Newline r hi, ← toV_writeClosers, ← h2] at h3
  exact h3

/-- C7 (witness): after a first `Newline` on a fresh renderer `LastOut` is the slice
`NewlineSV` itself; two further `Newline` calls with two `</span>` written between them:
the last call leaves every buffer as it is. -/
theorem Newline_idempotent_while_intact_witness :
    (Shared.Newline Shared.initialRenderer).NewlineSV = NewlineSV ∧
    Shared.Slice (Shared.Newline Shared.initialRenderer) ∧
    (Shared.Newline (Shared.writeClosers 2
        (Shared.Newline (Shared.Newline Shared.initialRenderer)))).buffers =
      (Shared.writeClosers 2 (Shared.Newline (Shared.Newline Shared.initialRenderer))).buffers :=
  ⟨rfl, fun _ => by decide,
    Newline_idempotent_while_intact (Shared.Newline Shared.initialRenderer) 2 (by decide) rfl
      (fun _ => by decide)⟩

/-- C5 (amended): on exit from a list item, from a state in which `NewlineSV` holds its
initial bytes and `LastOut` does not share its storage, with the item's buffer `writer`
on top of the stack, above the buffer `parent`, and a margin `ListPadding - Padding` that
is not negative, the handler succeeds and the parent buffer receives: the opening span
`data-type="li"`, a padding span holding exactly `ListPadding - Padding` spaces, a
li-marker span holding the item marker followed by one space, and then the item's
buffered content as the trimming loop leaves it (every `NewlineSV` directly before the
final `</span>` removed). The marker is the decimal `Num` followed by the `Delimiter` for
an ordered item (`Typ` 1, or `Typ` 3 with `BulletChar` 0) and the `Marker` bytes
otherwise. The handler then closes the item with a coalesced separator and the closing
tag. -/
theorem renderListItem_exit_parent_content (env : Env) (r : Shared.Renderer) (node : Site)
    (d : ListData) (rest : List Nat) (parent writer : Nat)
    (hc : Shared.Clean r)
    (hd : node.node.data.ListData = some d)
    (hstack : r.nodeWriterStack = rest ++ [parent, writer])
    (hne : parent ≠ writer) (hp : parent < r.buffers.length)
    (hm : 0 ≤ r.ListPadding - d.Padding) :
    ∃ (r' : Shared.Renderer) (marker tail : Bytes),
      Shared.renderListItem env r node false = some (r', node, .WalkContinue) ∧
      marker = (if 1 = d.Typ ∨ (3 = d.Typ ∧ 0 = d.BulletChar)
        then Itoa d.Num ++ stringOfByte d.Delimiter else d.Marker) ∧
      Shared.bufBytes r' parent =
        Shared.bufBytes r parent ++ bytesOf "<span data-type=\"li\">" ++
          (bytesOf "<span data-type=\"padding\">" ++
            List.replicate (r.ListPadding - d.Padding).toNat 32 ++ bytesOf "</span>") ++
          (bytesOf "<span data-type=\"li-marker\" class=\"vditor-sv__marker\">" ++ marker ++
            bytesOf " </span>") ++
          trimNewlines (Shared.bufBytes r writer).length (Shared.bufBytes r writer) ++ tail ∧
      (tail = (if r.DisableTags > 0 then [] else closeSpan) ∨
        tail = NewlineSV ++ (if r.DisableTags > 0 then [] else closeSpan)) ∧
      r'.nodeWriterStack = rest ++ [parent] ∧ r'.Writer = parent := by
  obtain ⟨rv, marker, tail, h1, h2, h3, h4, h5, h6⟩ :=
    renderListItem_exit_content env r.toVditorSVRenderer node d rest parent writer hd hstack hne
      hp hm
  have hsim := sim_renderListItem_any env r node false hc
  rw [h1] at hsim
  cases hx : Shared.renderListItem env r node false with
  | none => rw [hx] at hsim; cases hsim
  | some x =>
    obtain ⟨r', s', st'⟩ := x
    rw [hx] at hsim
    have hinj := Prod.mk.inj (Option.some.inj hsim)
    have e1 : r'.toVditorSVRenderer = rv := hinj.1
    have e2 : s' = node := (Prod.mk.inj hinj.2).1
    have e3 : st' = WalkStatus.WalkContinue := (Prod.mk.inj hinj.2).2
    subst e1 e2 e3
    exact ⟨r', marker, tail, rfl, h2, h3, h4, h5, h6⟩

/-- C5 (witness): the item of a tight bullet list holding one paragraph, in a state in
which `NewlineSV` holds its initial bytes and `LastOut` shares nothing with it. -/
theorem renderListItem_exit_parent_content_witness :
    ∃ (r' : Shared.Renderer) (marker tail : Bytes),
      Shared.renderListItem plainEnv (Shared.ofValues itemExitState) itemSite false =
        some (r', itemSite, .WalkContinue) ∧
      marker = (if 1 = bulletData.Typ ∨ (3 = bulletData.Typ ∧ 0 = bulletData.BulletChar)
        then Itoa bulletData.Num ++ stringOfByte bulletData.Delimiter else bulletData.Marker) ∧
      Shared.bufBytes r' 0 =
        Shared.bufBytes (Shared.ofValues itemExitState) 0 ++ bytesOf "<span data-type=\"li\">" ++
          (bytesOf "<span data-type=\"padding\">" ++
            List.replicate ((Shared.ofValues itemExitState).ListPadding -
              bulletData.Padding).toNat 32 ++
            bytesOf "</span>") ++
          (bytesOf "<span data-type=\"li-marker\" class=\"vditor-sv__marker\">" ++ marker ++
            bytesOf " </span>") ++
          trimNewlines (Shared.bufBytes (Shared.ofValues itemExitState) 1).length
            (Shared.bufBytes (Shared.ofValues itemExitState) 1) ++ tail ∧
      (tail = (if (Shared.ofValues itemExitState).DisableTags > 0 then [] else closeSpan) ∨
        tail = NewlineSV ++
          (if (Shared.ofValues itemExitState).DisableTags > 0 then [] else closeSpan)) ∧
      r'.nodeWriterStack = [] ++ [0] ∧ r'.Writer = 0 :=
  renderListItem_exit_parent_content plainEnv (Shared.ofValues itemExitState) itemSite
    bulletData [] 0 1 ⟨rfl, rfl⟩ rfl (by decide) (by decide) (by decide) (by decide)

/-! ## Theorems: `NewlineSV` overwritten through `LastOut` -/

set_option maxRecDepth 100000 in
/-- C2 (code divergence): on a fresh renderer, after `Newline`, `Newline` and
`WriteString("x")`, the text `x` stands in `NewlineSV` in place of the `<` of its first
closing tag; `LastOut` does not end with the opening part, and the next `Newline` writes
those 75 bytes, which are not the sentinel. -/
theorem Newline_writes_overwritten_NewlineSV :
    Shared.afterNewlinesAndX.NewlineSV = overwrittenByX ∧
    HasSuffix
        (trimCloseSpans Shared.afterNewlinesAndX.LastOut.length
          Shared.afterNewlinesAndX.LastOut)
        (NewlineSV.take (NewlineSV.length - closeSpan.length * 2)) = false ∧
    Shared.bufBytes (Shared.Newline Shared.afterNewlinesAndX) 0 =
      Shared.bufBytes Shared.afterNewlinesAndX 0 ++ overwrittenByX ∧
    overwrittenByX ≠ NewlineSV := by
  decide

set_option maxRecDepth 100000 in
/-- C19 (code divergence): a paragraph at the top level with the children text `a`, hard
break, hard break, text `b`, rendered on a fresh renderer. The second hard break leaves
`LastOut` a slice of `NewlineSV` cut before its closing tags, and the tag of the text `b`
writes `<span` into it. On exit the paragraph is outside a tight list; `Newline` and the
further `Write(NewlineSV)` write the overwritten bytes, twice, and not the sentinel. -/
theorem renderParagraph_exit_writes_overwritten_NewlineSV :
    ∃ r r' : Shared.Renderer,
      Shared.enterBreaks Shared.initialRenderer (topLevel breaksParagraph) = some r ∧
      r.NewlineSV = overwrittenBySpan ∧
      Shared.renderParagraph plainEnv r (topLevel breaksParagraph) false =
        some (r', topLevel breaksParagraph, .WalkContinue) ∧
      Shared.bufBytes r' 0 =
        Shared.bufBytes r 0 ++ overwrittenBySpan ++ overwrittenBySpan ++ closeSpan ∧
      overwrittenBySpan ≠ NewlineSV :=
  ⟨_, _, rfl, by decide, rfl, by decide, by decide⟩

set_option maxRecDepth 100000 in
/-- C3 (code divergence): a block quote at the top level whose paragraph has the children
text `a`, hard break, hard break, text `b`, rendered on a fresh renderer. When the quote
is left `NewlineSV` holds the overwritten bytes, and `ReplaceAll` looks for those: the
sentinel that the first hard break wrote into the quoted content gets no quote marker
behind it. The parent buffer receives the opening span, one marker, and the content in
which the text `b` follows the sentinel directly. -/
theorem renderBlockquote_exit_leaves_line_unmarked :
    ∃ r r' : Shared.Renderer,
      Shared.enterBreaksQuote Shared.initialRenderer (topLevel breaksQuote) = some r ∧
      r.NewlineSV = overwrittenBySpan ∧
      Shared.renderBlockquote plainEnv r (topLevel breaksQuote) false =
        some (r', topLevel breaksQuote, .WalkContinue) ∧
      Shared.bufBytes r' 0 =
        blockquoteOpen ++ blockquoteMarker ++
          bytesOf "<span data-type=\"p\" data-block=\"0\"><span data-type=\"text\">a</span>" ++
          NewlineSV ++ bytesOf "<span data-type=\"text\">b</span></span>" ++
          overwrittenBySpan ++ overwrittenBySpan ++ closeSpan :=
  ⟨_, _, rfl, by decide, rfl, by decide⟩

/-! ## Theorems: `Render` at the storage level -/

theorem toV_writeLinkRefDef (env : Env) (r : Shared.Renderer) (node : Node) :
    (Shared.writeLinkRefDef env r node).map (fun x : Shared.Renderer => x.toVditorSVRenderer) =
      writeLinkRefDef env r.toVditorSVRenderer node := by
  unfold Shared.writeLinkRefDef writeLinkRefDef
  simp only [Option.bind_eq_bind, Option.pure_def]
  cases (ChildByType node.children .NodeLinkDest).map Node.Tokens with
  | none => rfl
  | some dest =>
    simp only [Option.some_bind, Option.map_some', toV_WriteString,
      apply_ite Shared.Renderer.toVditorSVRenderer]

theorem toV_foldlM_writeLinkRefDef (env : Env) : ∀ (defs : List Node) (r : Shared.Renderer),
    (defs.foldlM (Shared.writeLinkRefDef env) r).map
        (fun x : Shared.Renderer => x.toVditorSVRenderer) =
      defs.foldlM (writeLinkRefDef env) r.toVditorSVRenderer := by
  intro defs
  induction defs with
  | nil => intro r; rfl
  | cons d ds ih =>
    intro r
    rw [List.foldlM_cons, List.foldlM_cons, ← toV_writeLinkRefDef]
    cases Shared.writeLinkRefDef env r d with
    | none => rfl
    | some r1 => exact ih r1

/-- What `Newline` writes at the storage level: nothing, or the bytes that `NewlineSV`
holds, and then `LastOut` is the slice `NewlineSV` itself. -/
theorem shared_Newline_cases (r : Shared.Renderer) (h : r.Writer < r.buffers.length) :
    (Shared.Newline r).Writer = r.Writer ∧
    (Shared.Newline r).buffers.length = r.buffers.length ∧
    (Shared.Newline r).NewlineSV = r.NewlineSV ∧
    (Shared.bufBytes (Shared.Newline r) r.Writer = Shared.bufBytes r r.Writer ∨
      (Shared.bufBytes (Shared.Newline r) r.Writer = Shared.bufBytes r r.Writer ++ r.NewlineSV ∧
        (Shared.Newline r).LastOut = r.NewlineSV)) := by
  unfold Shared.Newline
  simp only []
  split
  · refine ⟨rfl, ?_, rfl, Or.inr ⟨?_, rfl⟩⟩
    · show (List.set _ _ _).length = _
      rw [List.length_set]
    · show (List.set r.buffers r.Writer _).getD r.Writer [] = _
      rw [List.getD_eq_getElem?_getD, List.getElem?_set_self h]
      rfl
  · exact ⟨rfl, rfl, rfl, Or.inl rfl⟩

theorem sentinel_WriteString_full (r : Shared.Renderer) (c : Bytes) (hc : c ≠ [])
    (h : r.LastOut = r.NewlineSV) : (Shared.WriteString r c).NewlineSV = r.NewlineSV := by
  have hpos : 0 < c.length := List.length_pos.mpr hc
  unfold Shared.WriteString
  rw [if_pos hpos]
  unfold Shared.appendLastOut
  simp only []
  split
  · rename_i hcond
    have h2 := hcond.2
    have e1 : (Shared.bufWrite r r.Writer c).LastOut = r.LastOut := rfl
    have e2 : (Shared.bufWrite r r.Writer c).NewlineSV = r.NewlineSV := rfl
    rw [e1, e2, h] at h2
    omega
  · rfl

/-- C17 (amended): let the embedded `BaseRenderer.Render` return the content of the writer
as the rendered document, and let `visited` list the link reference definitions in the
order in which the `range` over the map `LinkRefDefs` visits them in this run. With no
definition, or in a footnote sub-renderer, `Render` returns that document alone.
Otherwise, when every definition has a destination child, it returns the document
followed by one block: the opening span of type `link-ref-defs-block`, for each
definition in the order visited the line `[label]:`, a space unless the destination is
the caret, the destination and a line feed, then the coalesced separator (nothing, or the
bytes `NewlineSV` holds) and the closing `</span>`. -/
theorem Render_block (env : Env) (base : Shared.Renderer → Option (Shared.Renderer × Bytes))
    (visited : List Node) (r r1 : Shared.Renderer) (document : Bytes)
    (hret : Shared.ReturnsWriter base) (hbase : base r = some (r1, document)) :
    (visited = [] ∨ r1.needRenderFootnotesDef = true →
      Shared.Render env base visited r = some (r1, document)) ∧
    (visited ≠ [] → r1.needRenderFootnotesDef = false →
      (∀ d ∈ visited, hasChild d.children .NodeLinkDest = true) →
      ∃ (r' : Shared.Renderer) (sep : Bytes),
        Shared.Render env base visited r = some (r',
          document ++ bytesOf "<span data-block=\"0\" data-type=\"link-ref-defs-block\">" ++
            (visited.map (linkRefDefLine env.Caret)).flatten ++ sep ++ closeSpan) ∧
        (sep = [] ∨ sep = r'.NewlineSV)) := by
  obtain ⟨hdoc, hw⟩ := hret r r1 document hbase
  constructor
  · intro h
    have hcond : 1 > visited.length ∨ r1.needRenderFootnotesDef = true := by
      rcases h with h | h
      · left; rw [h]; decide
      · right; exact h
    simp only [Shared.Render, hbase, Option.bind_eq_bind, Option.some_bind, if_pos hcond,
      Option.pure_def]
  · intro hne hfoot hdest
    have hcond : ¬ (1 > visited.length ∨ r1.needRenderFootnotesDef = true) := by
      rintro (h | h)
      · exact hne (List.length_eq_zero.mp (by omega))
      · rw [hfoot] at h; cases h
    have hwv : r1.toVditorSVRenderer.Writer < r1.toVditorSVRenderer.buffers.length := hw
    have a0 := appends_WriteString r1.toVditorSVRenderer
      (bytesOf "<span data-block=\"0\" data-type=\"link-ref-defs-block\">")
    have e0 := bufBytes_WriteString r1.toVditorSVRenderer
      (bytesOf "<span data-block=\"0\" data-type=\"link-ref-defs-block\">") hwv
    have hw0 : (WriteString r1.toVditorSVRenderer
        (bytesOf "<span data-block=\"0\" data-type=\"link-ref-defs-block\">")).Writer <
        (WriteString r1.toVditorSVRenderer
          (bytesOf "<span data-block=\"0\" data-type=\"link-ref-defs-block\">")).buffers.length := by
      rw [a0.writer, a0.length]; exact hw
    obtain ⟨r2v, h2, a2, e2⟩ := foldlM_writeLinkRefDef env visited _ hw0 hdest
    rw [a0.writer] at e2
    have hfold := toV_foldlM_writeLinkRefDef env visited (Shared.WriteString r1
      (bytesOf "<span data-block=\"0\" data-type=\"link-ref-defs-block\">"))
    rw [toV_WriteString, h2] at hfold
    cases hf : visited.foldlM (Shared.writeLinkRefDef env) (Shared.WriteString r1
        (bytesOf "<span data-block=\"0\" data-type=\"link-ref-defs-block\">")) with
    | none => rw [hf] at hfold; cases hfold
    | some r2 =>
      rw [hf] at hfold
      have hr2 : r2.toVditorSVRenderer = r2v := Option.some.inj hfold
      have hW2 : r2.Writer = r1.Writer := by
        show r2.toVditorSVRenderer.Writer = _
        rw [hr2, a2.writer, a0.writer]
      have hL2 : r2.buffers.length = r1.buffers.length := by
        show r2.toVditorSVRenderer.buffers.length = _
        rw [hr2, a2.length, a0.length]
      have hw2 : r2.Writer < r2.buffers.length := by rw [hW2, hL2]; exact hw
      have hB2 : Shared.bufBytes r2 r1.Writer = Shared.bufBytes r1 r1.Writer ++
          bytesOf "<span data-block=\"0\" data-type=\"link-ref-defs-block\">" ++
          (visited.map (linkRefDefLine env.Caret)).flatten := by
        show bufBytes r2.toVditorSVRenderer r1.Writer = _
        rw [hr2, e2, e0]
        rfl
      obtain ⟨n1, n2, n3, n4⟩ := shared_Newline_cases r2 hw2
      rw [hW2] at n4
      have hw3 : (Shared.Newline r2).toVditorSVRenderer.Writer <
          (Shared.Newline r2).toVditorSVRenderer.buffers.length := by
        show (Shared.Newline r2).Writer < (Shared.Newline r2).buffers.length
        rw [n1, n2]; exact hw2
      have e4 := bufBytes_WriteString (Shared.Newline r2).toVditorSVRenderer (bytesOf "</span>")
        hw3
      rw [← toV_WriteString] at e4
      have a4 := appends_WriteString (Shared.Newline r2).toVditorSVRenderer (bytesOf "</span>")
      rw [← toV_WriteString] at a4
      have hW4 : (Shared.WriteString (Shared.Newline r2) (bytesOf "</span>")).Writer =
          r1.Writer := by
        have := a4.writer
        exact this.trans (n1.trans hW2)
      have hrun : Shared.Render env base visited r =
          some (Shared.WriteString (Shared.Newline r2) (bytesOf "</span>"),
            Shared.bufBytes (Shared.WriteString (Shared.Newline r2) (bytesOf "</span>"))
              r1.Writer) := by
        simp only [Shared.Render, hbase, Option.bind_eq_bind, Option.some_bind, if_neg hcond, hf,
          Option.pure_def]
        rw [hW4]
      have e4' : Shared.bufBytes (Shared.WriteString (Shared.Newline r2) (bytesOf "</span>"))
          r1.Writer = Shared.bufBytes (Shared.Newline r2) r1.Writer ++ bytesOf "</span>" := by
        have h5 : (Shared.Newline r2).toVditorSVRenderer.Writer = r1.Writer := n1.trans hW2
        rw [h5] at e4
        exact e4
      rcases n4 with n4 | ⟨n4, n5⟩
      · refine ⟨Shared.WriteString (Shared.Newline r2) (bytesOf "</span>"), [],
          hrun.trans ?_, Or.inl rfl⟩
        rw [e4', n4, hB2, hdoc]
        simp [closeSpan]
      · refine ⟨Shared.WriteString (Shared.Newline r2) (bytesOf "</span>"), r2.NewlineSV,
          hrun.trans ?_, Or.inr ?_⟩
        · rw [e4', n4, hB2, hdoc]
          rfl
        · rw [sentinel_WriteString_full _ _ (by decide) (n5.trans n3.symm), n3]

theorem returnsWriter_shared_idleBase : Shared.ReturnsWriter Shared.idleBase := by
  intro r r1 output h
  unfold Shared.idleBase at h
  split at h
  · rename_i hw
    have h' := Option.some.inj h
    have e1 : r = r1 := (Prod.mk.inj h').1
    have e2 : Shared.bufBytes r r.Writer = output := (Prod.mk.inj h').2
    subst e1
    exact ⟨e2.symm, hw⟩
  · cases h

/-- C17 (witness): one definition `[foo]: /url` after an empty document, on a fresh
renderer. -/
theorem Render_block_witness :
    ([linkRefDef (bytesOf "foo") (bytesOf "/url")] = [] ∨
        Shared.initialRenderer.needRenderFootnotesDef = true →
      Shared.Render plainEnv Shared.idleBase [linkRefDef (bytesOf "foo") (bytesOf "/url")]
          Shared.initialRenderer =
        some (Shared.initialRenderer, [])) ∧
    ([linkRefDef (bytesOf "foo") (bytesOf "/url")] ≠ [] →
      Shared.initialRenderer.needRenderFootnotesDef = false →
      (∀ d ∈ [linkRefDef (bytesOf "foo") (bytesOf "/url")],
        hasChild d.children .NodeLinkDest = true) →
      ∃ (r' : Shared.Renderer) (sep : Bytes),
        Shared.Render plainEnv Shared.idleBase [linkRefDef (bytesOf "foo") (bytesOf "/url")]
            Shared.initialRenderer =
          some (r',
            [] ++ bytesOf "<span data-block=\"0\" data-type=\"link-ref-defs-block\">" ++
              ([linkRefDef (bytesOf "foo") (bytesOf "/url")].map
                (linkRefDefLine plainEnv.Caret)).flatten ++ sep ++ closeSpan) ∧
        (sep = [] ∨ sep = r'.NewlineSV)) :=
  Render_block plainEnv Shared.idleBase [linkRefDef (bytesOf "foo") (bytesOf "/url")]
    Shared.initialRenderer Shared.initialRenderer [] returnsWriter_shared_idleBase rfl

set_option maxRecDepth 100000 in
/-- C17 (counterexample): a table that holds the definitions `[foo]: /url` and
`[bar]: /b`, in that order. In a run in which the `range` over the map visits `bar`
before `foo`, `Render` returns the block with the line of `bar` first: the output does
not begin with the opening span followed by the lines in the order of the table. -/
theorem Render_not_in_table_order :
    [linkRefDef (bytesOf "bar") (bytesOf "/b"), linkRefDef (bytesOf "foo") (bytesOf "/url")].Perm
      [linkRefDef (bytesOf "foo") (bytesOf "/url"), linkRefDef (bytesOf "bar") (bytesOf "/b")] ∧
    ∃ (r' : Shared.Renderer) (out : Bytes),
      Shared.Render plainEnv Shared.idleBase
          [linkRefDef (bytesOf "bar") (bytesOf "/b"), linkRefDef (bytesOf "foo") (bytesOf "/url")]
          Shared.initialRenderer = some (r', out) ∧
      out = bytesOf "<span data-block=\"0\" data-type=\"link-ref-defs-block\">" ++
        bytesOf "[bar]: /b\n[foo]: /url\n" ++ NewlineSV ++ closeSpan ∧
      ¬ (bytesOf "<span data-block=\"0\" data-type=\"link-ref-defs-block\">" ++
          ([linkRefDef (bytesOf "foo") (bytesOf "/url"),
            linkRefDef (bytesOf "bar") (bytesOf "/b")].map
              (linkRefDefLine plainEnv.Caret)).flatten) <+: out :=
  ⟨List.Perm.swap _ _ _, _, _, rfl, by decide, by decide⟩

end Lute
